import Mathlib

/-! HeyManNiceShot: audio scheduling and shot-detection timing engine.

Shallow embedding of `audio_utils.cpp`, `timer_modes.cpp`, `system_utils.cpp`
and the constants of `config.h`.

Conventions of the embedding.

* The firmware targets the ESP32 (M5StickC Plus2): `unsigned long`, `unsigned int`
  and `int` are 32 bits wide.  Unsigned values are natural numbers and every
  unsigned operation of the source is written with an explicit reduction
  modulo `2^32` (`uadd`, `usub`, `uaddInt`, `uintOfInt`).
* A `float` value is the rational it denotes.  The `float` arithmetic of the
  firmware (split and elapsed seconds, par times and their conversion to
  milliseconds, the steps of the settings editor, the sample clock and the
  frequency of the synthesizer) is rounded to binary32 by `toFloat32`.
  Sensor readings (microphone RMS, acceleration) enter as values and are only
  compared.
* The globals of `globals.h` are the fields of `Globals`; every handler is a
  function from the values it reads from the hardware on that call (clock,
  Bluetooth connectivity, microphone, accelerometer, button) and the globals
  to the new globals.
* Calls into the display, the microphone library and the IMU are recorded, in
  order, in the field `effects`.
-/

namespace HeyManNiceShot

/-! ## Machine integers -/

/-- Number of values of a 32-bit unsigned integer. -/
def ULONG_MOD : Nat := 4294967296

/-- Conversion of a signed value to `unsigned long` / `unsigned int`. -/
def uintOfInt (i : Int) : Nat := (i % 4294967296).toNat

/-- Conversion of an `unsigned long` to `int` (two's complement). -/
def intOfUInt (n : Nat) : Int :=
  if n % 4294967296 < 2147483648 then ((n % 4294967296 : Nat) : Int)
  else ((n % 4294967296 : Nat) : Int) - 4294967296

/-- Unsigned addition. -/
def uadd (a b : Nat) : Nat := (a + b) % 4294967296

/-- Unsigned subtraction. -/
def usub (a b : Nat) : Nat := uintOfInt ((a : Int) - (b : Int))

/-- Sum of an `unsigned long` and an `int`: the `int` is converted first. -/
def uaddInt (a : Nat) (i : Int) : Nat := uintOfInt ((a : Int) + i)

/-! ## Single-precision arithmetic

A `float` is held as the rational it denotes. A `float` operation of the source is the exact
operation followed by `toFloat32`, as IEEE 754 binary32 arithmetic in the default rounding
mode gives it. -/

/-- The power `2^e`. -/
def pow2 (e : Int) : Rat :=
  if 0 ≤ e then ((2 ^ e.toNat : Nat) : Rat) else 1 / ((2 ^ (-e).toNat : Nat) : Rat)

/-- Nearest integer, a tie going to the even one. -/
def roundHalfEven (x : Rat) : Int :=
  if x - (Rat.floor x : Rat) < 1 / 2 then Rat.floor x
  else if 1 / 2 < x - (Rat.floor x : Rat) then Rat.floor x + 1
  else if Rat.floor x % 2 = 0 then Rat.floor x
  else Rat.floor x + 1

/-- Number of halvings that bring `n` below 2 (the position of its leading bit), in at most
`fuel` steps. -/
def leadingBit : Nat → Nat → Nat
  | 0, _ => 0
  | fuel + 1, n => if n < 2 then 0 else leadingBit fuel (n / 2) + 1

/-- The exponent `e` with `2^e ≤ q < 2^(e+1)` for a positive `q`, and `-126` (the exponent
of the subnormal numbers) when that is larger. -/
def binadeExponent (q : Rat) : Int :=
  let e0 : Int :=
    (leadingBit q.num.natAbs q.num.natAbs : Int) - (leadingBit q.den q.den : Int)
  let e := if pow2 e0 ≤ q then e0 else e0 - 1
  max e (-126)

/-- The binary32 number nearest to `q`, a tie going to the even significand: 24 significant
bits, spacing `2^-149` below `2^-126`. Magnitudes of `2^128` and more, which binary32 turns
into an infinity, are not covered. -/
def toFloat32 (q : Rat) : Rat :=
  if q = 0 then 0
  else if q < 0 then
    -((roundHalfEven (-q / pow2 (binadeExponent (-q) - 23)) : Rat)
        * pow2 (binadeExponent (-q) - 23))
  else (roundHalfEven (q / pow2 (binadeExponent q - 23)) : Rat) * pow2 (binadeExponent q - 23)

/-- The expression `d / 1000.0f` for an `unsigned long` `d`: `d` is converted to `float` and
the quotient is rounded to `float`. -/
def secondsOfMillis (d : Nat) : Rat := toFloat32 (toFloat32 (d : Rat) / 1000)

/-! ## Constants of `config.h` -/

def SHOT_REFRACTORY_MS : Nat := 150
def TIMEOUT_DURATION_MS : Nat := 15000
def BEEP_NOTE_DURATION_MS : Nat := 150
def BEEP_NOTE_DELAY_MS : Nat := 50
def MAX_SHOTS_LIMIT : Nat := 20
def POST_BEEP_DELAY_MS : Nat := 750
def RECOIL_DETECTION_WINDOW_MS : Nat := 100
def DISPLAY_UPDATE_INTERVAL_MS : Nat := 100
def BT_AUDIO_OFFSET_STEP_MS : Int := 50
def BUZZER_QUEUE_LENGTH : Nat := 10

/-- The `TimerState` enumeration. -/
inductive TimerState where
  | BOOT_SCREEN | BOOT_JPG_SEQUENCE | MODE_SELECTION
  | LIVE_FIRE_READY | LIVE_FIRE_GET_READY | LIVE_FIRE_TIMING | LIVE_FIRE_STOPPED
  | DRY_FIRE_READY | DRY_FIRE_RUNNING
  | NOISY_RANGE_READY | NOISY_RANGE_GET_READY | NOISY_RANGE_TIMING
  | SETTINGS_MENU_MAIN | SETTINGS_MENU_GENERAL | SETTINGS_MENU_BEEP
  | SETTINGS_MENU_DRYFIRE | SETTINGS_MENU_NOISY | SETTINGS_MENU_BLUETOOTH
  | BLUETOOTH_SCANNING | DEVICE_STATUS | LIST_FILES | EDIT_SETTING
  | CALIBRATE_THRESHOLD | CALIBRATE_RECOIL
  deriving DecidableEq, Repr

/-- The `BuzzerRequest` struct. -/
structure BuzzerRequest where
  frequency : Int
  duration : Int
  deriving DecidableEq, Repr

/-- Calls into collaborators that are outside the core, in program order. -/
inductive Effect where
  | micUpdate
  | micGetPeakRMS
  | micResetPeak
  | imuGetAccelData
  | displayTimingScreen (elapsed : Rat) (count : Nat) (split : Rat)
  | displayStoppedScreen
  | fillScreen
  | delay (ms : Nat)
  deriving DecidableEq, Repr

/-- The globals of `globals.h` read or written by the timing engine. -/
structure Globals where
  currentState : TimerState
  previousState : TimerState
  redrawMenu : Bool
  startTime : Nat
  lastDisplayUpdateTime : Nat
  lastActivityTime : Nat
  currentMaxShots : Int
  currentBeepDuration : Nat
  currentBeepToneHz : Int
  shotThresholdRms : Int
  recoilThreshold : Rat
  currentBluetoothAudioOffsetMs : Int
  btBeepFrequency : Int
  btBeepScheduledStartTime : Nat
  btBeepDurationVolatile : Nat
  new_bt_beep_request : Bool
  current_bt_beep_is_active : Bool
  current_bt_beep_actual_end_time : Nat
  is_listening_active : Bool
  beep_audio_end_time : Nat
  shotCount : Nat
  shotTimestamps : List Nat
  splitTimes : List Rat
  lastShotTimestamp : Nat
  lastDetectionTime : Nat
  currentCyclePeakRMS : Rat
  peakRMSOverall : Rat
  lastSoundPeakTime : Nat
  checkingForRecoil : Bool
  buzzerQueue : List BuzzerRequest
  micPeakRMS : Rat
  effects : List Effect
  m_time : Rat
  deriving DecidableEq, Repr

/-- The values one handler call reads from the hardware. -/
structure Tick where
  now : Nat
  connected : Bool
  micSample : Rat
  accZ : Rat
  btnA : Bool
  deriving DecidableEq, Repr

/-! ## Collaborators -/

/-- Append one call to the record of collaborator calls. -/
def emit (e : Effect) (s : Globals) : Globals :=
  { s with effects := s.effects ++ [e] }

/-- Modelled from the spec: `M5MicPeakRMS::update` (the library is not part of the
repository). The tracker holds the maximum RMS amplitude since the last reset;
`sample` is the amplitude of the audio captured by this refresh. -/
def micUpdate (sample : Rat) (s : Globals) : Globals :=
  emit Effect.micUpdate { s with micPeakRMS := max s.micPeakRMS sample }

/-- Modelled from the spec: `M5MicPeakRMS::resetPeak`. -/
def micResetPeak (s : Globals) : Globals :=
  emit Effect.micResetPeak { s with micPeakRMS := 0 }

/-- Non-blocking `xQueueSend(buzzerQueue, &request, 0)`: a full queue drops the request. -/
def xQueueSend (r : BuzzerRequest) (s : Globals) : Globals :=
  if s.buzzerQueue.length < BUZZER_QUEUE_LENGTH then
    { s with buzzerQueue := s.buzzerQueue ++ [r] }
  else s

/-! ## `system_utils.cpp` -/

def setState (newState : TimerState) (s : Globals) : Globals :=
  if s.currentState ≠ newState then
    { s with previousState := s.currentState, currentState := newState, redrawMenu := true }
  else s

def resetActivityTimer (now : Nat) (s : Globals) : Globals :=
  { s with lastActivityTime := now }

/-! ## `audio_utils.cpp` -/

def reset_bt_beep_state (s : Globals) : Globals :=
  { s with new_bt_beep_request := false, current_bt_beep_is_active := false, btBeepFrequency := 0 }

def playTone (freq duration : Int) (now : Nat) (connected : Bool) (s : Globals) : Globals :=
  if connected then
    { s with btBeepFrequency := freq,
             btBeepDurationVolatile := uintOfInt duration,
             btBeepScheduledStartTime := uaddInt now s.currentBluetoothAudioOffsetMs,
             new_bt_beep_request := true,
             current_bt_beep_is_active := false }
  else
    xQueueSend { frequency := freq, duration := duration } s

def playFeedbackTone (freq duration : Int) (now : Nat) (connected : Bool) (s : Globals) : Globals :=
  if connected then
    { s with btBeepFrequency := freq,
             btBeepDurationVolatile := uintOfInt duration,
             btBeepScheduledStartTime := now,
             new_bt_beep_request := true,
             current_bt_beep_is_active := false }
  else
    xQueueSend { frequency := freq, duration := duration } s

def playSyncCalibrationTone (freq duration offsetMs : Int) (now : Nat) (connected : Bool)
    (s : Globals) : Globals :=
  let s1 := reset_bt_beep_state s
  let s2 := xQueueSend { frequency := freq, duration := duration } s1
  if connected then
    { s2 with btBeepFrequency := freq,
              btBeepDurationVolatile := uintOfInt duration,
              btBeepScheduledStartTime := uaddInt now offsetMs,
              new_bt_beep_request := true,
              current_bt_beep_is_active := false }
  else s2

/-- One iteration of the loops of `playSuccessBeeps` / `playUnsuccessBeeps`: the tone,
then `vTaskDelay`. The clock read by the next iteration is advanced by the delay. -/
def beepLoop (duration pause : Nat) (connected : Bool) : List Int → Nat → Globals → Globals
  | [], _, s => s
  | f :: fs, now, s =>
      beepLoop duration pause connected fs (uadd now (duration + pause))
        (emit (Effect.delay (duration + pause))
          (playFeedbackTone f (intOfUInt duration) now connected s))

def playSuccessBeeps (now : Nat) (connected : Bool) (s : Globals) : Globals :=
  beepLoop BEEP_NOTE_DURATION_MS BEEP_NOTE_DELAY_MS connected
    [1047, 1175, 1319, 1397, 1568] now s

/-- Here `toneDuration = (unsigned long)(BEEP_NOTE_DURATION_MS * 1.5f) = 225` and the
pause is `BEEP_NOTE_DELAY_MS * 2`. -/
def playUnsuccessBeeps (now : Nat) (connected : Bool) (s : Globals) : Globals :=
  beepLoop 225 (BEEP_NOTE_DELAY_MS * 2) connected [262, 262] now s

/-- The calls made by the buzzer worker, in program order; delays are the millisecond
arguments of `pdMS_TO_TICKS`. -/
inductive BuzzerOp where
  | tone (pin : Nat) (frequency : Int) (duration : Int)
  | noTone (pin : Nat)
  | vTaskDelay (ms : Int)
  deriving DecidableEq, Repr

def BUZZER_PIN : Nat := 25
def BUZZER_PIN_2 : Nat := 2

/-- The body of `if (xQueueReceive(...) == pdPASS)` in `buzzerTask`: what the worker does
for the request it has received. -/
def serveRequest (r : BuzzerRequest) : List BuzzerOp :=
  if 0 < r.frequency ∧ 0 < r.duration then
    [BuzzerOp.tone BUZZER_PIN r.frequency r.duration,
     BuzzerOp.tone BUZZER_PIN_2 r.frequency r.duration,
     BuzzerOp.vTaskDelay (r.duration + 5),
     BuzzerOp.noTone BUZZER_PIN,
     BuzzerOp.noTone BUZZER_PIN_2]
  else if 0 < r.duration then [BuzzerOp.vTaskDelay r.duration]
  else []

/-- One iteration of the `for (;;)` loop of `buzzerTask` once a request has been received:
the request is served, then the unconditional `vTaskDelay(pdMS_TO_TICKS(1))` of the loop. -/
def buzzerIteration (r : BuzzerRequest) : List BuzzerOp :=
  serveRequest r ++ [BuzzerOp.vTaskDelay 1]

/-- One iteration of `buzzerTask` on the shared queue: `xQueueReceive` takes the request at
the head; on an empty queue it blocks (`none`). -/
def buzzerTask (s : Globals) : Option (Globals × List BuzzerOp) :=
  match s.buzzerQueue with
  | [] => none
  | r :: rest => some ({ s with buzzerQueue := rest }, buzzerIteration r)

/-- The worker run until the queue is empty: the calls it makes, in order. -/
def buzzerTaskDrain : Nat → Globals → Globals × List BuzzerOp
  | 0, s => (s, [])
  | n + 1, s =>
      match buzzerTask s with
      | none => (s, [])
      | some (s1, ops) => ((buzzerTaskDrain n s1).1, ops ++ (buzzerTaskDrain n s1).2)

/-! ## `bluetooth_utils.cpp` -/

/-- An `int16_t` sample of the output, held as the values it is computed from: the sample is
`(int16_t)(m_amplitude * sin(pi_2 * current_freq * m_time + m_phase))` with `m_phase = 0`.
The sine is not evaluated. -/
structure Sample where
  m_amplitude : Rat
  current_freq : Rat
  m_time : Rat
  deriving DecidableEq, Repr

/-- The `Frame` struct: one sample per channel. -/
structure Frame where
  channel1 : Sample
  channel2 : Sample
  deriving DecidableEq, Repr

/-- What a call of `get_data_frames` puts out: the locals `current_freq` and `m_amplitude`
of the call, the returned count, and the frames written to the buffer. -/
structure FrameParams where
  current_freq : Rat
  m_amplitude : Rat
  frame_count : Int
  frames : List Frame
  deriving DecidableEq, Repr

/-- One pass of the sample loop on the accumulator: `m_time += m_deltaTime;
if (m_time >= 1.0f) m_time -= 1.0f;` with `m_deltaTime = 1.0f / 44100.0f`, in `float`. -/
def stepTime (m : Rat) : Rat :=
  if 1 ≤ toFloat32 (m + toFloat32 (1 / 44100)) then
    toFloat32 (toFloat32 (m + toFloat32 (1 / 44100)) - 1)
  else toFloat32 (m + toFloat32 (1 / 44100))

/-- The accumulator after the `frame_count` passes of the sample loop. -/
def advanceTime : Nat → Rat → Rat
  | 0, m => m
  | n + 1, m => advanceTime n (stepTime m)

/-- The sample loop of `get_data_frames`: each pass computes one sample from the accumulator,
writes it to both channels of the frame and steps the accumulator. -/
def sampleLoop (current_freq m_amplitude : Rat) : Nat → Rat → List Frame
  | 0, _ => []
  | n + 1, m =>
    let audio_sample : Sample :=
      { m_amplitude := m_amplitude, current_freq := current_freq, m_time := m }
    { channel1 := audio_sample, channel2 := audio_sample }
      :: sampleLoop current_freq m_amplitude n (stepTime m)

/-- Lines 44-49 of `get_data_frames`: a pending request whose scheduled start has come
becomes the active tone. -/
def activatePending (now : Nat) (s : Globals) : Globals :=
  if s.new_bt_beep_request = true ∧ s.current_bt_beep_is_active = false
      ∧ s.btBeepScheduledStartTime ≤ now then
    { s with m_time := 0,
             current_bt_beep_is_active := true,
             new_bt_beep_request := false,
             current_bt_beep_actual_end_time := uadd now s.btBeepDurationVolatile }
  else s

/-- Lines 51-59 of `get_data_frames`: an active tone either goes on at amplitude 10000 or
ends. The second component holds `current_freq = (float)btBeepFrequency` and `m_amplitude`
when they are set here. -/
def continueTone (now : Nat) (s : Globals) : Globals × Option (Rat × Rat) :=
  if s.current_bt_beep_is_active = true then
    if now < s.current_bt_beep_actual_end_time ∧ 0 < s.btBeepFrequency then
      (s, some (toFloat32 (s.btBeepFrequency : Rat), 10000))
    else
      ({ s with current_bt_beep_is_active := false, btBeepFrequency := 0 }, none)
  else (s, none)

/-- Lines 61-69 of `get_data_frames`: with no active tone the output is the carrier at
amplitude 1 while connected and silence otherwise. The locals are unset only when the tone is
not active, so the fallback pair is never used. -/
def idleOrTone (connected : Bool) (r : Globals × Option (Rat × Rat)) : Rat × Rat :=
  if r.1.current_bt_beep_is_active = false then
    if connected then (1, 1) else (1, 0)
  else r.2.getD (0, 0)

/-- The pull callback `get_data_frames(frames, frame_count)` called at clock `now`. -/
def get_data_frames (frame_count : Int) (now : Nat) (connected : Bool) (s : Globals) :
    Globals × FrameParams :=
  let s1 := activatePending now s
  let r := continueTone now s1
  let p := idleOrTone connected r
  let s2 := { r.1 with m_time := advanceTime frame_count.toNat r.1.m_time }
  (emit (Effect.delay 1) s2,
   { current_freq := p.1, m_amplitude := p.2, frame_count := frame_count,
     frames := sampleLoop p.1 p.2 frame_count.toNat r.1.m_time })

/-- A sequence of pulls, each with its clock and connectivity: the final globals and the
parameters of every pull. -/
def runPulls (frame_count : Int) : List (Nat × Bool) → Globals → Globals × List FrameParams
  | [], s => (s, [])
  | p :: ps, s =>
      ((runPulls frame_count ps (get_data_frames frame_count p.1 p.2 s).1).1,
       (get_data_frames frame_count p.1 p.2 s).2
         :: (runPulls frame_count ps (get_data_frames frame_count p.1 p.2 s).1).2)

/-! ## `timer_modes.cpp` -/

/-- The twenty zeroed entries written by the loop of `resetShotData`. -/
def resetShotData (s : Globals) : Globals :=
  let s1 := { s with shotCount := 0, lastShotTimestamp := 0, lastDetectionTime := 0,
                     currentCyclePeakRMS := 0, peakRMSOverall := 0 }
  let s2 := micResetPeak s1
  { s2 with checkingForRecoil := false, lastSoundPeakTime := 0,
            shotTimestamps := List.replicate MAX_SHOTS_LIMIT 0,
            splitTimes := List.replicate MAX_SHOTS_LIMIT 0 }

/-- The deadline `beep_audio_end_time` computed by both GetReady handlers. -/
def computeAudioEndTime (beepInitiationTime : Nat) (connected : Bool) (s : Globals) : Nat :=
  let audioDuration := s.currentBeepDuration
  let audioStartTime :=
    if connected then uaddInt beepInitiationTime s.currentBluetoothAudioOffsetMs
    else beepInitiationTime
  uadd (uadd (max beepInitiationTime audioStartTime) audioDuration) 150

def handleLiveFireGetReady (now : Nat) (connected : Bool) (s : Globals) : Globals :=
  let s1 := resetActivityTimer now s
  let beepInitiationTime := now
  let s2 := playTone s1.currentBeepToneHz (intOfUInt s1.currentBeepDuration) now connected s1
  let s3 := { s2 with beep_audio_end_time := computeAudioEndTime beepInitiationTime connected s2,
                      is_listening_active := false,
                      startTime := uadd beepInitiationTime POST_BEEP_DELAY_MS }
  let s4 := emit (Effect.delay POST_BEEP_DELAY_MS) s3
  let s5 := resetShotData s4
  let s6 := emit Effect.fillScreen { s5 with lastDisplayUpdateTime := 0 }
  setState TimerState.LIVE_FIRE_TIMING s6

def handleNoisyRangeGetReady (now : Nat) (connected : Bool) (s : Globals) : Globals :=
  let s1 := resetActivityTimer now s
  let beepInitiationTime := now
  let s2 := playTone s1.currentBeepToneHz (intOfUInt s1.currentBeepDuration) now connected s1
  let s3 := { s2 with beep_audio_end_time := computeAudioEndTime beepInitiationTime connected s2,
                      is_listening_active := false,
                      startTime := uadd beepInitiationTime POST_BEEP_DELAY_MS }
  let s4 := emit (Effect.delay POST_BEEP_DELAY_MS) s3
  let s5 := resetShotData s4
  let s6 := emit Effect.fillScreen { s5 with lastDisplayUpdateTime := 0 }
  let s7 := setState TimerState.NOISY_RANGE_TIMING s6
  { s7 with redrawMenu := true }

/-- The expression `(startTime > 0 && currentTime > startTime) ? (currentTime - startTime) / 1000.0f : 0.0f`. -/
def elapsedSeconds (currentTime : Nat) (s : Globals) : Rat :=
  if 0 < s.startTime ∧ s.startTime < currentTime then
    secondsOfMillis (usub currentTime s.startTime)
  else 0

/-- The expression `(shotCount > 0) ? splitTimes[shotCount - 1] : 0.0f`. -/
def lastSplit (s : Globals) : Rat :=
  if 0 < s.shotCount then s.splitTimes.getD (s.shotCount - 1) 0 else 0

/-- The throttled call of `displayTimingScreen` found in both timing handlers. -/
def refreshDisplay (currentTime : Nat) (s : Globals) : Globals :=
  if s.redrawMenu = true ∨ DISPLAY_UPDATE_INTERVAL_MS ≤ usub currentTime s.lastDisplayUpdateTime then
    let s1 := emit (Effect.displayTimingScreen (elapsedSeconds currentTime s) s.shotCount (lastSplit s)) s
    { s1 with lastDisplayUpdateTime := currentTime, redrawMenu := false }
  else s

/-- The body shared by the three stop branches of each timing handler (both handlers
pass `LIVE_FIRE_STOPPED`). -/
def stopSession (t : Tick) (s : Globals) : Globals :=
  let s1 := setState TimerState.LIVE_FIRE_STOPPED { s with is_listening_active := false }
  let s2 := emit Effect.displayStoppedScreen (emit Effect.fillScreen s1)
  if 0 < s2.shotCount then playSuccessBeeps t.now t.connected s2
  else playUnsuccessBeeps t.now t.connected s2

/-- The split stored for a shot (lines 123-128 and 389-394). -/
def currentSplit (shotTimeMillis : Nat) (s : Globals) : Rat :=
  if s.shotCount = 0 then secondsOfMillis (usub shotTimeMillis s.startTime)
  else if 0 < s.lastShotTimestamp then secondsOfMillis (usub shotTimeMillis s.lastShotTimestamp)
  else 0

/-- Shot emission, textually the same in both handlers (lines 118-134 and 385-399). -/
def recordShot (shotTimeMillis currentTime : Nat) (s : Globals) : Globals :=
  let elapsed := elapsedSeconds currentTime s
  let split := currentSplit shotTimeMillis s
  let s1 := resetActivityTimer currentTime s
  let s2 := { s1 with lastDetectionTime := shotTimeMillis,
                      shotTimestamps := s1.shotTimestamps.set s1.shotCount shotTimeMillis,
                      lastShotTimestamp := shotTimeMillis,
                      splitTimes := s1.splitTimes.set s1.shotCount split,
                      shotCount := s1.shotCount + 1 }
  let s3 := emit (Effect.displayTimingScreen elapsed s2.shotCount split) s2
  { s3 with lastDisplayUpdateTime := currentTime }

/-- Reading the microphone: `update()` then `currentCyclePeakRMS = getPeakRMS()`. -/
def readMic (t : Tick) (s : Globals) : Globals :=
  let s1 := micUpdate t.micSample s
  emit Effect.micGetPeakRMS { s1 with currentCyclePeakRMS := s1.micPeakRMS }

/-- The condition of the detection test common to both policies. -/
def detectCond (currentTime : Nat) (s : Globals) : Prop :=
  (s.shotThresholdRms : Rat) < s.currentCyclePeakRMS ∧
  SHOT_REFRACTORY_MS < usub currentTime s.lastDetectionTime ∧
  (s.shotCount : Int) < s.currentMaxShots ∧
  0 < s.startTime

instance (currentTime : Nat) (s : Globals) : Decidable (detectCond currentTime s) := by
  unfold detectCond; infer_instance

/-- Lines 112-148 of `handleLiveFireTiming`. -/
def liveFireDetect (t : Tick) (s : Globals) : Globals :=
  if detectCond t.now s then
    let s1 := recordShot t.now t.now s
    if s1.currentMaxShots ≤ (s1.shotCount : Int) then stopSession t s1 else s1
  else if s.is_listening_active = true then micResetPeak s
  else s

/-- The manual stop of `handleLiveFireTiming` (lines 151-159). -/
def liveFireManualStop (t : Tick) (s : Globals) : Globals :=
  if s.currentState = TimerState.LIVE_FIRE_TIMING ∧ t.btnA = true then
    stopSession t (resetActivityTimer t.now s)
  else s

/-- The value `timeSinceEvent` of the timeout test. -/
def timeSinceEvent (currentTime : Nat) (s : Globals) : Nat :=
  if s.shotCount = 0 then usub currentTime s.startTime else usub currentTime s.lastShotTimestamp

/-- The timeout stop of `handleLiveFireTiming` (lines 161-172). -/
def liveFireTimeoutStop (t : Tick) (s : Globals) : Globals :=
  if s.currentState = TimerState.LIVE_FIRE_TIMING then
    if 0 < s.startTime ∧ TIMEOUT_DURATION_MS < timeSinceEvent t.now s then stopSession t s
    else s
  else s

/-- Lines 98-110 of `handleLiveFireTiming`: microphone read, overall peak, display. -/
def liveFireSample (t : Tick) (s : Globals) : Globals :=
  let s1 := readMic t s
  let s2 := if s1.peakRMSOverall < s1.currentCyclePeakRMS then
              { s1 with peakRMSOverall := s1.currentCyclePeakRMS } else s1
  refreshDisplay t.now s2

/-- The part of `handleLiveFireTiming` below the comment "Listening is Active". -/
def liveFireListening (t : Tick) (s : Globals) : Globals :=
  let s3 := liveFireSample t s
  let s4 := liveFireDetect t s3
  let s5 := liveFireManualStop t s4
  liveFireTimeoutStop t s5

def handleLiveFireTiming (t : Tick) (s : Globals) : Globals :=
  if s.currentState ≠ TimerState.LIVE_FIRE_TIMING then s
  else if s.is_listening_active = false then
    if s.beep_audio_end_time ≤ t.now ∧ s.startTime ≤ t.now then
      liveFireListening t (micResetPeak { s with is_listening_active := true })
    else refreshDisplay t.now s
  else liveFireListening t s

/-- Lines 380-421 of `handleNoisyRangeTiming`, with the flag telling the caller that the
handler returned from inside (line 411). -/
def noisyRecoilCheck (t : Tick) (s : Globals) : Globals × Bool :=
  if s.checkingForRecoil = true then
    let s1 := emit Effect.imuGetAccelData s
    let currentRecoil := |t.accZ|
    if s1.recoilThreshold < currentRecoil then
      let s2 := recordShot s1.lastSoundPeakTime t.now s1
      let s3 := micResetPeak { s2 with checkingForRecoil := false, lastSoundPeakTime := 0 }
      if s3.currentMaxShots ≤ (s3.shotCount : Int) then (stopSession t s3, true)
      else (s3, false)
    else if RECOIL_DETECTION_WINDOW_MS < usub t.now s1.lastSoundPeakTime then
      (micResetPeak { s1 with checkingForRecoil := false, lastSoundPeakTime := 0 }, false)
    else (s1, false)
  else if s.is_listening_active = true then (micResetPeak s, false)
  else (s, false)

/-- Lines 369-378 of `handleNoisyRangeTiming`: opening the recoil window. -/
def noisyOpenWindow (t : Tick) (s : Globals) : Globals :=
  if s.checkingForRecoil = false ∧ detectCond t.now s then
    { s with lastSoundPeakTime := t.now, checkingForRecoil := true }
  else s

/-- The manual stop and the timeout stop of `handleNoisyRangeTiming` (lines 423-445). -/
def noisyStops (t : Tick) (s : Globals) : Globals :=
  if s.currentState = TimerState.NOISY_RANGE_TIMING ∧ t.btnA = true then
    stopSession t (resetActivityTimer t.now s)
  else if s.currentState = TimerState.NOISY_RANGE_TIMING then
    if 0 < s.startTime ∧ TIMEOUT_DURATION_MS < timeSinceEvent t.now s then stopSession t s
    else s
  else s

/-- Lines 358-378 of `handleNoisyRangeTiming`: display, microphone read, window opening. -/
def noisySample (t : Tick) (s : Globals) : Globals :=
  let s1 := refreshDisplay t.now s
  let s2 := readMic t s1
  noisyOpenWindow t s2

/-- The part of `handleNoisyRangeTiming` below the comment "Listening is Active". -/
def noisyListening (t : Tick) (s : Globals) : Globals :=
  let s3 := noisySample t s
  let r := noisyRecoilCheck t s3
  if r.2 = true then r.1 else noisyStops t r.1

def handleNoisyRangeTiming (t : Tick) (s : Globals) : Globals :=
  if s.currentState ≠ TimerState.NOISY_RANGE_TIMING then s
  else if s.is_listening_active = false then
    if s.beep_audio_end_time ≤ t.now ∧ s.startTime ≤ t.now then
      noisyListening t (micResetPeak { s with is_listening_active := true })
    else refreshDisplay t.now s
  else noisyListening t s

/-! ## Concrete configurations used in the scenarios -/

/-- Power-on globals with the defaults of `loadSettings` (max shots 10, beep 150 ms at
2000 Hz, threshold 15311, recoil threshold 1.5), Bluetooth offset 0, empty buzzer queue. -/
def defaultGlobals : Globals :=
  { currentState := TimerState.LIVE_FIRE_GET_READY,
    previousState := TimerState.LIVE_FIRE_READY,
    redrawMenu := false, startTime := 0, lastDisplayUpdateTime := 0, lastActivityTime := 0,
    currentMaxShots := 10, currentBeepDuration := 150, currentBeepToneHz := 2000,
    shotThresholdRms := 15311, recoilThreshold := 3 / 2, currentBluetoothAudioOffsetMs := 0,
    btBeepFrequency := 0, btBeepScheduledStartTime := 0, btBeepDurationVolatile := 0,
    new_bt_beep_request := false, current_bt_beep_is_active := false,
    current_bt_beep_actual_end_time := 0, is_listening_active := false,
    beep_audio_end_time := 0, shotCount := 0,
    shotTimestamps := List.replicate MAX_SHOTS_LIMIT 0,
    splitTimes := List.replicate MAX_SHOTS_LIMIT 0,
    lastShotTimestamp := 0, lastDetectionTime := 0, currentCyclePeakRMS := 0,
    peakRMSOverall := 0, lastSoundPeakTime := 0, checkingForRecoil := false,
    buzzerQueue := [], micPeakRMS := 0, effects := [], m_time := 0 }

/-- A tick with the given clock and microphone amplitude, no recoil, no button,
Bluetooth disconnected. -/
def quietTick (now : Nat) (micSample : Rat) : Tick :=
  { now := now, connected := false, micSample := micSample, accZ := 0, btnA := false }

/-! ## Sessions and the session state seen by the claims -/

/-- Clock readings of a tick sequence: non-decreasing, each a 32-bit `millis()` value. -/
def monotoneClock (ticks : List Tick) : Prop :=
  List.Pairwise (fun a b => a.now ≤ b.now) ticks ∧ ∀ t ∈ ticks, t.now < ULONG_MOD

/-- The calls of a record that read a sensor: microphone refresh, microphone peak read,
accelerometer read. -/
def isSensorRead : Effect → Bool
  | Effect.micUpdate => true
  | Effect.micGetPeakRMS => true
  | Effect.imuGetAccelData => true
  | _ => false

/-- The sensor reads made so far. -/
def sensorReads (s : Globals) : List Effect := s.effects.filter isSensorRead

/-- The globals that hold the session: state, start time, deadline, listening flag, shot
record and recoil window. -/
structure Core where
  currentState : TimerState
  startTime : Nat
  beep_audio_end_time : Nat
  currentMaxShots : Int
  is_listening_active : Bool
  shotCount : Nat
  shotTimestamps : List Nat
  splitTimes : List Rat
  lastShotTimestamp : Nat
  lastDetectionTime : Nat
  lastSoundPeakTime : Nat
  checkingForRecoil : Bool

/-- Projection of the globals on the session fields. -/
def core (s : Globals) : Core :=
  { currentState := s.currentState,
    startTime := s.startTime, beep_audio_end_time := s.beep_audio_end_time,
    currentMaxShots := s.currentMaxShots, is_listening_active := s.is_listening_active,
    shotCount := s.shotCount, shotTimestamps := s.shotTimestamps, splitTimes := s.splitTimes,
    lastShotTimestamp := s.lastShotTimestamp, lastDetectionTime := s.lastDetectionTime,
    lastSoundPeakTime := s.lastSoundPeakTime, checkingForRecoil := s.checkingForRecoil }

/-- The split of `currentSplit`, on the session fields. -/
def Core.split (shotTimeMillis : Nat) (c : Core) : Rat :=
  if c.shotCount = 0 then secondsOfMillis (usub shotTimeMillis c.startTime)
  else if 0 < c.lastShotTimestamp then secondsOfMillis (usub shotTimeMillis c.lastShotTimestamp)
  else 0

/-- Effect of `recordShot` on the session fields. -/
def Core.record (shotTimeMillis : Nat) (c : Core) : Core :=
  { c with lastDetectionTime := shotTimeMillis,
           shotTimestamps := c.shotTimestamps.set c.shotCount shotTimeMillis,
           lastShotTimestamp := shotTimeMillis,
           splitTimes := c.splitTimes.set c.shotCount (c.split shotTimeMillis),
           shotCount := c.shotCount + 1 }

/-- The refractory, capacity and started tests of the detection condition. -/
def Core.mayDetect (now : Nat) (c : Core) : Prop :=
  SHOT_REFRACTORY_MS < usub now c.lastDetectionTime ∧
  (c.shotCount : Int) < c.currentMaxShots ∧ 0 < c.startTime

/-- Barrier stage of a tick: listening was active, or becomes active because
`now ≥ beep_audio_end_time ∧ now ≥ startTime`. -/
def Activated (now : Nat) (c c1 : Core) : Prop :=
  (c.is_listening_active = true ∧ c1 = c) ∨
  (c.is_listening_active = false ∧ c.beep_audio_end_time ≤ now ∧ c.startTime ≤ now ∧
    c1 = { c with is_listening_active := true })

/-- Stop stage of a tick: nothing, or the listening flag is cleared and the state becomes
`LIVE_FIRE_STOPPED`. -/
def Stopped (c c1 : Core) : Prop :=
  c1 = c ∨ c1 = { c with is_listening_active := false,
                         currentState := TimerState.LIVE_FIRE_STOPPED }

/-- Detection stage of a Live Fire tick: nothing, or a shot recorded at `now`. -/
def Detected (now : Nat) (c c1 : Core) : Prop :=
  c1 = c ∨ (c.mayDetect now ∧ c1 = c.record now)

/-- Window-opening stage of a Noisy Range tick. -/
def Opened (now : Nat) (c c1 : Core) : Prop :=
  c1 = c ∨ (c.checkingForRecoil = false ∧ c.mayDetect now ∧
    c1 = { c with lastSoundPeakTime := now, checkingForRecoil := true })

/-- Recoil stage of a Noisy Range tick: nothing, a shot recorded at the anchor, or the
window closed after `RECOIL_DETECTION_WINDOW_MS`. -/
def Resolved (now : Nat) (c c1 : Core) : Prop :=
  c1 = c ∨
  (c.checkingForRecoil = true ∧
    c1 = { c.record c.lastSoundPeakTime with checkingForRecoil := false, lastSoundPeakTime := 0 }) ∨
  (c.checkingForRecoil = true ∧ RECOIL_DETECTION_WINDOW_MS < usub now c.lastSoundPeakTime ∧
    c1 = { c with checkingForRecoil := false, lastSoundPeakTime := 0 })

/-- What one call of `handleLiveFireTiming` can do to the session fields. -/
def LiveFireStep (now : Nat) (c c4 : Core) : Prop :=
  c4 = c ∨ (c.currentState = TimerState.LIVE_FIRE_TIMING ∧
    ∃ c1 c2, Activated now c c1 ∧ Detected now c1 c2 ∧ Stopped c2 c4)

/-- What one call of `handleNoisyRangeTiming` can do to the session fields. -/
def NoisyRangeStep (now : Nat) (c c4 : Core) : Prop :=
  c4 = c ∨ (c.currentState = TimerState.NOISY_RANGE_TIMING ∧
    ∃ c1 c2 c3, Activated now c c1 ∧ Opened now c1 c2 ∧ Resolved now c2 c3 ∧ Stopped c3 c4)

/-- Invariant of a session whose last tick was at `lo`: array sizes, capacity, barrier,
ordering and spacing of the recorded timestamps, the splits, and the open recoil window. -/
structure SessionInv (c : Core) (lo : Nat) : Prop where
  lo_lt : lo < ULONG_MOD
  len_ts : c.shotTimestamps.length = MAX_SHOTS_LIMIT
  len_sp : c.splitTimes.length = MAX_SHOTS_LIMIT
  max_le : c.currentMaxShots ≤ (MAX_SHOTS_LIMIT : Int)
  count_le : (c.shotCount : Int) ≤ max c.currentMaxShots 0
  listening : c.is_listening_active = true → c.beep_audio_end_time ≤ lo ∧ c.startTime ≤ lo
  det_le : c.lastDetectionTime ≤ lo
  last : 0 < c.shotCount →
    c.lastShotTimestamp = c.shotTimestamps.getD (c.shotCount - 1) 0 ∧
    c.lastDetectionTime = c.lastShotTimestamp ∧ 0 < c.lastShotTimestamp ∧ 0 < c.startTime
  first : 0 < c.shotCount → c.startTime ≤ c.shotTimestamps.getD 0 0
  spaced : ∀ i, i + 1 < c.shotCount →
    c.shotTimestamps.getD i 0 + SHOT_REFRACTORY_MS < c.shotTimestamps.getD (i + 1) 0
  split0 : 0 < c.shotCount →
    c.splitTimes.getD 0 0 = secondsOfMillis (c.shotTimestamps.getD 0 0 - c.startTime)
  splits : ∀ i, 0 < i → i < c.shotCount →
    c.splitTimes.getD i 0
      = secondsOfMillis (c.shotTimestamps.getD i 0 - c.shotTimestamps.getD (i - 1) 0)
  window : c.checkingForRecoil = true →
    (c.shotCount : Int) < c.currentMaxShots ∧ 0 < c.startTime ∧
    c.startTime ≤ c.lastSoundPeakTime ∧ c.lastSoundPeakTime ≤ lo ∧
    c.lastDetectionTime + SHOT_REFRACTORY_MS < c.lastSoundPeakTime

/-- Capacity invariant: the shot count never exceeds the configured maximum, a recoil
window is open only while there is room for one more shot, and no recoil window is open
while the state is `LIVE_FIRE_TIMING`. -/
def BoundInv (c : Core) : Prop :=
  (c.shotCount : Int) ≤ c.currentMaxShots ∧
  (c.checkingForRecoil = true → (c.shotCount : Int) < c.currentMaxShots) ∧
  (c.currentState = TimerState.LIVE_FIRE_TIMING → c.checkingForRecoil = false)

/-- The two timing handlers. -/
inductive Mode where
  | liveFire
  | noisyRange
  deriving DecidableEq, Repr

/-- The Timing state of a mode. -/
def Mode.timingState : Mode → TimerState
  | Mode.liveFire => TimerState.LIVE_FIRE_TIMING
  | Mode.noisyRange => TimerState.NOISY_RANGE_TIMING

/-- One tick of the handler of the given mode. -/
def timingTick (m : Mode) (t : Tick) (s : Globals) : Globals :=
  match m with
  | Mode.liveFire => handleLiveFireTiming t s
  | Mode.noisyRange => handleNoisyRangeTiming t s

/-- The part of the timing handler of the given mode below the comment "Listening is
Active". -/
def listeningPart (m : Mode) (t : Tick) (s : Globals) : Globals :=
  match m with
  | Mode.liveFire => liveFireListening t s
  | Mode.noisyRange => noisyListening t s

/-- The GetReady handler of the given mode. -/
def getReady (m : Mode) (now : Nat) (connected : Bool) (s : Globals) : Globals :=
  match m with
  | Mode.liveFire => handleLiveFireGetReady now connected s
  | Mode.noisyRange => handleNoisyRangeGetReady now connected s

/-- A session of one mode: its timing handler called once per tick. -/
def runTiming (m : Mode) (s : Globals) (ticks : List Tick) : Globals :=
  ticks.foldl (fun acc t => timingTick m t acc) s

/-- The state of a session: GetReady entered at `issueTime`, then the timing handler of the
mode called once per tick. -/
def session (m : Mode) (issueTime : Nat) (connected : Bool) (g : Globals)
    (ticks : List Tick) : Globals :=
  runTiming m (getReady m issueTime connected g) ticks

instance (ticks : List Tick) : Decidable (monotoneClock ticks) := by
  unfold monotoneClock; infer_instance

/-- Any interleaving of calls of the two timing handlers. -/
def runMixed (s : Globals) (ticks : List (Mode × Tick)) : Globals :=
  ticks.foldl (fun acc mt => timingTick mt.1 mt.2 acc) s

/-- Scenario C: Live Fire timing with `maxShots = 3`, `startTime = 900`, threshold 1000 and
listening already active. -/
def scenarioC : Globals :=
  { defaultGlobals with currentState := TimerState.LIVE_FIRE_TIMING, currentMaxShots := 3,
                        startTime := 900, is_listening_active := true,
                        shotThresholdRms := 1000 }

/-- Ticks of Scenario C: qualifying peaks at 1000, 1200 and 1400 ms, quiet ticks between. -/
def scenarioCTicks : List Tick :=
  [quietTick 1000 2000, quietTick 1100 0, quietTick 1200 2000, quietTick 1300 0,
   quietTick 1400 2000]

/-- Two loud Live Fire ticks for a session configured for a single shot. -/
def singleShotTicks : List (Mode × Tick) :=
  [(Mode.liveFire, quietTick 1800 20000), (Mode.liveFire, quietTick 2000 20000)]

/-- Three loud ticks after a start cue at 1000 ms; the second falls inside the refractory
period of the first. -/
def loudTicks : List Tick :=
  [quietTick 1800 20000, quietTick 1900 20000, quietTick 2000 20000]

/-- Three loud ticks around the wrap of the 32-bit millisecond counter, for a start cue
issued at `2^32 - 1000`. -/
def wrapTicks : List Tick :=
  [quietTick 4294967096 20000, quietTick 0 20000, quietTick 200 20000]

/-- The microphone tracker, the last peak read and the two thresholds. -/
structure Sense where
  micPeakRMS : Rat
  currentCyclePeakRMS : Rat
  shotThresholdRms : Int
  recoilThreshold : Rat

/-- Projection of the globals on the sensor fields. -/
def sense (s : Globals) : Sense :=
  { micPeakRMS := s.micPeakRMS, currentCyclePeakRMS := s.currentCyclePeakRMS,
    shotThresholdRms := s.shotThresholdRms, recoilThreshold := s.recoilThreshold }

/-- Two session states hold the same shot record. -/
def SameShots (a b : Core) : Prop :=
  a.shotCount = b.shotCount ∧ a.shotTimestamps = b.shotTimestamps ∧
  a.splitTimes = b.splitTimes ∧ a.lastDetectionTime = b.lastDetectionTime ∧
  a.lastShotTimestamp = b.lastShotTimestamp

/-- A tick with every input given. -/
def tick (now : Nat) (micSample accZ : Rat) (btnA : Bool) : Tick :=
  { now := now, connected := false, micSample := micSample, accZ := accZ, btnA := btnA }

/-- The recoil test of `handleNoisyRangeTiming`: `abs(accZ) > recoilThreshold`. -/
def recoilAbove (t : Tick) (s : Globals) : Prop := s.recoilThreshold < |t.accZ|

instance (t : Tick) (s : Globals) : Decidable (recoilAbove t s) := by
  unfold recoilAbove; infer_instance

/-- The listening part of a tick runs: listening is on, or the barrier test passes. -/
def listensOn (t : Tick) (s : Globals) : Prop :=
  s.is_listening_active = true ∨ (s.beep_audio_end_time ≤ t.now ∧ s.startTime ≤ t.now)

instance (t : Tick) (s : Globals) : Decidable (listensOn t s) := by
  unfold listensOn; infer_instance

/-- A Noisy Range session (start cue at 1000 ms, defaults) in which a loud tick at 1800 ms
has opened the recoil window: anchor 1800, no shot yet. -/
def windowOpen : Globals :=
  session Mode.noisyRange 1000 false defaultGlobals [tick 1800 20000 0 false]

/-- A Live Fire session (start cue at 1000 ms, defaults) whose barrier has resolved on a
silent tick at 1800 ms: listening is active, no shot yet. -/
def liveListening : Globals :=
  session Mode.liveFire 1000 false defaultGlobals [tick 1800 0 0 false]

/-- A Live Fire session whose start cue is issued at `2^32 - 750` ms, so that `startTime`
wraps to 0; the barrier has resolved on a silent tick at 4294966900 ms. -/
def wrapStart : Globals :=
  session Mode.liveFire 4294966546 false defaultGlobals [tick 4294966900 0 0 false]

/-- A session of the given mode with a start tone of 1000 ms issued at 1000 ms on the buzzer:
`startTime` is 1750 and the audio deadline 2150. -/
def longBeepStart (m : Mode) : Globals :=
  session m 1000 false { defaultGlobals with currentBeepDuration := 1000 } []

/-- The start cue of the scenarios of the barrier: a tone of 1000 ms issued at 1000 ms
while Bluetooth is connected (offset 0); the audio deadline is 2150. -/
def longBeepConnected : Globals :=
  session Mode.liveFire 1000 true { defaultGlobals with currentBeepDuration := 1000 } []

/-- Projection of the globals on the tone plan and the buzzer queue. -/
def tonePlan (s : Globals) : Bool × Bool × Nat × Nat × Int × List BuzzerRequest :=
  (s.new_bt_beep_request, s.current_bt_beep_is_active, s.btBeepScheduledStartTime,
   s.btBeepDurationVolatile, s.btBeepFrequency, s.buzzerQueue)

/-- The request sent by a GetReady handler for its start tone. -/
def startToneRequest (g : Globals) : BuzzerRequest :=
  { frequency := g.currentBeepToneHz, duration := intOfUInt g.currentBeepDuration }

/-- A plan armed for a 2000 Hz tone of 150 ms, scheduled at `2^32 - 296` ms. -/
def pendingNearWrap : Globals :=
  { defaultGlobals with btBeepFrequency := 2000, btBeepDurationVolatile := 150,
                        btBeepScheduledStartTime := 4294967000, new_bt_beep_request := true }

/-- Number of calls of `displayStoppedScreen` recorded so far: one per execution of a stop
branch, each of which plays the completion feedback once. -/
def stopCalls (s : Globals) : Nat := s.effects.count Effect.displayStoppedScreen

/-! ## Settings, editing and dry-fire variables (`globals.h`, `config.h`) -/

def MAX_PAR_BEEPS : Nat := 10
def DRY_FIRE_RANDOM_DELAY_MIN_MS : Nat := 2000
def DRY_FIRE_RANDOM_DELAY_MAX_MS : Nat := 5000
def MENU_ITEMS_PER_SCREEN_LANDSCAPE : Int := 3
def MENU_ITEMS_PER_SCREEN_PORTRAIT : Int := 5

/-- The value `(int)MODE_DRY_FIRE` of the `OperatingMode` enumeration. -/
def MODE_DRY_FIRE : Int := 1

/-- The `EditableSetting` enumeration. -/
inductive EditableSetting where
  | EDIT_NONE | EDIT_MAX_SHOTS | EDIT_BEEP_DURATION | EDIT_BEEP_TONE | EDIT_SHOT_THRESHOLD
  | EDIT_PAR_BEEP_COUNT | EDIT_PAR_TIME_ARRAY | EDIT_RECOIL_THRESHOLD | EDIT_ROTATION
  | EDIT_BOOT_ANIM | EDIT_AUTO_SLEEP | EDIT_BT_AUTO_RECONNECT | EDIT_BT_VOLUME
  | EDIT_BT_AUDIO_OFFSET
  deriving DecidableEq, Repr

/-- Calls made by the settings and dry-fire handlers, in program order; `playTone` is
recorded with the clock of the call. -/
inductive DeviceCall where
  | displayDryFireReadyScreen
  | displayDryFireRunningScreen (waiting : Bool) (beepNum totalBeeps : Int)
  | displayEditScreen
  | setRotation (rotation : Int)
  | set_volume (volume : Int)
  | randomSeed
  | playTone (freq : Int) (duration : Nat) (now : Nat)
  deriving DecidableEq, Repr

/-- The globals of the timing engine together with the settings, editing, menu and dry-fire
variables of `globals.h`. -/
structure Device where
  g : Globals
  dryFireParBeepCount : Int
  dryFireParTimesSec : List Rat
  screenRotationSetting : Int
  playBootAnimation : Bool
  enableAutoSleep : Bool
  currentBluetoothAutoReconnect : Bool
  currentBluetoothVolume : Int
  stateBeforeEdit : TimerState
  settingBeingEdited : EditableSetting
  editingIntValue : Int
  editingULongValue : Nat
  editingFloatValue : Rat
  editingBoolValue : Bool
  currentMenuSelection : Int
  menuScrollOffset : Int
  randomDelayStartMs : Nat
  parTimerStartTime : Nat
  beepSequenceStartTime : Nat
  beepsPlayed : Int
  nextBeepTime : Nat
  lastBeepTime : Nat
  calls : List DeviceCall
  deriving DecidableEq, Repr

/-- What one call of a settings or dry-fire handler reads from the hardware: the clock, the
connection flag, `Lcd.getRotation()`, the button events, and the value returned by
`random(DRY_FIRE_RANDOM_DELAY_MIN_MS, DRY_FIRE_RANDOM_DELAY_MAX_MS + 1)`. -/
structure Input where
  now : Nat
  connected : Bool
  rotation : Int
  btnAClicked : Bool
  btnAPressedFor : Bool
  btnBClicked : Bool
  btnPWRClicked : Bool
  random : Nat
  deriving DecidableEq, Repr

/-- The values returned by the `preferences.get…` calls of `loadSettings` (the stored value,
or the default when the key is absent). -/
structure Stored where
  maxShots : Int
  beepDur : Nat
  beepHz : Int
  shotThresh : Int
  dfBeepCnt : Int
  dfParT : Nat → Rat
  nrRecoil : Rat
  rotation : Int
  bootAnim : Bool
  autoSleep : Bool
  btAutoReconnect : Bool
  btVolume : Int

/-- Record one call. -/
def Device.call (c : DeviceCall) (d : Device) : Device :=
  { d with calls := d.calls ++ [c] }

/-! ## `nvs_utils.cpp` -/

def loadSettings (p : Stored) (d : Device) : Device :=
  let maxShots :=
    if (MAX_SHOTS_LIMIT : Int) < p.maxShots then (MAX_SHOTS_LIMIT : Int)
    else if p.maxShots ≤ 0 then 1 else p.maxShots
  let cnt1 := if p.dfBeepCnt < 1 then 1 else p.dfBeepCnt
  let cnt2 := if (MAX_PAR_BEEPS : Int) < cnt1 then (MAX_PAR_BEEPS : Int) else cnt1
  { d with g := { d.g with currentMaxShots := maxShots,
                           currentBeepDuration := p.beepDur,
                           currentBeepToneHz := p.beepHz,
                           shotThresholdRms := p.shotThresh,
                           recoilThreshold := p.nrRecoil },
           dryFireParBeepCount := cnt2,
           dryFireParTimesSec := (List.range MAX_PAR_BEEPS).map p.dfParT,
           screenRotationSetting := if p.rotation < 0 ∨ 3 < p.rotation then 3 else p.rotation,
           playBootAnimation := p.bootAnim,
           enableAutoSleep := p.autoSleep,
           currentBluetoothAutoReconnect := p.btAutoReconnect,
           currentBluetoothVolume := p.btVolume }

/-! ## `input_handler.cpp` -/

/-- The branch "Max Shots" of the general settings menu (`handleSettingsInput`, level 1):
the edit of `currentMaxShots` begins. -/
def selectMaxShots (d : Device) : Device :=
  let d1 := { d with stateBeforeEdit := TimerState.SETTINGS_MENU_GENERAL,
                     settingBeingEdited := EditableSetting.EDIT_MAX_SHOTS,
                     editingIntValue := d.g.currentMaxShots }
  { d1 with g := emit Effect.fillScreen (setState TimerState.EDIT_SETTING d1.g) }

/-- The `switch` of the up/down step of `handleEditSettingInput`. The `float` steps
`editingFloatValue + (increment * 0.1f)` are rounded to binary32, the bounds `0.1f`, `0.5f`,
`5.0f` and `10.0f` are `float` constants; `(unsigned long)(increment * 50)` is the 32-bit
conversion. -/
def editStep (t : Input) (increment : Int) (d : Device) : Device × Bool :=
  match d.settingBeingEdited with
  | EditableSetting.EDIT_MAX_SHOTS =>
      ({ d with editingIntValue := min (max (d.editingIntValue + increment) 1) MAX_SHOTS_LIMIT },
       true)
  | EditableSetting.EDIT_BEEP_DURATION =>
      ({ d with editingULongValue :=
                  min (max (uadd d.editingULongValue (uintOfInt (increment * 50))) 50) 2000 },
       true)
  | EditableSetting.EDIT_BEEP_TONE =>
      ({ d with editingIntValue := min (max (d.editingIntValue + increment * 100) 500) 8000 },
       true)
  | EditableSetting.EDIT_SHOT_THRESHOLD =>
      ({ d with editingIntValue := min (max (d.editingIntValue + increment * 500) 100) 32000 },
       true)
  | EditableSetting.EDIT_PAR_BEEP_COUNT =>
      ({ d with editingIntValue := min (max (d.editingIntValue + increment) 1) MAX_PAR_BEEPS },
       true)
  | EditableSetting.EDIT_PAR_TIME_ARRAY =>
      ({ d with editingFloatValue :=
                  min (max (toFloat32 (d.editingFloatValue
                    + toFloat32 (toFloat32 (increment : Rat) * toFloat32 (1 / 10))))
                    (toFloat32 (1 / 10))) 10 },
       true)
  | EditableSetting.EDIT_RECOIL_THRESHOLD =>
      ({ d with editingFloatValue :=
                  min (max (toFloat32 (d.editingFloatValue
                    + toFloat32 (toFloat32 (increment : Rat) * toFloat32 (1 / 10))))
                    (1 / 2)) 5 },
       true)
  | EditableSetting.EDIT_ROTATION =>
      ({ d with editingIntValue := Int.tmod (d.editingIntValue + increment + 4) 4 }, true)
  | EditableSetting.EDIT_BOOT_ANIM => ({ d with editingBoolValue := !d.editingBoolValue }, true)
  | EditableSetting.EDIT_AUTO_SLEEP => ({ d with editingBoolValue := !d.editingBoolValue }, true)
  | EditableSetting.EDIT_BT_AUTO_RECONNECT =>
      ({ d with editingBoolValue := !d.editingBoolValue }, true)
  | EditableSetting.EDIT_BT_VOLUME =>
      ({ d with editingIntValue := min (max (d.editingIntValue + increment * 5) 0) 127 }, true)
  | EditableSetting.EDIT_BT_AUDIO_OFFSET =>
      let v := min (max (d.editingIntValue + increment * BT_AUDIO_OFFSET_STEP_MS) (-1000)) 500
      let d1 := { d with editingIntValue := v }
      let d2 :=
        if t.connected = true then
          { d1 with g := playSyncCalibrationTone d1.g.currentBeepToneHz BEEP_NOTE_DURATION_MS
                           d1.editingIntValue t.now t.connected d1.g }
        else { d1 with g := playFeedbackTone 2500 20 t.now t.connected d1.g }
      (d2, true)
  | EditableSetting.EDIT_NONE => (d, false)

/-- The `switch` of the commit of `handleEditSettingInput`. -/
def editCommit (d : Device) : Device :=
  match d.settingBeingEdited with
  | EditableSetting.EDIT_MAX_SHOTS =>
      { d with g := { d.g with currentMaxShots := d.editingIntValue } }
  | EditableSetting.EDIT_BEEP_DURATION =>
      { d with g := { d.g with currentBeepDuration := d.editingULongValue } }
  | EditableSetting.EDIT_BEEP_TONE =>
      { d with g := { d.g with currentBeepToneHz := d.editingIntValue } }
  | EditableSetting.EDIT_SHOT_THRESHOLD =>
      { d with g := { d.g with shotThresholdRms := d.editingIntValue } }
  | EditableSetting.EDIT_PAR_BEEP_COUNT => { d with dryFireParBeepCount := d.editingIntValue }
  | EditableSetting.EDIT_PAR_TIME_ARRAY =>
      if 0 ≤ d.editingIntValue ∧ d.editingIntValue < (MAX_PAR_BEEPS : Int) then
        { d with dryFireParTimesSec :=
                   d.dryFireParTimesSec.set d.editingIntValue.toNat d.editingFloatValue }
      else d
  | EditableSetting.EDIT_RECOIL_THRESHOLD =>
      { d with g := { d.g with recoilThreshold := d.editingFloatValue } }
  | EditableSetting.EDIT_ROTATION => { d with screenRotationSetting := d.editingIntValue }
  | EditableSetting.EDIT_BOOT_ANIM => { d with playBootAnimation := d.editingBoolValue }
  | EditableSetting.EDIT_AUTO_SLEEP => { d with enableAutoSleep := d.editingBoolValue }
  | EditableSetting.EDIT_BT_AUTO_RECONNECT =>
      { d with currentBluetoothAutoReconnect := d.editingBoolValue }
  | EditableSetting.EDIT_BT_VOLUME =>
      Device.call (DeviceCall.set_volume d.editingIntValue)
        { d with currentBluetoothVolume := d.editingIntValue }
  | EditableSetting.EDIT_BT_AUDIO_OFFSET =>
      { d with g := { d.g with currentBluetoothAudioOffsetMs := d.editingIntValue } }
  | EditableSetting.EDIT_NONE => d

/-- The up/down part of `handleEditSettingInput` (lines 347-384). -/
def editUpDown (t : Input) (d : Device) : Device × Bool :=
  let upPressed := if t.rotation = 3 then t.btnPWRClicked else t.btnBClicked
  let downPressed := if t.rotation = 3 then t.btnBClicked else t.btnPWRClicked
  if upPressed = true ∨ downPressed = true then
    let increment : Int := if upPressed = true then 1 else -1
    let r := editStep t increment d
    let d1 :=
      if r.1.settingBeingEdited = EditableSetting.EDIT_ROTATION then
        let d' := Device.call (DeviceCall.setRotation r.1.editingIntValue) r.1
        { d' with g := { d'.g with redrawMenu := true } }
      else r.1
    let d2 :=
      if r.2 = true ∧ d1.settingBeingEdited ≠ EditableSetting.EDIT_BOOT_ANIM
          ∧ d1.settingBeingEdited ≠ EditableSetting.EDIT_AUTO_SLEEP
          ∧ d1.settingBeingEdited ≠ EditableSetting.EDIT_BT_AUTO_RECONNECT
          ∧ d1.settingBeingEdited ≠ EditableSetting.EDIT_BT_AUDIO_OFFSET then
        { d1 with g := playFeedbackTone 2500 20 t.now t.connected d1.g }
      else d1
    (d2, r.2)
  else (d, false)

def handleEditSettingInput (t : Input) (d : Device) : Device :=
  let d0 := { d with g := resetActivityTimer t.now d.g }
  let r := editUpDown t d0
  let d1 := r.1
  if t.btnAPressedFor = true then
    let d2 :=
      if d1.settingBeingEdited = EditableSetting.EDIT_ROTATION then
        Device.call (DeviceCall.setRotation d1.screenRotationSetting) d1
      else d1
    let d3 := { d2 with g := emit Effect.fillScreen (setState d2.stateBeforeEdit d2.g) }
    let d4 := { d3 with settingBeingEdited := EditableSetting.EDIT_NONE }
    { d4 with g := playUnsuccessBeeps t.now t.connected d4.g }
  else if t.btnAClicked = true then
    let d2 := editCommit d1
    let d3 := { d2 with g := emit Effect.fillScreen (setState d2.stateBeforeEdit d2.g) }
    let d4 := { d3 with settingBeingEdited := EditableSetting.EDIT_NONE }
    { d4 with g := playSuccessBeeps t.now t.connected d4.g }
  else if d1.g.redrawMenu = true ∨ r.2 = true then
    let d2 := Device.call DeviceCall.displayEditScreen d1
    { d2 with g := { d2.g with redrawMenu := false } }
  else d1

/-- Invariant of the settings editor: `currentMaxShots` is within [1, `MAX_SHOTS_LIMIT`], and
so is the value being edited while the setting edited is Max Shots. -/
def EditInv (d : Device) : Prop :=
  1 ≤ d.g.currentMaxShots ∧ d.g.currentMaxShots ≤ (MAX_SHOTS_LIMIT : Int) ∧
  (d.settingBeingEdited = EditableSetting.EDIT_MAX_SHOTS →
    1 ≤ d.editingIntValue ∧ d.editingIntValue ≤ (MAX_SHOTS_LIMIT : Int))

/-- A sequence of calls of `handleEditSettingInput`. -/
def runEdit (d : Device) (inputs : List Input) : Device :=
  inputs.foldl (fun acc t => handleEditSettingInput t acc) d

/-- The globals after `loadSettings`, the selection of Max Shots in the settings menu and a
sequence of calls of `handleEditSettingInput`. -/
def editedGlobals (p : Stored) (d : Device) (inputs : List Input) : Globals :=
  (runEdit (selectMaxShots (loadSettings p d)) inputs).g

/-! ## `timer_modes.cpp`: the dry-fire par timer -/

/-- The conversion `(unsigned long)(x * 1000.0f)` of a par time in seconds: the product is
rounded to `float` and then truncated. The conversion is defined in C for a product in
`[0, 2^32)`. -/
def parTimeMs (x : Rat) : Nat := uintOfInt (Rat.floor (toFloat32 (x * 1000)))

/-- The loop `for (k = 0; k < beepsPlayed - 1; ++k) if (k < MAX_PAR_BEEPS)
cumulativeParTimeMs += (unsigned long)(dryFireParTimesSec[k] * 1000.0f)`, by the number of
its passes. -/
def cumulativeParTimeMs (times : List Rat) : Nat → Nat
  | 0 => 0
  | k + 1 =>
    if k < MAX_PAR_BEEPS then
      uadd (cumulativeParTimeMs times k) (parTimeMs (times.getD k 0))
    else cumulativeParTimeMs times k

/-- The call `playTone(currentBeepToneHz, currentBeepDuration)` of the dry-fire handler,
recorded with the clock of the handler call. -/
def dryFirePlayTone (t : Input) (d : Device) : Device :=
  Device.call (DeviceCall.playTone d.g.currentBeepToneHz d.g.currentBeepDuration t.now)
    { d with g := playTone d.g.currentBeepToneHz (intOfUInt d.g.currentBeepDuration) t.now
                    t.connected d.g }

/-- The statement `if (redrawMenu) { displayDryFireReadyScreen(); redrawMenu = false; }` of
`handleDryFireReadyInput`. -/
def dryFireReadyShow (d : Device) : Device :=
  if d.g.redrawMenu = true then
    let d2 := Device.call DeviceCall.displayDryFireReadyScreen d
    { d2 with g := { d2.g with redrawMenu := false } }
  else d

/-- Lines 194-206 of `handleDryFireReadyInput`: the click that draws the random delay and
resets the sequencer. -/
def dryFireStartClick (t : Input) (d : Device) : Device :=
  let d2 := Device.call DeviceCall.randomSeed { d with g := reset_bt_beep_state d.g }
  let d3 := { d2 with randomDelayStartMs := t.now,
                      parTimerStartTime := uadd t.now t.random,
                      beepSequenceStartTime := 0,
                      beepsPlayed := 0,
                      nextBeepTime := 0,
                      lastBeepTime := 0 }
  let g1 := setState TimerState.DRY_FIRE_RUNNING d3.g
  { d3 with g := { g1 with redrawMenu := true } }

def handleDryFireReadyInput (t : Input) (d : Device) : Device :=
  let d1 := dryFireReadyShow { d with g := resetActivityTimer t.now d.g }
  if t.btnAPressedFor = true then
    let itemsPerScreen :=
      if t.rotation % 2 = 0 then MENU_ITEMS_PER_SCREEN_PORTRAIT
      else MENU_ITEMS_PER_SCREEN_LANDSCAPE
    { d1 with g := emit Effect.fillScreen (setState TimerState.MODE_SELECTION d1.g),
              currentMenuSelection := MODE_DRY_FIRE,
              menuScrollOffset := max 0 (MODE_DRY_FIRE - itemsPerScreen + 1) }
  else if t.btnAClicked = true then dryFireStartClick t d1
  else d1

/-- The statement `if (redrawMenu) displayDryFireRunningScreen(waiting, beepNum,
dryFireParBeepCount)` of `handleDryFireRunning`; the display function draws the screen and
ends with `redrawMenu = false` (`display_utils.cpp` lines 474-497). -/
def dryFireShow (waiting : Bool) (beepNum : Int) (d : Device) : Device :=
  if d.g.redrawMenu = true then
    let d2 :=
      Device.call (DeviceCall.displayDryFireRunningScreen waiting beepNum d.dryFireParBeepCount) d
    { d2 with g := { d2.g with redrawMenu := false } }
  else d

/-- Lines 226-241 of `handleDryFireRunning`: the first tone, the sequence start and the due
time of the second tone. -/
def dryFireStartSequence (t : Input) (d : Device) : Device :=
  let d2 := dryFirePlayTone t d
  let d3 := { d2 with beepSequenceStartTime := t.now, lastBeepTime := t.now, beepsPlayed := 1 }
  let d4 :=
    if d3.beepsPlayed < d3.dryFireParBeepCount ∧ 0 < d3.dryFireParBeepCount then
      if (0 : Int) < (MAX_PAR_BEEPS : Int) ∧ (0 : Int) < d3.dryFireParBeepCount - 1 then
        let next := uadd d3.beepSequenceStartTime (parTimeMs (d3.dryFireParTimesSec.getD 0 0))
        { d3 with nextBeepTime := next }
      else { d3 with beepsPlayed := d3.dryFireParBeepCount }
    else { d3 with beepsPlayed := d3.dryFireParBeepCount }
  { d4 with g := { d4.g with redrawMenu := true } }

/-- The branch `beepSequenceStartTime == 0` of `handleDryFireRunning`: the first tone once
`currentTime >= parTimerStartTime`. -/
def dryFireFirstBeep (t : Input) (d : Device) : Device :=
  let d1 := dryFireShow true 0 d
  if d1.parTimerStartTime ≤ t.now then dryFireStartSequence t d1 else d1

/-- Lines 249-253 of `handleDryFireRunning`: the end of the sequence. -/
def dryFireFinish (d : Device) : Device :=
  let g1 := setState TimerState.DRY_FIRE_READY (reset_bt_beep_state d.g)
  let g2 := emit (Effect.delay 500) g1
  { d with g := { g2 with redrawMenu := true } }

/-- Lines 255-275 of `handleDryFireRunning`: the next tone, the cursor and the due time of
the tone after it. -/
def dryFireAdvance (t : Input) (d : Device) : Device :=
  let d2 := dryFirePlayTone t d
  let d3 := { d2 with lastBeepTime := t.now, beepsPlayed := d2.beepsPlayed + 1 }
  let d4 :=
    if d3.beepsPlayed < d3.dryFireParBeepCount then
      let parIndex := d3.beepsPlayed - 1
      let cumulative := cumulativeParTimeMs d3.dryFireParTimesSec (d3.beepsPlayed - 1).toNat
      if 0 ≤ parIndex ∧ parIndex < (MAX_PAR_BEEPS : Int)
          ∧ parIndex < d3.dryFireParBeepCount - 1 then
        let next := uadd (uadd d3.beepSequenceStartTime cumulative)
          (parTimeMs (d3.dryFireParTimesSec.getD parIndex.toNat 0))
        { d3 with nextBeepTime := next }
      else { d3 with beepsPlayed := d3.dryFireParBeepCount, nextBeepTime := 0 }
    else { d3 with nextBeepTime := 0 }
  { d4 with g := { d4.g with redrawMenu := true } }

/-- The branch `beepSequenceStartTime != 0` of `handleDryFireRunning`: the end of the
sequence, or the next tone once `currentTime >= nextBeepTime && nextBeepTime > 0`. -/
def dryFireNextBeep (t : Input) (d : Device) : Device :=
  let d1 := dryFireShow false d.beepsPlayed d
  if d1.dryFireParBeepCount ≤ d1.beepsPlayed then dryFireFinish d1
  else if d1.nextBeepTime ≤ t.now ∧ 0 < d1.nextBeepTime then dryFireAdvance t d1
  else d1

/-- Lines 222-277 of `handleDryFireRunning`: the two branches on `beepSequenceStartTime`. -/
def dryFireSequence (t : Input) (d : Device) : Device :=
  if d.beepSequenceStartTime = 0 then dryFireFirstBeep t d else dryFireNextBeep t d

def handleDryFireRunning (t : Input) (d : Device) : Device :=
  let d0 := { d with g := resetActivityTimer t.now d.g }
  if t.btnAPressedFor = true then
    let g1 := setState TimerState.DRY_FIRE_READY (reset_bt_beep_state d0.g)
    let g2 := playUnsuccessBeeps t.now t.connected g1
    { d0 with g := { g2 with redrawMenu := true } }
  else dryFireSequence t d0

/-- A sequence of calls of `handleDryFireRunning`, one per tick. -/
def dryFireRun (d : Device) (ticks : List Input) : Device :=
  ticks.foldl (fun acc t => handleDryFireRunning t acc) d

/-- A dry-fire sequence: the click in `DRY_FIRE_READY`, then `handleDryFireRunning` once per
tick. -/
def dryFireSession (c : Input) (d : Device) (ticks : List Input) : Device :=
  dryFireRun (handleDryFireReadyInput c d) ticks

/-- The clock of a recorded `playTone` call. -/
def DeviceCall.toneTime : DeviceCall → Option Nat
  | DeviceCall.playTone _ _ now => some now
  | _ => none

/-- The clocks of the `playTone` calls made so far. -/
def toneTimes (d : Device) : List Nat := d.calls.filterMap DeviceCall.toneTime

/-- The gap after cue `j` in milliseconds, as the handler converts it. -/
def parGap (times : List Rat) (j : Nat) : Nat := parTimeMs (times.getD j 0)

/-- Sum of the first `k` gaps. -/
def cueOffset (gap : Nat → Nat) : Nat → Nat
  | 0 => 0
  | k + 1 => cueOffset gap k + gap k

/-- Due time of cue `k` of a sequence anchored at `anchor`. -/
def cueTime (anchor : Nat) (gap : Nat → Nat) (k : Nat) : Nat := anchor + cueOffset gap k

/-- Cue times of a drift-free plan of `n` cues anchored at `anchor`, from cue `k` on: cue `k`
is issued on the first remaining tick whose clock has reached its due time, and the search
for cue `k + 1` goes on with the ticks after it. -/
def laterCues (anchor : Nat) (gap : Nat → Nat) (n : Nat) : Nat → List Input → List Nat
  | _, [] => []
  | k, t :: ts =>
    if k < n ∧ cueTime anchor gap k ≤ t.now then t.now :: laterCues anchor gap n (k + 1) ts
    else laterCues anchor gap n k ts

/-- Cue times of the plan whose first cue is due at `due`: cue 0 is issued on the first tick
whose clock has reached `due`, and the clock of that tick anchors the later cues. -/
def plannedCues (due : Nat) (gap : Nat → Nat) (n : Nat) : List Input → List Nat
  | [] => []
  | t :: ts =>
    if due ≤ t.now then t.now :: laterCues t.now gap n 1 ts
    else plannedCues due gap n ts

/-- Cue times as the drift-free plan anchored at the drawn instant `due` would give them:
cue `k` on the first remaining tick whose clock has reached `due` plus the first `k` gaps. -/
def drawnCues (due : Nat) (gap : Nat → Nat) (n : Nat) (ticks : List Input) : List Nat :=
  laterCues due gap n 0 ticks

/-- A tick of the dry-fire handlers: the clock, no button, Bluetooth disconnected. -/
def dryTick (now : Nat) : Input :=
  { now := now, connected := false, rotation := 1, btnAClicked := false,
    btnAPressedFor := false, btnBClicked := false, btnPWRClicked := false, random := 0 }

/-- State of the dry-fire sequencer with the cursor at `k` of `n` cues: before the first cue
(`k = 0`) the sequence start is unset; after it the sequence is anchored at `anchor`, whose
due times stay below `2^32`, and while cues remain `nextBeepTime` is the due time of
cue `k`. -/
structure DryInv (n : Nat) (times : List Rat) (anchor k : Nat) (d : Device) : Prop where
  cnt : d.dryFireParBeepCount = (n : Int)
  tms : d.dryFireParTimesSec = times
  played : d.beepsPlayed = (k : Int)
  k_le : k ≤ n
  unset : k = 0 → d.beepSequenceStartTime = 0
  start : 0 < k → d.beepSequenceStartTime = anchor ∧ 0 < anchor
    ∧ anchor + cueOffset (parGap times) (n - 1) < 4294967296
  due : 0 < k → k < n → d.nextBeepTime = cueTime anchor (parGap times) k

/-- A device in `DRY_FIRE_READY` with the given cue count and par times, defaults
elsewhere. -/
def dryFireDevice (count : Int) (times : List Rat) : Device :=
  { g := { defaultGlobals with currentState := TimerState.DRY_FIRE_READY },
    dryFireParBeepCount := count,
    dryFireParTimesSec := times,
    screenRotationSetting := 3, playBootAnimation := true, enableAutoSleep := true,
    currentBluetoothAutoReconnect := true, currentBluetoothVolume := 80,
    stateBeforeEdit := TimerState.SETTINGS_MENU_MAIN,
    settingBeingEdited := EditableSetting.EDIT_NONE,
    editingIntValue := 0, editingULongValue := 0, editingFloatValue := 0,
    editingBoolValue := false, currentMenuSelection := 0, menuScrollOffset := 0,
    randomDelayStartMs := 0, parTimerStartTime := 0, beepSequenceStartTime := 0,
    beepsPlayed := 0, nextBeepTime := 0, lastBeepTime := 0, calls := [] }

/-- The click that starts a dry-fire sequence at `now` with the drawn delay `random`. -/
def startClick (now random : Nat) : Input :=
  { now := now, connected := false, rotation := 1, btnAClicked := true,
    btnAPressedFor := false, btnBClicked := false, btnPWRClicked := false, random := random }

/-- Scenario D: three cues with gaps 1.0 s and 1.5 s, started by a click at 2000 ms with a
drawn delay of 3000 ms, so that the first cue is due at 5000 ms. -/
def scenarioD : Device :=
  handleDryFireReadyInput (startClick 2000 3000)
    (dryFireDevice 3 [1, 3 / 2, 1, 1, 1, 1, 1, 1, 1, 1])

/-- Ticks around the due times of Scenario D. -/
def scenarioDTicks : List Input :=
  [dryTick 4999, dryTick 5000, dryTick 5001, dryTick 5999, dryTick 6000, dryTick 6001,
   dryTick 7499, dryTick 7500, dryTick 7501, dryTick 7502]

/-- One tick per millisecond: `count` ticks from `start` on. -/
def msTicks (start : Nat) : Nat → List Input
  | 0 => []
  | n + 1 => dryTick start :: msTicks (start + 1) n

/-- A tick on every millisecond from 5000 ms to 7501 ms. -/
def everyMs : List Input := msTicks 5000 2502

/-- Ticks of Scenario D with the first one 3 ms late. -/
def lateTicks : List Input := [dryTick 5003, dryTick 6001, dryTick 6003]

/-! ## The stores of a scheduler call, one volatile field at a time (`audio_utils.cpp`) -/

/-- One assignment to a volatile global of the tone plan (`globals.h` lines 46-52). -/
inductive PlanWrite where
  | frequency (v : Int)
  | duration (v : Nat)
  | scheduledStart (v : Nat)
  | pending (b : Bool)
  | active (b : Bool)
  deriving DecidableEq, Repr

/-- The assignment carried out on the globals. -/
def PlanWrite.store (w : PlanWrite) (s : Globals) : Globals :=
  match w with
  | PlanWrite.frequency v => { s with btBeepFrequency := v }
  | PlanWrite.duration v => { s with btBeepDurationVolatile := v }
  | PlanWrite.scheduledStart v => { s with btBeepScheduledStartTime := v }
  | PlanWrite.pending b => { s with new_bt_beep_request := b }
  | PlanWrite.active b => { s with current_bt_beep_is_active := b }

/-- Assignments carried out in program order. -/
def runWrites (ws : List PlanWrite) (s : Globals) : Globals :=
  ws.foldl (fun acc w => w.store acc) s

/-- The three assignments of `reset_bt_beep_state`, in program order. -/
def resetWrites : List PlanWrite :=
  [PlanWrite.pending false, PlanWrite.active false, PlanWrite.frequency 0]

/-- The five assignments of the Bluetooth path of `playTone`, `playFeedbackTone` and
`playSyncCalibrationTone`, in program order. -/
def toneWrites (freq : Int) (duration start : Nat) : List PlanWrite :=
  [PlanWrite.frequency freq, PlanWrite.duration duration, PlanWrite.scheduledStart start,
   PlanWrite.pending true, PlanWrite.active false]

/-- A call of one of the four scheduler functions while Bluetooth is connected. -/
inductive SchedulerCall where
  | playTone (freq duration : Int) (now : Nat)
  | playFeedbackTone (freq duration : Int) (now : Nat)
  | playSyncCalibrationTone (freq duration offsetMs : Int) (now : Nat)
  | reset_bt_beep_state
  deriving DecidableEq, Repr

/-- The call as a whole, through the functions above. -/
def SchedulerCall.run (c : SchedulerCall) (s : Globals) : Globals :=
  match c with
  | SchedulerCall.playTone f d now => HeyManNiceShot.playTone f d now true s
  | SchedulerCall.playFeedbackTone f d now => HeyManNiceShot.playFeedbackTone f d now true s
  | SchedulerCall.playSyncCalibrationTone f d o now =>
    HeyManNiceShot.playSyncCalibrationTone f d o now true s
  | SchedulerCall.reset_bt_beep_state => HeyManNiceShot.reset_bt_beep_state s

/-- The frequency, duration and scheduled start that a tone call asks for. -/
def SchedulerCall.request (c : SchedulerCall) (s : Globals) : Option (Int × Nat × Nat) :=
  match c with
  | SchedulerCall.playTone f d now =>
    some (f, uintOfInt d, uaddInt now s.currentBluetoothAudioOffsetMs)
  | SchedulerCall.playFeedbackTone f d now => some (f, uintOfInt d, now)
  | SchedulerCall.playSyncCalibrationTone f d o now => some (f, uintOfInt d, uaddInt now o)
  | SchedulerCall.reset_bt_beep_state => none

/-- The assignments of the call to the tone plan, in program order. -/
def SchedulerCall.writes (c : SchedulerCall) (s : Globals) : List PlanWrite :=
  match c with
  | SchedulerCall.playTone f d now =>
    toneWrites f (uintOfInt d) (uaddInt now s.currentBluetoothAudioOffsetMs)
  | SchedulerCall.playFeedbackTone f d now => toneWrites f (uintOfInt d) now
  | SchedulerCall.playSyncCalibrationTone f d o now =>
    resetWrites ++ toneWrites f (uintOfInt d) (uaddInt now o)
  | SchedulerCall.reset_bt_beep_state => resetWrites

/-- The tone plan as the synthesizer reads it: frequency, duration, scheduled start, pending
and active. -/
def planFields (s : Globals) : Int × Nat × Nat × Bool × Bool :=
  (s.btBeepFrequency, s.btBeepDurationVolatile, s.btBeepScheduledStartTime,
   s.new_bt_beep_request, s.current_bt_beep_is_active)

/-- The globals when the synthesizer runs after the first `k` assignments of the call. -/
def observedAfter (k : Nat) (c : SchedulerCall) (s : Globals) : Globals :=
  runWrites ((c.writes s).take k) s

/-- A 2000 Hz tone in flight until 1150 ms, no request pending. -/
def toneInFlight : Globals :=
  { defaultGlobals with btBeepFrequency := 2000, btBeepDurationVolatile := 150,
                        btBeepScheduledStartTime := 1000, current_bt_beep_is_active := true,
                        current_bt_beep_actual_end_time := 1150 }

/-- The settings editor on a par time of 1.0 s. -/
def parEdit : Device :=
  { dryFireDevice 2 [1, 1, 1, 1, 1, 1, 1, 1, 1, 1] with
      settingBeingEdited := EditableSetting.EDIT_PAR_TIME_ARRAY, editingFloatValue := 1 }

/-- Two cues with a gap of 1.0 s, started by a click at `2^32 - 4000` ms with a drawn delay of
3000 ms: the first cue is due at `2^32 - 1000` ms and the second one 1000 ms later, at the
wrap of the 32-bit counter. -/
def wrapDryFire : Device :=
  handleDryFireReadyInput (startClick 4294963296 3000)
    (dryFireDevice 2 [1, 1, 1, 1, 1, 1, 1, 1, 1, 1])

/-- Ticks of the sequence `wrapDryFire`: the due time of the first cue, the last millisecond
before the counter wraps, and ticks after the wrap. -/
def wrapDryFireTicks : List Input :=
  [dryTick 4294966296, dryTick 4294967295, dryTick 0, dryTick 1, dryTick 1000,
   dryTick 100000]

/-- The Bluetooth tone plan is idle: no pending request, no active tone, frequency 0. -/
def planIdle (s : Globals) : Prop :=
  s.new_bt_beep_request = false ∧ s.current_bt_beep_is_active = false ∧ s.btBeepFrequency = 0

instance (s : Globals) : Decidable (planIdle s) := by
  unfold planIdle; infer_instance

/-- The calls made by the worker for a queue served from head to tail. -/
def servedOps : List BuzzerRequest → List BuzzerOp
  | [] => []
  | r :: q => buzzerIteration r ++ servedOps q

/-- Milliseconds the worker is blocked by a list of calls: the sum of its delays. -/
def opsDuration : List BuzzerOp → Int
  | [] => 0
  | BuzzerOp.vTaskDelay ms :: ops => ms + opsDuration ops
  | _ :: ops => opsDuration ops

/-- The time intervals `(pin, start, end)` during which the tone lines are driven when the
calls start at `clock`: `tone(pin, f, d)` returns at once and drives the line for `d` ms,
`vTaskDelay(ms)` lets `ms` milliseconds pass. -/
def toneIntervals : Int → List BuzzerOp → List (Nat × Int × Int)
  | _, [] => []
  | clock, BuzzerOp.tone pin _ d :: ops => (pin, clock, clock + d) :: toneIntervals clock ops
  | clock, BuzzerOp.vTaskDelay ms :: ops => toneIntervals (clock + ms) ops
  | clock, BuzzerOp.noTone _ :: ops => toneIntervals clock ops

/-- A request placed in a queue that already holds a longer tone. -/
def busyQueue : List BuzzerRequest :=
  [{ frequency := 1047, duration := 150 }, { frequency := 0, duration := 40 },
   { frequency := 2000, duration := 0 }, { frequency := 262, duration := 225 }]

/-! ## Theorems: single-precision arithmetic -/

theorem pow2_eq_zpow (e : Int) : pow2 e = (2 : Rat) ^ e := by
  unfold pow2
  split
  · rename_i h
    have : e = ((e.toNat : Nat) : Int) := (Int.toNat_of_nonneg h).symm
    conv_rhs => rw [this]
    rw [zpow_natCast]
    push_cast
    rfl
  · rename_i h
    have h1 : 0 ≤ -e := by omega
    have : e = -(((-e).toNat : Nat) : Int) := by rw [Int.toNat_of_nonneg h1]; ring
    conv_rhs => rw [this]
    rw [zpow_neg, zpow_natCast]
    push_cast
    rw [one_div]

theorem pow2_pos (e : Int) : 0 < pow2 e := by
  unfold pow2
  split
  · exact_mod_cast Nat.two_pow_pos _
  · apply div_pos one_pos
    exact_mod_cast Nat.two_pow_pos _

theorem pow2_sub (e : Int) (k : Nat) : pow2 (e - (k : Int)) = pow2 e / 2 ^ k := by
  rw [pow2_eq_zpow, pow2_eq_zpow, zpow_sub₀ (by norm_num : (2 : Rat) ≠ 0), zpow_natCast]

theorem pow2_smallest_normal : pow2 (-126) ≤ 1 / 2000 := by
  unfold pow2
  rw [if_neg (by decide)]
  have h : (2000 : Rat) ≤ ((2 ^ (-(-126 : Int)).toNat : Nat) : Rat) := by
    have : (2000 : Nat) ≤ 2 ^ (-(-126 : Int)).toNat := by
      have e : (-(-126 : Int)).toNat = 126 := by decide
      rw [e]
      norm_num
    exact_mod_cast this
  exact div_le_div_of_nonneg_left (by norm_num) (by norm_num) h

/-- With enough fuel `leadingBit` is the position of the leading bit. -/
theorem leadingBit_spec : ∀ (fuel n : Nat), n ≤ fuel → 1 ≤ n →
    2 ^ leadingBit fuel n ≤ n ∧ n < 2 ^ (leadingBit fuel n + 1) := by
  intro fuel
  induction fuel with
  | zero => intro n h1 h2; omega
  | succ fuel ih =>
    intro n h1 h2
    unfold leadingBit
    by_cases h : n < 2
    · rw [if_pos h]
      simp
      omega
    · rw [if_neg h]
      obtain ⟨a, b⟩ := ih (n / 2) (by omega) (by omega)
      constructor
      · rw [pow_succ]
        omega
      · rw [pow_succ]
        omega

/-- The nearest integer is within one half. -/
theorem roundHalfEven_err (x : Rat) : |((roundHalfEven x : Int) : Rat) - x| ≤ 1 / 2 := by
  have h1 : (Rat.floor x : Rat) ≤ x := Rat.le_floor.mp le_rfl
  have h2 : x < (Rat.floor x : Rat) + 1 := by
    by_contra hc
    have h3 : ((Rat.floor x + 1 : Int) : Rat) ≤ x := by
      push_cast
      exact not_lt.mp hc
    have := Rat.le_floor.mpr h3
    omega
  unfold roundHalfEven
  split
  · rw [abs_le]; constructor <;> linarith
  · split
    · push_cast; rw [abs_le]; constructor <;> linarith
    · split
      · rw [abs_le]; constructor <;> linarith
      · push_cast; rw [abs_le]; constructor <;> linarith

/-- The rounding error of `toFloat32` is at most half the spacing of the binade. -/
theorem toFloat32_err (q : Rat) (h : 0 < q) :
    |toFloat32 q - q| ≤ pow2 (binadeExponent q - 23) / 2 := by
  unfold toFloat32
  rw [if_neg (ne_of_gt h), if_neg (not_lt.mpr (le_of_lt h))]
  have hu := pow2_pos (binadeExponent q - 23)
  generalize pow2 (binadeExponent q - 23) = u at hu ⊢
  have hr := roundHalfEven_err (q / u)
  generalize ((roundHalfEven (q / u) : Int) : Rat) = r at hr ⊢
  have e : r * u - q = (r - q / u) * u := by
    field_simp
  rw [e, abs_mul, abs_of_pos hu]
  calc |r - q / u| * u ≤ 1 / 2 * u := mul_le_mul_of_nonneg_right hr (le_of_lt hu)
    _ = u / 2 := by ring

/-- The exponent found for a positive number that is not below the smallest normal one is
the exponent of its binade. -/
theorem binadeExponent_le (q : Rat) (h : 0 < q) (hn : pow2 (-126) ≤ q) :
    pow2 (binadeExponent q) ≤ q := by
  have hnum : 0 < q.num := Rat.num_pos.mpr h
  have hden : 0 < q.den := q.den_pos
  have ha := (leadingBit_spec q.num.natAbs q.num.natAbs le_rfl (by omega)).1
  have hb := (leadingBit_spec q.den q.den le_rfl hden).2
  unfold binadeExponent
  simp only []
  generalize leadingBit q.num.natAbs q.num.natAbs = a at ha ⊢
  generalize leadingBit q.den q.den = b at hb ⊢
  have key : pow2 ((a : Int) - (b : Int) - 1) ≤ q := by
    rw [pow2_eq_zpow]
    have e1 : ((a : Int) - (b : Int) - 1) = (a : Int) - ((b + 1 : Nat) : Int) := by
      push_cast; ring
    rw [e1, zpow_sub₀ (by norm_num : (2 : Rat) ≠ 0), zpow_natCast, zpow_natCast]
    have hq : q = (q.num : Rat) / (q.den : Rat) := (Rat.num_div_den q).symm
    rw [hq]
    have h1 : ((2 : Rat) ^ a) ≤ (q.num : Rat) := by
      have : ((2 ^ a : Nat) : Int) ≤ q.num := by
        have := Int.natAbs_of_nonneg (le_of_lt hnum)
        omega
      have h2 : (((2 ^ a : Nat) : Int) : Rat) ≤ (q.num : Rat) := by exact_mod_cast this
      simpa using h2
    have h2 : (q.den : Rat) ≤ (2 : Rat) ^ (b + 1) := by
      have : ((q.den : Nat) : Rat) ≤ ((2 ^ (b + 1) : Nat) : Rat) := by
        exact_mod_cast le_of_lt hb
      simpa using this
    have hd : (0 : Rat) < (q.den : Rat) := by exact_mod_cast hden
    exact div_le_div₀ (le_trans (by positivity) h1) h1 hd h2
  have h3 : pow2 (if pow2 ((a : Int) - (b : Int)) ≤ q then (a : Int) - (b : Int)
      else (a : Int) - (b : Int) - 1) ≤ q := by
    split
    · rename_i h4
      exact h4
    · exact key
  rcases max_cases (if pow2 ((a : Int) - (b : Int)) ≤ q then (a : Int) - (b : Int)
      else (a : Int) - (b : Int) - 1) (-126) with ⟨h5, _⟩ | ⟨h5, _⟩
  · rw [h5]; exact h3
  · rw [h5]; exact hn

/-- Relative rounding error of `toFloat32` on the normal range: at most `2^-24`. -/
theorem toFloat32_rel_err (q : Rat) (h : 0 < q) (hn : pow2 (-126) ≤ q) :
    |toFloat32 q - q| ≤ q / 16777216 := by
  have h1 := toFloat32_err q h
  have h2 := binadeExponent_le q h hn
  have h3 : pow2 (binadeExponent q - 23) = pow2 (binadeExponent q) / 2 ^ 23 :=
    pow2_sub (binadeExponent q) 23
  rw [h3] at h1
  generalize pow2 (binadeExponent q) = p at h1 h2
  have : p / 2 ^ 23 / 2 ≤ q / 16777216 := by
    have : p / 2 ^ 23 / 2 = p / 16777216 := by ring
    rw [this]
    exact div_le_div_of_nonneg_right h2 (by norm_num)
  exact le_trans h1 this

/-- The seconds computed in `float` from a millisecond count differ from the exact quotient
by at most `2^-22` of it. -/
theorem secondsOfMillis_err (d : Nat) :
    |secondsOfMillis d - (d : Rat) / 1000| ≤ (d : Rat) / 1000 / 4194304 := by
  unfold secondsOfMillis
  rcases Nat.eq_zero_or_pos d with h0 | hpos
  · subst h0
    have : toFloat32 ((0 : Nat) : Rat) = 0 := by
      unfold toFloat32
      simp
    rw [this]
    have : toFloat32 (0 / 1000) = 0 := by
      unfold toFloat32
      simp
    rw [this]
    simp
  · have hd : (1 : Rat) ≤ (d : Rat) := by exact_mod_cast hpos
    have hdp : (0 : Rat) < (d : Rat) := by linarith
    have hs := pow2_smallest_normal
    have e1 := toFloat32_rel_err (d : Rat) hdp (by linarith)
    generalize toFloat32 (d : Rat) = y at e1 ⊢
    rw [abs_le] at e1
    have hy : (1 : Rat) / 2 ≤ y := by linarith
    have e2 := toFloat32_rel_err (y / 1000) (by positivity) (by linarith)
    generalize toFloat32 (y / 1000) = z at e2 ⊢
    rw [abs_le] at e2 ⊢
    constructor <;> linarith

/-- The seconds computed from a positive millisecond count are positive. -/
theorem secondsOfMillis_pos (d : Nat) (h : 0 < d) : 0 < secondsOfMillis d := by
  have e := secondsOfMillis_err d
  have hd : (1 : Rat) ≤ (d : Rat) := by exact_mod_cast h
  rw [abs_le] at e
  linarith [e.1]

theorem uintOfInt_of_fits (i : Int) (h0 : 0 ≤ i) (h1 : i < 4294967296) :
    ((uintOfInt i : Nat) : Int) = i := by
  unfold uintOfInt
  omega

theorem uintOfInt_cast (i : Int) : ((uintOfInt i : Nat) : Int) = i % 4294967296 := by
  unfold uintOfInt
  omega

theorem usub_of_le (a b : Nat) (hab : b ≤ a) (ha : a < 4294967296) : usub a b = a - b := by
  unfold usub uintOfInt
  omega

theorem usub_self (a : Nat) : usub a a = 0 := by
  unfold usub uintOfInt
  omega

theorem uadd_lt (a b : Nat) : uadd a b < 4294967296 := by
  unfold uadd
  omega

theorem uintOfInt_lt (i : Int) : uintOfInt i < 4294967296 := by
  unfold uintOfInt
  omega

/-! ## Theorems: routing of tone requests (`audio_utils.cpp`) -/

/-- C6 (as amended): while Bluetooth is connected, `playTone` and `playFeedbackTone` leave the
buzzer queue untouched and arm the tone plan; the scheduled start of `playTone` is
`now + offset` whenever that sum fits the 32-bit millisecond counter, and `now` for
`playFeedbackTone`. -/
theorem connected_routing_arms_bluetooth_only (freq duration : Int) (now : Nat) (s : Globals)
    (hnow : 1000 ≤ now)
    (hlo : -1000 ≤ s.currentBluetoothAudioOffsetMs) (hhi : s.currentBluetoothAudioOffsetMs ≤ 500)
    (hfit : (now : Int) + s.currentBluetoothAudioOffsetMs < 4294967296) :
    ((playTone freq duration now true s).buzzerQueue = s.buzzerQueue
      ∧ (playTone freq duration now true s).new_bt_beep_request = true
      ∧ (playTone freq duration now true s).current_bt_beep_is_active = false
      ∧ (playTone freq duration now true s).btBeepFrequency = freq
      ∧ (((playTone freq duration now true s).btBeepDurationVolatile : Nat) : Int)
          = duration % 4294967296
      ∧ (((playTone freq duration now true s).btBeepScheduledStartTime : Nat) : Int)
          = (now : Int) + s.currentBluetoothAudioOffsetMs)
    ∧ ((playFeedbackTone freq duration now true s).buzzerQueue = s.buzzerQueue
      ∧ (playFeedbackTone freq duration now true s).new_bt_beep_request = true
      ∧ (playFeedbackTone freq duration now true s).current_bt_beep_is_active = false
      ∧ (playFeedbackTone freq duration now true s).btBeepFrequency = freq
      ∧ (((playFeedbackTone freq duration now true s).btBeepDurationVolatile : Nat) : Int)
          = duration % 4294967296
      ∧ (playFeedbackTone freq duration now true s).btBeepScheduledStartTime = now) := by
  refine ⟨⟨rfl, rfl, rfl, rfl, ?_, ?_⟩, ⟨rfl, rfl, rfl, rfl, ?_, rfl⟩⟩
  · simp only [playTone, if_true]
    exact uintOfInt_cast duration
  · simp only [playTone, if_true, uaddInt]
    exact uintOfInt_of_fits _ (by omega) hfit
  · simp only [playFeedbackTone, if_true]
    exact uintOfInt_cast duration

/-- Scenario B: `playTone(2000,150)` at `now = 1000` with offset -200 arms the plan with
scheduled start 800 and leaves the queue as it was. -/
theorem connected_routing_scenario_B :
    (1000 ≤ 1000
      ∧ -1000 ≤ ({ defaultGlobals with currentBluetoothAudioOffsetMs := -200 } : Globals).currentBluetoothAudioOffsetMs
      ∧ (((playTone 2000 150 1000 true
            { defaultGlobals with currentBluetoothAudioOffsetMs := -200 }).btBeepScheduledStartTime : Nat) : Int)
          = 800
      ∧ (playTone 2000 150 1000 true
            { defaultGlobals with currentBluetoothAudioOffsetMs := -200 }).buzzerQueue = []) :=
  ⟨by decide, by decide,
   (connected_routing_arms_bluetooth_only 2000 150 1000
      { defaultGlobals with currentBluetoothAudioOffsetMs := -200 }
      (by decide) (by decide) (by decide) (by decide)).1.2.2.2.2.2,
   (connected_routing_arms_bluetooth_only 2000 150 1000
      { defaultGlobals with currentBluetoothAudioOffsetMs := -200 }
      (by decide) (by decide) (by decide) (by decide)).1.1⟩

/-- C6 fails as stated at the top of the clock range: at `now = 2^32 - 1` with offset 500
(inside [-1000, 500]) the scheduled start is 499, not `now + 500`. -/
theorem connected_routing_wraps_at_clock_top :
    (1000 : Nat) ≤ 4294967295
      ∧ (playTone 2000 150 4294967295 true
          { defaultGlobals with currentBluetoothAudioOffsetMs := 500 }).btBeepScheduledStartTime = 499
      ∧ (((playTone 2000 150 4294967295 true
          { defaultGlobals with currentBluetoothAudioOffsetMs := 500 }).btBeepScheduledStartTime : Nat) : Int)
          ≠ (4294967295 : Int) + 500 := by
  decide

/-- C7: while Bluetooth is disconnected and the buzzer queue is not full, `playTone` and
`playFeedbackTone` append exactly the request `{freq, duration}` at the tail of the queue and
change no field of the Bluetooth tone plan. -/
theorem disconnected_routing_enqueues_only (freq duration : Int) (now : Nat) (s : Globals)
    (hroom : s.buzzerQueue.length < BUZZER_QUEUE_LENGTH) :
    ((playTone freq duration now false s).buzzerQueue
        = s.buzzerQueue ++ [{ frequency := freq, duration := duration }]
      ∧ (playTone freq duration now false s).new_bt_beep_request = s.new_bt_beep_request
      ∧ (playTone freq duration now false s).current_bt_beep_is_active = s.current_bt_beep_is_active
      ∧ (playTone freq duration now false s).btBeepFrequency = s.btBeepFrequency
      ∧ (playTone freq duration now false s).btBeepDurationVolatile = s.btBeepDurationVolatile
      ∧ (playTone freq duration now false s).btBeepScheduledStartTime = s.btBeepScheduledStartTime
      ∧ (playTone freq duration now false s).current_bt_beep_actual_end_time
          = s.current_bt_beep_actual_end_time)
    ∧ ((playFeedbackTone freq duration now false s).buzzerQueue
        = s.buzzerQueue ++ [{ frequency := freq, duration := duration }]
      ∧ (playFeedbackTone freq duration now false s).new_bt_beep_request = s.new_bt_beep_request
      ∧ (playFeedbackTone freq duration now false s).current_bt_beep_is_active
          = s.current_bt_beep_is_active
      ∧ (playFeedbackTone freq duration now false s).btBeepFrequency = s.btBeepFrequency
      ∧ (playFeedbackTone freq duration now false s).btBeepDurationVolatile
          = s.btBeepDurationVolatile
      ∧ (playFeedbackTone freq duration now false s).btBeepScheduledStartTime
          = s.btBeepScheduledStartTime
      ∧ (playFeedbackTone freq duration now false s).current_bt_beep_actual_end_time
          = s.current_bt_beep_actual_end_time) := by
  simp [playTone, playFeedbackTone, xQueueSend, hroom]

/-- Scenario A: `playFeedbackTone(2000,150)` at `t = 0`, disconnected, empty queue: exactly
one request `{2000,150}` is queued. -/
theorem disconnected_routing_scenario_A :
    defaultGlobals.buzzerQueue.length < BUZZER_QUEUE_LENGTH
      ∧ (playFeedbackTone 2000 150 0 false defaultGlobals).buzzerQueue
          = [{ frequency := 2000, duration := 150 }] :=
  ⟨by decide, (disconnected_routing_enqueues_only 2000 150 0 defaultGlobals (by decide)).2.1⟩

/-! ## Theorems: the audio-completion deadline (`handle*GetReady`) -/

theorem setState_beep_audio_end_time (st : TimerState) (s : Globals) :
    (setState st s).beep_audio_end_time = s.beep_audio_end_time := by
  unfold setState; split <;> rfl

theorem playTone_currentBeepDuration (f d : Int) (now : Nat) (c : Bool) (s : Globals) :
    (playTone f d now c s).currentBeepDuration = s.currentBeepDuration := by
  unfold playTone xQueueSend; split <;> [rfl; (split <;> rfl)]

theorem playTone_offset (f d : Int) (now : Nat) (c : Bool) (s : Globals) :
    (playTone f d now c s).currentBluetoothAudioOffsetMs = s.currentBluetoothAudioOffsetMs := by
  unfold playTone xQueueSend; split <;> [rfl; (split <;> rfl)]

theorem handleLiveFireGetReady_beep_audio_end_time (now : Nat) (c : Bool) (s : Globals) :
    (handleLiveFireGetReady now c s).beep_audio_end_time = computeAudioEndTime now c s := by
  simp only [handleLiveFireGetReady, setState_beep_audio_end_time, emit, resetShotData,
    micResetPeak, computeAudioEndTime, playTone_currentBeepDuration, playTone_offset,
    resetActivityTimer]

theorem handleNoisyRangeGetReady_beep_audio_end_time (now : Nat) (c : Bool) (s : Globals) :
    (handleNoisyRangeGetReady now c s).beep_audio_end_time = computeAudioEndTime now c s := by
  simp only [handleNoisyRangeGetReady, setState_beep_audio_end_time, emit, resetShotData,
    micResetPeak, computeAudioEndTime, playTone_currentBeepDuration, playTone_offset,
    resetActivityTimer]

theorem computeAudioEndTime_disconnected (now : Nat) (s : Globals) :
    computeAudioEndTime now false s = (now + s.currentBeepDuration + 150) % 4294967296 := by
  simp only [computeAudioEndTime, uadd, Bool.false_eq_true, if_false, max_self]
  omega

theorem computeAudioEndTime_connected (now : Nat) (s : Globals)
    (hnow : 1000 ≤ now)
    (hlo : -1000 ≤ s.currentBluetoothAudioOffsetMs) (hhi : s.currentBluetoothAudioOffsetMs ≤ 500)
    (hfit : max (now : Int) ((now : Int) + s.currentBluetoothAudioOffsetMs)
              + (s.currentBeepDuration : Int) + 150 < 4294967296) :
    ((computeAudioEndTime now true s : Nat) : Int)
      = max (now : Int) ((now : Int) + s.currentBluetoothAudioOffsetMs)
          + (s.currentBeepDuration : Int) + 150 := by
  have h1 : (now : Int) + s.currentBluetoothAudioOffsetMs < 4294967296 := by
    have := le_max_right (now : Int) ((now : Int) + s.currentBluetoothAudioOffsetMs)
    omega
  have h2 : ((uaddInt now s.currentBluetoothAudioOffsetMs : Nat) : Int)
      = (now : Int) + s.currentBluetoothAudioOffsetMs :=
    uintOfInt_of_fits _ (by omega) h1
  simp only [computeAudioEndTime, if_true, uadd]
  rcases le_total (now : Int) ((now : Int) + s.currentBluetoothAudioOffsetMs) with h | h
  · rw [max_eq_right h] at hfit ⊢
    have h3 : now ≤ uaddInt now s.currentBluetoothAudioOffsetMs := by omega
    rw [max_eq_right h3]
    omega
  · rw [max_eq_left h] at hfit ⊢
    have h3 : uaddInt now s.currentBluetoothAudioOffsetMs ≤ now := by omega
    rw [max_eq_left h3]
    omega

/-- C8 (as amended): while Bluetooth is disconnected the deadline computed on GetReady entry is
`issueTime + d + 150` (modulo `2^32`, hence exactly that sum when it fits the counter), in
both modes. -/
theorem buzzer_path_audio_end_time (issueTime : Nat) (s : Globals) :
    (handleLiveFireGetReady issueTime false s).beep_audio_end_time
        = (issueTime + s.currentBeepDuration + 150) % 4294967296
    ∧ (handleNoisyRangeGetReady issueTime false s).beep_audio_end_time
        = (issueTime + s.currentBeepDuration + 150) % 4294967296
    ∧ (issueTime + s.currentBeepDuration + 150 < 4294967296 →
        (handleLiveFireGetReady issueTime false s).beep_audio_end_time
            = issueTime + s.currentBeepDuration + 150
        ∧ (handleNoisyRangeGetReady issueTime false s).beep_audio_end_time
            = issueTime + s.currentBeepDuration + 150) := by
  rw [handleLiveFireGetReady_beep_audio_end_time, handleNoisyRangeGetReady_beep_audio_end_time,
    computeAudioEndTime_disconnected]
  refine ⟨rfl, rfl, fun h => ?_⟩
  omega

/-- C8 fails as stated in Scenario A: disconnected, issue time 0 and beep duration 150 give the
deadline 300, not 155. -/
theorem buzzer_path_audio_end_time_scenario_A :
    defaultGlobals.currentBeepDuration = 150
      ∧ (handleLiveFireGetReady 0 false defaultGlobals).beep_audio_end_time = 300
      ∧ (handleNoisyRangeGetReady 0 false defaultGlobals).beep_audio_end_time = 300
      ∧ (handleLiveFireGetReady 0 false defaultGlobals).beep_audio_end_time ≠ 0 + 150 + 5 := by
  decide

/-- C9 (as amended): while Bluetooth is connected, for `issueTime ≥ 1000`, an offset in
[-1000, 500] and a deadline that fits the 32-bit millisecond counter, both GetReady handlers
set `beep_audio_end_time = max(issueTime, issueTime + offset) + d + 150`, which is never
before `issueTime + d + 150`. -/
theorem bluetooth_path_audio_end_time (issueTime : Nat) (s : Globals)
    (hnow : 1000 ≤ issueTime)
    (hlo : -1000 ≤ s.currentBluetoothAudioOffsetMs) (hhi : s.currentBluetoothAudioOffsetMs ≤ 500)
    (hfit : max (issueTime : Int) ((issueTime : Int) + s.currentBluetoothAudioOffsetMs)
              + (s.currentBeepDuration : Int) + 150 < 4294967296) :
    (((handleLiveFireGetReady issueTime true s).beep_audio_end_time : Nat) : Int)
        = max (issueTime : Int) ((issueTime : Int) + s.currentBluetoothAudioOffsetMs)
            + (s.currentBeepDuration : Int) + 150
    ∧ (((handleNoisyRangeGetReady issueTime true s).beep_audio_end_time : Nat) : Int)
        = max (issueTime : Int) ((issueTime : Int) + s.currentBluetoothAudioOffsetMs)
            + (s.currentBeepDuration : Int) + 150
    ∧ issueTime + s.currentBeepDuration + 150
        ≤ (handleLiveFireGetReady issueTime true s).beep_audio_end_time
    ∧ issueTime + s.currentBeepDuration + 150
        ≤ (handleNoisyRangeGetReady issueTime true s).beep_audio_end_time := by
  have h := computeAudioEndTime_connected issueTime s hnow hlo hhi hfit
  have hm := le_max_left (issueTime : Int) ((issueTime : Int) + s.currentBluetoothAudioOffsetMs)
  rw [handleLiveFireGetReady_beep_audio_end_time, handleNoisyRangeGetReady_beep_audio_end_time]
  refine ⟨h, h, ?_, ?_⟩ <;> omega

/-- The deadline for a start cue at `issueTime = 1000` with offset -200 and the default beep
duration 150 is 1300. -/
theorem bluetooth_path_audio_end_time_example :
    (1000 ≤ 1000
      ∧ (((handleLiveFireGetReady 1000 true
            { defaultGlobals with currentBluetoothAudioOffsetMs := -200 }).beep_audio_end_time : Nat) : Int)
          = max (1000 : Int) (1000 + -200) + 150 + 150) :=
  ⟨by decide,
   (bluetooth_path_audio_end_time 1000
      { defaultGlobals with currentBluetoothAudioOffsetMs := -200 }
      (by decide) (by decide) (by decide) (by decide)).1⟩

/-- C9 fails as stated at the top of the clock range: connected, `issueTime = 2^32 - 1`,
offset 500 and beep duration 150 give the deadline 299. -/
theorem bluetooth_path_audio_end_time_wraps :
    (1000 : Nat) ≤ 4294967295
      ∧ (handleLiveFireGetReady 4294967295 true
          { defaultGlobals with currentBluetoothAudioOffsetMs := 500 }).beep_audio_end_time = 299
      ∧ (handleNoisyRangeGetReady 4294967295 true
          { defaultGlobals with currentBluetoothAudioOffsetMs := 500 }).beep_audio_end_time = 299
      ∧ (((handleLiveFireGetReady 4294967295 true
          { defaultGlobals with currentBluetoothAudioOffsetMs := 500 }).beep_audio_end_time : Nat) : Int)
          ≠ max (4294967295 : Int) (4294967295 + 500) + 150 + 150 := by
  decide

/-! ## Theorems: the calibration tone -/

/-- C10 (as amended): `playSyncCalibrationTone` enqueues the request when the queue has room;
when Bluetooth is connected it also arms the plan with scheduled start `now + offsetMs`
(modulo `2^32`); when Bluetooth is disconnected the plan is left reset. -/
theorem sync_calibration_uses_both_paths_when_connected (freq duration offsetMs : Int)
    (now : Nat) (s : Globals) (hroom : s.buzzerQueue.length < BUZZER_QUEUE_LENGTH) :
    ((playSyncCalibrationTone freq duration offsetMs now true s).buzzerQueue
        = s.buzzerQueue ++ [{ frequency := freq, duration := duration }]
      ∧ (playSyncCalibrationTone freq duration offsetMs now true s).new_bt_beep_request = true
      ∧ (playSyncCalibrationTone freq duration offsetMs now true s).current_bt_beep_is_active = false
      ∧ (playSyncCalibrationTone freq duration offsetMs now true s).btBeepFrequency = freq
      ∧ (((playSyncCalibrationTone freq duration offsetMs now true s).btBeepDurationVolatile : Nat) : Int)
          = duration % 4294967296
      ∧ (((playSyncCalibrationTone freq duration offsetMs now true s).btBeepScheduledStartTime : Nat) : Int)
          = ((now : Int) + offsetMs) % 4294967296
      ∧ (0 ≤ (now : Int) + offsetMs → (now : Int) + offsetMs < 4294967296 →
          (((playSyncCalibrationTone freq duration offsetMs now true s).btBeepScheduledStartTime : Nat) : Int)
            = (now : Int) + offsetMs))
    ∧ ((playSyncCalibrationTone freq duration offsetMs now false s).buzzerQueue
        = s.buzzerQueue ++ [{ frequency := freq, duration := duration }]
      ∧ (playSyncCalibrationTone freq duration offsetMs now false s).new_bt_beep_request = false
      ∧ (playSyncCalibrationTone freq duration offsetMs now false s).current_bt_beep_is_active = false
      ∧ (playSyncCalibrationTone freq duration offsetMs now false s).btBeepFrequency = 0) := by
  have e1 := uintOfInt_cast duration
  have e2 := uintOfInt_cast ((now : Int) + offsetMs)
  have e3 := fun h0 h1 => uintOfInt_of_fits ((now : Int) + offsetMs) h0 h1
  simp only [playSyncCalibrationTone, xQueueSend, reset_bt_beep_state, if_pos hroom, if_true,
    Bool.false_eq_true, if_false, uaddInt]
  exact ⟨⟨trivial, trivial, trivial, trivial, e1, e2, e3⟩, ⟨trivial, trivial, trivial, trivial⟩⟩

/-- The calibration tone issued by the offset editor at `now = 5000` with candidate offset
-50, Bluetooth connected: the request is queued and the plan starts at 4950. -/
theorem sync_calibration_example :
    defaultGlobals.buzzerQueue.length < BUZZER_QUEUE_LENGTH
      ∧ (playSyncCalibrationTone 2000 150 (-50) 5000 true defaultGlobals).buzzerQueue
          = [{ frequency := 2000, duration := 150 }]
      ∧ (playSyncCalibrationTone 2000 150 (-50) 5000 true defaultGlobals).new_bt_beep_request = true :=
  ⟨by decide,
   (sync_calibration_uses_both_paths_when_connected 2000 150 (-50) 5000 defaultGlobals
      (by decide)).1.1,
   (sync_calibration_uses_both_paths_when_connected 2000 150 (-50) 5000 defaultGlobals
      (by decide)).1.2.1⟩

/-- C10 fails as stated when Bluetooth is disconnected at call time: the request is queued
but the tone plan is not armed. -/
theorem sync_calibration_disconnected_not_armed :
    (playSyncCalibrationTone 2000 150 (-50) 5000 false defaultGlobals).buzzerQueue
        = [{ frequency := 2000, duration := 150 }]
      ∧ (playSyncCalibrationTone 2000 150 (-50) 5000 false defaultGlobals).new_bt_beep_request
          = false
      ∧ (playSyncCalibrationTone 2000 150 (-50) 5000 false defaultGlobals).btBeepFrequency = 0 := by
  decide

/-! ## Theorems: what the handlers do to the session fields -/

theorem core_emit (e : Effect) (s : Globals) : core (emit e s) = core s := rfl

theorem core_micResetPeak (s : Globals) : core (micResetPeak s) = core s := rfl

theorem core_readMic (t : Tick) (s : Globals) : core (readMic t s) = core s := rfl

theorem core_resetActivityTimer (now : Nat) (s : Globals) :
    core (resetActivityTimer now s) = core s := rfl

theorem core_xQueueSend (r : BuzzerRequest) (s : Globals) : core (xQueueSend r s) = core s := by
  unfold xQueueSend; split <;> rfl

theorem core_playFeedbackTone (f d : Int) (now : Nat) (c : Bool) (s : Globals) :
    core (playFeedbackTone f d now c s) = core s := by
  unfold playFeedbackTone
  split
  · rfl
  · exact core_xQueueSend _ s

theorem core_beepLoop (duration pause : Nat) (c : Bool) (fs : List Int) :
    ∀ (now : Nat) (s : Globals), core (beepLoop duration pause c fs now s) = core s := by
  induction fs with
  | nil => intro now s; rfl
  | cons f fs ih =>
    intro now s
    simp only [beepLoop]
    rw [ih, core_emit, core_playFeedbackTone]

theorem core_setState (st : TimerState) (s : Globals) :
    core (setState st s) = { core s with currentState := st } := by
  unfold setState
  split
  · rfl
  · rename_i h
    have h2 : s.currentState = st := Decidable.of_not_not h
    subst h2
    rfl

theorem core_stopSession (t : Tick) (s : Globals) :
    core (stopSession t s) = { core s with is_listening_active := false,
                                           currentState := TimerState.LIVE_FIRE_STOPPED } := by
  unfold stopSession playSuccessBeeps playUnsuccessBeeps
  simp only []
  split <;> rw [core_beepLoop, core_emit, core_emit, core_setState] <;> rfl

theorem core_refreshDisplay (now : Nat) (s : Globals) : core (refreshDisplay now s) = core s := by
  unfold refreshDisplay; split <;> rfl

theorem core_recordShot (shot now : Nat) (s : Globals) :
    core (recordShot shot now s) = (core s).record shot := rfl

theorem Stopped.refl (c : Core) : Stopped c c := Or.inl rfl

theorem Stopped.trans {a b c : Core} (h1 : Stopped a b) (h2 : Stopped b c) : Stopped a c := by
  rcases h1 with rfl | rfl <;> rcases h2 with rfl | rfl
  · exact Or.inl rfl
  · exact Or.inr rfl
  · exact Or.inr rfl
  · exact Or.inr rfl

theorem stopSession_Stopped (t : Tick) (s : Globals) : Stopped (core s) (core (stopSession t s)) :=
  Or.inr (core_stopSession t s)

theorem detectCond_mayDetect {now : Nat} {s : Globals} (h : detectCond now s) :
    (core s).mayDetect now :=
  ⟨h.2.1, h.2.2.1, h.2.2.2⟩

theorem liveFireDetect_core (t : Tick) (s : Globals) :
    ∃ c2, Detected t.now (core s) c2 ∧ Stopped c2 (core (liveFireDetect t s)) := by
  unfold liveFireDetect
  split
  · rename_i h
    refine ⟨(core s).record t.now, Or.inr ⟨detectCond_mayDetect h, rfl⟩, ?_⟩
    simp only []
    split
    · rw [← core_recordShot t.now t.now s]
      exact stopSession_Stopped t _
    · rw [core_recordShot]
      exact Stopped.refl _
  · refine ⟨core s, Or.inl rfl, ?_⟩
    split
    · rw [core_micResetPeak]
      exact Stopped.refl _
    · exact Stopped.refl _

theorem liveFireManualStop_core (t : Tick) (s : Globals) :
    Stopped (core s) (core (liveFireManualStop t s)) := by
  unfold liveFireManualStop
  split
  · have h := stopSession_Stopped t (resetActivityTimer t.now s)
    rwa [core_resetActivityTimer] at h
  · exact Stopped.refl _

theorem liveFireTimeoutStop_core (t : Tick) (s : Globals) :
    Stopped (core s) (core (liveFireTimeoutStop t s)) := by
  unfold liveFireTimeoutStop
  split
  · split
    · exact stopSession_Stopped t s
    · exact Stopped.refl _
  · exact Stopped.refl _

theorem core_peakOverall (s : Globals) :
    core (if s.peakRMSOverall < s.currentCyclePeakRMS then
            { s with peakRMSOverall := s.currentCyclePeakRMS } else s) = core s := by
  split <;> rfl

theorem core_liveFireSample (t : Tick) (s : Globals) : core (liveFireSample t s) = core s := by
  unfold liveFireSample
  simp only []
  rw [core_refreshDisplay, core_peakOverall, core_readMic]

theorem liveFireListening_core (t : Tick) (s : Globals) :
    ∃ c2, Detected t.now (core s) c2 ∧ Stopped c2 (core (liveFireListening t s)) := by
  unfold liveFireListening
  simp only []
  obtain ⟨c2, hd, hs⟩ := liveFireDetect_core t (liveFireSample t s)
  rw [core_liveFireSample] at hd
  exact ⟨c2, hd, (hs.trans (liveFireManualStop_core t _)).trans (liveFireTimeoutStop_core t _)⟩

/-- One call of `handleLiveFireTiming` acts on the session fields as a `LiveFireStep`. -/
theorem handleLiveFireTiming_step (t : Tick) (s : Globals) :
    LiveFireStep t.now (core s) (core (handleLiveFireTiming t s)) := by
  unfold handleLiveFireTiming
  split
  · exact Or.inl rfl
  · rename_i hst
    split
    · rename_i hl
      split
      · rename_i hb
        obtain ⟨c2, hd, hs⟩ :=
          liveFireListening_core t (micResetPeak { s with is_listening_active := true })
        rw [core_micResetPeak] at hd
        exact Or.inr ⟨Decidable.of_not_not hst, _, c2, Or.inr ⟨hl, hb.1, hb.2, rfl⟩, hd, hs⟩
      · exact Or.inl (core_refreshDisplay _ _)
    · rename_i hl
      obtain ⟨c2, hd, hs⟩ := liveFireListening_core t s
      exact Or.inr ⟨Decidable.of_not_not hst, core s, c2, Or.inl ⟨by simpa using hl, rfl⟩, hd, hs⟩

theorem noisyOpenWindow_core (t : Tick) (s : Globals) :
    Opened t.now (core s) (core (noisyOpenWindow t s)) := by
  unfold noisyOpenWindow
  split
  · rename_i h
    exact Or.inr ⟨h.1, detectCond_mayDetect h.2, rfl⟩
  · exact Or.inl rfl

theorem noisyRecoilCheck_core (t : Tick) (s : Globals) :
    ∃ c3, Resolved t.now (core s) c3 ∧ Stopped c3 (core (noisyRecoilCheck t s).1) := by
  unfold noisyRecoilCheck
  split
  · rename_i hc
    simp only []
    split
    · refine ⟨{ (core s).record (core s).lastSoundPeakTime with
                  checkingForRecoil := false, lastSoundPeakTime := 0 },
              Or.inr (Or.inl ⟨hc, rfl⟩), ?_⟩
      split
      · exact stopSession_Stopped t _
      · exact Stopped.refl _
    · split
      · rename_i hw
        exact ⟨_, Or.inr (Or.inr ⟨hc, hw, rfl⟩), Stopped.refl _⟩
      · exact ⟨core s, Or.inl rfl, Stopped.refl _⟩
  · split
    · exact ⟨core s, Or.inl rfl, Stopped.refl _⟩
    · exact ⟨core s, Or.inl rfl, Stopped.refl _⟩

theorem noisyStops_core (t : Tick) (s : Globals) :
    Stopped (core s) (core (noisyStops t s)) := by
  unfold noisyStops
  split
  · have h := stopSession_Stopped t (resetActivityTimer t.now s)
    rwa [core_resetActivityTimer] at h
  · split
    · split
      · exact stopSession_Stopped t s
      · exact Stopped.refl _
    · exact Stopped.refl _

theorem noisySample_core (t : Tick) (s : Globals) :
    Opened t.now (core s) (core (noisySample t s)) := by
  have ho := noisyOpenWindow_core t (readMic t (refreshDisplay t.now s))
  rw [core_readMic, core_refreshDisplay] at ho
  exact ho

theorem noisyListening_core (t : Tick) (s : Globals) :
    ∃ c2 c3, Opened t.now (core s) c2 ∧ Resolved t.now c2 c3 ∧
      Stopped c3 (core (noisyListening t s)) := by
  unfold noisyListening
  simp only []
  obtain ⟨c3, hr, hs⟩ := noisyRecoilCheck_core t (noisySample t s)
  refine ⟨_, c3, noisySample_core t s, hr, ?_⟩
  split
  · exact hs
  · exact hs.trans (noisyStops_core t _)

/-- One call of `handleNoisyRangeTiming` acts on the session fields as a `NoisyRangeStep`. -/
theorem handleNoisyRangeTiming_step (t : Tick) (s : Globals) :
    NoisyRangeStep t.now (core s) (core (handleNoisyRangeTiming t s)) := by
  unfold handleNoisyRangeTiming
  split
  · exact Or.inl rfl
  · rename_i hst
    split
    · rename_i hl
      split
      · rename_i hb
        obtain ⟨c2, c3, ho, hr, hs⟩ :=
          noisyListening_core t (micResetPeak { s with is_listening_active := true })
        rw [core_micResetPeak] at ho
        exact Or.inr ⟨Decidable.of_not_not hst, _, c2, c3, Or.inr ⟨hl, hb.1, hb.2, rfl⟩, ho, hr, hs⟩
      · exact Or.inl (core_refreshDisplay _ _)
    · rename_i hl
      obtain ⟨c2, c3, ho, hr, hs⟩ := noisyListening_core t s
      exact Or.inr ⟨Decidable.of_not_not hst, core s, c2, c3, Or.inl ⟨by simpa using hl, rfl⟩,
        ho, hr, hs⟩

/-! ## Theorems: the session invariant -/

theorem take_three {α : Type} (l : List α) (d : α) (h : 3 ≤ l.length) :
    l.take 3 = [l.getD 0 d, l.getD 1 d, l.getD 2 d] := by
  match l, h with
  | a :: b :: c :: _, _ => rfl
  | [], h => simp at h
  | [_], h => simp at h
  | [_, _], h => simp at h

theorem getD_set_eq {α : Type} (l : List α) (i : Nat) (a d : α) (h : i < l.length) :
    (l.set i a).getD i d = a := by
  simp [List.getD_eq_getElem?_getD, List.getElem?_set, h]

theorem getD_set_ne {α : Type} (l : List α) (i j : Nat) (a d : α) (h : i ≠ j) :
    (l.set i a).getD j d = l.getD j d := by
  simp [List.getD_eq_getElem?_getD, List.getElem?_set, h]

theorem SessionInv.mono {c : Core} {lo now : Nat} (h : SessionInv c lo) (h1 : lo ≤ now)
    (h2 : now < ULONG_MOD) : SessionInv c now :=
  { h with
    lo_lt := h2
    listening := fun hl => ⟨le_trans (h.listening hl).1 h1, le_trans (h.listening hl).2 h1⟩
    det_le := le_trans h.det_le h1
    window := fun hw => ⟨(h.window hw).1, (h.window hw).2.1, (h.window hw).2.2.1,
      le_trans (h.window hw).2.2.2.1 h1, (h.window hw).2.2.2.2⟩ }

theorem SessionInv.activated {c c1 : Core} {now : Nat} (h : SessionInv c now)
    (ha : Activated now c c1) : SessionInv c1 now ∧ c1.is_listening_active = true := by
  rcases ha with ⟨hl, rfl⟩ | ⟨_, hb, hs, rfl⟩
  · exact ⟨h, hl⟩
  · exact ⟨{ h with listening := fun _ => ⟨hb, hs⟩ }, rfl⟩

theorem SessionInv.stopped {c c1 : Core} {lo : Nat} (h : SessionInv c lo)
    (hs : Stopped c c1) : SessionInv c1 lo := by
  rcases hs with rfl | rfl
  · exact h
  · exact { h with listening := fun hl => by simp at hl }

theorem SessionInv.record {c : Core} {lo shot : Nat} (h : SessionInv c lo)
    (hcnt : (c.shotCount : Int) < c.currentMaxShots) (hstart : 0 < c.startTime)
    (h1 : c.startTime ≤ shot) (h2 : shot ≤ lo)
    (h3 : c.lastDetectionTime + SHOT_REFRACTORY_MS < shot) (a : Nat) :
    SessionInv { c.record shot with checkingForRecoil := false, lastSoundPeakTime := a } lo := by
  have hm : c.currentMaxShots ≤ 20 := h.max_le
  have hlo : lo < 4294967296 := h.lo_lt
  have hlt : c.shotCount < c.shotTimestamps.length := by
    rw [h.len_ts]; unfold MAX_SHOTS_LIMIT; omega
  have hls : c.shotCount < c.splitTimes.length := by
    rw [h.len_sp]; unfold MAX_SHOTS_LIMIT; omega
  have h3n : c.lastDetectionTime + 150 < shot := h3
  refine
    { lo_lt := h.lo_lt
      len_ts := ?_
      len_sp := ?_
      max_le := h.max_le
      count_le := ?_
      listening := h.listening
      det_le := h2
      last := ?_
      first := ?_
      spaced := ?_
      split0 := ?_
      splits := ?_
      window := ?_ }
  · simp only [Core.record, List.length_set]; exact h.len_ts
  · simp only [Core.record, List.length_set]; exact h.len_sp
  · simp only [Core.record]; push_cast; omega
  · intro _
    simp only [Core.record, Nat.add_sub_cancel]
    exact ⟨(getD_set_eq _ _ _ _ hlt).symm, trivial, by omega, hstart⟩
  · intro _
    simp only [Core.record]
    by_cases h0 : c.shotCount = 0
    · rw [h0, getD_set_eq _ _ _ _ (by omega)]; exact h1
    · rw [getD_set_ne _ _ _ _ _ h0]; exact h.first (by omega)
  · intro i hi
    simp only [Core.record] at hi ⊢
    by_cases hic : i + 1 = c.shotCount
    · rw [getD_set_ne _ _ _ _ _ (by omega : c.shotCount ≠ i), hic, getD_set_eq _ _ _ _ hlt]
      have hl := h.last (by omega)
      have hi' : i = c.shotCount - 1 := by omega
      rw [hi', ← hl.1, ← hl.2.1]
      exact h3
    · rw [getD_set_ne _ _ _ _ _ (by omega : c.shotCount ≠ i),
        getD_set_ne _ _ _ _ _ (by omega : c.shotCount ≠ i + 1)]
      exact h.spaced i (by omega)
  · intro _
    simp only [Core.record]
    by_cases h0 : c.shotCount = 0
    · have hu : usub shot c.startTime = shot - c.startTime := usub_of_le _ _ h1 (by omega)
      rw [h0, getD_set_eq _ _ _ _ (by omega), getD_set_eq _ _ _ _ (by omega)]
      simp only [Core.split, h0, if_true, hu]
    · rw [getD_set_ne _ _ _ _ _ h0, getD_set_ne _ _ _ _ _ h0]
      exact h.split0 (by omega)
  · intro i hi0 hi
    simp only [Core.record] at hi ⊢
    by_cases hic : i = c.shotCount
    · subst hic
      have hl := h.last hi0
      have hle : c.lastShotTimestamp ≤ shot := by omega
      have hu : usub shot c.lastShotTimestamp = shot - c.lastShotTimestamp :=
        usub_of_le _ _ hle (by omega)
      rw [getD_set_eq _ _ _ _ hls, getD_set_eq _ _ _ _ hlt,
        getD_set_ne _ _ _ _ _ (by omega : c.shotCount ≠ c.shotCount - 1), ← hl.1]
      simp only [Core.split, if_neg (by omega : ¬ c.shotCount = 0), if_pos hl.2.2.1, hu]
    · rw [getD_set_ne _ _ _ _ _ (by omega : c.shotCount ≠ i),
        getD_set_ne _ _ _ _ _ (by omega : c.shotCount ≠ i),
        getD_set_ne _ _ _ _ _ (by omega : c.shotCount ≠ i - 1)]
      exact h.splits i hi0 (by omega)
  · intro hw
    simp at hw

theorem Core.record_closed (c : Core) (shot : Nat) (h : c.checkingForRecoil = false) :
    c.record shot
      = { c.record shot with checkingForRecoil := false,
                             lastSoundPeakTime := c.lastSoundPeakTime } := by
  cases c
  simp_all [Core.record]

theorem mayDetect_spacing {c : Core} {now : Nat} (h : SessionInv c now)
    (hd : c.mayDetect now) : c.lastDetectionTime + SHOT_REFRACTORY_MS < now := by
  have h1 := hd.1
  rw [usub_of_le _ _ h.det_le h.lo_lt] at h1
  have h2 := h.det_le
  omega

theorem SessionInv.detected {c1 c2 : Core} {now : Nat} (h : SessionInv c1 now)
    (hl : c1.is_listening_active = true) (hc : c1.checkingForRecoil = false)
    (hd : Detected now c1 c2) : SessionInv c2 now ∧ c2.checkingForRecoil = false := by
  rcases hd with rfl | ⟨hm, rfl⟩
  · exact ⟨h, hc⟩
  · rw [Core.record_closed c1 now hc]
    exact ⟨h.record hm.2.1 hm.2.2 (h.listening hl).2 le_rfl (mayDetect_spacing h hm) _, rfl⟩

theorem SessionInv.opened {c1 c2 : Core} {now : Nat} (h : SessionInv c1 now)
    (hl : c1.is_listening_active = true) (ho : Opened now c1 c2) : SessionInv c2 now := by
  rcases ho with rfl | ⟨_, hm, rfl⟩
  · exact h
  · have hsp := mayDetect_spacing h hm
    have hst := (h.listening hl).2
    exact { h with window := fun _ => ⟨hm.2.1, hm.2.2, hst, le_rfl, hsp⟩ }

theorem SessionInv.resolved {c2 c3 : Core} {now : Nat} (h : SessionInv c2 now)
    (hr : Resolved now c2 c3) : SessionInv c3 now := by
  rcases hr with rfl | ⟨hc, rfl⟩ | ⟨_, _, rfl⟩
  · exact h
  · have hw := h.window hc
    exact h.record hw.1 hw.2.1 hw.2.2.1 hw.2.2.2.1 hw.2.2.2.2 0
  · exact { h with window := fun hw => by simp at hw }

theorem SessionInv.liveFireStep {c c4 : Core} {lo now : Nat} (h : SessionInv c lo)
    (hc : c.checkingForRecoil = false) (h1 : lo ≤ now) (h2 : now < ULONG_MOD)
    (hs : LiveFireStep now c c4) : SessionInv c4 now ∧ c4.checkingForRecoil = false := by
  have hn := h.mono h1 h2
  rcases hs with rfl | ⟨_, c1, c2, ha, hd, hst⟩
  · exact ⟨hn, hc⟩
  · have hc1 : c1.checkingForRecoil = false := by
      rcases ha with ⟨_, rfl⟩ | ⟨_, _, _, rfl⟩ <;> exact hc
    obtain ⟨hi1, hl1⟩ := hn.activated ha
    obtain ⟨hi2, hc2⟩ := hi1.detected hl1 hc1 hd
    refine ⟨hi2.stopped hst, ?_⟩
    rcases hst with rfl | rfl <;> exact hc2

theorem SessionInv.noisyRangeStep {c c4 : Core} {lo now : Nat} (h : SessionInv c lo)
    (h1 : lo ≤ now) (h2 : now < ULONG_MOD)
    (hs : NoisyRangeStep now c c4) : SessionInv c4 now := by
  have hn := h.mono h1 h2
  rcases hs with rfl | ⟨_, c1, c2, c3, ha, ho, hr, hst⟩
  · exact hn
  · obtain ⟨hi1, hl1⟩ := hn.activated ha
    exact ((hi1.opened hl1 ho).resolved hr).stopped hst

/-- The session invariant is kept by one tick of either handler; a Live Fire session never
opens a recoil window. -/
theorem timingTick_SessionInv (m : Mode) (t : Tick) (s : Globals) (lo : Nat)
    (h : SessionInv (core s) lo) (hc : m = Mode.liveFire → s.checkingForRecoil = false)
    (h1 : lo ≤ t.now) (h2 : t.now < ULONG_MOD) :
    SessionInv (core (timingTick m t s)) t.now
      ∧ (m = Mode.liveFire → (timingTick m t s).checkingForRecoil = false) := by
  cases m with
  | liveFire =>
    have := h.liveFireStep (hc rfl) h1 h2 (handleLiveFireTiming_step t s)
    exact ⟨this.1, fun _ => this.2⟩
  | noisyRange =>
    exact ⟨h.noisyRangeStep h1 h2 (handleNoisyRangeTiming_step t s), fun hm => by cases hm⟩

theorem runTiming_SessionInv (m : Mode) (ticks : List Tick) :
    ∀ (s : Globals) (lo hi : Nat), SessionInv (core s) lo →
      (m = Mode.liveFire → s.checkingForRecoil = false) →
      List.Pairwise (fun a b : Tick => a.now ≤ b.now) ticks →
      (∀ t ∈ ticks, lo ≤ t.now ∧ t.now ≤ hi) → lo ≤ hi → hi < ULONG_MOD →
      SessionInv (core (runTiming m s ticks)) hi := by
  induction ticks with
  | nil =>
    intro s lo hi h _ _ _ h1 h2
    exact h.mono h1 h2
  | cons t ts ih =>
    intro s lo hi h hc hp hb h1 h2
    have ht := hb t (List.mem_cons_self _ _)
    obtain ⟨hi1, hc1⟩ := timingTick_SessionInv m t s lo h hc ht.1 (lt_of_le_of_lt ht.2 h2)
    rw [List.pairwise_cons] at hp
    exact ih (timingTick m t s) t.now hi hi1 hc1 hp.2
      (fun x hx => ⟨hp.1 x hx, (hb x (List.mem_cons_of_mem _ hx)).2⟩) ht.2 h2

/-! ## Theorems: the state left by GetReady -/

theorem playTone_currentMaxShots (f d : Int) (now : Nat) (c : Bool) (s : Globals) :
    (playTone f d now c s).currentMaxShots = s.currentMaxShots := by
  unfold playTone xQueueSend; split <;> [rfl; (split <;> rfl)]

/-- The session fields left by the GetReady handler of either mode. -/
theorem core_getReady (m : Mode) (now : Nat) (connected : Bool) (g : Globals) :
    core (getReady m now connected g)
      = { currentState := m.timingState,
          startTime := uadd now POST_BEEP_DELAY_MS,
          beep_audio_end_time := computeAudioEndTime now connected g,
          currentMaxShots := g.currentMaxShots,
          is_listening_active := false,
          shotCount := 0,
          shotTimestamps := List.replicate MAX_SHOTS_LIMIT 0,
          splitTimes := List.replicate MAX_SHOTS_LIMIT 0,
          lastShotTimestamp := 0,
          lastDetectionTime := 0,
          lastSoundPeakTime := 0,
          checkingForRecoil := false } := by
  cases m with
  | liveFire =>
    simp only [getReady, handleLiveFireGetReady, core_setState, Mode.timingState]
    simp only [core, emit, resetShotData, micResetPeak, computeAudioEndTime,
      playTone_currentBeepDuration, playTone_offset, playTone_currentMaxShots, resetActivityTimer]
  | noisyRange =>
    have h : ∀ s : Globals, core { s with redrawMenu := true } = core s := fun _ => rfl
    simp only [getReady, handleNoisyRangeGetReady, h, core_setState, Mode.timingState]
    simp only [core, emit, resetShotData, micResetPeak, computeAudioEndTime,
      playTone_currentBeepDuration, playTone_offset, playTone_currentMaxShots, resetActivityTimer]

/-- GetReady establishes the session invariant for a configured maximum of at most
`MAX_SHOTS_LIMIT`. -/
theorem getReady_SessionInv (m : Mode) (now : Nat) (connected : Bool) (g : Globals)
    (h1 : g.currentMaxShots ≤ (MAX_SHOTS_LIMIT : Int)) :
    SessionInv (core (getReady m now connected g)) 0 := by
  rw [core_getReady]
  exact
    { lo_lt := by decide
      len_ts := List.length_replicate _ _
      len_sp := List.length_replicate _ _
      max_le := h1
      count_le := le_max_right _ _
      listening := fun h => (by cases h)
      det_le := le_rfl
      last := fun h => absurd h (lt_irrefl 0)
      first := fun h => absurd h (lt_irrefl 0)
      spaced := fun i h => absurd h (Nat.not_lt_zero _)
      split0 := fun h => absurd h (lt_irrefl 0)
      splits := fun i _ h => absurd h (Nat.not_lt_zero _)
      window := fun h => (by cases h) }

theorem getReady_checkingForRecoil (m : Mode) (now : Nat) (connected : Bool) (g : Globals) :
    (getReady m now connected g).checkingForRecoil = false := by
  have h := congrArg Core.checkingForRecoil (core_getReady m now connected g)
  exact h

/-- Every state of a session driven by a monotone clock satisfies the session invariant. -/
theorem session_SessionInv (m : Mode) (now : Nat) (connected : Bool) (g : Globals)
    (ticks : List Tick)
    (h1 : g.currentMaxShots ≤ (MAX_SHOTS_LIMIT : Int)) (hclock : monotoneClock ticks) :
    ∃ hi, SessionInv (core (session m now connected g ticks)) hi := by
  obtain ⟨hi, hhi, hb⟩ : ∃ hi, hi < ULONG_MOD ∧ ∀ t ∈ ticks, t.now ≤ hi := by
    refine ⟨(ticks.map Tick.now).foldr max 0, ?_, ?_⟩
    · have hall := hclock.2
      clear hclock
      induction ticks with
      | nil => decide
      | cons t ts ih =>
        simp only [List.map_cons, List.foldr_cons]
        exact max_lt (hall t (List.mem_cons_self _ _))
          (ih (fun x hx => hall x (List.mem_cons_of_mem _ hx)))
    · clear hclock
      induction ticks with
      | nil => intro t ht; cases ht
      | cons t ts ih =>
        intro x hx
        simp only [List.map_cons, List.foldr_cons]
        rcases List.mem_cons.mp hx with rfl | hx
        · exact le_max_left _ _
        · exact le_trans (ih x hx) (le_max_right _ _)
  exact ⟨hi, runTiming_SessionInv m ticks _ 0 hi (getReady_SessionInv m now connected g h1)
    (fun _ => getReady_checkingForRecoil m now connected g) hclock.1
    (fun t ht => ⟨Nat.zero_le _, hb t ht⟩) (Nat.zero_le _) hhi⟩

/-! ## Theorems: fields that a session never changes -/

theorem Stopped.stopped_frame {c c1 : Core} (h : Stopped c c1) :
    c1.startTime = c.startTime ∧ c1.beep_audio_end_time = c.beep_audio_end_time ∧
    c1.currentMaxShots = c.currentMaxShots ∧ c1.shotCount = c.shotCount ∧
    c1.checkingForRecoil = c.checkingForRecoil := by
  rcases h with rfl | rfl <;> exact ⟨rfl, rfl, rfl, rfl, rfl⟩

theorem Activated.activated_frame {now : Nat} {c c1 : Core} (h : Activated now c c1) :
    c1.startTime = c.startTime ∧ c1.beep_audio_end_time = c.beep_audio_end_time ∧
    c1.currentMaxShots = c.currentMaxShots ∧ c1.shotCount = c.shotCount ∧
    c1.checkingForRecoil = c.checkingForRecoil ∧ c1.currentState = c.currentState := by
  rcases h with ⟨_, rfl⟩ | ⟨_, _, _, rfl⟩ <;> exact ⟨rfl, rfl, rfl, rfl, rfl, rfl⟩

theorem Detected.detected_frame {now : Nat} {c c1 : Core} (h : Detected now c c1) :
    c1.startTime = c.startTime ∧ c1.beep_audio_end_time = c.beep_audio_end_time ∧
    c1.currentMaxShots = c.currentMaxShots := by
  rcases h with rfl | ⟨_, rfl⟩ <;> exact ⟨rfl, rfl, rfl⟩

theorem Opened.opened_frame {now : Nat} {c c1 : Core} (h : Opened now c c1) :
    c1.startTime = c.startTime ∧ c1.beep_audio_end_time = c.beep_audio_end_time ∧
    c1.currentMaxShots = c.currentMaxShots ∧ c1.shotCount = c.shotCount := by
  rcases h with rfl | ⟨_, _, rfl⟩ <;> exact ⟨rfl, rfl, rfl, rfl⟩

theorem Resolved.resolved_frame {now : Nat} {c c1 : Core} (h : Resolved now c c1) :
    c1.startTime = c.startTime ∧ c1.beep_audio_end_time = c.beep_audio_end_time ∧
    c1.currentMaxShots = c.currentMaxShots := by
  rcases h with rfl | ⟨_, rfl⟩ | ⟨_, _, rfl⟩ <;> exact ⟨rfl, rfl, rfl⟩

theorem LiveFireStep.liveFire_frame {now : Nat} {c c4 : Core} (h : LiveFireStep now c c4) :
    c4.startTime = c.startTime ∧ c4.beep_audio_end_time = c.beep_audio_end_time ∧
    c4.currentMaxShots = c.currentMaxShots := by
  rcases h with rfl | ⟨_, c1, c2, ha, hd, hs⟩
  · exact ⟨rfl, rfl, rfl⟩
  · have h1 := ha.activated_frame
    have h2 := hd.detected_frame
    have h3 := hs.stopped_frame
    exact ⟨by rw [h3.1, h2.1, h1.1], by rw [h3.2.1, h2.2.1, h1.2.1],
      by rw [h3.2.2.1, h2.2.2, h1.2.2.1]⟩

theorem NoisyRangeStep.noisy_frame {now : Nat} {c c4 : Core} (h : NoisyRangeStep now c c4) :
    c4.startTime = c.startTime ∧ c4.beep_audio_end_time = c.beep_audio_end_time ∧
    c4.currentMaxShots = c.currentMaxShots := by
  rcases h with rfl | ⟨_, c1, c2, c3, ha, ho, hr, hs⟩
  · exact ⟨rfl, rfl, rfl⟩
  · have h1 := ha.activated_frame
    have h2 := ho.opened_frame
    have h3 := hr.resolved_frame
    have h4 := hs.stopped_frame
    exact ⟨by rw [h4.1, h3.1, h2.1, h1.1], by rw [h4.2.1, h3.2.1, h2.2.1, h1.2.1],
      by rw [h4.2.2.1, h3.2.2, h2.2.2.1, h1.2.2.1]⟩

theorem timingTick_frame (m : Mode) (t : Tick) (s : Globals) :
    (timingTick m t s).startTime = s.startTime ∧
    (timingTick m t s).beep_audio_end_time = s.beep_audio_end_time ∧
    (timingTick m t s).currentMaxShots = s.currentMaxShots := by
  cases m with
  | liveFire => exact (handleLiveFireTiming_step t s).liveFire_frame
  | noisyRange => exact (handleNoisyRangeTiming_step t s).noisy_frame

theorem runTiming_frame (m : Mode) (ticks : List Tick) :
    ∀ s : Globals, (runTiming m s ticks).startTime = s.startTime ∧
      (runTiming m s ticks).beep_audio_end_time = s.beep_audio_end_time ∧
      (runTiming m s ticks).currentMaxShots = s.currentMaxShots := by
  induction ticks with
  | nil => intro s; exact ⟨rfl, rfl, rfl⟩
  | cons t ts ih =>
    intro s
    have h1 := ih (timingTick m t s)
    have h2 := timingTick_frame m t s
    exact ⟨h1.1.trans h2.1, h1.2.1.trans h2.2.1, h1.2.2.trans h2.2.2⟩

theorem session_startTime (m : Mode) (issueTime : Nat) (connected : Bool) (g : Globals)
    (ticks : List Tick) :
    (session m issueTime connected g ticks).startTime = uadd issueTime POST_BEEP_DELAY_MS := by
  unfold session
  rw [(runTiming_frame m ticks _).1]
  exact congrArg Core.startTime (core_getReady m issueTime connected g)

/-! ## Theorems: spacing of the shots and split times -/

/-- C2: in every session of either mode driven by a monotone clock, consecutive recorded
timestamps are at least `SHOT_REFRACTORY_MS` apart, hence strictly increasing. -/
theorem refractory_spacing (m : Mode) (issueTime : Nat) (connected : Bool) (g : Globals)
    (ticks : List Tick) (hmax : g.currentMaxShots ≤ (MAX_SHOTS_LIMIT : Int))
    (hclock : monotoneClock ticks) (i : Nat)
    (hi : i + 1 < (session m issueTime connected g ticks).shotCount) :
    (session m issueTime connected g ticks).shotTimestamps.getD i 0 + SHOT_REFRACTORY_MS
        ≤ (session m issueTime connected g ticks).shotTimestamps.getD (i + 1) 0
    ∧ (session m issueTime connected g ticks).shotTimestamps.getD i 0
        < (session m issueTime connected g ticks).shotTimestamps.getD (i + 1) 0
    ∧ i + 1 < (session m issueTime connected g ticks).shotTimestamps.length := by
  obtain ⟨lo, h⟩ := session_SessionInv m issueTime connected g ticks hmax hclock
  generalize session m issueTime connected g ticks = s at h hi ⊢
  have h1 : s.shotTimestamps.getD i 0 + SHOT_REFRACTORY_MS < s.shotTimestamps.getD (i + 1) 0 :=
    h.spaced i hi
  have h2 : (s.shotCount : Int) ≤ max s.currentMaxShots 0 := h.count_le
  have h3 : s.currentMaxShots ≤ 20 := h.max_le
  have h4 : s.shotTimestamps.length = 20 := h.len_ts
  exact ⟨le_of_lt h1, by omega, by omega⟩

/-- A Live Fire session with three loud ticks at 1800, 1900 and 2000 ms records the shots
1800 and 2000: the tick at 1900 is inside the refractory period. -/
theorem refractory_spacing_example :
    monotoneClock loudTicks
      ∧ 0 + 1 < (session Mode.liveFire 1000 false defaultGlobals loudTicks).shotCount
      ∧ (session Mode.liveFire 1000 false defaultGlobals loudTicks).shotTimestamps.getD 0 0
          + SHOT_REFRACTORY_MS
          ≤ (session Mode.liveFire 1000 false defaultGlobals loudTicks).shotTimestamps.getD (0 + 1) 0 :=
  ⟨by decide, by decide,
   (refractory_spacing Mode.liveFire 1000 false defaultGlobals loudTicks (by decide) (by decide)
      0 (by decide)).1⟩

/-- C3 (as amended): in every session of either mode driven by a monotone clock, the first
split is the single-precision result of `(shotTimestamps[0] - startTime) / 1000.0f`, every
later split that of the difference of two consecutive timestamps over `1000.0f`, neither
subtraction wraps, and the last shot timestamp of a state with a recorded shot is positive
(the fallback split `0.0` is not stored). The quotient is rounded to binary32: every split is
within `2^-22` of the exact quotient of the millisecond difference by 1000. -/
theorem split_times_single_precision (m : Mode) (issueTime : Nat) (connected : Bool)
    (g : Globals) (ticks : List Tick) (hmax : g.currentMaxShots ≤ (MAX_SHOTS_LIMIT : Int))
    (hclock : monotoneClock ticks) :
    (session m issueTime connected g ticks).startTime = uadd issueTime POST_BEEP_DELAY_MS
    ∧ (0 < (session m issueTime connected g ticks).shotCount →
        (session m issueTime connected g ticks).splitTimes.getD 0 0
          = toFloat32 (toFloat32 (((session m issueTime connected g ticks).shotTimestamps.getD 0 0 - (session m issueTime connected g ticks).startTime : Nat) : Rat) / 1000)
        ∧ (session m issueTime connected g ticks).startTime ≤ (session m issueTime connected g ticks).shotTimestamps.getD 0 0
        ∧ 0 < (session m issueTime connected g ticks).lastShotTimestamp)
    ∧ (∀ i, 0 < i → i < (session m issueTime connected g ticks).shotCount →
        (session m issueTime connected g ticks).splitTimes.getD i 0
          = toFloat32 (toFloat32
              (((session m issueTime connected g ticks).shotTimestamps.getD i 0 - (session m issueTime connected g ticks).shotTimestamps.getD (i - 1) 0 : Nat) : Rat)
              / 1000)
        ∧ (session m issueTime connected g ticks).shotTimestamps.getD (i - 1) 0 < (session m issueTime connected g ticks).shotTimestamps.getD i 0
        ∧ i < (session m issueTime connected g ticks).splitTimes.length)
    ∧ (∀ i, i < (session m issueTime connected g ticks).shotCount →
        |(session m issueTime connected g ticks).splitTimes.getD i 0
            - (((session m issueTime connected g ticks).shotTimestamps.getD i 0
                - (if i = 0 then (session m issueTime connected g ticks).startTime
                   else (session m issueTime connected g ticks).shotTimestamps.getD (i - 1) 0)
                : Nat) : Rat) / 1000|
          ≤ (((session m issueTime connected g ticks).shotTimestamps.getD i 0
                - (if i = 0 then (session m issueTime connected g ticks).startTime
                   else (session m issueTime connected g ticks).shotTimestamps.getD (i - 1) 0)
                : Nat) : Rat) / 1000 / 4194304) := by
  obtain ⟨lo, h⟩ := session_SessionInv m issueTime connected g ticks hmax hclock
  refine ⟨session_startTime m issueTime connected g ticks, ?_, ?_, ?_⟩
  · intro hc
    exact ⟨h.split0 hc, h.first hc, (h.last hc).2.2.1⟩
  rotate_left
  · intro i hi
    by_cases hi0 : i = 0
    · subst hi0
      have e : (session m issueTime connected g ticks).splitTimes.getD 0 0
          = secondsOfMillis ((session m issueTime connected g ticks).shotTimestamps.getD 0 0
              - (session m issueTime connected g ticks).startTime) := h.split0 hi
      rw [if_pos rfl, e]
      exact secondsOfMillis_err _
    · have e : (session m issueTime connected g ticks).splitTimes.getD i 0
          = secondsOfMillis ((session m issueTime connected g ticks).shotTimestamps.getD i 0
              - (session m issueTime connected g ticks).shotTimestamps.getD (i - 1) 0) :=
        h.splits i (by omega) hi
      rw [if_neg hi0, e]
      exact secondsOfMillis_err _
  · generalize session m issueTime connected g ticks = s at h ⊢
    intro i hi0 hi
    have h1 : s.shotTimestamps.getD (i - 1) 0 + SHOT_REFRACTORY_MS
        < s.shotTimestamps.getD (i - 1 + 1) 0 :=
      h.spaced (i - 1) (by rw [Nat.sub_add_cancel hi0]; exact hi)
    rw [Nat.sub_add_cancel hi0] at h1
    have h2 : (s.shotCount : Int) ≤ max s.currentMaxShots 0 := h.count_le
    have h3 : s.currentMaxShots ≤ 20 := h.max_le
    have h4 : s.splitTimes.length = 20 := h.len_sp
    exact ⟨h.splits i hi0 hi, by omega, by omega⟩

/-- Under the monotone clock of `loudTicks` the first split is measured from `startTime`:
the shot at 1800 ms, 50 ms after `startTime`, has the split `0.05f`. -/
theorem split_times_single_precision_example :
    monotoneClock loudTicks
      ∧ (0 < (session Mode.liveFire 1000 false defaultGlobals loudTicks).shotCount →
          (session Mode.liveFire 1000 false defaultGlobals loudTicks).splitTimes.getD 0 0
            = toFloat32 (toFloat32 (((session Mode.liveFire 1000 false defaultGlobals loudTicks).shotTimestamps.getD 0 0 - (session Mode.liveFire 1000 false defaultGlobals loudTicks).startTime : Nat) : Rat) / 1000)
          ∧ (session Mode.liveFire 1000 false defaultGlobals loudTicks).startTime ≤ (session Mode.liveFire 1000 false defaultGlobals loudTicks).shotTimestamps.getD 0 0
          ∧ 0 < (session Mode.liveFire 1000 false defaultGlobals loudTicks).lastShotTimestamp)
      ∧ (session Mode.liveFire 1000 false defaultGlobals loudTicks).shotTimestamps.getD 0 0 - (session Mode.liveFire 1000 false defaultGlobals loudTicks).startTime = 50
      ∧ (toFloat32 (toFloat32 ((50 : Nat) : Rat) / 1000)).num = 13421773
      ∧ (toFloat32 (toFloat32 ((50 : Nat) : Rat) / 1000)).den = 268435456 :=
  ⟨by decide,
   (split_times_single_precision Mode.liveFire 1000 false defaultGlobals loudTicks (by decide)
      (by decide)).2.1,
   by with_unfolding_all decide, by with_unfolding_all decide, by with_unfolding_all decide⟩

/-- C3 fails as stated in two ways. The stored split is a binary32 quotient, not the exact
one: in the session of `loudTicks` the second shot comes 200 ms after the first and its split
is `13421773/67108864`, not `200/1000`. And when the millisecond counter wraps inside a
session the fallback is taken: with the start cue at `2^32 - 1000` and loud ticks at
`2^32 - 200`, `0` and `200`, the second shot is stamped 0, so the third shot takes the
fallback branch and its split is 0. -/
theorem split_times_rounded_and_fallback :
    (session Mode.liveFire 1000 false defaultGlobals loudTicks).shotTimestamps.getD 1 0 - (session Mode.liveFire 1000 false defaultGlobals loudTicks).shotTimestamps.getD 0 0 = 200
      ∧ ((session Mode.liveFire 1000 false defaultGlobals loudTicks).splitTimes.getD 1 0).num = 13421773
      ∧ ((session Mode.liveFire 1000 false defaultGlobals loudTicks).splitTimes.getD 1 0).den = 67108864
      ∧ (session Mode.liveFire 1000 false defaultGlobals loudTicks).splitTimes.getD 1 0 ≠ (((200 : Nat) : Rat)) / 1000
      ∧ (session Mode.liveFire 4294966296 false defaultGlobals wrapTicks).shotCount = 3
      ∧ (session Mode.liveFire 4294966296 false defaultGlobals (wrapTicks.take 2)).lastShotTimestamp = 0
      ∧ (session Mode.liveFire 4294966296 false defaultGlobals wrapTicks).shotTimestamps.getD 1 0 = 0
      ∧ (session Mode.liveFire 4294966296 false defaultGlobals wrapTicks).shotTimestamps.getD 2 0 = 200
      ∧ (session Mode.liveFire 4294966296 false defaultGlobals wrapTicks).splitTimes.getD 2 0 = 0
      ∧ (session Mode.liveFire 4294966296 false defaultGlobals wrapTicks).splitTimes.getD 2 0 ≠ toFloat32 (toFloat32 (((200 - 0 : Nat)) : Rat) / 1000) := by
  have h2 : ((session Mode.liveFire 1000 false defaultGlobals loudTicks).splitTimes.getD 1 0).den = 67108864 := by with_unfolding_all decide
  have h5 : (session Mode.liveFire 4294966296 false defaultGlobals wrapTicks).splitTimes.getD 2 0 = 0 := by with_unfolding_all decide
  have h6 : (toFloat32 (toFloat32 (((200 - 0 : Nat)) : Rat) / 1000)).num = 13421773 := by
    with_unfolding_all decide
  refine ⟨by with_unfolding_all decide, by with_unfolding_all decide, h2, ?_, by decide,
    by decide, by decide, by decide, h5, ?_⟩
  · intro h
    rw [h] at h2
    norm_num at h2
  · rw [h5]
    intro h
    rw [← h] at h6
    norm_num at h6

/-! ## Theorems: the audio-completion barrier -/

theorem Activated.activated_listening {now : Nat} {c c1 : Core} (h : Activated now c c1) :
    c1.is_listening_active = true ∧
    (c.is_listening_active = true ∨ (c.beep_audio_end_time ≤ now ∧ c.startTime ≤ now)) := by
  rcases h with ⟨hl, rfl⟩ | ⟨_, hb, hs, rfl⟩
  · exact ⟨hl, Or.inl hl⟩
  · exact ⟨rfl, Or.inr ⟨hb, hs⟩⟩

theorem LiveFireStep.liveFire_listening {now : Nat} {c c4 : Core} (h : LiveFireStep now c c4)
    (hl : c4.is_listening_active = true) :
    c.is_listening_active = true ∨ (c.beep_audio_end_time ≤ now ∧ c.startTime ≤ now) := by
  rcases h with rfl | ⟨_, c1, c2, ha, _, _⟩
  · exact Or.inl hl
  · exact ha.activated_listening.2

theorem NoisyRangeStep.noisy_listening {now : Nat} {c c4 : Core} (h : NoisyRangeStep now c c4)
    (hl : c4.is_listening_active = true) :
    c.is_listening_active = true ∨ (c.beep_audio_end_time ≤ now ∧ c.startTime ≤ now) := by
  rcases h with rfl | ⟨_, c1, c2, c3, ha, _, _, _⟩
  · exact Or.inl hl
  · exact ha.activated_listening.2

/-- Listening is set on a tick only if it was set before or the tick is past the barrier. -/
theorem timingTick_listening (m : Mode) (t : Tick) (s : Globals)
    (hl : (timingTick m t s).is_listening_active = true) :
    s.is_listening_active = true ∨ (s.beep_audio_end_time ≤ t.now ∧ s.startTime ≤ t.now) := by
  cases m with
  | liveFire => exact (handleLiveFireTiming_step t s).liveFire_listening hl
  | noisyRange => exact (handleNoisyRangeTiming_step t s).noisy_listening hl

theorem runTiming_barrier (m : Mode) (ticks : List Tick) :
    ∀ (s : Globals) (lo hi : Nat),
      (s.is_listening_active = true → s.beep_audio_end_time ≤ lo ∧ s.startTime ≤ lo) →
      List.Pairwise (fun a b : Tick => a.now ≤ b.now) ticks →
      (∀ t ∈ ticks, lo ≤ t.now ∧ t.now ≤ hi) → lo ≤ hi →
      (runTiming m s ticks).is_listening_active = true →
      (runTiming m s ticks).beep_audio_end_time ≤ hi ∧ (runTiming m s ticks).startTime ≤ hi := by
  induction ticks with
  | nil =>
    intro s lo hi h _ _ h1 hl
    exact ⟨le_trans (h hl).1 h1, le_trans (h hl).2 h1⟩
  | cons t ts ih =>
    intro s lo hi h hp hb h1 hl
    have ht := hb t (List.mem_cons_self _ _)
    rw [List.pairwise_cons] at hp
    have hf := timingTick_frame m t s
    refine ih (timingTick m t s) t.now hi ?_ hp.2
      (fun x hx => ⟨hp.1 x hx, (hb x (List.mem_cons_of_mem _ hx)).2⟩) ht.2 hl
    intro hl1
    rw [hf.1, hf.2.1]
    rcases timingTick_listening m t s hl1 with h2 | h2
    · exact ⟨le_trans (h h2).1 ht.1, le_trans (h h2).2 ht.1⟩
    · exact h2

theorem getReady_is_listening_active (m : Mode) (now : Nat) (connected : Bool) (g : Globals) :
    (getReady m now connected g).is_listening_active = false :=
  congrArg Core.is_listening_active (core_getReady m now connected g)

theorem sensorReads_refreshDisplay (now : Nat) (s : Globals) :
    sensorReads (refreshDisplay now s) = sensorReads s := by
  unfold refreshDisplay
  split
  · simp [sensorReads, emit, isSensorRead, List.filter_append]
  · rfl

/-- Before the barrier a tick of either handler at most refreshes the display. -/
theorem timingTick_waiting (m : Mode) (t : Tick) (s : Globals)
    (hl : s.is_listening_active = false)
    (hb : ¬ (s.beep_audio_end_time ≤ t.now ∧ s.startTime ≤ t.now)) :
    timingTick m t s = s ∨ timingTick m t s = refreshDisplay t.now s := by
  cases m with
  | liveFire =>
    show handleLiveFireTiming t s = s ∨ handleLiveFireTiming t s = refreshDisplay t.now s
    unfold handleLiveFireTiming
    by_cases hst : s.currentState ≠ TimerState.LIVE_FIRE_TIMING
    · rw [if_pos hst]
      exact Or.inl rfl
    · rw [if_neg hst, if_pos hl, if_neg hb]
      exact Or.inr rfl
  | noisyRange =>
    show handleNoisyRangeTiming t s = s ∨ handleNoisyRangeTiming t s = refreshDisplay t.now s
    unfold handleNoisyRangeTiming
    by_cases hst : s.currentState ≠ TimerState.NOISY_RANGE_TIMING
    · rw [if_pos hst]
      exact Or.inl rfl
    · rw [if_neg hst, if_pos hl, if_neg hb]
      exact Or.inr rfl

/-- C1: in a session of either mode started by GetReady and driven by ticks with
non-decreasing clock values, a tick with `now < beep_audio_end_time` or `now < startTime`
finds listening off, leaves it off, reads neither microphone nor accelerometer and records
no shot; a tick on which listening turns on has `now ≥ beep_audio_end_time` and
`now ≥ startTime`. The deadline and start time are those set by GetReady. -/
theorem audio_completion_barrier (m : Mode) (issueTime : Nat) (connected : Bool) (g : Globals)
    (pre : List Tick) (t : Tick)
    (hclock : List.Pairwise (fun a b : Tick => a.now ≤ b.now) (pre ++ [t])) :
    (session m issueTime connected g []).is_listening_active = false
    ∧ (session m issueTime connected g pre).beep_audio_end_time
        = computeAudioEndTime issueTime connected g
    ∧ (session m issueTime connected g pre).startTime = uadd issueTime POST_BEEP_DELAY_MS
    ∧ ((t.now < (session m issueTime connected g pre).beep_audio_end_time
          ∨ t.now < (session m issueTime connected g pre).startTime) →
        (session m issueTime connected g pre).is_listening_active = false
        ∧ (session m issueTime connected g (pre ++ [t])).is_listening_active = false
        ∧ sensorReads (session m issueTime connected g (pre ++ [t]))
            = sensorReads (session m issueTime connected g pre)
        ∧ (session m issueTime connected g (pre ++ [t])).shotCount
            = (session m issueTime connected g pre).shotCount
        ∧ (session m issueTime connected g (pre ++ [t])).shotTimestamps
            = (session m issueTime connected g pre).shotTimestamps
        ∧ (session m issueTime connected g (pre ++ [t])).splitTimes
            = (session m issueTime connected g pre).splitTimes
        ∧ (session m issueTime connected g (pre ++ [t])).lastDetectionTime
            = (session m issueTime connected g pre).lastDetectionTime)
    ∧ ((session m issueTime connected g pre).is_listening_active = false →
        (session m issueTime connected g (pre ++ [t])).is_listening_active = true →
        (session m issueTime connected g pre).beep_audio_end_time ≤ t.now
        ∧ (session m issueTime connected g pre).startTime ≤ t.now) := by
  have hstep : session m issueTime connected g (pre ++ [t])
      = timingTick m t (session m issueTime connected g pre) := by
    simp [session, runTiming, List.foldl_append]
  have hend : (session m issueTime connected g pre).beep_audio_end_time
      = computeAudioEndTime issueTime connected g := by
    unfold session
    rw [(runTiming_frame m pre _).2.1]
    exact congrArg Core.beep_audio_end_time (core_getReady m issueTime connected g)
  rw [List.pairwise_append] at hclock
  have hpre : ∀ x ∈ pre, 0 ≤ x.now ∧ x.now ≤ t.now :=
    fun x hx => ⟨Nat.zero_le _, hclock.2.2 x hx t (List.mem_singleton_self t)⟩
  have hbar : (session m issueTime connected g pre).is_listening_active = true →
      (session m issueTime connected g pre).beep_audio_end_time ≤ t.now
      ∧ (session m issueTime connected g pre).startTime ≤ t.now :=
    runTiming_barrier m pre (getReady m issueTime connected g) 0 t.now
      (fun hl => by rw [getReady_is_listening_active] at hl; cases hl)
      hclock.1 hpre (Nat.zero_le _)
  refine ⟨getReady_is_listening_active m issueTime connected g, hend,
    session_startTime m issueTime connected g pre, ?_, ?_⟩
  · intro hlt
    rw [hstep]
    generalize session m issueTime connected g pre = s at hbar hlt ⊢
    have hoff : s.is_listening_active = false := by
      cases hl : s.is_listening_active with
      | false => rfl
      | true =>
        have := hbar hl
        omega
    have hnb : ¬ (s.beep_audio_end_time ≤ t.now ∧ s.startTime ≤ t.now) := by
      intro hb
      omega
    rcases timingTick_waiting m t s hoff hnb with h | h
    · rw [h]
      exact ⟨hoff, hoff, rfl, rfl, rfl, rfl, rfl⟩
    · rw [h]
      have hc := core_refreshDisplay t.now s
      exact ⟨hoff, (congrArg Core.is_listening_active hc).trans hoff,
        sensorReads_refreshDisplay t.now s, congrArg Core.shotCount hc,
        congrArg Core.shotTimestamps hc, congrArg Core.splitTimes hc,
        congrArg Core.lastDetectionTime hc⟩
  · intro hoff hon
    rw [hstep] at hon
    rcases timingTick_listening m t _ hon with h | h
    · rw [hoff] at h; cases h
    · exact h

/-- A session before the barrier: start cue at 1000 ms (deadline 1300, start time 1750), a
loud tick at 1200 and a loud tick at 1500 change nothing. -/
theorem audio_completion_barrier_example :
    List.Pairwise (fun a b : Tick => a.now ≤ b.now) ([quietTick 1200 20000] ++ [quietTick 1500 20000])
      ∧ (quietTick 1500 20000).now
          < (session Mode.liveFire 1000 false defaultGlobals [quietTick 1200 20000]).startTime
      ∧ (session Mode.liveFire 1000 false defaultGlobals
          ([quietTick 1200 20000] ++ [quietTick 1500 20000])).is_listening_active = false
      ∧ sensorReads (session Mode.liveFire 1000 false defaultGlobals
          ([quietTick 1200 20000] ++ [quietTick 1500 20000]))
          = sensorReads (session Mode.liveFire 1000 false defaultGlobals [quietTick 1200 20000]) :=
  ⟨by decide, by decide,
   ((audio_completion_barrier Mode.liveFire 1000 false defaultGlobals [quietTick 1200 20000]
      (quietTick 1500 20000) (by decide)).2.2.2.1 (Or.inr (by decide))).2.1,
   ((audio_completion_barrier Mode.liveFire 1000 false defaultGlobals [quietTick 1200 20000]
      (quietTick 1500 20000) (by decide)).2.2.2.1 (Or.inr (by decide))).2.2.1⟩

/-! ## Theorems: the bound on the number of shots -/

theorem LiveFireStep.liveFire_bound {now : Nat} {c c4 : Core} (hb : BoundInv c)
    (h : LiveFireStep now c c4) :
    BoundInv c4 ∧ c4.currentMaxShots = c.currentMaxShots ∧
    (c4.shotCount = c.shotCount ∨
      (c4.shotCount = c.shotCount + 1 ∧ (c.shotCount : Int) < c.currentMaxShots)) := by
  rcases h with rfl | ⟨hst, c1, c2, ha, hd, hs⟩
  · exact ⟨hb, rfl, Or.inl rfl⟩
  · have hc := hb.2.2 hst
    obtain ⟨hb1, hb2, hb3⟩ := hb
    rcases ha with ⟨_, rfl⟩ | ⟨_, _, _, rfl⟩ <;> rcases hd with rfl | ⟨hm, rfl⟩ <;>
      rcases hs with rfl | rfl <;>
      simp_all [BoundInv, Core.record, Core.mayDetect] <;> omega

theorem NoisyRangeStep.noisy_bound {now : Nat} {c c4 : Core} (hb : BoundInv c)
    (h : NoisyRangeStep now c c4) :
    BoundInv c4 ∧ c4.currentMaxShots = c.currentMaxShots ∧
    (c4.shotCount = c.shotCount ∨
      (c4.shotCount = c.shotCount + 1 ∧ (c.shotCount : Int) < c.currentMaxShots)) := by
  rcases h with rfl | ⟨hst, c1, c2, c3, ha, ho, hr, hs⟩
  · exact ⟨hb, rfl, Or.inl rfl⟩
  · obtain ⟨hb1, hb2, hb3⟩ := hb
    rcases ha with ⟨_, rfl⟩ | ⟨_, _, _, rfl⟩ <;> rcases ho with rfl | ⟨_, hm, rfl⟩ <;>
      rcases hr with rfl | ⟨hck, rfl⟩ | ⟨hck, _, rfl⟩ <;> rcases hs with rfl | rfl <;>
      simp_all [BoundInv, Core.record, Core.mayDetect] <;> omega

theorem timingTick_bound (m : Mode) (t : Tick) (s : Globals) (hb : BoundInv (core s)) :
    BoundInv (core (timingTick m t s)) ∧
    (timingTick m t s).currentMaxShots = s.currentMaxShots ∧
    ((timingTick m t s).shotCount = s.shotCount ∨
      ((timingTick m t s).shotCount = s.shotCount + 1 ∧
        (s.shotCount : Int) < s.currentMaxShots)) := by
  cases m with
  | liveFire => exact LiveFireStep.liveFire_bound hb (handleLiveFireTiming_step t s)
  | noisyRange => exact NoisyRangeStep.noisy_bound hb (handleNoisyRangeTiming_step t s)

theorem runMixed_bound (ticks : List (Mode × Tick)) :
    ∀ s : Globals, BoundInv (core s) →
      BoundInv (core (runMixed s ticks)) ∧
      (runMixed s ticks).currentMaxShots = s.currentMaxShots := by
  induction ticks with
  | nil => intro s h; exact ⟨h, rfl⟩
  | cons mt ts ih =>
    intro s h
    have h1 := timingTick_bound mt.1 mt.2 s h
    have h2 := ih (timingTick mt.1 mt.2 s) h1.1
    exact ⟨h2.1, h2.2.trans h1.2.1⟩

theorem getReady_BoundInv (m : Mode) (now : Nat) (connected : Bool) (g : Globals)
    (h0 : 0 ≤ g.currentMaxShots) : BoundInv (core (getReady m now connected g)) := by
  rw [core_getReady]
  exact ⟨h0, fun h => (by cases h), fun _ => rfl⟩

/-- C4: in every state reached from GetReady (which calls `resetShotData`) by any sequence
of Live Fire and Noisy Range timing ticks, `shotCount ≤ currentMaxShots`; an open recoil
window implies `shotCount < currentMaxShots`; and a tick of either handler in a state with
`shotCount = currentMaxShots` leaves `shotCount` unchanged. -/
theorem bounded_shot_sequence (m0 : Mode) (issueTime : Nat) (connected : Bool) (g : Globals)
    (ticks : List (Mode × Tick)) (h0 : 0 ≤ g.currentMaxShots) :
    (runMixed (getReady m0 issueTime connected g) ticks).currentMaxShots = g.currentMaxShots
    ∧ ((runMixed (getReady m0 issueTime connected g) ticks).shotCount : Int)
        ≤ (runMixed (getReady m0 issueTime connected g) ticks).currentMaxShots
    ∧ ((runMixed (getReady m0 issueTime connected g) ticks).checkingForRecoil = true →
        ((runMixed (getReady m0 issueTime connected g) ticks).shotCount : Int)
          < (runMixed (getReady m0 issueTime connected g) ticks).currentMaxShots)
    ∧ (∀ (m : Mode) (t : Tick),
        ((runMixed (getReady m0 issueTime connected g) ticks).shotCount : Int)
            = (runMixed (getReady m0 issueTime connected g) ticks).currentMaxShots →
        (timingTick m t (runMixed (getReady m0 issueTime connected g) ticks)).shotCount
          = (runMixed (getReady m0 issueTime connected g) ticks).shotCount) := by
  have h := runMixed_bound ticks _ (getReady_BoundInv m0 issueTime connected g h0)
  have hm : (getReady m0 issueTime connected g).currentMaxShots = g.currentMaxShots :=
    congrArg Core.currentMaxShots (core_getReady m0 issueTime connected g)
  refine ⟨h.2.trans hm, h.1.1, h.1.2.1, ?_⟩
  intro m t hfull
  rcases (timingTick_bound m t _ h.1).2.2 with h1 | h1
  · exact h1
  · omega

/-- A session configured for one shot: the second loud tick does not add a shot. -/
theorem bounded_shot_sequence_example :
    0 ≤ ({ defaultGlobals with currentMaxShots := 1 } : Globals).currentMaxShots
      ∧ (runMixed (getReady Mode.liveFire 1000 false { defaultGlobals with currentMaxShots := 1 })
          singleShotTicks).shotCount = 1
      ∧ ((runMixed (getReady Mode.liveFire 1000 false { defaultGlobals with currentMaxShots := 1 })
          singleShotTicks).shotCount : Int)
          ≤ (runMixed (getReady Mode.liveFire 1000 false { defaultGlobals with currentMaxShots := 1 })
              singleShotTicks).currentMaxShots :=
  ⟨by decide, by decide,
   (bounded_shot_sequence Mode.liveFire 1000 false { defaultGlobals with currentMaxShots := 1 }
      singleShotTicks (by decide)).2.1⟩

/-! ## Theorems: stop on the last shot (Live Fire) -/

theorem liveFireManualStop_idle (t : Tick) (s : Globals)
    (h : s.currentState ≠ TimerState.LIVE_FIRE_TIMING ∨ t.btnA = false) :
    liveFireManualStop t s = s := by
  unfold liveFireManualStop
  rw [if_neg]
  rintro ⟨h1, h2⟩
  rcases h with h | h
  · exact h h1
  · rw [h] at h2; cases h2

theorem liveFireTimeoutStop_idle (t : Tick) (s : Globals)
    (h : s.currentState ≠ TimerState.LIVE_FIRE_TIMING
          ∨ (s.shotCount ≠ 0 ∧ s.lastShotTimestamp = t.now)) :
    liveFireTimeoutStop t s = s := by
  unfold liveFireTimeoutStop
  rcases h with h | ⟨h1, h2⟩
  · rw [if_neg h]
  · split
    · rw [if_neg]
      rintro ⟨_, h3⟩
      rw [timeSinceEvent, if_neg h1, h2, usub_self] at h3
      exact Nat.not_lt_zero _ h3
    · rfl

theorem stopSession_currentState (t : Tick) (s : Globals) :
    (stopSession t s).currentState = TimerState.LIVE_FIRE_STOPPED :=
  congrArg Core.currentState (core_stopSession t s)

/-- The session fields after the listening part of a Live Fire tick that detects a shot
filling the configured maximum. -/
theorem liveFireListening_last_shot (t : Tick) (s : Globals)
    (hd : detectCond t.now (liveFireSample t s))
    (hfull : s.currentMaxShots ≤ (s.shotCount : Int) + 1) :
    core (liveFireListening t s)
      = { (core s).record t.now with is_listening_active := false,
                                     currentState := TimerState.LIVE_FIRE_STOPPED } := by
  have hc := core_liveFireSample t s
  have hfull2 : (recordShot t.now t.now (liveFireSample t s)).currentMaxShots
      ≤ ((recordShot t.now t.now (liveFireSample t s)).shotCount : Int) := by
    show (core (liveFireSample t s)).currentMaxShots
      ≤ (((core (liveFireSample t s)).shotCount + 1 : Nat) : Int)
    rw [hc]
    push_cast
    exact hfull
  have h4 : liveFireDetect t (liveFireSample t s)
      = stopSession t (recordShot t.now t.now (liveFireSample t s)) := by
    unfold liveFireDetect
    rw [if_pos hd]
    simp only []
    rw [if_pos hfull2]
  unfold liveFireListening
  simp only []
  rw [h4, liveFireManualStop_idle t _ (Or.inl (by rw [stopSession_currentState]; decide)),
    liveFireTimeoutStop_idle t _ (Or.inl (by rw [stopSession_currentState]; decide)),
    core_stopSession, core_recordShot, hc]

/-- The session fields after the listening part of a Live Fire tick that detects a shot
below the configured maximum, with no button press. -/
theorem liveFireListening_earlier_shot (t : Tick) (s : Globals)
    (hd : detectCond t.now (liveFireSample t s))
    (hroom : (s.shotCount : Int) + 1 < s.currentMaxShots) (hbtn : t.btnA = false) :
    core (liveFireListening t s) = (core s).record t.now := by
  have hc := core_liveFireSample t s
  have hroom2 : ¬ (recordShot t.now t.now (liveFireSample t s)).currentMaxShots
      ≤ ((recordShot t.now t.now (liveFireSample t s)).shotCount : Int) := by
    show ¬ (core (liveFireSample t s)).currentMaxShots
      ≤ (((core (liveFireSample t s)).shotCount + 1 : Nat) : Int)
    rw [hc]
    show ¬ s.currentMaxShots ≤ ((s.shotCount + 1 : Nat) : Int)
    push_cast
    omega
  have h4 : liveFireDetect t (liveFireSample t s)
      = recordShot t.now t.now (liveFireSample t s) := by
    unfold liveFireDetect
    rw [if_pos hd]
    simp only []
    rw [if_neg hroom2]
  unfold liveFireListening
  simp only []
  rw [h4, liveFireManualStop_idle t _ (Or.inr hbtn),
    liveFireTimeoutStop_idle t _ (Or.inr ⟨Nat.succ_ne_zero _, rfl⟩), core_recordShot, hc]

/-- The listening part of a Live Fire tick whose detection test fails records no shot. -/
theorem liveFireListening_no_shot (t : Tick) (s : Globals)
    (hd : ¬ detectCond t.now (liveFireSample t s)) :
    (liveFireListening t s).shotCount = s.shotCount := by
  have hc := core_liveFireSample t s
  have h4 : core (liveFireDetect t (liveFireSample t s)) = core s := by
    unfold liveFireDetect
    rw [if_neg hd]
    split
    · rw [core_micResetPeak, hc]
    · exact hc
  have h5 := (liveFireManualStop_core t (liveFireDetect t (liveFireSample t s))).stopped_frame
  have h6 := (liveFireTimeoutStop_core t
    (liveFireManualStop t (liveFireDetect t (liveFireSample t s)))).stopped_frame
  unfold liveFireListening
  simp only []
  exact (h6.2.2.2.1.trans h5.2.2.2.1).trans (congrArg Core.shotCount h4)

/-- A Live Fire tick in the Timing state either leaves the shot count alone or runs the
listening part from a state with the same count, maximum and state and listening on. -/
theorem handleLiveFireTiming_cases (t : Tick) (s : Globals)
    (hst : s.currentState = TimerState.LIVE_FIRE_TIMING) :
    (handleLiveFireTiming t s).shotCount = s.shotCount ∨
    ∃ s1, handleLiveFireTiming t s = liveFireListening t s1 ∧ s1.shotCount = s.shotCount ∧
      s1.currentMaxShots = s.currentMaxShots ∧ s1.currentState = s.currentState ∧
      s1.is_listening_active = true := by
  unfold handleLiveFireTiming
  rw [if_neg (not_not.mpr hst)]
  cases hl : s.is_listening_active with
  | true =>
    rw [if_neg (by simp)]
    exact Or.inr ⟨s, rfl, rfl, rfl, rfl, hl⟩
  | false =>
    rw [if_pos rfl]
    split
    · exact Or.inr ⟨_, rfl, rfl, rfl, rfl, rfl⟩
    · exact Or.inl (congrArg Core.shotCount (core_refreshDisplay t.now s))

/-- C5: a Live Fire tick in the Timing state that records a shot moves to the Stopped state
and clears `is_listening_active` when that shot is the `currentMaxShots`-th one; when it is an
earlier one (and the stop button is not pressed) the session stays in Timing with listening
on. Scenario C: `maxShots = 3`, `startTime = 900`, peaks at 1000, 1200, 1400 give timestamps
`[1000, 1200, 1400]`, splits `[0.1f, 0.2f, 0.2f]`, Timing after two shots and Stopped after
the third. -/
theorem stop_on_max_shots (t : Tick) (s : Globals)
    (hst : s.currentState = TimerState.LIVE_FIRE_TIMING)
    (hrec : (handleLiveFireTiming t s).shotCount = s.shotCount + 1) :
    (((handleLiveFireTiming t s).shotCount : Int) ≤ s.currentMaxShots)
    ∧ (((handleLiveFireTiming t s).shotCount : Int) = s.currentMaxShots →
        (handleLiveFireTiming t s).currentState = TimerState.LIVE_FIRE_STOPPED
        ∧ (handleLiveFireTiming t s).is_listening_active = false)
    ∧ (((handleLiveFireTiming t s).shotCount : Int) < s.currentMaxShots → t.btnA = false →
        (handleLiveFireTiming t s).currentState = TimerState.LIVE_FIRE_TIMING
        ∧ (handleLiveFireTiming t s).is_listening_active = true)
    ∧ ((runTiming Mode.liveFire scenarioC scenarioCTicks).shotTimestamps.take 3
          = [1000, 1200, 1400]
        ∧ (runTiming Mode.liveFire scenarioC scenarioCTicks).splitTimes.take 3
          = [toFloat32 (1 / 10), toFloat32 (1 / 5), toFloat32 (1 / 5)]
        ∧ (runTiming Mode.liveFire scenarioC scenarioCTicks).shotCount = 3
        ∧ (runTiming Mode.liveFire scenarioC scenarioCTicks).currentState
          = TimerState.LIVE_FIRE_STOPPED
        ∧ (runTiming Mode.liveFire scenarioC (scenarioCTicks.take 4)).shotCount = 2
        ∧ (runTiming Mode.liveFire scenarioC (scenarioCTicks.take 4)).currentState
          = TimerState.LIVE_FIRE_TIMING) := by
  have hscen : (runTiming Mode.liveFire scenarioC scenarioCTicks).splitTimes.take 3
      = [toFloat32 (1 / 10), toFloat32 (1 / 5), toFloat32 (1 / 5)] := by
    have e0 : (runTiming Mode.liveFire scenarioC scenarioCTicks).splitTimes.getD 0 0
        = toFloat32 (1 / 10) := by
      apply Rat.ext <;> with_unfolding_all decide
    have e1 : (runTiming Mode.liveFire scenarioC scenarioCTicks).splitTimes.getD 1 0
        = toFloat32 (1 / 5) := by
      apply Rat.ext <;> with_unfolding_all decide
    have e2 : (runTiming Mode.liveFire scenarioC scenarioCTicks).splitTimes.getD 2 0
        = toFloat32 (1 / 5) := by
      apply Rat.ext <;> with_unfolding_all decide
    rw [take_three _ 0 (by with_unfolding_all decide), e0, e1, e2]
  refine ⟨?_, ?_, ?_, by decide, hscen, by decide, by decide, by decide, by decide⟩
  all_goals
    rcases handleLiveFireTiming_cases t s hst with h | ⟨s1, h1, hcnt, hmax, hstate, hl⟩
    · rw [h] at hrec
      omega
    rw [h1] at hrec ⊢
    by_cases hd : detectCond t.now (liveFireSample t s1)
    swap
    · rw [liveFireListening_no_shot t s1 hd, hcnt] at hrec
      omega
    have hroom : (s1.shotCount : Int) < s1.currentMaxShots := by
      have := hd.2.2.1
      have hc := core_liveFireSample t s1
      rw [show (liveFireSample t s1).shotCount = s1.shotCount from congrArg Core.shotCount hc,
        show (liveFireSample t s1).currentMaxShots = s1.currentMaxShots from
          congrArg Core.currentMaxShots hc] at this
      exact this
    rw [← hmax]
  · rw [hrec, ← hcnt]
    push_cast
    omega
  · intro hm
    have hfull : s1.currentMaxShots ≤ (s1.shotCount : Int) + 1 := by
      rw [hrec, ← hcnt] at hm
      push_cast at hm
      omega
    have hc := liveFireListening_last_shot t s1 hd hfull
    exact ⟨congrArg Core.currentState hc, congrArg Core.is_listening_active hc⟩
  · intro hm hbtn
    have hr : (s1.shotCount : Int) + 1 < s1.currentMaxShots := by
      rw [hrec, ← hcnt] at hm
      push_cast at hm
      omega
    have hc := liveFireListening_earlier_shot t s1 hd hr hbtn
    exact ⟨(congrArg Core.currentState hc).trans (hstate.trans hst),
      (congrArg Core.is_listening_active hc).trans hl⟩

/-- Scenario C, third shot: the tick at 1400 ms records the third of three shots and the
session is Stopped with listening off. -/
theorem stop_on_max_shots_scenario_C :
    (runTiming Mode.liveFire scenarioC (scenarioCTicks.take 4)).currentState
        = TimerState.LIVE_FIRE_TIMING
      ∧ (handleLiveFireTiming (quietTick 1400 2000)
          (runTiming Mode.liveFire scenarioC (scenarioCTicks.take 4))).shotCount
          = (runTiming Mode.liveFire scenarioC (scenarioCTicks.take 4)).shotCount + 1
      ∧ (handleLiveFireTiming (quietTick 1400 2000)
          (runTiming Mode.liveFire scenarioC (scenarioCTicks.take 4))).currentState
          = TimerState.LIVE_FIRE_STOPPED
      ∧ (handleLiveFireTiming (quietTick 1400 2000)
          (runTiming Mode.liveFire scenarioC (scenarioCTicks.take 4))).is_listening_active
          = false :=
  ⟨by decide, by decide,
   ((stop_on_max_shots (quietTick 1400 2000)
      (runTiming Mode.liveFire scenarioC (scenarioCTicks.take 4)) (by decide) (by decide)).2.1
      (by decide)).1,
   ((stop_on_max_shots (quietTick 1400 2000)
      (runTiming Mode.liveFire scenarioC (scenarioCTicks.take 4)) (by decide) (by decide)).2.1
      (by decide)).2⟩

/-! ## Theorems: resetting the tone plan -/

/-- C11: `reset_bt_beep_state` changes nothing on an idle plan (no pending request, not
active, frequency 0), is idempotent, and leaves the plan not pending, not active and with
frequency 0; the state left by the synthesizer when an active tone without a pending request
ends is such an idle plan. -/
theorem reset_bt_beep_state_idempotent (s : Globals) :
    (planIdle s → reset_bt_beep_state s = s)
    ∧ reset_bt_beep_state (reset_bt_beep_state s) = reset_bt_beep_state s
    ∧ (reset_bt_beep_state s).new_bt_beep_request = false
    ∧ (reset_bt_beep_state s).current_bt_beep_is_active = false
    ∧ planIdle (reset_bt_beep_state s)
    ∧ (reset_bt_beep_state s).btBeepDurationVolatile = s.btBeepDurationVolatile
    ∧ (reset_bt_beep_state s).btBeepScheduledStartTime = s.btBeepScheduledStartTime
    ∧ (reset_bt_beep_state s).current_bt_beep_actual_end_time = s.current_bt_beep_actual_end_time
    ∧ (∀ (n : Int) (now : Nat) (connected : Bool),
        s.current_bt_beep_is_active = true → s.new_bt_beep_request = false →
        ¬ (now < s.current_bt_beep_actual_end_time ∧ 0 < s.btBeepFrequency) →
        planIdle (get_data_frames n now connected s).1) := by
  refine ⟨?_, rfl, rfl, rfl, ⟨rfl, rfl, rfl⟩, rfl, rfl, rfl, ?_⟩
  · rintro ⟨h1, h2, h3⟩
    cases s
    simp only [reset_bt_beep_state] at h1 h2 h3 ⊢
    subst h1 h2 h3
    rfl
  · intro n now connected ha hp hend
    have h1 : activatePending now s = s := by
      unfold activatePending
      rw [if_neg]
      rintro ⟨h, _⟩
      rw [hp] at h
      cases h
    simp only [get_data_frames, h1, continueTone, if_pos ha, if_neg hend]
    exact ⟨hp, rfl, rfl⟩

/-! ## Theorems: the buzzer worker -/

theorem serveRequest_tone (r : BuzzerRequest) (hf : 0 < r.frequency) (hd : 0 < r.duration) :
    serveRequest r
      = [BuzzerOp.tone BUZZER_PIN r.frequency r.duration,
         BuzzerOp.tone BUZZER_PIN_2 r.frequency r.duration,
         BuzzerOp.vTaskDelay (r.duration + 5),
         BuzzerOp.noTone BUZZER_PIN, BuzzerOp.noTone BUZZER_PIN_2] := by
  unfold serveRequest
  rw [if_pos ⟨hf, hd⟩]

theorem serveRequest_delay (r : BuzzerRequest) (hf : r.frequency ≤ 0) (hd : 0 < r.duration) :
    serveRequest r = [BuzzerOp.vTaskDelay r.duration] := by
  unfold serveRequest
  rw [if_neg (by omega), if_pos hd]

theorem serveRequest_nothing (r : BuzzerRequest) (hd : r.duration ≤ 0) :
    serveRequest r = [] := by
  unfold serveRequest
  rw [if_neg (by omega), if_neg (by omega)]

theorem toneIntervals_append (a b : List BuzzerOp) :
    ∀ c : Int, toneIntervals c (a ++ b)
      = toneIntervals c a ++ toneIntervals (c + opsDuration a) b := by
  induction a with
  | nil => intro c; simp [toneIntervals, opsDuration]
  | cons op a ih =>
    intro c
    cases op with
    | tone pin f d => simp [toneIntervals, opsDuration, ih]
    | noTone pin => simp [toneIntervals, opsDuration, ih]
    | vTaskDelay ms => simp [toneIntervals, opsDuration, ih, add_assoc]

/-- The tones of one served request start when it is served and end before the worker is
free again; the worker is blocked for a non-negative time. -/
theorem buzzerIteration_intervals (r : BuzzerRequest) (c : Int) :
    0 ≤ opsDuration (buzzerIteration r)
    ∧ ∀ a ∈ toneIntervals c (buzzerIteration r),
        a.2.1 = c ∧ a.2.2 ≤ c + opsDuration (buzzerIteration r) := by
  unfold buzzerIteration serveRequest
  split
  · rename_i h
    simp only [List.cons_append, List.nil_append, opsDuration, toneIntervals, List.mem_cons,
      List.mem_singleton, List.not_mem_nil, or_false]
    refine ⟨by omega, ?_⟩
    rintro a (rfl | rfl) <;> exact ⟨rfl, by show c + r.duration ≤ _; omega⟩
  · split
    · simp only [List.cons_append, List.nil_append, opsDuration, toneIntervals,
        List.not_mem_nil]
      exact ⟨by omega, fun a h => h.elim⟩
    · simp only [List.nil_append, opsDuration, toneIntervals, List.not_mem_nil]
      exact ⟨by omega, fun a h => h.elim⟩

theorem servedOps_intervals (q : List BuzzerRequest) :
    ∀ c : Int, 0 ≤ opsDuration (servedOps q)
      ∧ ∀ b ∈ toneIntervals c (servedOps q), c ≤ b.2.1 := by
  induction q with
  | nil => intro c; simp [servedOps, opsDuration, toneIntervals]
  | cons r q ih =>
    intro c
    have h1 := buzzerIteration_intervals r c
    have h2 := ih (c + opsDuration (buzzerIteration r))
    have hd : ∀ a b : List BuzzerOp, opsDuration (a ++ b) = opsDuration a + opsDuration b := by
      intro a b
      induction a with
      | nil => simp [opsDuration]
      | cons op a iha =>
        cases op <;> simp [opsDuration, iha, add_assoc]
    simp only [servedOps, toneIntervals_append, hd, List.mem_append]
    refine ⟨by omega, ?_⟩
    rintro b (hb | hb)
    · exact le_of_eq (h1.2 b hb).1.symm
    · have := h2.2 b hb
      omega

theorem buzzerTaskDrain_servedOps (n : Nat) :
    ∀ s : Globals, s.buzzerQueue.length ≤ n →
      (buzzerTaskDrain n s).2 = servedOps s.buzzerQueue
      ∧ (buzzerTaskDrain n s).1.buzzerQueue = [] := by
  induction n with
  | zero =>
    intro s h
    have : s.buzzerQueue = [] := List.length_eq_zero.mp (Nat.le_zero.mp h)
    simp [buzzerTaskDrain, this, servedOps]
  | succ n ih =>
    intro s h
    cases hq : s.buzzerQueue with
    | nil => simp [buzzerTaskDrain, buzzerTask, hq, servedOps]
    | cons r rest =>
      have hlen : ({ s with buzzerQueue := rest } : Globals).buzzerQueue.length ≤ n := by
        rw [hq] at h
        simpa using h
      have := ih { s with buzzerQueue := rest } hlen
      simp only [buzzerTaskDrain, buzzerTask, hq, servedOps]
      exact ⟨by rw [this.1], this.2⟩

theorem opsDuration_append (a b : List BuzzerOp) :
    opsDuration (a ++ b) = opsDuration a + opsDuration b := by
  induction a with
  | nil => simp [opsDuration]
  | cons op a iha => cases op <;> simp [opsDuration, iha, add_assoc]

/-- C13 (amended): for a dequeued request the worker (a) with `freq > 0` and `duration > 0`
drives both tone lines at `freq` for `duration` and blocks `duration + 5` ms for the request,
(b) with `duration > 0` and `freq ≤ 0` drives no line and blocks `duration` ms, (c) with
`duration ≤ 0` drives no line and does not block for the request; the unconditional 1 ms
delay of the loop follows in every case, so the worker is blocked one millisecond more than
that before it accepts the next request. No tone of a later request starts before the tones
of an earlier one have ended, and requests are taken from the head of the queue, to whose
tail `xQueueSend` appends. -/
theorem buzzer_worker_semantics (r : BuzzerRequest) (q : List BuzzerRequest) (s : Globals)
    (c : Int) :
    (0 < r.frequency → 0 < r.duration →
        serveRequest r
          = [BuzzerOp.tone BUZZER_PIN r.frequency r.duration,
             BuzzerOp.tone BUZZER_PIN_2 r.frequency r.duration,
             BuzzerOp.vTaskDelay (r.duration + 5),
             BuzzerOp.noTone BUZZER_PIN, BuzzerOp.noTone BUZZER_PIN_2]
        ∧ opsDuration (serveRequest r) = r.duration + 5
        ∧ toneIntervals c (serveRequest r)
            = [(BUZZER_PIN, c, c + r.duration), (BUZZER_PIN_2, c, c + r.duration)])
    ∧ (r.frequency ≤ 0 → 0 < r.duration →
        serveRequest r = [BuzzerOp.vTaskDelay r.duration]
        ∧ opsDuration (serveRequest r) = r.duration
        ∧ toneIntervals c (serveRequest r) = [])
    ∧ (r.duration ≤ 0 →
        serveRequest r = [] ∧ opsDuration (serveRequest r) = 0
        ∧ toneIntervals c (serveRequest r) = [])
    ∧ buzzerIteration r = serveRequest r ++ [BuzzerOp.vTaskDelay 1]
    ∧ opsDuration (buzzerIteration r) = opsDuration (serveRequest r) + 1
    ∧ toneIntervals c (servedOps (r :: q))
        = toneIntervals c (buzzerIteration r)
            ++ toneIntervals (c + opsDuration (buzzerIteration r)) (servedOps q)
    ∧ (∀ a ∈ toneIntervals c (buzzerIteration r),
        ∀ b ∈ toneIntervals (c + opsDuration (buzzerIteration r)) (servedOps q),
          a.2.2 ≤ b.2.1)
    ∧ (s.buzzerQueue = r :: q →
        buzzerTask s = some ({ s with buzzerQueue := q }, buzzerIteration r))
    ∧ (buzzerTaskDrain s.buzzerQueue.length s).2 = servedOps s.buzzerQueue
    ∧ (s.buzzerQueue.length < BUZZER_QUEUE_LENGTH →
        (xQueueSend r s).buzzerQueue = s.buzzerQueue ++ [r]) := by
  refine ⟨?_, ?_, ?_, rfl, ?_, ?_, ?_, ?_, ?_, ?_⟩
  · intro hf hd
    rw [serveRequest_tone r hf hd]
    exact ⟨rfl, by simp [opsDuration], by simp [toneIntervals]⟩
  · intro hf hd
    rw [serveRequest_delay r hf hd]
    exact ⟨rfl, by simp [opsDuration], by simp [toneIntervals]⟩
  · intro hd
    rw [serveRequest_nothing r hd]
    exact ⟨rfl, rfl, rfl⟩
  · unfold buzzerIteration
    rw [opsDuration_append]
    simp [opsDuration]
  · simp only [servedOps, toneIntervals_append]
  · intro a ha b hb
    have h1 := (buzzerIteration_intervals r c).2 a ha
    have h2 := (servedOps_intervals q (c + opsDuration (buzzerIteration r))).2 b hb
    omega
  · intro hq
    simp only [buzzerTask, hq]
  · exact (buzzerTaskDrain_servedOps _ s le_rfl).1
  · intro hroom
    simp only [xQueueSend, if_pos hroom]

/-- The worker on `busyQueue` started at clock 0: a 150 ms tone on both lines, a 40 ms pure
delay, a request that is skipped, then a 225 ms tone that starts at 198 ms. -/
theorem buzzer_worker_example :
    toneIntervals 0 (servedOps busyQueue)
        = [(BUZZER_PIN, 0, 150), (BUZZER_PIN_2, 0, 150),
           (BUZZER_PIN, 198, 423), (BUZZER_PIN_2, 198, 423)]
      ∧ serveRequest { frequency := 0, duration := 40 } = [BuzzerOp.vTaskDelay 40]
      ∧ serveRequest { frequency := 2000, duration := 0 } = [] :=
  ⟨by decide,
   ((buzzer_worker_semantics { frequency := 0, duration := 40 } [] defaultGlobals 0).2.1
      (by decide) (by decide)).1,
   ((buzzer_worker_semantics { frequency := 2000, duration := 0 } [] defaultGlobals 0).2.2.1
      (by decide)).1⟩

/-- C13 (counterexample): for the dequeued request `{1047, 150}` the calls made before the
next `xQueueReceive` end with the 1 ms delay of the loop: the worker is blocked 156 ms, not
155, before it can accept the next request; a 40 ms pure delay blocks it 41 ms. -/
theorem buzzer_worker_blocks_one_more_ms :
    buzzerIteration { frequency := 1047, duration := 150 }
        = [BuzzerOp.tone BUZZER_PIN 1047 150, BuzzerOp.tone BUZZER_PIN_2 1047 150,
           BuzzerOp.vTaskDelay 155, BuzzerOp.noTone BUZZER_PIN, BuzzerOp.noTone BUZZER_PIN_2,
           BuzzerOp.vTaskDelay 1]
      ∧ opsDuration (buzzerIteration { frequency := 1047, duration := 150 }) = 156
      ∧ opsDuration (buzzerIteration { frequency := 1047, duration := 150 }) ≠ 150 + 5
      ∧ opsDuration (buzzerIteration { frequency := 0, duration := 40 }) = 41 := by
  decide

/-! ## Theorems: degenerate tone requests -/

theorem core_playTone (f d : Int) (now : Nat) (c : Bool) (s : Globals) :
    core (playTone f d now c s) = core s := by
  unfold playTone
  split
  · rfl
  · exact core_xQueueSend _ s

theorem core_playSyncCalibrationTone (f d off : Int) (now : Nat) (c : Bool) (s : Globals) :
    core (playSyncCalibrationTone f d off now c s) = core s := by
  unfold playSyncCalibrationTone
  simp only []
  split
  · exact core_xQueueSend _ (reset_bt_beep_state s)
  · exact core_xQueueSend _ (reset_bt_beep_state s)

theorem core_get_data_frames (n : Int) (now : Nat) (c : Bool) (s : Globals) :
    core (get_data_frames n now c s).1 = core s := by
  unfold get_data_frames continueTone activatePending
  simp only []
  split <;> split <;> try split
  all_goals rfl

theorem core_runPulls (n : Int) (pulls : List (Nat × Bool)) :
    ∀ s : Globals, core (runPulls n pulls s).1 = core s := by
  induction pulls with
  | nil => intro s; rfl
  | cons p ps ih =>
    intro s
    simp only [runPulls]
    rw [ih, core_get_data_frames]

/-- A pull on a plan that is not active and has a non-positive frequency leaves it so and
produces only the idle signal. -/
theorem get_data_frames_quiet (n : Int) (now : Nat) (c : Bool) (s : Globals)
    (ha : s.current_bt_beep_is_active = false) (hf : s.btBeepFrequency ≤ 0) :
    (get_data_frames n now c s).1.current_bt_beep_is_active = false
    ∧ (get_data_frames n now c s).1.btBeepFrequency ≤ 0
    ∧ (get_data_frames n now c s).2.m_amplitude ≤ 1 := by
  unfold get_data_frames continueTone activatePending idleOrTone
  simp only []
  split
  · rw [if_pos rfl, if_neg (by intro h; exact absurd h.2 (by simpa using hf))]
    simp only [emit, if_true]
    refine ⟨trivial, le_refl _, ?_⟩
    split <;> norm_num
  · rw [if_neg (by simp [ha])]
    simp only [emit, ha, if_true]
    refine ⟨trivial, hf, ?_⟩
    split <;> norm_num

theorem runPulls_quiet (n : Int) (pulls : List (Nat × Bool)) :
    ∀ s : Globals, s.current_bt_beep_is_active = false → s.btBeepFrequency ≤ 0 →
      (runPulls n pulls s).1.current_bt_beep_is_active = false
      ∧ ∀ fp ∈ (runPulls n pulls s).2, fp.m_amplitude ≤ 1 := by
  induction pulls with
  | nil => intro s ha _; exact ⟨ha, fun fp h => by cases h⟩
  | cons p ps ih =>
    intro s ha hf
    have h1 := get_data_frames_quiet n p.1 p.2 s ha hf
    have h2 := ih _ h1.1 h1.2.1
    simp only [runPulls, List.mem_cons]
    refine ⟨h2.1, ?_⟩
    rintro fp (rfl | hfp)
    · exact h1.2.2
    · exact h2.2 fp hfp

theorem xQueueSend_mem (r : BuzzerRequest) (s : Globals) :
    ∀ x ∈ (xQueueSend r s).buzzerQueue, x ∈ s.buzzerQueue ∨ x = r := by
  intro x hx
  unfold xQueueSend at hx
  split at hx
  · rcases List.mem_append.mp hx with h | h
    · exact Or.inl h
    · exact Or.inr (List.mem_singleton.mp h)
  · exact Or.inl hx

/-- C12: a request with `freq ≤ 0` and `duration ≤ 0` passed to `playTone`,
`playFeedbackTone` or `playSyncCalibrationTone` activates no path: the only request the call
can add to the queue is `{freq, duration}`, for which the worker drives no line and requests
no delay; after any sequence of pulls on the plan armed (or reset) by the call the plan is not
active and every pull produced at most the idle amplitude 1, never the tone amplitude 10000;
and neither the call nor the pulls change the session fields (shot count, timestamps,
splits). -/
theorem degenerate_request_no_sound (freq duration : Int) (hf : freq ≤ 0) (hd : duration ≤ 0)
    (offsetMs : Int) (now : Nat) (connected : Bool) (s : Globals) (n : Int)
    (pulls : List (Nat × Bool)) :
    (serveRequest { frequency := freq, duration := duration } = []
      ∧ toneIntervals 0 (buzzerIteration { frequency := freq, duration := duration }) = []
      ∧ opsDuration (serveRequest { frequency := freq, duration := duration }) = 0)
    ∧ ((∀ x ∈ (playTone freq duration now connected s).buzzerQueue,
          x ∈ s.buzzerQueue ∨ x = { frequency := freq, duration := duration })
      ∧ (∀ x ∈ (playFeedbackTone freq duration now connected s).buzzerQueue,
          x ∈ s.buzzerQueue ∨ x = { frequency := freq, duration := duration })
      ∧ (∀ x ∈ (playSyncCalibrationTone freq duration offsetMs now connected s).buzzerQueue,
          x ∈ s.buzzerQueue ∨ x = { frequency := freq, duration := duration }))
    ∧ ((runPulls n pulls (playTone freq duration now true s)).1.current_bt_beep_is_active = false
      ∧ (∀ fp ∈ (runPulls n pulls (playTone freq duration now true s)).2,
          fp.m_amplitude ≤ 1 ∧ fp.m_amplitude ≠ 10000)
      ∧ (runPulls n pulls (playFeedbackTone freq duration now true s)).1.current_bt_beep_is_active
          = false
      ∧ (∀ fp ∈ (runPulls n pulls (playFeedbackTone freq duration now true s)).2,
          fp.m_amplitude ≤ 1 ∧ fp.m_amplitude ≠ 10000)
      ∧ (runPulls n pulls
          (playSyncCalibrationTone freq duration offsetMs now connected s)).1.current_bt_beep_is_active
          = false
      ∧ (∀ fp ∈ (runPulls n pulls
          (playSyncCalibrationTone freq duration offsetMs now connected s)).2,
          fp.m_amplitude ≤ 1 ∧ fp.m_amplitude ≠ 10000))
    ∧ (core (runPulls n pulls (playTone freq duration now connected s)).1 = core s
      ∧ core (runPulls n pulls (playFeedbackTone freq duration now connected s)).1 = core s
      ∧ core (runPulls n pulls
          (playSyncCalibrationTone freq duration offsetMs now connected s)).1 = core s) := by
  have hamp : ∀ x : Rat, x ≤ 1 → x ≤ 1 ∧ x ≠ 10000 := by
    intro x hx
    refine ⟨hx, ?_⟩
    intro h
    rw [h] at hx
    norm_num at hx
  have hs := serveRequest_nothing { frequency := freq, duration := duration } hd
  refine ⟨⟨hs, ?_, ?_⟩, ⟨?_, ?_, ?_⟩, ⟨?_, ?_, ?_, ?_, ?_, ?_⟩, ⟨?_, ?_, ?_⟩⟩
  · simp [buzzerIteration, hs, toneIntervals]
  · rw [hs]; rfl
  · intro x hx
    unfold playTone at hx
    split at hx
    · exact Or.inl hx
    · exact xQueueSend_mem _ s x hx
  · intro x hx
    unfold playFeedbackTone at hx
    split at hx
    · exact Or.inl hx
    · exact xQueueSend_mem _ s x hx
  · intro x hx
    have h2 := xQueueSend_mem { frequency := freq, duration := duration }
      (reset_bt_beep_state s) x
    unfold playSyncCalibrationTone at hx
    simp only [] at hx
    split at hx
    · exact h2 hx
    · exact h2 hx
  · exact (runPulls_quiet n pulls _ (by simp [playTone]) (by simpa [playTone] using hf)).1
  · intro fp hfp
    exact hamp _ ((runPulls_quiet n pulls _ (by simp [playTone])
      (by simpa [playTone] using hf)).2 fp hfp)
  · exact (runPulls_quiet n pulls _ (by simp [playFeedbackTone])
      (by simpa [playFeedbackTone] using hf)).1
  · intro fp hfp
    exact hamp _ ((runPulls_quiet n pulls _ (by simp [playFeedbackTone])
      (by simpa [playFeedbackTone] using hf)).2 fp hfp)
  · have ha : (playSyncCalibrationTone freq duration offsetMs now connected
        s).current_bt_beep_is_active = false := by
      unfold playSyncCalibrationTone xQueueSend reset_bt_beep_state
      simp only []
      split <;> split <;> rfl
    have hq : (playSyncCalibrationTone freq duration offsetMs now connected
        s).btBeepFrequency ≤ 0 := by
      unfold playSyncCalibrationTone xQueueSend reset_bt_beep_state
      simp only []
      split <;> split <;> first | exact hf | exact le_refl _
    exact (runPulls_quiet n pulls _ ha hq).1
  · intro fp hfp
    have ha : (playSyncCalibrationTone freq duration offsetMs now connected
        s).current_bt_beep_is_active = false := by
      unfold playSyncCalibrationTone xQueueSend reset_bt_beep_state
      simp only []
      split <;> split <;> rfl
    have hq : (playSyncCalibrationTone freq duration offsetMs now connected
        s).btBeepFrequency ≤ 0 := by
      unfold playSyncCalibrationTone xQueueSend reset_bt_beep_state
      simp only []
      split <;> split <;> first | exact hf | exact le_refl _
    exact hamp _ ((runPulls_quiet n pulls _ ha hq).2 fp hfp)
  · rw [core_runPulls, core_playTone]
  · rw [core_runPulls, core_playFeedbackTone]
  · rw [core_runPulls, core_playSyncCalibrationTone]

/-- The request `{0, 0}` issued through `playTone` while connected, then pulls at 1000 and
1010 ms: the plan is not active afterwards and the queue is untouched. -/
theorem degenerate_request_example :
    (0 : Int) ≤ 0
      ∧ (runPulls 128 [(1000, true), (1010, true)]
          (playTone 0 0 1000 true defaultGlobals)).1.current_bt_beep_is_active = false
      ∧ serveRequest { frequency := 0, duration := 0 } = [] :=
  ⟨le_refl 0,
   (degenerate_request_no_sound 0 0 (le_refl 0) (le_refl 0) 0 1000 true defaultGlobals 128
      [(1000, true), (1010, true)]).2.2.1.1,
   (degenerate_request_no_sound 0 0 (le_refl 0) (le_refl 0) 0 1000 true defaultGlobals 128
      [(1000, true), (1010, true)]).1.1⟩

/-! ## Theorems: the sensor fields through the handlers -/

theorem sense_emit (e : Effect) (s : Globals) : sense (emit e s) = sense s := rfl

theorem sense_resetActivityTimer (now : Nat) (s : Globals) :
    sense (resetActivityTimer now s) = sense s := rfl

theorem sense_xQueueSend (r : BuzzerRequest) (s : Globals) :
    sense (xQueueSend r s) = sense s := by
  unfold xQueueSend; split <;> rfl

theorem sense_playFeedbackTone (f d : Int) (now : Nat) (c : Bool) (s : Globals) :
    sense (playFeedbackTone f d now c s) = sense s := by
  unfold playFeedbackTone
  split
  · rfl
  · exact sense_xQueueSend _ s

theorem sense_beepLoop (duration pause : Nat) (c : Bool) (fs : List Int) :
    ∀ (now : Nat) (s : Globals), sense (beepLoop duration pause c fs now s) = sense s := by
  induction fs with
  | nil => intro now s; rfl
  | cons f fs ih =>
    intro now s
    simp only [beepLoop]
    rw [ih, sense_emit, sense_playFeedbackTone]

theorem sense_setState (st : TimerState) (s : Globals) : sense (setState st s) = sense s := by
  unfold setState; split <;> rfl

theorem sense_stopSession (t : Tick) (s : Globals) : sense (stopSession t s) = sense s := by
  unfold stopSession playSuccessBeeps playUnsuccessBeeps
  simp only []
  split <;> rw [sense_beepLoop, sense_emit, sense_emit, sense_setState] <;> rfl

theorem sense_refreshDisplay (now : Nat) (s : Globals) :
    sense (refreshDisplay now s) = sense s := by
  unfold refreshDisplay; split <;> rfl

theorem sense_recordShot (shot now : Nat) (s : Globals) :
    sense (recordShot shot now s) = sense s := rfl

theorem sense_micResetPeak (s : Globals) :
    sense (micResetPeak s) = { sense s with micPeakRMS := 0 } := rfl

theorem sense_readMic (t : Tick) (s : Globals) :
    sense (readMic t s)
      = { sense s with micPeakRMS := max s.micPeakRMS t.micSample,
                       currentCyclePeakRMS := max s.micPeakRMS t.micSample } := rfl

theorem sense_liveFireManualStop (t : Tick) (s : Globals) :
    sense (liveFireManualStop t s) = sense s := by
  unfold liveFireManualStop
  split
  · rw [sense_stopSession, sense_resetActivityTimer]
  · rfl

theorem sense_liveFireTimeoutStop (t : Tick) (s : Globals) :
    sense (liveFireTimeoutStop t s) = sense s := by
  unfold liveFireTimeoutStop
  split
  · split
    · exact sense_stopSession t s
    · rfl
  · rfl

theorem sense_noisyStops (t : Tick) (s : Globals) : sense (noisyStops t s) = sense s := by
  unfold noisyStops
  split
  · rw [sense_stopSession, sense_resetActivityTimer]
  · split
    · split
      · exact sense_stopSession t s
      · rfl
    · rfl

theorem sense_noisyOpenWindow (t : Tick) (s : Globals) :
    sense (noisyOpenWindow t s) = sense s := by
  unfold noisyOpenWindow; split <;> rfl

theorem sense_noisySample (t : Tick) (s : Globals) :
    sense (noisySample t s)
      = { sense s with micPeakRMS := max s.micPeakRMS t.micSample,
                       currentCyclePeakRMS := max s.micPeakRMS t.micSample } := by
  unfold noisySample
  simp only []
  rw [sense_noisyOpenWindow, sense_readMic]
  have h := sense_refreshDisplay t.now s
  have h1 : (refreshDisplay t.now s).micPeakRMS = s.micPeakRMS := congrArg Sense.micPeakRMS h
  rw [h, h1]

theorem sense_liveFireSample (t : Tick) (s : Globals) :
    sense (liveFireSample t s)
      = { sense s with micPeakRMS := max s.micPeakRMS t.micSample,
                       currentCyclePeakRMS := max s.micPeakRMS t.micSample } := by
  unfold liveFireSample
  simp only []
  rw [sense_refreshDisplay]
  split <;> rfl

/-! ## Theorems: the branches of the recoil check -/

theorem noisyRecoilCheck_expire (t : Tick) (s : Globals) (hc : s.checkingForRecoil = true)
    (hr : ¬ recoilAbove t s)
    (hw : RECOIL_DETECTION_WINDOW_MS < usub t.now s.lastSoundPeakTime) :
    noisyRecoilCheck t s
      = (micResetPeak { emit Effect.imuGetAccelData s with
                          checkingForRecoil := false, lastSoundPeakTime := 0 }, false) := by
  have hr1 : ¬ (emit Effect.imuGetAccelData s).recoilThreshold < |t.accZ| := hr
  have hw1 : RECOIL_DETECTION_WINDOW_MS
      < usub t.now (emit Effect.imuGetAccelData s).lastSoundPeakTime := hw
  unfold noisyRecoilCheck
  rw [if_pos hc]
  simp only []
  rw [if_neg hr1, if_pos hw1]

theorem noisyRecoilCheck_wait (t : Tick) (s : Globals) (hc : s.checkingForRecoil = true)
    (hr : ¬ recoilAbove t s)
    (hw : ¬ RECOIL_DETECTION_WINDOW_MS < usub t.now s.lastSoundPeakTime) :
    noisyRecoilCheck t s = (emit Effect.imuGetAccelData s, false) := by
  have hr1 : ¬ (emit Effect.imuGetAccelData s).recoilThreshold < |t.accZ| := hr
  have hw1 : ¬ RECOIL_DETECTION_WINDOW_MS
      < usub t.now (emit Effect.imuGetAccelData s).lastSoundPeakTime := hw
  unfold noisyRecoilCheck
  rw [if_pos hc]
  simp only []
  rw [if_neg hr1, if_neg hw1]

theorem noisyRecoilCheck_idle (t : Tick) (s : Globals) (hc : s.checkingForRecoil = false) :
    noisyRecoilCheck t s
      = (if s.is_listening_active = true then micResetPeak s else s, false) := by
  unfold noisyRecoilCheck
  rw [if_neg (by simp [hc])]
  split <;> rfl

/-- The recoil check with the window open and the recoil above the threshold: the shot is
recorded at the anchor, the window closed and the peak tracker reset. -/
theorem noisyRecoilCheck_confirm (t : Tick) (s : Globals) (hc : s.checkingForRecoil = true)
    (hr : recoilAbove t s) :
    Stopped { (core s).record s.lastSoundPeakTime with
                checkingForRecoil := false, lastSoundPeakTime := 0 }
      (core (noisyRecoilCheck t s).1)
    ∧ sense (noisyRecoilCheck t s).1 = { sense s with micPeakRMS := 0 }
    ∧ ((noisyRecoilCheck t s).2 = true →
        (noisyRecoilCheck t s).1.currentState = TimerState.LIVE_FIRE_STOPPED
        ∧ s.currentMaxShots ≤ ((s.shotCount + 1 : Nat) : Int))
    ∧ ((noisyRecoilCheck t s).2 = false →
        (noisyRecoilCheck t s).1.currentState = s.currentState
        ∧ ¬ s.currentMaxShots ≤ ((s.shotCount + 1 : Nat) : Int)) := by
  have hr1 : (emit Effect.imuGetAccelData s).recoilThreshold < |t.accZ| := hr
  unfold noisyRecoilCheck
  rw [if_pos hc]
  simp only []
  rw [if_pos hr1]
  split
  · rename_i hfull
    refine ⟨stopSession_Stopped t _, ?_, fun _ => ⟨stopSession_currentState t _, hfull⟩,
      fun h => (by cases h)⟩
    rw [sense_stopSession]
    rfl
  · rename_i hfull
    exact ⟨Stopped.refl _, rfl, fun h => (by cases h), fun _ => ⟨rfl, hfull⟩⟩

/-- Without a recoil above the threshold the recoil check records nothing, stops nothing
and keeps the thresholds. -/
theorem noisyRecoilCheck_quiet (t : Tick) (s : Globals) (hr : ¬ recoilAbove t s) :
    SameShots (core (noisyRecoilCheck t s).1) (core s)
    ∧ (noisyRecoilCheck t s).2 = false
    ∧ (noisyRecoilCheck t s).1.currentState = s.currentState
    ∧ (noisyRecoilCheck t s).1.is_listening_active = s.is_listening_active := by
  cases hc : s.checkingForRecoil with
  | false =>
    rw [noisyRecoilCheck_idle t s hc]
    split <;> exact ⟨⟨rfl, rfl, rfl, rfl, rfl⟩, rfl, rfl, rfl⟩
  | true =>
    by_cases hw : RECOIL_DETECTION_WINDOW_MS < usub t.now s.lastSoundPeakTime
    · rw [noisyRecoilCheck_expire t s hc hr hw]
      exact ⟨⟨rfl, rfl, rfl, rfl, rfl⟩, rfl, rfl, rfl⟩
    · rw [noisyRecoilCheck_wait t s hc hr hw]
      exact ⟨⟨rfl, rfl, rfl, rfl, rfl⟩, rfl, rfl, rfl⟩

theorem sense_noisyRecoilCheck (t : Tick) (s : Globals) :
    (sense (noisyRecoilCheck t s).1).recoilThreshold = s.recoilThreshold
    ∧ (sense (noisyRecoilCheck t s).1).shotThresholdRms = s.shotThresholdRms
    ∧ (sense (noisyRecoilCheck t s).1).currentCyclePeakRMS = s.currentCyclePeakRMS := by
  unfold noisyRecoilCheck
  split
  · simp only []
    split
    · split
      · rw [sense_stopSession]
        exact ⟨rfl, rfl, rfl⟩
      · exact ⟨rfl, rfl, rfl⟩
    · split <;> exact ⟨rfl, rfl, rfl⟩
  · split <;> exact ⟨rfl, rfl, rfl⟩

/-- When the window is already open the sampling stage does not touch the session
fields. -/
theorem core_noisySample_open (t : Tick) (s : Globals) (hc : s.checkingForRecoil = true) :
    core (noisySample t s) = core s := by
  rcases noisySample_core t s with h | ⟨h, _, _⟩
  · exact h
  · have : (core s).checkingForRecoil = true := hc
    rw [this] at h
    cases h

/-- A tick in the Timing state whose listening part runs. -/
theorem handleNoisyRangeTiming_listening (t : Tick) (s : Globals)
    (hst : s.currentState = TimerState.NOISY_RANGE_TIMING) (hl : listensOn t s) :
    ∃ s1, handleNoisyRangeTiming t s = noisyListening t s1
      ∧ core s1 = { core s with is_listening_active := true }
      ∧ (sense s1).recoilThreshold = s.recoilThreshold
      ∧ (sense s1).shotThresholdRms = s.shotThresholdRms
      ∧ (s.is_listening_active = true → s1 = s)
      ∧ (s.is_listening_active = false → s1.micPeakRMS = 0) := by
  unfold handleNoisyRangeTiming
  rw [if_neg (not_not.mpr hst)]
  cases hla : s.is_listening_active with
  | true =>
    rw [if_neg (by simp)]
    refine ⟨s, rfl, ?_, rfl, rfl, fun _ => rfl, fun h => (by cases h)⟩
    show core s = { core s with is_listening_active := true }
    have : (core s).is_listening_active = true := hla
    cases hcs : core s
    rw [hcs] at this
    simp only at this
    subst this
    rfl
  | false =>
    rw [if_pos rfl]
    have hb : s.beep_audio_end_time ≤ t.now ∧ s.startTime ≤ t.now := by
      rcases hl with h | h
      · rw [hla] at h; cases h
      · exact h
    rw [if_pos hb]
    exact ⟨_, rfl, rfl, rfl, rfl, fun h => (by cases h), fun _ => rfl⟩

/-- The same for `handleLiveFireTiming`. -/
theorem handleLiveFireTiming_listening (t : Tick) (s : Globals)
    (hst : s.currentState = TimerState.LIVE_FIRE_TIMING) (hl : listensOn t s) :
    ∃ s1, handleLiveFireTiming t s = liveFireListening t s1
      ∧ core s1 = { core s with is_listening_active := true }
      ∧ (sense s1).recoilThreshold = s.recoilThreshold
      ∧ (sense s1).shotThresholdRms = s.shotThresholdRms
      ∧ (s.is_listening_active = true → s1 = s)
      ∧ (s.is_listening_active = false → s1.micPeakRMS = 0) := by
  unfold handleLiveFireTiming
  rw [if_neg (not_not.mpr hst)]
  cases hla : s.is_listening_active with
  | true =>
    rw [if_neg (by simp)]
    refine ⟨s, rfl, ?_, rfl, rfl, fun _ => rfl, fun h => (by cases h)⟩
    show core s = { core s with is_listening_active := true }
    have : (core s).is_listening_active = true := hla
    cases hcs : core s
    rw [hcs] at this
    simp only at this
    subst this
    rfl
  | false =>
    rw [if_pos rfl]
    have hb : s.beep_audio_end_time ≤ t.now ∧ s.startTime ≤ t.now := by
      rcases hl with h | h
      · rw [hla] at h; cases h
      · exact h
    rw [if_pos hb]
    exact ⟨_, rfl, rfl, rfl, rfl, fun h => (by cases h), fun _ => rfl⟩

/-! ## Theorems: the recoil window on the session fields -/

/-- A Noisy Range tick that records a shot stores the anchor: the anchor of the window that
was open, or the tick time when the window is opened on the same tick. -/
theorem NoisyRangeStep.noisy_recorded {now : Nat} {c c4 : Core} (h : NoisyRangeStep now c c4)
    (hrec : c4.shotCount = c.shotCount + 1) :
    c4.shotTimestamps
        = c.shotTimestamps.set c.shotCount
            (if c.checkingForRecoil = true then c.lastSoundPeakTime else now)
    ∧ c4.lastDetectionTime = (if c.checkingForRecoil = true then c.lastSoundPeakTime else now)
    ∧ c4.lastShotTimestamp = (if c.checkingForRecoil = true then c.lastSoundPeakTime else now)
    ∧ c4.checkingForRecoil = false
    ∧ c4.lastSoundPeakTime = 0 := by
  rcases h with rfl | ⟨hst, c1, c2, c3, ha, ho, hr, hs⟩
  · omega
  · rcases ha with ⟨_, rfl⟩ | ⟨_, _, _, rfl⟩ <;> rcases ho with rfl | ⟨hck0, hm, rfl⟩ <;>
      rcases hr with rfl | ⟨hck, rfl⟩ | ⟨hck, _, rfl⟩ <;> rcases hs with rfl | rfl <;>
      simp_all [Core.record]

/-- A window that is open before and after a Noisy Range tick is the same window and no
shot was recorded; a window open before the tick yields at most one shot on it, and a
recorded shot closes it. -/
theorem NoisyRangeStep.noisy_window {now : Nat} {c c4 : Core} (h : NoisyRangeStep now c c4)
    (hc : c.checkingForRecoil = true) :
    (c4.checkingForRecoil = true → SameShots c4 c ∧ c4.lastSoundPeakTime = c.lastSoundPeakTime)
    ∧ (c4.shotCount = c.shotCount ∨ c4.shotCount = c.shotCount + 1)
    ∧ (c4.shotCount = c.shotCount + 1 →
        c4.checkingForRecoil = false ∧ c4.lastSoundPeakTime = 0) := by
  rcases h with rfl | ⟨hst, c1, c2, c3, ha, ho, hr, hs⟩
  · exact ⟨fun _ => ⟨⟨rfl, rfl, rfl, rfl, rfl⟩, rfl⟩, Or.inl rfl, fun h => by omega⟩
  · rcases ha with ⟨_, rfl⟩ | ⟨_, _, _, rfl⟩ <;> rcases ho with rfl | ⟨hck0, hm, rfl⟩ <;>
      rcases hr with rfl | ⟨hck, rfl⟩ | ⟨hck, _, rfl⟩ <;> rcases hs with rfl | rfl <;>
      simp_all [Core.record, SameShots]

/-- A window that appears on a Noisy Range tick has the tick time as its anchor, was opened
under the refractory, capacity and started tests, and no shot was recorded on that tick. -/
theorem NoisyRangeStep.noisy_entered {now : Nat} {c c4 : Core} (h : NoisyRangeStep now c c4)
    (hc : c.checkingForRecoil = false) (hc4 : c4.checkingForRecoil = true) :
    c4.lastSoundPeakTime = now ∧ c.mayDetect now ∧ SameShots c4 c := by
  rcases h with rfl | ⟨hst, c1, c2, c3, ha, ho, hr, hs⟩
  · rw [hc] at hc4; cases hc4
  · rcases ha with ⟨_, rfl⟩ | ⟨_, _, _, rfl⟩ <;> rcases ho with rfl | ⟨hck0, hm, rfl⟩ <;>
      rcases hr with rfl | ⟨hck, rfl⟩ | ⟨hck, _, rfl⟩ <;> rcases hs with rfl | rfl <;>
      simp_all [Core.record, SameShots, Core.mayDetect]

/-! ## Theorems: the listening part of a Noisy Range tick -/

theorem Stopped.stopped_shots {c c1 : Core} (h : Stopped c c1) :
    SameShots c1 c ∧ c1.lastSoundPeakTime = c.lastSoundPeakTime
      ∧ c1.checkingForRecoil = c.checkingForRecoil := by
  rcases h with rfl | rfl <;> exact ⟨⟨rfl, rfl, rfl, rfl, rfl⟩, rfl, rfl⟩

/-- The stop stage that follows the recoil check keeps the sensor fields and at most clears
the listening flag. -/
theorem noisy_final (t : Tick) (r : Globals × Bool) :
    Stopped (core r.1) (core (if r.2 = true then r.1 else noisyStops t r.1))
    ∧ sense (if r.2 = true then r.1 else noisyStops t r.1) = sense r.1 := by
  split
  · exact ⟨Stopped.refl _, rfl⟩
  · exact ⟨noisyStops_core t r.1, sense_noisyStops t r.1⟩

theorem recoilAbove_noisySample (t : Tick) (s : Globals) :
    recoilAbove t (noisySample t s) ↔ recoilAbove t s := by
  have h : (noisySample t s).recoilThreshold = s.recoilThreshold :=
    congrArg Sense.recoilThreshold (sense_noisySample t s)
  unfold recoilAbove
  rw [h]

/-- The listening part of a Noisy Range tick that finds the window open: the three
outcomes. -/
theorem noisyListening_open (t : Tick) (s : Globals) (hc : s.checkingForRecoil = true) :
    (recoilAbove t s →
        Stopped { (core s).record s.lastSoundPeakTime with
                    checkingForRecoil := false, lastSoundPeakTime := 0 }
          (core (noisyListening t s))
        ∧ (noisyListening t s).micPeakRMS = 0)
    ∧ (¬ recoilAbove t s → RECOIL_DETECTION_WINDOW_MS < usub t.now s.lastSoundPeakTime →
        Stopped { core s with checkingForRecoil := false, lastSoundPeakTime := 0 }
          (core (noisyListening t s))
        ∧ (noisyListening t s).micPeakRMS = 0)
    ∧ (¬ recoilAbove t s → ¬ RECOIL_DETECTION_WINDOW_MS < usub t.now s.lastSoundPeakTime →
        Stopped (core s) (core (noisyListening t s))) := by
  have hcore := core_noisySample_open t s hc
  have hc3 : (noisySample t s).checkingForRecoil = true :=
    (congrArg Core.checkingForRecoil hcore).trans hc
  have ha3 : (noisySample t s).lastSoundPeakTime = s.lastSoundPeakTime :=
    congrArg Core.lastSoundPeakTime hcore
  have hfin := noisy_final t (noisyRecoilCheck t (noisySample t s))
  refine ⟨?_, ?_, ?_⟩
  · intro hr
    have h := noisyRecoilCheck_confirm t (noisySample t s) hc3
      ((recoilAbove_noisySample t s).mpr hr)
    rw [hcore, ha3] at h
    refine ⟨h.1.trans hfin.1, ?_⟩
    show (sense (noisyListening t s)).micPeakRMS = 0
    unfold noisyListening
    simp only []
    rw [hfin.2, h.2.1]
  · intro hr hw
    have h := noisyRecoilCheck_expire t (noisySample t s) hc3
      (fun h => hr ((recoilAbove_noisySample t s).mp h)) (by rw [ha3]; exact hw)
    unfold noisyListening
    simp only []
    rw [h] at hfin ⊢
    refine ⟨?_, ?_⟩
    · have h1 := hfin.1
      rw [core_micResetPeak] at h1
      have h2 : core { emit Effect.imuGetAccelData (noisySample t s) with
            checkingForRecoil := false, lastSoundPeakTime := 0 }
          = { core s with checkingForRecoil := false, lastSoundPeakTime := 0 } := by
        rw [← hcore]; rfl
      rw [h2] at h1
      exact h1
    · show (sense _).micPeakRMS = 0
      rw [hfin.2]
      rfl
  · intro hr hw
    have h := noisyRecoilCheck_wait t (noisySample t s) hc3
      (fun h => hr ((recoilAbove_noisySample t s).mp h)) (by rw [ha3]; exact hw)
    unfold noisyListening
    simp only []
    rw [h] at hfin ⊢
    have h1 := hfin.1
    rw [core_emit, hcore] at h1
    exact h1

/-- Without a recoil above the threshold a Noisy Range tick records nothing. -/
theorem handleNoisyRangeTiming_quiet (t : Tick) (s : Globals) (hr : ¬ recoilAbove t s) :
    SameShots (core (handleNoisyRangeTiming t s)) (core s) := by
  have hsame : ∀ s1 : Globals, ¬ recoilAbove t s1 →
      SameShots (core (noisyListening t s1)) (core s1) := by
    intro s1 hr1
    have hq := noisyRecoilCheck_quiet t (noisySample t s1)
      (fun h => hr1 ((recoilAbove_noisySample t s1).mp h))
    have hfin := (noisy_final t (noisyRecoilCheck t (noisySample t s1))).1.stopped_shots.1
    have hop : SameShots (core (noisySample t s1)) (core s1) := by
      rcases noisySample_core t s1 with h | ⟨_, _, h⟩ <;> rw [h] <;>
        exact ⟨rfl, rfl, rfl, rfl, rfl⟩
    unfold noisyListening
    simp only []
    obtain ⟨a1, a2, a3, a4, a5⟩ := hfin
    obtain ⟨b1, b2, b3, b4, b5⟩ := hq.1
    obtain ⟨c1, c2, c3, c4, c5⟩ := hop
    exact ⟨a1.trans (b1.trans c1), a2.trans (b2.trans c2), a3.trans (b3.trans c3),
      a4.trans (b4.trans c4), a5.trans (b5.trans c5)⟩
  unfold handleNoisyRangeTiming
  split
  · exact ⟨rfl, rfl, rfl, rfl, rfl⟩
  · split
    · split
      · exact hsame _ hr
      · rw [core_refreshDisplay]
        exact ⟨rfl, rfl, rfl, rfl, rfl⟩
    · exact hsame s hr

theorem handleNoisyRangeTiming_recoilThreshold (t : Tick) (s : Globals) :
    (handleNoisyRangeTiming t s).recoilThreshold = s.recoilThreshold := by
  have hl : ∀ s1 : Globals, (noisyListening t s1).recoilThreshold = s1.recoilThreshold := by
    intro s1
    have h1 := (sense_noisyRecoilCheck t (noisySample t s1)).1
    have h2 := (noisy_final t (noisyRecoilCheck t (noisySample t s1))).2
    have h3 : (noisySample t s1).recoilThreshold = s1.recoilThreshold :=
      congrArg Sense.recoilThreshold (sense_noisySample t s1)
    unfold noisyListening
    simp only []
    exact ((congrArg Sense.recoilThreshold h2).trans h1).trans h3
  unfold handleNoisyRangeTiming
  split
  · rfl
  · split
    · split
      · exact hl _
      · exact congrArg Sense.recoilThreshold (sense_refreshDisplay t.now s)
    · exact hl s

/-- A sequence of Noisy Range ticks on which the recoil never exceeds the threshold records
no shot. -/
theorem runTiming_quiet (ticks : List Tick) :
    ∀ s : Globals, (∀ x ∈ ticks, ¬ recoilAbove x s) →
      SameShots (core (runTiming Mode.noisyRange s ticks)) (core s) := by
  induction ticks with
  | nil => intro s _; exact ⟨rfl, rfl, rfl, rfl, rfl⟩
  | cons t ts ih =>
    intro s h
    have h1 := handleNoisyRangeTiming_quiet t s (h t (List.mem_cons_self _ _))
    have h2 := ih (handleNoisyRangeTiming t s) (fun x hx => by
      have := h x (List.mem_cons_of_mem _ hx)
      unfold recoilAbove at this ⊢
      rw [handleNoisyRangeTiming_recoilThreshold]
      exact this)
    obtain ⟨a1, a2, a3, a4, a5⟩ := h1
    obtain ⟨b1, b2, b3, b4, b5⟩ := h2
    exact ⟨b1.trans a1, b2.trans a2, b3.trans a3, b4.trans a4, b5.trans a5⟩

/-! ## Theorems: the fused audio-recoil policy -/

/-- A window that appears on a Noisy Range tick was opened by a peak above the threshold. -/
theorem handleNoisyRangeTiming_entered_peak (t : Tick) (s : Globals)
    (hc : s.checkingForRecoil = false)
    (hc4 : (handleNoisyRangeTiming t s).checkingForRecoil = true) :
    (s.shotThresholdRms : Rat) < (handleNoisyRangeTiming t s).currentCyclePeakRMS := by
  have hlist : ∀ s1 : Globals, s1.checkingForRecoil = false →
      (noisyListening t s1).checkingForRecoil = true →
      (s1.shotThresholdRms : Rat) < (noisyListening t s1).currentCyclePeakRMS := by
    intro s1 h1 h4
    have hfin := noisy_final t (noisyRecoilCheck t (noisySample t s1))
    have hsr := sense_noisyRecoilCheck t (noisySample t s1)
    have hcyc : (noisyListening t s1).currentCyclePeakRMS
        = (noisySample t s1).currentCyclePeakRMS := by
      unfold noisyListening
      simp only []
      exact (congrArg Sense.currentCyclePeakRMS hfin.2).trans hsr.2.2
    by_cases hd : detectCond t.now (readMic t (refreshDisplay t.now s1))
    · rw [hcyc]
      have h5 : (noisySample t s1).currentCyclePeakRMS
          = (readMic t (refreshDisplay t.now s1)).currentCyclePeakRMS :=
        congrArg Sense.currentCyclePeakRMS
          (sense_noisyOpenWindow t (readMic t (refreshDisplay t.now s1)))
      have h6 : (readMic t (refreshDisplay t.now s1)).shotThresholdRms = s1.shotThresholdRms :=
        congrArg Sense.shotThresholdRms (sense_refreshDisplay t.now s1)
      have h7 := hd.1
      rw [h6] at h7
      rw [show (noisySample t s1).currentCyclePeakRMS
        = (readMic t (refreshDisplay t.now s1)).currentCyclePeakRMS from h5]
      exact h7
    · exfalso
      have h3 : noisySample t s1 = readMic t (refreshDisplay t.now s1) := by
        unfold noisySample noisyOpenWindow
        simp only []
        rw [if_neg (fun h => hd h.2)]
      have hc3 : (noisySample t s1).checkingForRecoil = false := by
        rw [h3]
        exact (congrArg Core.checkingForRecoil
          ((core_readMic t _).trans (core_refreshDisplay t.now s1))).trans h1
      have hidle := noisyRecoilCheck_idle t (noisySample t s1) hc3
      have hr1 : (noisyRecoilCheck t (noisySample t s1)).1.checkingForRecoil = false := by
        rw [hidle]
        simp only []
        split
        · exact hc3
        · exact hc3
      have h8 : (noisyListening t s1).checkingForRecoil = false := by
        unfold noisyListening
        simp only []
        exact hfin.1.stopped_shots.2.2.trans hr1
      rw [h8] at h4
      cases h4
  by_cases hst : s.currentState = TimerState.NOISY_RANGE_TIMING
  swap
  · exfalso
    have : handleNoisyRangeTiming t s = s := by
      unfold handleNoisyRangeTiming
      rw [if_pos hst]
    rw [this, hc] at hc4
    cases hc4
  by_cases hl : listensOn t s
  · obtain ⟨s1, h1, hcore, _, hthr, _, _⟩ := handleNoisyRangeTiming_listening t s hst hl
    rw [h1] at hc4 ⊢
    have hc1 : s1.checkingForRecoil = false := (congrArg Core.checkingForRecoil hcore).trans hc
    have := hlist s1 hc1 hc4
    rw [show s1.shotThresholdRms = s.shotThresholdRms from hthr] at this
    exact this
  · exfalso
    have hoff : s.is_listening_active = false := by
      cases h : s.is_listening_active with
      | false => rfl
      | true => exact absurd (Or.inl h) hl
    have hnb : ¬ (s.beep_audio_end_time ≤ t.now ∧ s.startTime ≤ t.now) :=
      fun h => hl (Or.inr h)
    rcases timingTick_waiting Mode.noisyRange t s hoff hnb with h | h
    · have h' : handleNoisyRangeTiming t s = s := h
      rw [h', hc] at hc4
      cases hc4
    · have h' : handleNoisyRangeTiming t s = refreshDisplay t.now s := h
      rw [h'] at hc4
      have := (congrArg Core.checkingForRecoil (core_refreshDisplay t.now s)).symm.trans hc4
      rw [show (core s).checkingForRecoil = s.checkingForRecoil from rfl, hc] at this
      cases this

/-- A Noisy Range tick that records a shot has the peak tracker reset at its end and a
recoil above the threshold. -/
theorem handleNoisyRangeTiming_recorded_mic (t : Tick) (s : Globals)
    (hrec : (handleNoisyRangeTiming t s).shotCount = s.shotCount + 1) :
    (handleNoisyRangeTiming t s).micPeakRMS = 0 ∧ recoilAbove t s := by
  have hr : recoilAbove t s := by
    by_contra hr
    have := (handleNoisyRangeTiming_quiet t s hr).1
    rw [show (core (handleNoisyRangeTiming t s)).shotCount
      = (handleNoisyRangeTiming t s).shotCount from rfl, hrec] at this
    exact absurd this (Nat.succ_ne_self _)
  refine ⟨?_, hr⟩
  have hlist : ∀ s1 : Globals, recoilAbove t s1 →
      (noisyListening t s1).shotCount = s1.shotCount + 1 →
      (noisyListening t s1).micPeakRMS = 0 := by
    intro s1 hr1 hrec1
    have hfin := noisy_final t (noisyRecoilCheck t (noisySample t s1))
    have hcnt : (noisySample t s1).shotCount = s1.shotCount := by
      rcases noisySample_core t s1 with h | ⟨_, _, h⟩
      · exact congrArg Core.shotCount h
      · exact congrArg Core.shotCount h
    cases hc3 : (noisySample t s1).checkingForRecoil with
    | true =>
      have h := noisyRecoilCheck_confirm t (noisySample t s1) hc3
        ((recoilAbove_noisySample t s1).mpr hr1)
      show (sense (noisyListening t s1)).micPeakRMS = 0
      unfold noisyListening
      simp only []
      rw [hfin.2, h.2.1]
    | false =>
      exfalso
      have hidle := noisyRecoilCheck_idle t (noisySample t s1) hc3
      have hr1 : (noisyRecoilCheck t (noisySample t s1)).1.shotCount
          = (noisySample t s1).shotCount := by
        rw [hidle]
        simp only []
        split <;> rfl
      have h8 : (noisyListening t s1).shotCount = s1.shotCount := by
        unfold noisyListening
        simp only []
        exact (hfin.1.stopped_shots.1.1.trans hr1).trans hcnt
      rw [h8] at hrec1
      exact absurd hrec1.symm (Nat.succ_ne_self _)
  by_cases hst : s.currentState = TimerState.NOISY_RANGE_TIMING
  swap
  · exfalso
    have : handleNoisyRangeTiming t s = s := by
      unfold handleNoisyRangeTiming
      rw [if_pos hst]
    rw [this] at hrec
    exact absurd hrec.symm (Nat.succ_ne_self _)
  by_cases hl : listensOn t s
  · obtain ⟨s1, h1, hcore, hthr, _, _, _⟩ := handleNoisyRangeTiming_listening t s hst hl
    rw [h1] at hrec ⊢
    have hcnt1 : s1.shotCount = s.shotCount := congrArg Core.shotCount hcore
    have hr1 : recoilAbove t s1 := by
      unfold recoilAbove at hr ⊢
      rw [show s1.recoilThreshold = s.recoilThreshold from hthr]
      exact hr
    exact hlist s1 hr1 (by rw [hcnt1]; exact hrec)
  · exfalso
    have hoff : s.is_listening_active = false := by
      cases h : s.is_listening_active with
      | false => rfl
      | true => exact absurd (Or.inl h) hl
    have hnb : ¬ (s.beep_audio_end_time ≤ t.now ∧ s.startTime ≤ t.now) :=
      fun h => hl (Or.inr h)
    rcases timingTick_waiting Mode.noisyRange t s hoff hnb with h | h
    · have h' : handleNoisyRangeTiming t s = s := h
      rw [h'] at hrec
      exact absurd hrec.symm (Nat.succ_ne_self _)
    · have h' : handleNoisyRangeTiming t s = refreshDisplay t.now s := h
      rw [h'] at hrec
      have := (congrArg Core.shotCount (core_refreshDisplay t.now s)).symm.trans hrec
      exact absurd this.symm (Nat.succ_ne_self _)

/-- C14: every shot recorded by `handleNoisyRangeTiming` is stamped with the anchor (the
anchor of the window open at the start of the tick, or the tick time when the window opens on
the confirming tick itself): the `shotTimestamps` entry, `lastDetectionTime` and
`lastShotTimestamp` equal it whatever the confirming tick time; afterwards the window is
closed, the anchor cleared and the peak tracker reset. The anchor of a window is the time of
the tick on which it was opened by a peak above the threshold, and it is kept while the
window stays open. -/
theorem fused_policy_timestamps_anchor (t : Tick) (s : Globals)
    (hrec : (handleNoisyRangeTiming t s).shotCount = s.shotCount + 1) :
    (handleNoisyRangeTiming t s).shotTimestamps
        = s.shotTimestamps.set s.shotCount
            (if s.checkingForRecoil = true then s.lastSoundPeakTime else t.now)
    ∧ (s.shotCount < s.shotTimestamps.length →
        (handleNoisyRangeTiming t s).shotTimestamps.getD s.shotCount 0
          = (if s.checkingForRecoil = true then s.lastSoundPeakTime else t.now))
    ∧ (handleNoisyRangeTiming t s).lastDetectionTime
        = (if s.checkingForRecoil = true then s.lastSoundPeakTime else t.now)
    ∧ (handleNoisyRangeTiming t s).lastShotTimestamp
        = (if s.checkingForRecoil = true then s.lastSoundPeakTime else t.now)
    ∧ (handleNoisyRangeTiming t s).checkingForRecoil = false
    ∧ (handleNoisyRangeTiming t s).lastSoundPeakTime = 0
    ∧ (handleNoisyRangeTiming t s).micPeakRMS = 0
    ∧ recoilAbove t s
    ∧ (∀ (t0 : Tick) (s0 : Globals), s0.checkingForRecoil = false →
        (handleNoisyRangeTiming t0 s0).checkingForRecoil = true →
        (handleNoisyRangeTiming t0 s0).lastSoundPeakTime = t0.now
        ∧ (s0.shotThresholdRms : Rat) < (handleNoisyRangeTiming t0 s0).currentCyclePeakRMS
        ∧ (handleNoisyRangeTiming t0 s0).shotCount = s0.shotCount)
    ∧ (∀ (t0 : Tick) (s0 : Globals), s0.checkingForRecoil = true →
        (handleNoisyRangeTiming t0 s0).checkingForRecoil = true →
        (handleNoisyRangeTiming t0 s0).lastSoundPeakTime = s0.lastSoundPeakTime
        ∧ (handleNoisyRangeTiming t0 s0).shotCount = s0.shotCount) := by
  have h := (handleNoisyRangeTiming_step t s).noisy_recorded hrec
  have hm := handleNoisyRangeTiming_recorded_mic t s hrec
  refine ⟨h.1, ?_, h.2.1, h.2.2.1, h.2.2.2.1, h.2.2.2.2, hm.1, hm.2, ?_, ?_⟩
  · intro hlen
    have h1 : (handleNoisyRangeTiming t s).shotTimestamps
        = s.shotTimestamps.set s.shotCount
            (if s.checkingForRecoil = true then s.lastSoundPeakTime else t.now) := h.1
    rw [h1]
    exact getD_set_eq _ _ _ _ hlen
  · intro t0 s0 h0 h4
    have he := (handleNoisyRangeTiming_step t0 s0).noisy_entered h0 h4
    exact ⟨he.1, handleNoisyRangeTiming_entered_peak t0 s0 h0 h4, he.2.2.1⟩
  · intro t0 s0 h0 h4
    have hw := ((handleNoisyRangeTiming_step t0 s0).noisy_window h0).1 h4
    exact ⟨hw.2, hw.1.1⟩

/-- The window opened at 1800 ms confirmed by a recoil at 1850 ms: the shot is stamped
1800. -/
theorem fused_policy_timestamps_example :
    (handleNoisyRangeTiming (tick 1850 0 2 false) windowOpen).shotCount
        = windowOpen.shotCount + 1
      ∧ windowOpen.lastSoundPeakTime = 1800
      ∧ (handleNoisyRangeTiming (tick 1850 0 2 false) windowOpen).lastShotTimestamp
          = (if windowOpen.checkingForRecoil = true then windowOpen.lastSoundPeakTime
             else (tick 1850 0 2 false).now)
      ∧ (handleNoisyRangeTiming (tick 1850 0 2 false) windowOpen).micPeakRMS = 0 :=
  ⟨by with_unfolding_all decide, by with_unfolding_all decide,
   (fused_policy_timestamps_anchor (tick 1850 0 2 false) windowOpen
      (by with_unfolding_all decide)).2.2.2.1,
   (fused_policy_timestamps_anchor (tick 1850 0 2 false) windowOpen
      (by with_unfolding_all decide)).2.2.2.2.2.2.1⟩

/-- The three outcomes of a Noisy Range tick whose listening part runs with the window open:
recoil above the threshold records a shot at the anchor; no recoil and the window expired
closes it; otherwise the window stays open. -/
theorem handleNoisyRangeTiming_open (t : Tick) (s : Globals)
    (hst : s.currentState = TimerState.NOISY_RANGE_TIMING) (hl : listensOn t s)
    (hc : s.checkingForRecoil = true) :
    (recoilAbove t s →
        (handleNoisyRangeTiming t s).shotCount = s.shotCount + 1
        ∧ (handleNoisyRangeTiming t s).checkingForRecoil = false
        ∧ (handleNoisyRangeTiming t s).lastSoundPeakTime = 0
        ∧ (handleNoisyRangeTiming t s).micPeakRMS = 0
        ∧ (handleNoisyRangeTiming t s).lastShotTimestamp = s.lastSoundPeakTime)
    ∧ (¬ recoilAbove t s → RECOIL_DETECTION_WINDOW_MS < usub t.now s.lastSoundPeakTime →
        SameShots (core (handleNoisyRangeTiming t s)) (core s)
        ∧ (handleNoisyRangeTiming t s).checkingForRecoil = false
        ∧ (handleNoisyRangeTiming t s).lastSoundPeakTime = 0
        ∧ (handleNoisyRangeTiming t s).micPeakRMS = 0)
    ∧ (¬ recoilAbove t s → ¬ RECOIL_DETECTION_WINDOW_MS < usub t.now s.lastSoundPeakTime →
        SameShots (core (handleNoisyRangeTiming t s)) (core s)
        ∧ (handleNoisyRangeTiming t s).checkingForRecoil = true
        ∧ (handleNoisyRangeTiming t s).lastSoundPeakTime = s.lastSoundPeakTime) := by
  obtain ⟨s1, h1, hcore, hthr, _, _, _⟩ := handleNoisyRangeTiming_listening t s hst hl
  have hc1 : s1.checkingForRecoil = true := (congrArg Core.checkingForRecoil hcore).trans hc
  have ha1 : s1.lastSoundPeakTime = s.lastSoundPeakTime :=
    congrArg Core.lastSoundPeakTime hcore
  have hrr : recoilAbove t s1 ↔ recoilAbove t s := by
    unfold recoilAbove
    rw [show s1.recoilThreshold = s.recoilThreshold from hthr]
  obtain ⟨o1, o2, o3⟩ := noisyListening_open t s1 hc1
  rw [h1]
  refine ⟨?_, ?_, ?_⟩
  · intro hr
    obtain ⟨hs, hm⟩ := o1 (hrr.mpr hr)
    have h := hs.stopped_shots
    rw [hcore, ha1] at h
    obtain ⟨⟨a1, _, _, _, a5⟩, b, c⟩ := h
    exact ⟨a1, c, b, hm, a5⟩
  · intro hr hw
    obtain ⟨hs, hm⟩ := o2 (fun h => hr (hrr.mp h)) (by rw [ha1]; exact hw)
    have h := hs.stopped_shots
    rw [hcore] at h
    obtain ⟨⟨a1, a2, a3, a4, a5⟩, b, c⟩ := h
    exact ⟨⟨a1, a2, a3, a4, a5⟩, c, b, hm⟩
  · intro hr hw
    have hs := o3 (fun h => hr (hrr.mp h)) (by rw [ha1]; exact hw)
    have h := hs.stopped_shots
    rw [hcore] at h
    obtain ⟨⟨a1, a2, a3, a4, a5⟩, b, c⟩ := h
    exact ⟨⟨a1, a2, a3, a4, a5⟩, c.trans hc, b⟩

/-- While one recoil window stays open over a run of Noisy Range ticks, at most one shot is
recorded, and it can only be recorded by the last tick of the run. -/
theorem runTiming_window_one_shot (ticks : List Tick) :
    ∀ s : Globals, s.checkingForRecoil = true →
      (∀ k, k < ticks.length →
        (runTiming Mode.noisyRange s (ticks.take k)).checkingForRecoil = true) →
      (runTiming Mode.noisyRange s ticks).shotCount = s.shotCount
      ∨ (runTiming Mode.noisyRange s ticks).shotCount = s.shotCount + 1 := by
  induction ticks with
  | nil => intro s _ _; exact Or.inl rfl
  | cons t ts ih =>
    intro s hc hopen
    have hw := (handleNoisyRangeTiming_step t s).noisy_window hc
    cases ts with
    | nil => exact hw.2.1
    | cons t2 ts2 =>
      have h1 : (handleNoisyRangeTiming t s).checkingForRecoil = true :=
        hopen 1 (by simp)
      have hsame := (hw.1 h1).1.1
      have hrest := ih (handleNoisyRangeTiming t s) h1 (fun k hk =>
        hopen (k + 1) (by simp at hk ⊢; omega))
      have e : runTiming Mode.noisyRange s (t :: t2 :: ts2)
          = runTiming Mode.noisyRange (handleNoisyRangeTiming t s) (t2 :: ts2) := rfl
      rw [e]
      have hsame1 : (handleNoisyRangeTiming t s).shotCount = s.shotCount := hsame
      rw [hsame1] at hrest
      exact hrest

/-- C16: on a Noisy Range tick whose listening part runs with the recoil window open, the
recoil not above `recoilThreshold` and more than `RECOIL_DETECTION_WINDOW_MS` elapsed since
the anchor, `handleNoisyRangeTiming` closes the window (`checkingForRecoil = false`, anchor
cleared, peak tracker reset) and leaves `shotCount`, `shotTimestamps`, `splitTimes`,
`lastDetectionTime` and `lastShotTimestamp` unchanged; and a run of ticks on which the recoil
never exceeds the threshold records no shot, whatever the microphone samples. -/
theorem fused_policy_rejects_unconfirmed_noise (t : Tick) (s : Globals)
    (hst : s.currentState = TimerState.NOISY_RANGE_TIMING) (hl : listensOn t s)
    (hc : s.checkingForRecoil = true) (hr : ¬ recoilAbove t s)
    (hw : RECOIL_DETECTION_WINDOW_MS < usub t.now s.lastSoundPeakTime) :
    (handleNoisyRangeTiming t s).checkingForRecoil = false
    ∧ (handleNoisyRangeTiming t s).lastSoundPeakTime = 0
    ∧ (handleNoisyRangeTiming t s).micPeakRMS = 0
    ∧ (handleNoisyRangeTiming t s).shotCount = s.shotCount
    ∧ (handleNoisyRangeTiming t s).shotTimestamps = s.shotTimestamps
    ∧ (handleNoisyRangeTiming t s).splitTimes = s.splitTimes
    ∧ (handleNoisyRangeTiming t s).lastDetectionTime = s.lastDetectionTime
    ∧ (handleNoisyRangeTiming t s).lastShotTimestamp = s.lastShotTimestamp
    ∧ (∀ (ticks : List Tick) (s0 : Globals), (∀ x ∈ ticks, ¬ recoilAbove x s0) →
        (runTiming Mode.noisyRange s0 ticks).shotCount = s0.shotCount
        ∧ (runTiming Mode.noisyRange s0 ticks).shotTimestamps = s0.shotTimestamps
        ∧ (runTiming Mode.noisyRange s0 ticks).splitTimes = s0.splitTimes
        ∧ (runTiming Mode.noisyRange s0 ticks).lastDetectionTime = s0.lastDetectionTime
        ∧ (runTiming Mode.noisyRange s0 ticks).lastShotTimestamp = s0.lastShotTimestamp) := by
  obtain ⟨⟨a1, a2, a3, a4, a5⟩, b, c, d⟩ := (handleNoisyRangeTiming_open t s hst hl hc).2.1 hr hw
  exact ⟨b, c, d, a1, a2, a3, a4, a5, fun ticks s0 h => runTiming_quiet ticks s0 h⟩

/-- The window opened at 1800 ms is closed without a shot by a tick at 1950 ms with no
recoil. -/
theorem fused_policy_rejects_example :
    windowOpen.checkingForRecoil = true
      ∧ (handleNoisyRangeTiming (tick 1950 20000 0 false) windowOpen).checkingForRecoil = false
      ∧ (handleNoisyRangeTiming (tick 1950 20000 0 false) windowOpen).shotCount
          = windowOpen.shotCount :=
  ⟨by with_unfolding_all decide,
   (fused_policy_rejects_unconfirmed_noise (tick 1950 20000 0 false) windowOpen
      (by with_unfolding_all decide) (by with_unfolding_all decide)
      (by with_unfolding_all decide) (by with_unfolding_all decide)
      (by with_unfolding_all decide)).1,
   (fused_policy_rejects_unconfirmed_noise (tick 1950 20000 0 false) windowOpen
      (by with_unfolding_all decide) (by with_unfolding_all decide)
      (by with_unfolding_all decide) (by with_unfolding_all decide)
      (by with_unfolding_all decide)).2.2.2.1⟩

/-- C15 (amended): on a Noisy Range tick whose listening part runs with the recoil window
open at anchor `a`, the tick records one shot exactly when the recoil is above the threshold
(the recoil is tested before the age of the window, so also when `t - a > 100`), and then the
shot is stamped `a` and the window is closed; without recoil the window is closed when
`t - a > 100` and kept open otherwise; so after a tick with `t - a > 100` the window is
closed in every case. While one window stays open over a run of ticks at most one shot is
recorded. -/
theorem fused_window_at_most_one_shot (t : Tick) (s : Globals)
    (hst : s.currentState = TimerState.NOISY_RANGE_TIMING) (hl : listensOn t s)
    (hc : s.checkingForRecoil = true) :
    ((handleNoisyRangeTiming t s).shotCount = s.shotCount
      ∨ (handleNoisyRangeTiming t s).shotCount = s.shotCount + 1)
    ∧ ((handleNoisyRangeTiming t s).shotCount = s.shotCount + 1 ↔ recoilAbove t s)
    ∧ (recoilAbove t s →
        (handleNoisyRangeTiming t s).lastShotTimestamp = s.lastSoundPeakTime
        ∧ (handleNoisyRangeTiming t s).checkingForRecoil = false)
    ∧ (RECOIL_DETECTION_WINDOW_MS < usub t.now s.lastSoundPeakTime →
        (handleNoisyRangeTiming t s).checkingForRecoil = false)
    ∧ ((handleNoisyRangeTiming t s).checkingForRecoil = true ↔
        (¬ recoilAbove t s ∧ usub t.now s.lastSoundPeakTime ≤ RECOIL_DETECTION_WINDOW_MS))
    ∧ (∀ (ticks : List Tick) (s0 : Globals), s0.checkingForRecoil = true →
        (∀ k, k < ticks.length →
          (runTiming Mode.noisyRange s0 (ticks.take k)).checkingForRecoil = true) →
        (runTiming Mode.noisyRange s0 ticks).shotCount = s0.shotCount
        ∨ (runTiming Mode.noisyRange s0 ticks).shotCount = s0.shotCount + 1) := by
  obtain ⟨o1, o2, o3⟩ := handleNoisyRangeTiming_open t s hst hl hc
  have hq := handleNoisyRangeTiming_quiet t s
  refine ⟨((handleNoisyRangeTiming_step t s).noisy_window hc).2.1, ⟨?_, fun hr => (o1 hr).1⟩,
    fun hr => ⟨(o1 hr).2.2.2.2, (o1 hr).2.1⟩, ?_, ⟨?_, ?_⟩,
    fun ticks s0 h0 hopen => runTiming_window_one_shot ticks s0 h0 hopen⟩
  · intro hrec
    by_contra hr
    have h := (hq hr).1
    have h' : (handleNoisyRangeTiming t s).shotCount = s.shotCount := h
    omega
  · intro hw
    by_cases hr : recoilAbove t s
    · exact (o1 hr).2.1
    · exact (o2 hr hw).2.1
  · intro h4
    by_cases hr : recoilAbove t s
    · rw [(o1 hr).2.1] at h4; cases h4
    · refine ⟨hr, ?_⟩
      by_contra hw
      rw [(o2 hr (by omega)).2.1] at h4
      cases h4
  · rintro ⟨hr, hw⟩
    exact (o3 hr (by omega)).2.1

/-- The window opened at 1800 ms confirmed by a recoil at 1850 ms yields its one shot. -/
theorem fused_window_example :
    windowOpen.lastSoundPeakTime = 1800
      ∧ ((handleNoisyRangeTiming (tick 1850 0 2 false) windowOpen).shotCount
          = windowOpen.shotCount + 1 ↔ recoilAbove (tick 1850 0 2 false) windowOpen) :=
  ⟨by with_unfolding_all decide,
   (fused_window_at_most_one_shot (tick 1850 0 2 false) windowOpen
      (by with_unfolding_all decide) (by with_unfolding_all decide)
      (by with_unfolding_all decide)).2.1⟩

/-- C15 (counterexample): the window opened at anchor 1800 ms is confirmed by a tick at
1950 ms, 150 ms after the anchor and so later than `RECOIL_DETECTION_WINDOW_MS`; the shot is
recorded all the same, stamped 1800. -/
theorem fused_window_late_confirmation :
    windowOpen.currentState = TimerState.NOISY_RANGE_TIMING
      ∧ windowOpen.checkingForRecoil = true
      ∧ windowOpen.lastSoundPeakTime = 1800
      ∧ windowOpen.shotCount = 0
      ∧ RECOIL_DETECTION_WINDOW_MS < usub (tick 1950 0 2 false).now windowOpen.lastSoundPeakTime
      ∧ (handleNoisyRangeTiming (tick 1950 0 2 false) windowOpen).shotCount = 1
      ∧ (handleNoisyRangeTiming (tick 1950 0 2 false) windowOpen).shotTimestamps.getD 0 0
          = 1800 := by
  with_unfolding_all decide

/-! ## Theorems: the peak tracker in the direct policy -/

/-- The detection stage of a Live Fire tick while listening: a detected shot keeps the
sensor fields (the tracker is not reset), a tick without detection resets the tracker. -/
theorem liveFireDetect_sense (t : Tick) (s : Globals) (hl : s.is_listening_active = true) :
    (detectCond t.now s →
        sense (liveFireDetect t s) = sense s
        ∧ (liveFireDetect t s).shotCount = s.shotCount + 1)
    ∧ (¬ detectCond t.now s →
        sense (liveFireDetect t s) = { sense s with micPeakRMS := 0 }
        ∧ (liveFireDetect t s).shotCount = s.shotCount) := by
  refine ⟨fun hd => ?_, fun hd => ?_⟩
  · unfold liveFireDetect
    rw [if_pos hd]
    simp only []
    split
    · refine ⟨(sense_stopSession t _).trans (sense_recordShot _ _ _), ?_⟩
      exact (congrArg Core.shotCount (core_stopSession t _)).trans rfl
    · exact ⟨sense_recordShot _ _ _, rfl⟩
  · unfold liveFireDetect
    rw [if_neg hd, if_pos hl]
    exact ⟨rfl, rfl⟩

/-- The listening part of a Live Fire tick, seen from the sensor fields and the count. -/
theorem liveFireListening_sense (t : Tick) (s : Globals) (hl : s.is_listening_active = true) :
    (liveFireListening t s).currentCyclePeakRMS = max s.micPeakRMS t.micSample
    ∧ (detectCond t.now (liveFireSample t s) →
        (liveFireListening t s).micPeakRMS = max s.micPeakRMS t.micSample
        ∧ (s.shotThresholdRms : Rat) < (liveFireListening t s).micPeakRMS
        ∧ (liveFireListening t s).shotCount = s.shotCount + 1)
    ∧ (¬ detectCond t.now (liveFireSample t s) →
        (liveFireListening t s).micPeakRMS = 0
        ∧ (liveFireListening t s).shotCount = s.shotCount) := by
  have hc := core_liveFireSample t s
  have hs := sense_liveFireSample t s
  have hl3 : (liveFireSample t s).is_listening_active = true :=
    (congrArg Core.is_listening_active hc).trans hl
  have hcnt3 : (liveFireSample t s).shotCount = s.shotCount := congrArg Core.shotCount hc
  obtain ⟨d1, d2⟩ := liveFireDetect_sense t (liveFireSample t s) hl3
  have hsen : sense (liveFireListening t s) = sense (liveFireDetect t (liveFireSample t s)) := by
    unfold liveFireListening
    simp only []
    rw [sense_liveFireTimeoutStop, sense_liveFireManualStop]
  have hcnt : (liveFireListening t s).shotCount
      = (liveFireDetect t (liveFireSample t s)).shotCount := by
    have h1 := (liveFireTimeoutStop_core t
      (liveFireManualStop t (liveFireDetect t (liveFireSample t s)))).stopped_shots.1.1
    have h2 := (liveFireManualStop_core t
      (liveFireDetect t (liveFireSample t s))).stopped_shots.1.1
    exact h1.trans h2
  have hthr : (liveFireSample t s).shotThresholdRms = s.shotThresholdRms :=
    (congrArg Sense.shotThresholdRms hs).trans rfl
  have hcyc3 : (liveFireSample t s).currentCyclePeakRMS = max s.micPeakRMS t.micSample :=
    (congrArg Sense.currentCyclePeakRMS hs).trans rfl
  have hmic3 : (liveFireSample t s).micPeakRMS = max s.micPeakRMS t.micSample :=
    (congrArg Sense.micPeakRMS hs).trans rfl
  refine ⟨?_, fun hd => ?_, fun hd => ?_⟩
  · by_cases hd : detectCond t.now (liveFireSample t s)
    · exact ((congrArg Sense.currentCyclePeakRMS hsen).trans
        (congrArg Sense.currentCyclePeakRMS (d1 hd).1)).trans hcyc3
    · exact ((congrArg Sense.currentCyclePeakRMS hsen).trans
        (congrArg Sense.currentCyclePeakRMS (d2 hd).1)).trans hcyc3
  · have hm : (liveFireListening t s).micPeakRMS = max s.micPeakRMS t.micSample :=
      ((congrArg Sense.micPeakRMS hsen).trans
        (congrArg Sense.micPeakRMS (d1 hd).1)).trans hmic3
    refine ⟨hm, ?_, (hcnt.trans (d1 hd).2).trans (congrArg (· + 1) hcnt3)⟩
    rw [hm, ← hcyc3, ← hthr]
    exact hd.1
  · refine ⟨?_, (hcnt.trans (d2 hd).2).trans hcnt3⟩
    exact (congrArg Sense.micPeakRMS hsen).trans (congrArg Sense.micPeakRMS (d2 hd).1)

/-- C17 (amended): on every Live Fire tick whose listening part runs, the tick records no
shot or one shot; when it records none, the peak tracker has been reset by the end of the
tick (`micPeakRMS = 0`), so the peak read by the next tick is that tick's own sample; when it
records a shot the tracker is not reset on that tick: it still holds the peak that fired,
above the threshold, and the next tick reads it. -/
theorem direct_policy_peak_reset (t : Tick) (s : Globals)
    (hst : s.currentState = TimerState.LIVE_FIRE_TIMING) (hl : listensOn t s) :
    ((handleLiveFireTiming t s).shotCount = s.shotCount
      ∨ (handleLiveFireTiming t s).shotCount = s.shotCount + 1)
    ∧ ((handleLiveFireTiming t s).shotCount = s.shotCount →
        (handleLiveFireTiming t s).micPeakRMS = 0)
    ∧ ((handleLiveFireTiming t s).shotCount = s.shotCount + 1 →
        (handleLiveFireTiming t s).micPeakRMS = (handleLiveFireTiming t s).currentCyclePeakRMS
        ∧ (s.shotThresholdRms : Rat) < (handleLiveFireTiming t s).micPeakRMS)
    ∧ (∀ t2 : Tick, (handleLiveFireTiming t s).currentState = TimerState.LIVE_FIRE_TIMING →
        (handleLiveFireTiming t s).is_listening_active = true →
        (handleLiveFireTiming t2 (handleLiveFireTiming t s)).currentCyclePeakRMS
          = max (handleLiveFireTiming t s).micPeakRMS t2.micSample) := by
  obtain ⟨s1, h1, hcore, _, hthr, _, _⟩ := handleLiveFireTiming_listening t s hst hl
  have hl1 : s1.is_listening_active = true := congrArg Core.is_listening_active hcore
  have hcnt1 : s1.shotCount = s.shotCount := congrArg Core.shotCount hcore
  obtain ⟨c1, c2, c3⟩ := liveFireListening_sense t s1 hl1
  rw [h1]
  refine ⟨?_, ?_, ?_, ?_⟩
  · by_cases hd : detectCond t.now (liveFireSample t s1)
    · exact Or.inr ((c2 hd).2.2.trans (congrArg (· + 1) hcnt1))
    · exact Or.inl ((c3 hd).2.trans hcnt1)
  · intro hsame
    by_cases hd : detectCond t.now (liveFireSample t s1)
    · have := (c2 hd).2.2
      omega
    · exact (c3 hd).1
  · intro hrec
    by_cases hd : detectCond t.now (liveFireSample t s1)
    · refine ⟨(c2 hd).1.trans c1.symm, ?_⟩
      have := (c2 hd).2.1
      rw [show s1.shotThresholdRms = s.shotThresholdRms from hthr] at this
      exact this
    · have := (c3 hd).2
      omega
  · intro t2 hst2 hl2
    have e : handleLiveFireTiming t2 (liveFireListening t s1)
        = liveFireListening t2 (liveFireListening t s1) := by
      unfold handleLiveFireTiming
      rw [if_neg (not_not.mpr hst2), if_neg (by rw [hl2]; simp)]
    rw [e]
    exact (liveFireListening_sense t2 _ hl2).1

/-- A silent listening tick at 1900 ms leaves the tracker reset. -/
theorem direct_policy_peak_reset_example :
    liveListening.is_listening_active = true
      ∧ (handleLiveFireTiming (tick 1900 0 0 false) liveListening).micPeakRMS = 0 :=
  ⟨by with_unfolding_all decide,
   (direct_policy_peak_reset (tick 1900 0 0 false) liveListening
      (by with_unfolding_all decide) (by with_unfolding_all decide)).2.1
      (by with_unfolding_all decide)⟩

/-- C17 (counterexample): with listening active, a tick at 1900 ms with a peak of 20000
records a shot and calls no `resetPeak`: the tracker still holds 20000 at the end of the tick;
the silent tick at 2100 ms then reads that peak and records a second shot. -/
theorem direct_policy_peak_kept_on_shot_tick :
    liveListening.currentState = TimerState.LIVE_FIRE_TIMING
      ∧ liveListening.is_listening_active = true
      ∧ liveListening.shotCount = 0
      ∧ (handleLiveFireTiming (tick 1900 20000 0 false) liveListening).shotCount = 1
      ∧ (handleLiveFireTiming (tick 1900 20000 0 false) liveListening).micPeakRMS = 20000
      ∧ Effect.micResetPeak ∉
          (handleLiveFireTiming (tick 1900 20000 0 false) liveListening).effects.drop
            liveListening.effects.length
      ∧ (handleLiveFireTiming (tick 2100 0 0 false)
          (handleLiveFireTiming (tick 1900 20000 0 false) liveListening)).shotCount = 2 := by
  refine ⟨?_, ?_, ?_, ?_, rfl, ?_, ?_⟩ <;> with_unfolding_all decide

/-! ## Theorems: the stop tests of the timing handlers -/

theorem timeSinceEvent_stopSession (t : Tick) (now : Nat) (s : Globals) :
    timeSinceEvent now (stopSession t s) = timeSinceEvent now s := by
  show (if (core (stopSession t s)).shotCount = 0
          then usub now (core (stopSession t s)).startTime
          else usub now (core (stopSession t s)).lastShotTimestamp) = _
  rw [core_stopSession]
  rfl

/-- The timeout test of `handleLiveFireTiming` reached in the state `LIVE_FIRE_TIMING`. -/
theorem liveFireTimeoutStop_iff (t : Tick) (s : Globals)
    (hst : s.currentState = TimerState.LIVE_FIRE_TIMING) :
    ((liveFireTimeoutStop t s).currentState = TimerState.LIVE_FIRE_STOPPED ↔
        (0 < s.startTime ∧ TIMEOUT_DURATION_MS < timeSinceEvent t.now s))
    ∧ ((liveFireTimeoutStop t s).currentState ≠ TimerState.LIVE_FIRE_STOPPED →
        liveFireTimeoutStop t s = s)
    ∧ timeSinceEvent t.now (liveFireTimeoutStop t s) = timeSinceEvent t.now s := by
  unfold liveFireTimeoutStop
  rw [if_pos hst]
  by_cases h : 0 < s.startTime ∧ TIMEOUT_DURATION_MS < timeSinceEvent t.now s
  · rw [if_pos h]
    exact ⟨⟨fun _ => h, fun _ => stopSession_currentState t s⟩,
      fun hne => absurd (stopSession_currentState t s) hne, timeSinceEvent_stopSession t _ s⟩
  · rw [if_neg h]
    refine ⟨⟨fun hs => ?_, fun hh => absurd hh h⟩, fun _ => rfl, rfl⟩
    rw [hst] at hs
    cases hs

/-- The stop tests of `handleNoisyRangeTiming` reached in the state `NOISY_RANGE_TIMING`. -/
theorem noisyStops_iff (t : Tick) (s : Globals)
    (hst : s.currentState = TimerState.NOISY_RANGE_TIMING) :
    (t.btnA = true → (noisyStops t s).currentState = TimerState.LIVE_FIRE_STOPPED)
    ∧ (t.btnA = false →
        ((noisyStops t s).currentState = TimerState.LIVE_FIRE_STOPPED ↔
          (0 < s.startTime ∧ TIMEOUT_DURATION_MS < timeSinceEvent t.now s))
        ∧ ((noisyStops t s).currentState ≠ TimerState.LIVE_FIRE_STOPPED → noisyStops t s = s)
        ∧ timeSinceEvent t.now (noisyStops t s) = timeSinceEvent t.now s) := by
  refine ⟨fun hb => ?_, fun hb => ?_⟩
  · unfold noisyStops
    rw [if_pos ⟨hst, hb⟩]
    exact stopSession_currentState t _
  · unfold noisyStops
    rw [if_neg (fun h => by rw [hb] at h; cases h.2), if_pos hst]
    by_cases h : 0 < s.startTime ∧ TIMEOUT_DURATION_MS < timeSinceEvent t.now s
    · rw [if_pos h]
      exact ⟨⟨fun _ => h, fun _ => stopSession_currentState t s⟩,
        fun hne => absurd (stopSession_currentState t s) hne, timeSinceEvent_stopSession t _ s⟩
    · rw [if_neg h]
      refine ⟨⟨fun hs => ?_, fun hh => absurd hh h⟩, fun _ => rfl, rfl⟩
      rw [hst] at hs
      cases hs

/-- The listening part of a Live Fire tick ends in one of three ways: stopped by the
detection stage with the count at the maximum, stopped by the manual stop, or decided by the
timeout test. -/
theorem liveFireListening_stops (t : Tick) (s : Globals)
    (hst : s.currentState = TimerState.LIVE_FIRE_TIMING) :
    ((liveFireListening t s).currentState = TimerState.LIVE_FIRE_STOPPED
      ∧ (liveFireListening t s).currentMaxShots ≤ ((liveFireListening t s).shotCount : Int))
    ∨ (t.btnA = true
      ∧ (liveFireListening t s).currentState = TimerState.LIVE_FIRE_STOPPED)
    ∨ (t.btnA = false
      ∧ (liveFireDetect t (liveFireSample t s)).currentState = TimerState.LIVE_FIRE_TIMING
      ∧ liveFireListening t s
          = liveFireTimeoutStop t (liveFireDetect t (liveFireSample t s))) := by
  have hst3 : (liveFireSample t s).currentState = TimerState.LIVE_FIRE_TIMING :=
    (congrArg Core.currentState (core_liveFireSample t s)).trans hst
  have hdet : ((liveFireDetect t (liveFireSample t s)).currentState
        = TimerState.LIVE_FIRE_STOPPED
      ∧ (liveFireDetect t (liveFireSample t s)).currentMaxShots
          ≤ ((liveFireDetect t (liveFireSample t s)).shotCount : Int))
    ∨ (liveFireDetect t (liveFireSample t s)).currentState = TimerState.LIVE_FIRE_TIMING := by
    generalize liveFireSample t s = s3 at hst3
    unfold liveFireDetect
    by_cases hd : detectCond t.now s3
    · rw [if_pos hd]
      simp only []
      by_cases hfull : (recordShot t.now t.now s3).currentMaxShots
          ≤ ((recordShot t.now t.now s3).shotCount : Int)
      · rw [if_pos hfull]
        refine Or.inl ⟨stopSession_currentState t _, ?_⟩
        have hc := core_stopSession t (recordShot t.now t.now s3)
        rw [show (stopSession t (recordShot t.now t.now s3)).currentMaxShots
              = (recordShot t.now t.now s3).currentMaxShots from
              congrArg Core.currentMaxShots hc,
            show (stopSession t (recordShot t.now t.now s3)).shotCount
              = (recordShot t.now t.now s3).shotCount from congrArg Core.shotCount hc]
        exact hfull
      · rw [if_neg hfull]
        exact Or.inr hst3
    · rw [if_neg hd]
      split
      · exact Or.inr hst3
      · exact Or.inr hst3
  unfold liveFireListening
  simp only []
  rcases hdet with ⟨h1, h2⟩ | h1
  · left
    rw [liveFireManualStop_idle t _ (Or.inl (by rw [h1]; decide)),
      liveFireTimeoutStop_idle t _ (Or.inl (by rw [h1]; decide))]
    exact ⟨h1, h2⟩
  · cases hb : t.btnA with
    | true =>
      right; left
      refine ⟨rfl, ?_⟩
      have hm : (liveFireManualStop t (liveFireDetect t (liveFireSample t s))).currentState
          = TimerState.LIVE_FIRE_STOPPED := by
        unfold liveFireManualStop
        rw [if_pos ⟨h1, hb⟩]
        exact stopSession_currentState t _
      rw [liveFireTimeoutStop_idle t _ (Or.inl (by rw [hm]; decide))]
      exact hm
    | false =>
      right; right
      rw [liveFireManualStop_idle t _ (Or.inr hb)]
      exact ⟨rfl, h1, rfl⟩

/-- The listening part of a Noisy Range tick ends either stopped by the recoil stage with the
count at the maximum, or in the stop tests reached in the state `NOISY_RANGE_TIMING`. -/
theorem noisyListening_stops (t : Tick) (s : Globals)
    (hst : s.currentState = TimerState.NOISY_RANGE_TIMING) :
    ((noisyListening t s).currentState = TimerState.LIVE_FIRE_STOPPED
      ∧ (noisyListening t s).currentMaxShots ≤ ((noisyListening t s).shotCount : Int))
    ∨ ((noisyRecoilCheck t (noisySample t s)).1.currentState = TimerState.NOISY_RANGE_TIMING
      ∧ noisyListening t s = noisyStops t (noisyRecoilCheck t (noisySample t s)).1) := by
  have hst3 : (noisySample t s).currentState = TimerState.NOISY_RANGE_TIMING := by
    rcases noisySample_core t s with h | ⟨_, _, h⟩
    · exact (congrArg Core.currentState h).trans hst
    · exact (congrArg Core.currentState h).trans hst
  have hrc : ((noisyRecoilCheck t (noisySample t s)).2 = true
      ∧ (noisyRecoilCheck t (noisySample t s)).1.currentState = TimerState.LIVE_FIRE_STOPPED
      ∧ (noisyRecoilCheck t (noisySample t s)).1.currentMaxShots
          ≤ ((noisyRecoilCheck t (noisySample t s)).1.shotCount : Int))
    ∨ ((noisyRecoilCheck t (noisySample t s)).2 = false
      ∧ (noisyRecoilCheck t (noisySample t s)).1.currentState
          = TimerState.NOISY_RANGE_TIMING) := by
    generalize noisySample t s = s3 at hst3
    by_cases hr : recoilAbove t s3
    · cases hc : s3.checkingForRecoil with
      | true =>
        obtain ⟨hs, _, f1, f2⟩ := noisyRecoilCheck_confirm t s3 hc hr
        cases hf : (noisyRecoilCheck t s3).2 with
        | true =>
          refine Or.inl ⟨rfl, (f1 hf).1, ?_⟩
          have hfr := hs.stopped_frame
          rw [show (noisyRecoilCheck t s3).1.currentMaxShots
                = (core (noisyRecoilCheck t s3).1).currentMaxShots from rfl, hfr.2.2.1,
              show (noisyRecoilCheck t s3).1.shotCount
                = (core (noisyRecoilCheck t s3).1).shotCount from rfl, hfr.2.2.2.1]
          exact (f1 hf).2
        | false => exact Or.inr ⟨rfl, ((f2 hf).1).trans hst3⟩
      | false =>
        rw [noisyRecoilCheck_idle t s3 hc]
        refine Or.inr ⟨rfl, ?_⟩
        show (if s3.is_listening_active = true then micResetPeak s3 else s3).currentState = _
        split
        · exact hst3
        · exact hst3
    · have hq := noisyRecoilCheck_quiet t s3 hr
      exact Or.inr ⟨hq.2.1, hq.2.2.1.trans hst3⟩
  unfold noisyListening
  simp only []
  rcases hrc with ⟨h1, h2, h3⟩ | ⟨h1, h2⟩
  · rw [if_pos h1]
    exact Or.inl ⟨h2, h3⟩
  · rw [if_neg (by rw [h1]; simp)]
    exact Or.inr ⟨h2, rfl⟩

/-- C18 (amended): on every Timing tick whose listening part runs, without the manual stop
input and with the shot count still below the maximum after the tick, the session moves to
`LIVE_FIRE_STOPPED` if and only if `startTime > 0` (the guard `hasStarted`) and the unsigned
difference `now - ref` exceeds `TIMEOUT_DURATION_MS`, where `ref` is `startTime` when no shot
is recorded and `lastShotTimestamp` otherwise; at a difference of exactly 15000 it stays in
Timing. Both Live Fire and Noisy Range. -/
theorem timeout_stop (m : Mode) (t : Tick) (s : Globals)
    (hst : s.currentState = m.timingState) (hl : listensOn t s) (hbtn : t.btnA = false)
    (hroom : ((timingTick m t s).shotCount : Int) < s.currentMaxShots) :
    ((timingTick m t s).currentState = TimerState.LIVE_FIRE_STOPPED ↔
        (0 < s.startTime ∧ TIMEOUT_DURATION_MS < timeSinceEvent t.now (timingTick m t s)))
    ∧ ((timingTick m t s).currentState ≠ TimerState.LIVE_FIRE_STOPPED →
        (timingTick m t s).currentState = m.timingState)
    ∧ (timeSinceEvent t.now (timingTick m t s) = TIMEOUT_DURATION_MS →
        (timingTick m t s).currentState = m.timingState)
    ∧ timeSinceEvent t.now (timingTick m t s)
        = (if (timingTick m t s).shotCount = 0 then usub t.now s.startTime
           else usub t.now (timingTick m t s).lastShotTimestamp) := by
  have hfr := timingTick_frame m t s
  have hlast : timeSinceEvent t.now (timingTick m t s)
      = (if (timingTick m t s).shotCount = 0 then usub t.now s.startTime
         else usub t.now (timingTick m t s).lastShotTimestamp) := by
    unfold timeSinceEvent
    rw [hfr.1]
  have key : ((timingTick m t s).currentState = TimerState.LIVE_FIRE_STOPPED ↔
        (0 < s.startTime ∧ TIMEOUT_DURATION_MS < timeSinceEvent t.now (timingTick m t s)))
      ∧ ((timingTick m t s).currentState ≠ TimerState.LIVE_FIRE_STOPPED →
        (timingTick m t s).currentState = m.timingState) := by
    cases m with
    | liveFire =>
      obtain ⟨s1, h1, hcore, _, _, _, _⟩ := handleLiveFireTiming_listening t s hst hl
      have hst1 : s1.currentState = TimerState.LIVE_FIRE_TIMING :=
        (congrArg Core.currentState hcore).trans hst
      have e : timingTick Mode.liveFire t s = liveFireListening t s1 := h1
      rw [e] at hroom hfr ⊢
      rcases liveFireListening_stops t s1 hst1 with ⟨_, h⟩ | ⟨hb, _⟩ | ⟨_, h4, hfin⟩
      · rw [hfr.2.2] at h
        omega
      · rw [hbtn] at hb
        cases hb
      · obtain ⟨i1, i2, i3⟩ := liveFireTimeoutStop_iff t _ h4
        have hstart : (liveFireDetect t (liveFireSample t s1)).startTime = s.startTime := by
          have := (liveFireTimeoutStop_core t
            (liveFireDetect t (liveFireSample t s1))).stopped_frame.1
          rw [← hfin] at this
          exact this.symm.trans hfr.1
        rw [hfin]
        rw [hstart] at i1
        refine ⟨?_, fun hne => ?_⟩
        · rw [i3]
          exact i1
        · rw [i2 hne]
          exact h4
    | noisyRange =>
      obtain ⟨s1, h1, hcore, _, _, _, _⟩ := handleNoisyRangeTiming_listening t s hst hl
      have hst1 : s1.currentState = TimerState.NOISY_RANGE_TIMING :=
        (congrArg Core.currentState hcore).trans hst
      have e : timingTick Mode.noisyRange t s = noisyListening t s1 := h1
      rw [e] at hroom hfr ⊢
      rcases noisyListening_stops t s1 hst1 with ⟨_, h⟩ | ⟨h4, hfin⟩
      · rw [hfr.2.2] at h
        omega
      · obtain ⟨i1, i2, i3⟩ := (noisyStops_iff t _ h4).2 hbtn
        have hstart : (noisyRecoilCheck t (noisySample t s1)).1.startTime = s.startTime := by
          have := (noisyStops_core t (noisyRecoilCheck t (noisySample t s1)).1).stopped_frame.1
          rw [← hfin] at this
          exact this.symm.trans hfr.1
        rw [hfin]
        rw [hstart] at i1
        refine ⟨?_, fun hne => ?_⟩
        · rw [i3]
          exact i1
        · rw [i2 hne]
          exact h4
  refine ⟨key.1, key.2, fun h15 => ?_, hlast⟩
  apply key.2
  intro hs
  have := (key.1.mp hs).2
  rw [h15] at this
  exact absurd this (lt_irrefl _)

/-- A silent Live Fire tick 15001 ms after `startTime` (1750) stops the session. -/
theorem timeout_stop_example :
    timeSinceEvent 16751 (handleLiveFireTiming (tick 16751 0 0 false) liveListening) = 15001
      ∧ ((timingTick Mode.liveFire (tick 16751 0 0 false) liveListening).currentState
            = TimerState.LIVE_FIRE_STOPPED ↔
          (0 < liveListening.startTime ∧ TIMEOUT_DURATION_MS
            < timeSinceEvent (tick 16751 0 0 false).now
                (timingTick Mode.liveFire (tick 16751 0 0 false) liveListening))) :=
  ⟨by with_unfolding_all decide,
   (timeout_stop Mode.liveFire (tick 16751 0 0 false) liveListening
      (by with_unfolding_all decide) (by with_unfolding_all decide) rfl
      (by with_unfolding_all decide)).1⟩

/-- C18 (counterexample): in the session whose start cue is issued at `2^32 - 750` ms,
`startTime` is 0; on the listening tick at 4294967000 ms, with no shot, no manual stop and
`now - startTime` far above 15000, the session stays in `LIVE_FIRE_TIMING`. -/
theorem timeout_needs_started_session :
    wrapStart.currentState = TimerState.LIVE_FIRE_TIMING
      ∧ wrapStart.is_listening_active = true
      ∧ wrapStart.shotCount = 0
      ∧ wrapStart.startTime = 0
      ∧ TIMEOUT_DURATION_MS < 4294967000 - wrapStart.startTime
      ∧ TIMEOUT_DURATION_MS
          < timeSinceEvent 4294967000 (handleLiveFireTiming (tick 4294967000 0 0 false) wrapStart)
      ∧ (handleLiveFireTiming (tick 4294967000 0 0 false) wrapStart).shotCount = 0
      ∧ (handleLiveFireTiming (tick 4294967000 0 0 false) wrapStart).currentState
          = TimerState.LIVE_FIRE_TIMING := by
  refine ⟨?_, ?_, ?_, ?_, ?_, ?_, ?_, ?_⟩ <;> with_unfolding_all decide

/-- C19 (amended): on every tick in the Timing state whose listening part runs (listening
already active, or the barrier resolving on this tick) with the manual stop input present,
the session is in `LIVE_FIRE_STOPPED` at the end of the tick; on a tick before the barrier
resolves the handler returns before the stop tests and the state is unchanged, whatever the
manual stop input. Both Live Fire and Noisy Range. -/
theorem manual_stop_on_listening_ticks (m : Mode) (t : Tick) (s : Globals)
    (hst : s.currentState = m.timingState) (hl : listensOn t s) (hbtn : t.btnA = true) :
    (timingTick m t s).currentState = TimerState.LIVE_FIRE_STOPPED
    ∧ (∀ (t0 : Tick) (s0 : Globals), ¬ listensOn t0 s0 →
        (timingTick m t0 s0).currentState = s0.currentState
        ∧ (timingTick m t0 s0).is_listening_active = false) := by
  refine ⟨?_, fun t0 s0 h0 => ?_⟩
  · cases m with
    | liveFire =>
      obtain ⟨s1, h1, hcore, _, _, _, _⟩ := handleLiveFireTiming_listening t s hst hl
      have hst1 : s1.currentState = TimerState.LIVE_FIRE_TIMING :=
        (congrArg Core.currentState hcore).trans hst
      have e : timingTick Mode.liveFire t s = liveFireListening t s1 := h1
      rw [e]
      rcases liveFireListening_stops t s1 hst1 with ⟨h, _⟩ | ⟨_, h⟩ | ⟨hb, _, _⟩
      · exact h
      · exact h
      · rw [hbtn] at hb
        cases hb
    | noisyRange =>
      obtain ⟨s1, h1, hcore, _, _, _, _⟩ := handleNoisyRangeTiming_listening t s hst hl
      have hst1 : s1.currentState = TimerState.NOISY_RANGE_TIMING :=
        (congrArg Core.currentState hcore).trans hst
      have e : timingTick Mode.noisyRange t s = noisyListening t s1 := h1
      rw [e]
      rcases noisyListening_stops t s1 hst1 with ⟨h, _⟩ | ⟨h4, hfin⟩
      · exact h
      · rw [hfin]
        exact (noisyStops_iff t _ h4).1 hbtn
  · have hoff : s0.is_listening_active = false := by
      cases h : s0.is_listening_active with
      | false => rfl
      | true => exact absurd (Or.inl h) h0
    have hnb : ¬ (s0.beep_audio_end_time ≤ t0.now ∧ s0.startTime ≤ t0.now) :=
      fun h => h0 (Or.inr h)
    rcases timingTick_waiting m t0 s0 hoff hnb with h | h
    · rw [h]
      exact ⟨rfl, hoff⟩
    · rw [h]
      exact ⟨congrArg Core.currentState (core_refreshDisplay t0.now s0),
        (congrArg Core.is_listening_active (core_refreshDisplay t0.now s0)).trans hoff⟩

/-- The manual stop on a listening Live Fire tick at 1900 ms stops the session. -/
theorem manual_stop_example :
    liveListening.is_listening_active = true
      ∧ (timingTick Mode.liveFire (tick 1900 0 0 true) liveListening).currentState
          = TimerState.LIVE_FIRE_STOPPED :=
  ⟨by with_unfolding_all decide,
   (manual_stop_on_listening_ticks Mode.liveFire (tick 1900 0 0 true) liveListening
      (by with_unfolding_all decide) (by with_unfolding_all decide) rfl).1⟩

/-- C19 (counterexample): with a start tone of 1000 ms issued at 1000 ms the Timing state is
entered with `startTime` 1750 and the audio deadline 2150; on the tick at 1800 ms, before the
barrier resolves, the manual stop input is present and the session stays in Timing, in both
modes. -/
theorem manual_stop_ignored_before_barrier :
    (longBeepStart Mode.liveFire).currentState = TimerState.LIVE_FIRE_TIMING
      ∧ (longBeepStart Mode.liveFire).startTime = 1750
      ∧ (longBeepStart Mode.liveFire).beep_audio_end_time = 2150
      ∧ (tick 1800 0 0 true).btnA = true
      ∧ (handleLiveFireTiming (tick 1800 0 0 true) (longBeepStart Mode.liveFire)).currentState
          = TimerState.LIVE_FIRE_TIMING
      ∧ (longBeepStart Mode.noisyRange).currentState = TimerState.NOISY_RANGE_TIMING
      ∧ (handleNoisyRangeTiming (tick 1800 0 0 true)
          (longBeepStart Mode.noisyRange)).currentState = TimerState.NOISY_RANGE_TIMING := by
  refine ⟨?_, ?_, ?_, ?_, ?_, ?_, ?_⟩ <;> with_unfolding_all decide

/-! ## Theorems: the barrier and the end of the start tone -/

theorem tonePlan_setState (st : TimerState) (s : Globals) :
    tonePlan (setState st s) = tonePlan s := by
  unfold setState
  split <;> rfl

theorem tonePlan_playTone (f d : Int) (now : Nat) (c : Bool) (g : Globals) :
    tonePlan (playTone f d now c (resetActivityTimer now g)) = tonePlan (playTone f d now c g) := by
  cases c with
  | true => rfl
  | false =>
    simp only [playTone, Bool.false_eq_true, if_false]
    by_cases h : g.buzzerQueue.length < BUZZER_QUEUE_LENGTH
    · have h1 : (resetActivityTimer now g).buzzerQueue.length < BUZZER_QUEUE_LENGTH := h
      unfold xQueueSend
      rw [if_pos h, if_pos h1]
      rfl
    · have h1 : ¬ (resetActivityTimer now g).buzzerQueue.length < BUZZER_QUEUE_LENGTH := h
      unfold xQueueSend
      rw [if_neg h, if_neg h1]
      rfl

/-- The tone plan and the queue left by GetReady are those left by its call of `playTone`. -/
theorem tonePlan_getReady (m : Mode) (now : Nat) (connected : Bool) (g : Globals) :
    tonePlan (getReady m now connected g)
      = tonePlan (playTone g.currentBeepToneHz (intOfUInt g.currentBeepDuration) now
          connected g) := by
  rw [← tonePlan_playTone]
  cases m with
  | liveFire =>
    show tonePlan (handleLiveFireGetReady now connected g) = _
    unfold handleLiveFireGetReady
    simp only []
    rw [tonePlan_setState]
    simp only [tonePlan, emit, resetShotData, micResetPeak]
    rfl
  | noisyRange =>
    show tonePlan (handleNoisyRangeGetReady now connected g) = _
    unfold handleNoisyRangeGetReady
    simp only []
    have h : ∀ s : Globals, tonePlan { s with redrawMenu := true } = tonePlan s := fun _ => rfl
    rw [h, tonePlan_setState]
    simp only [tonePlan, emit, resetShotData, micResetPeak]
    rfl

theorem intOfUInt_of_small (n : Nat) (h : n < 2147483648) : intOfUInt n = (n : Int) := by
  unfold intOfUInt
  have h1 : n % 4294967296 = n := Nat.mod_eq_of_lt (by omega)
  rw [h1, if_pos h]

/-- A pull at or after the end time of the tone, with no request pending, is idle. -/
theorem get_data_frames_ended (n : Int) (q : Nat) (c : Bool) (s : Globals)
    (hp : s.new_bt_beep_request = false) (he : s.current_bt_beep_actual_end_time ≤ q) :
    (get_data_frames n q c s).1.current_bt_beep_is_active = false
    ∧ (get_data_frames n q c s).2.m_amplitude ≤ 1 := by
  have ha : activatePending q s = s := by
    unfold activatePending
    rw [if_neg (by rw [hp]; simp)]
  unfold get_data_frames
  simp only []
  rw [ha]
  unfold continueTone idleOrTone
  cases hact : s.current_bt_beep_is_active with
  | true =>
    rw [if_pos rfl, if_neg (fun h => absurd h.1 (by omega))]
    simp only [emit, if_true]
    refine ⟨trivial, ?_⟩
    split <;> norm_num
  | false =>
    rw [if_neg (by simp)]
    simp only [emit, hact, if_true]
    refine ⟨trivial, ?_⟩
    split <;> norm_num

/-- The pull that activates a pending request sets the end time to the pull time plus the
duration and clears the request. -/
theorem get_data_frames_activates (n : Int) (p : Nat) (c : Bool) (s : Globals)
    (hp : s.new_bt_beep_request = true) (ha : s.current_bt_beep_is_active = false)
    (hs : s.btBeepScheduledStartTime ≤ p) :
    (get_data_frames n p c s).1.new_bt_beep_request = false
    ∧ (get_data_frames n p c s).1.current_bt_beep_actual_end_time
        = uadd p s.btBeepDurationVolatile := by
  unfold get_data_frames activatePending
  simp only []
  rw [if_pos ⟨hp, ha, hs⟩]
  unfold continueTone
  simp only []
  rw [if_pos trivial]
  split
  · exact ⟨rfl, rfl⟩
  · exact ⟨rfl, rfl⟩

/-- The tones of the start request served from clock `c` last from `c` to `c + duration`. -/
theorem startTone_intervals (g : Globals) (hdur : g.currentBeepDuration < 2147483648)
    (c : Int) :
    ∀ iv ∈ toneIntervals c (buzzerIteration (startToneRequest g)),
      iv.2.1 = c ∧ iv.2.2 = c + (g.currentBeepDuration : Int) := by
  have hd : (startToneRequest g).duration = (g.currentBeepDuration : Int) :=
    intOfUInt_of_small _ hdur
  unfold buzzerIteration serveRequest
  split
  · simp only [List.cons_append, List.nil_append, toneIntervals, List.mem_cons,
      List.mem_singleton, List.not_mem_nil, or_false]
    rintro iv (rfl | rfl)
    · exact ⟨rfl, by show c + (startToneRequest g).duration = _; rw [hd]⟩
    · exact ⟨rfl, by show c + (startToneRequest g).duration = _; rw [hd]⟩
  · split
    · simp only [List.cons_append, List.nil_append, toneIntervals, List.not_mem_nil]
      exact fun iv h => h.elim
    · simp only [List.nil_append, toneIntervals, List.not_mem_nil]
      exact fun iv h => h.elim

/-- C20 (amended): for a start cue issued at `issueTime ≥ 1000` with an offset in [-1000, 500]
and a deadline that fits the 32-bit counter. Bluetooth path: when the first pull at or after
the scheduled start comes at a time `p ≤ max(issueTime, scheduledStart) + 150`, the end time
`p + duration` set by `get_data_frames` is at most `beep_audio_end_time`, and every pull at
or after the deadline is idle; when that pull comes later than
`max(issueTime, scheduledStart) + 150` the tone ends after the deadline. Buzzer path: the
request is queued behind the requests already there; served from clock `c` its tone lasts
from `c` to `c + duration` (the lines are released 5 ms later), which is within
`beep_audio_end_time = issueTime + duration + 150` when `c ≤ issueTime + 145`. -/
theorem barrier_covers_start_tone (m : Mode) (issueTime : Nat) (g : Globals)
    (hnow : 1000 ≤ issueTime)
    (hlo : -1000 ≤ g.currentBluetoothAudioOffsetMs) (hhi : g.currentBluetoothAudioOffsetMs ≤ 500)
    (hdur : g.currentBeepDuration < 2147483648)
    (hfit : max (issueTime : Int) ((issueTime : Int) + g.currentBluetoothAudioOffsetMs)
              + (g.currentBeepDuration : Int) + 150 < 4294967296) :
    (((getReady m issueTime true g).btBeepScheduledStartTime : Nat) : Int)
        = (issueTime : Int) + g.currentBluetoothAudioOffsetMs
    ∧ (∀ (n : Int) (p : Nat) (c : Bool),
        (getReady m issueTime true g).btBeepScheduledStartTime ≤ p →
        (p : Int) ≤ max (issueTime : Int) ((issueTime : Int) + g.currentBluetoothAudioOffsetMs)
                      + 150 →
        (get_data_frames n p c (getReady m issueTime true g)).1.current_bt_beep_actual_end_time
            = p + g.currentBeepDuration
        ∧ (get_data_frames n p c (getReady m issueTime true g)).1.current_bt_beep_actual_end_time
            ≤ (getReady m issueTime true g).beep_audio_end_time
        ∧ (∀ (n2 : Int) (q : Nat) (c2 : Bool),
            (getReady m issueTime true g).beep_audio_end_time ≤ q →
            (get_data_frames n2 q c2
              (get_data_frames n p c (getReady m issueTime true g)).1).2.m_amplitude ≤ 1))
    ∧ (∀ (n : Int) (p : Nat) (c : Bool),
        (getReady m issueTime true g).btBeepScheduledStartTime ≤ p →
        max (issueTime : Int) ((issueTime : Int) + g.currentBluetoothAudioOffsetMs) + 150
          < (p : Int) →
        p + g.currentBeepDuration < 4294967296 →
        (getReady m issueTime true g).beep_audio_end_time
          < (get_data_frames n p c
              (getReady m issueTime true g)).1.current_bt_beep_actual_end_time)
    ∧ (g.buzzerQueue.length < BUZZER_QUEUE_LENGTH →
        (getReady m issueTime false g).buzzerQueue = g.buzzerQueue ++ [startToneRequest g])
    ∧ (getReady m issueTime false g).beep_audio_end_time
        = issueTime + g.currentBeepDuration + 150
    ∧ (∀ (c : Int), ∀ iv ∈ toneIntervals c (buzzerIteration (startToneRequest g)),
        iv.2.1 = c ∧ iv.2.2 = c + (g.currentBeepDuration : Int)
        ∧ (c ≤ (issueTime : Int) + 145 →
            iv.2.2 + 5 ≤ (((getReady m issueTime false g).beep_audio_end_time : Nat) : Int))) := by
  have tp := tonePlan_getReady m issueTime true g
  have hp : (getReady m issueTime true g).new_bt_beep_request = true := congrArg Prod.fst tp
  have ha : (getReady m issueTime true g).current_bt_beep_is_active = false :=
    congrArg (fun x => x.2.1) tp
  have hsched : (getReady m issueTime true g).btBeepScheduledStartTime
      = uaddInt issueTime g.currentBluetoothAudioOffsetMs := congrArg (fun x => x.2.2.1) tp
  have hdv0 : (getReady m issueTime true g).btBeepDurationVolatile
      = uintOfInt (intOfUInt g.currentBeepDuration) := congrArg (fun x => x.2.2.2.1) tp
  have hdv : (getReady m issueTime true g).btBeepDurationVolatile = g.currentBeepDuration := by
    rw [hdv0, intOfUInt_of_small _ hdur]
    unfold uintOfInt
    omega
  have hdl : ∀ c : Bool, (getReady m issueTime c g).beep_audio_end_time
      = computeAudioEndTime issueTime c g :=
    fun c => congrArg Core.beep_audio_end_time (core_getReady m issueTime c g)
  have hdlc := computeAudioEndTime_connected issueTime g hnow hlo hhi hfit
  have hmax := le_max_left (issueTime : Int) ((issueTime : Int) + g.currentBluetoothAudioOffsetMs)
  have hschedInt : (((getReady m issueTime true g).btBeepScheduledStartTime : Nat) : Int)
      = (issueTime : Int) + g.currentBluetoothAudioOffsetMs := by
    rw [hsched]
    unfold uaddInt
    have := le_max_right (issueTime : Int)
      ((issueTime : Int) + g.currentBluetoothAudioOffsetMs)
    exact uintOfInt_of_fits _ (by omega) (by omega)
  have hdlf : (getReady m issueTime false g).beep_audio_end_time
      = issueTime + g.currentBeepDuration + 150 := by
    rw [hdl false, computeAudioEndTime_disconnected]
    exact Nat.mod_eq_of_lt (by omega)
  refine ⟨hschedInt, ?_, ?_, ?_, hdlf, ?_⟩
  · intro n p c hs hpe
    obtain ⟨a1, a2⟩ := get_data_frames_activates n p c _ hp ha hs
    rw [hdv] at a2
    have hend : (get_data_frames n p c
        (getReady m issueTime true g)).1.current_bt_beep_actual_end_time
        = p + g.currentBeepDuration := by
      rw [a2]
      unfold uadd
      exact Nat.mod_eq_of_lt (by omega)
    have hle : (get_data_frames n p c
        (getReady m issueTime true g)).1.current_bt_beep_actual_end_time
        ≤ (getReady m issueTime true g).beep_audio_end_time := by
      rw [hend, hdl true]
      omega
    exact ⟨hend, hle, fun n2 q c2 hq =>
      (get_data_frames_ended n2 q c2 _ a1 (le_trans hle hq)).2⟩
  · intro n p c hs hlate hfit2
    obtain ⟨_, a2⟩ := get_data_frames_activates n p c _ hp ha hs
    rw [hdv] at a2
    rw [a2, hdl true]
    unfold uadd
    rw [Nat.mod_eq_of_lt hfit2]
    omega
  · intro hroom
    have tq := congrArg (fun x => x.2.2.2.2.2) (tonePlan_getReady m issueTime false g)
    have e : (getReady m issueTime false g).buzzerQueue
        = (xQueueSend (startToneRequest g) g).buzzerQueue := tq
    rw [e]
    unfold xQueueSend
    rw [if_pos hroom]
  · intro c iv hiv
    obtain ⟨i1, i2⟩ := startTone_intervals g hdur c iv hiv
    refine ⟨i1, i2, fun hc => ?_⟩
    rw [i2, hdlf]
    push_cast
    omega

/-- The default start cue issued at 1000 ms while connected, first pulled at 1100 ms: the
tone ends at 1250, before the deadline 1300. -/
theorem barrier_covers_start_tone_example :
    (getReady Mode.liveFire 1000 true defaultGlobals).beep_audio_end_time = 1300
      ∧ (get_data_frames 128 1100 true
          (getReady Mode.liveFire 1000 true defaultGlobals)).1.current_bt_beep_actual_end_time
          = 1100 + defaultGlobals.currentBeepDuration
      ∧ (get_data_frames 128 1100 true
          (getReady Mode.liveFire 1000 true defaultGlobals)).1.current_bt_beep_actual_end_time
          ≤ (getReady Mode.liveFire 1000 true defaultGlobals).beep_audio_end_time :=
  ⟨by with_unfolding_all decide,
   ((barrier_covers_start_tone Mode.liveFire 1000 defaultGlobals (by decide) (by decide)
      (by decide) (by decide) (by decide)).2.1 128 1100 true
      (by with_unfolding_all decide) (by decide)).1,
   ((barrier_covers_start_tone Mode.liveFire 1000 defaultGlobals (by decide) (by decide)
      (by decide) (by decide) (by decide)).2.1 128 1100 true
      (by with_unfolding_all decide) (by decide)).2.1⟩

/-- C20 (counterexample): a start tone of 1000 ms issued at 1000 ms while connected has
scheduled start 1000 and deadline 2150. The first pull comes at 1200 ms and activates the
tone with end time 2200, after the deadline; the tick at 2150 ms makes listening active, and
the pull at 2160 ms still emits the tone at amplitude 10000. -/
theorem start_tone_outlasts_barrier :
    longBeepConnected.new_bt_beep_request = true
      ∧ longBeepConnected.btBeepScheduledStartTime = 1000
      ∧ longBeepConnected.beep_audio_end_time = 2150
      ∧ (get_data_frames 128 1200 true longBeepConnected).1.current_bt_beep_actual_end_time
          = 2200
      ∧ (handleLiveFireTiming { tick 2150 0 0 false with connected := true }
          (get_data_frames 128 1200 true longBeepConnected).1).is_listening_active = true
      ∧ (get_data_frames 128 2160 true
          (handleLiveFireTiming { tick 2150 0 0 false with connected := true }
            (get_data_frames 128 1200 true longBeepConnected).1)).2.m_amplitude = 10000 := by
  refine ⟨?_, ?_, ?_, ?_, ?_, rfl⟩ <;> with_unfolding_all decide

/-! ## Theorems: the synthesizer (`get_data_frames`) -/

/-- The globals left by a pull do not depend on the connected flag. -/
theorem get_data_frames_globals (n : Int) (now : Nat) (s : Globals) :
    (get_data_frames n now true s).1 = (get_data_frames n now false s).1 := rfl

/-- A pull that leaves the plan idle puts out the carrier (frequency 1, amplitude 1) while
connected and amplitude 0 otherwise. -/
theorem get_data_frames_idle (n : Int) (now : Nat) (c : Bool) (s : Globals)
    (h : (get_data_frames n now c s).1.current_bt_beep_is_active = false) :
    (get_data_frames n now c s).2.current_freq = 1
    ∧ (get_data_frames n now c s).2.m_amplitude = (if c = true then 1 else 0) := by
  have h1 : (continueTone now (activatePending now s)).1.current_bt_beep_is_active = false := h
  unfold get_data_frames idleOrTone
  simp only []
  rw [if_pos h1]
  cases c with
  | true => exact ⟨rfl, rfl⟩
  | false => exact ⟨rfl, rfl⟩

/-- A pull that leaves the plan active puts out the tone whatever the connected flag. -/
theorem get_data_frames_active (n : Int) (now : Nat) (c : Bool) (s : Globals)
    (h : (get_data_frames n now c s).1.current_bt_beep_is_active = true) :
    (get_data_frames n now c s).2.current_freq
        = toFloat32 (((get_data_frames n now c s).1.btBeepFrequency : Int) : Rat)
    ∧ (get_data_frames n now c s).2.m_amplitude = 10000
    ∧ now < (get_data_frames n now c s).1.current_bt_beep_actual_end_time
    ∧ 0 < (get_data_frames n now c s).1.btBeepFrequency := by
  have h1 : (continueTone now (activatePending now s)).1.current_bt_beep_is_active = true := h
  have key : ∀ s1 : Globals, (continueTone now s1).1.current_bt_beep_is_active = true →
      (continueTone now s1).2
          = some (toFloat32 ((continueTone now s1).1.btBeepFrequency : Rat), 10000)
      ∧ now < (continueTone now s1).1.current_bt_beep_actual_end_time
      ∧ 0 < (continueTone now s1).1.btBeepFrequency := by
    intro s1 hs1
    unfold continueTone at hs1 ⊢
    by_cases ha : s1.current_bt_beep_is_active = true
    · rw [if_pos ha] at hs1 ⊢
      by_cases hc : now < s1.current_bt_beep_actual_end_time ∧ 0 < s1.btBeepFrequency
      · rw [if_pos hc]
        exact ⟨rfl, hc.1, hc.2⟩
      · rw [if_neg hc] at hs1
        cases hs1
    · rw [if_neg ha] at hs1
      exact absurd hs1 ha
  obtain ⟨k1, k2, k3⟩ := key _ h1
  unfold get_data_frames idleOrTone
  simp only []
  rw [if_neg (by rw [h1]; simp), k1]
  exact ⟨rfl, rfl, k2, k3⟩

/-- The accumulator after one more pass is the step of the accumulator so far. -/
theorem advanceTime_succ (k : Nat) (m : Rat) :
    advanceTime (k + 1) m = stepTime (advanceTime k m) := by
  induction k generalizing m with
  | zero => rfl
  | succ k ih =>
    show advanceTime (k + 1) (stepTime m) = stepTime (advanceTime k (stepTime m))
    exact ih (stepTime m)

/-- The sample loop writes one frame per pass. -/
theorem sampleLoop_length (f a : Rat) (n : Nat) (m : Rat) :
    (sampleLoop f a n m).length = n := by
  induction n generalizing m with
  | zero => rfl
  | succ n ih =>
    show (sampleLoop f a n (stepTime m)).length + 1 = n + 1
    rw [ih]

/-- Frame `k` of the sample loop carries, on both channels, the sample computed from the
amplitude, the frequency and the accumulator after `k` passes. -/
theorem sampleLoop_getElem? (f a : Rat) (n : Nat) (m : Rat) (k : Nat) (h : k < n) :
    (sampleLoop f a n m)[k]?
      = some { channel1 := { m_amplitude := a, current_freq := f, m_time := advanceTime k m },
               channel2 := { m_amplitude := a, current_freq := f, m_time := advanceTime k m } } := by
  induction n generalizing m k with
  | zero => omega
  | succ n ih =>
    unfold sampleLoop
    cases k with
    | zero =>
      simp only [List.getElem?_cons_zero]
      rfl
    | succ k =>
      simp only [List.getElem?_cons_succ]
      rw [ih (stepTime m) k (by omega)]
      rfl

/-- Every frame of the sample loop has the same sample on both channels, computed from the
amplitude and the frequency of the call. -/
theorem sampleLoop_mem (f a : Rat) (n : Nat) (m : Rat) (x : Frame)
    (h : x ∈ sampleLoop f a n m) :
    x.channel1 = x.channel2 ∧ x.channel1.m_amplitude = a ∧ x.channel1.current_freq = f := by
  induction n generalizing m with
  | zero => cases h
  | succ n ih =>
    have h1 : x ∈ ({ channel1 := { m_amplitude := a, current_freq := f, m_time := m },
                     channel2 := { m_amplitude := a, current_freq := f, m_time := m } } : Frame)
                    :: sampleLoop f a n (stepTime m) := h
    rcases List.mem_cons.mp h1 with h2 | h2
    · subst h2
      exact ⟨rfl, rfl, rfl⟩
    · exact ih (stepTime m) h2

/-- The frames of a pull are the frames of the sample loop run on the frequency and the
amplitude of the pull, from the accumulator as the plan transitions of the pull leave it. -/
theorem get_data_frames_frames (n : Int) (now : Nat) (c : Bool) (s : Globals) :
    (get_data_frames n now c s).2.frames
      = sampleLoop (get_data_frames n now c s).2.current_freq
          (get_data_frames n now c s).2.m_amplitude n.toNat
          (continueTone now (activatePending now s)).1.m_time := rfl

/-- The plan transitions of a pull change the accumulator only by the activation. -/
theorem continueTone_m_time (now : Nat) (s1 : Globals) :
    (continueTone now s1).1.m_time = s1.m_time := by
  unfold continueTone
  split
  · split <;> rfl
  · rfl

/-- C23: on every pull at `now` with the plan active, `now` before the end time of the tone
and the frequency positive, the frames are produced at the frequency of the tone (converted
to `float`) and at the tone amplitude 10000: the pull writes `frame_count` frames, frame `k`
carries on both channels the sample of amplitude 10000 and of the tone frequency at the
accumulator after `k` passes, the accumulator advancing by `1/44100` (in `float`, wrapped at
1.0) on each pass from its value before the pull; and the plan stays active with its fields
unchanged, whatever the connected flag of the pull; on any pull the globals left do not depend
on the flag, and the flag only selects the output when the plan is idle at the end of the
pull: every frame is then of the carrier (frequency 1, amplitude 1) when connected and of
amplitude 0 (all samples zero) when not. -/
theorem in_flight_tone_free_runs (n : Int) (now : Nat) (c : Bool) (s : Globals)
    (ha : s.current_bt_beep_is_active = true)
    (hlt : now < s.current_bt_beep_actual_end_time) (hf : 0 < s.btBeepFrequency) :
    (get_data_frames n now c s).2.current_freq = toFloat32 (s.btBeepFrequency : Rat)
    ∧ (get_data_frames n now c s).2.m_amplitude = 10000
    ∧ (get_data_frames n now c s).2.frame_count = n
    ∧ (get_data_frames n now c s).2.frames.length = n.toNat
    ∧ (∀ k : Nat, k < n.toNat →
        (get_data_frames n now c s).2.frames[k]?
          = some { channel1 := { m_amplitude := 10000,
                                 current_freq := toFloat32 (s.btBeepFrequency : Rat),
                                 m_time := advanceTime k s.m_time },
                   channel2 := { m_amplitude := 10000,
                                 current_freq := toFloat32 (s.btBeepFrequency : Rat),
                                 m_time := advanceTime k s.m_time } })
    ∧ advanceTime 0 s.m_time = s.m_time
    ∧ (∀ k : Nat, advanceTime (k + 1) s.m_time
        = if 1 ≤ toFloat32 (advanceTime k s.m_time + toFloat32 (1 / 44100)) then
            toFloat32 (toFloat32 (advanceTime k s.m_time + toFloat32 (1 / 44100)) - 1)
          else toFloat32 (advanceTime k s.m_time + toFloat32 (1 / 44100)))
    ∧ (get_data_frames n now c s).1.m_time = advanceTime n.toNat s.m_time
    ∧ (get_data_frames n now c s).1.current_bt_beep_is_active = true
    ∧ tonePlan (get_data_frames n now c s).1 = tonePlan s
    ∧ (get_data_frames n now c s).1.current_bt_beep_actual_end_time
        = s.current_bt_beep_actual_end_time
    ∧ get_data_frames n now true s = get_data_frames n now false s
    ∧ (∀ (n0 : Int) (now0 : Nat) (c0 : Bool) (s0 : Globals),
        (get_data_frames n0 now0 true s0).1 = (get_data_frames n0 now0 false s0).1
        ∧ ((get_data_frames n0 now0 c0 s0).1.current_bt_beep_is_active = true →
            (get_data_frames n0 now0 true s0).2 = (get_data_frames n0 now0 false s0).2)
        ∧ ((get_data_frames n0 now0 c0 s0).1.current_bt_beep_is_active = false →
            (get_data_frames n0 now0 c0 s0).2.current_freq = 1
            ∧ (get_data_frames n0 now0 c0 s0).2.m_amplitude = (if c0 = true then 1 else 0)
            ∧ (get_data_frames n0 now0 c0 s0).2.frames.length = n0.toNat
            ∧ ∀ x ∈ (get_data_frames n0 now0 c0 s0).2.frames,
                x.channel2 = x.channel1 ∧ x.channel1.current_freq = 1
                ∧ x.channel1.m_amplitude = (if c0 = true then 1 else 0))) := by
  have hact : activatePending now s = s := by
    unfold activatePending
    rw [if_neg (fun h => by rw [ha] at h; cases h.2.1)]
  have hcont : continueTone now s
      = (s, some (toFloat32 (s.btBeepFrequency : Rat), 10000)) := by
    unfold continueTone
    rw [if_pos ha, if_pos ⟨hlt, hf⟩]
  have hres : ∀ c1 : Bool, get_data_frames n now c1 s
      = (emit (Effect.delay 1) { s with m_time := advanceTime n.toNat s.m_time },
         { current_freq := toFloat32 (s.btBeepFrequency : Rat), m_amplitude := 10000,
           frame_count := n,
           frames := sampleLoop (toFloat32 (s.btBeepFrequency : Rat)) 10000 n.toNat
                       s.m_time }) := by
    intro c1
    unfold get_data_frames
    simp only []
    rw [hact, hcont]
    unfold idleOrTone
    simp only []
    rw [if_neg (by rw [ha]; simp)]
    rfl
  refine ⟨by rw [hres], by rw [hres], by rw [hres], ?_, ?_, rfl, ?_, by rw [hres]; rfl,
    by rw [hres]; exact ha, by rw [hres]; rfl, by rw [hres]; rfl,
    by rw [hres true, hres false], ?_⟩
  · rw [hres]
    exact sampleLoop_length _ _ _ _
  · intro k hk
    rw [hres]
    exact sampleLoop_getElem? _ _ _ _ k hk
  · intro k
    rw [advanceTime_succ]
    rfl
  intro n0 now0 c0 s0
  refine ⟨rfl, fun h => ?_, fun h => ?_⟩
  · have h1 : (continueTone now0 (activatePending now0 s0)).1.current_bt_beep_is_active
        = true := h
    unfold get_data_frames idleOrTone
    simp only []
    rw [if_neg (by rw [h1]; simp), if_neg (by rw [h1]; simp)]
  · obtain ⟨i1, i2⟩ := get_data_frames_idle n0 now0 c0 s0 h
    refine ⟨i1, i2, ?_, ?_⟩
    · rw [get_data_frames_frames]
      exact sampleLoop_length _ _ _ _
    · intro x hx
      rw [get_data_frames_frames] at hx
      obtain ⟨m1, m2, m3⟩ := sampleLoop_mem _ _ _ _ x hx
      exact ⟨m1.symm, m3.trans i1, m2.trans i2⟩

/-- A 2000 Hz tone active until 1150 ms, pulled for three frames at 1100 ms while
disconnected: the three frames are at 2000 Hz and amplitude 10000, the second one at the
accumulator value `1.0f / 44100.0f`. -/
theorem in_flight_tone_free_runs_example :
    (get_data_frames 3 1100 false
        { defaultGlobals with btBeepFrequency := 2000, current_bt_beep_is_active := true,
                              current_bt_beep_actual_end_time := 1150 }).2.frames[1]?
      = some { channel1 := { m_amplitude := 10000,
                             current_freq := toFloat32 ((2000 : Int) : Rat),
                             m_time := advanceTime 1 0 },
               channel2 := { m_amplitude := 10000,
                             current_freq := toFloat32 ((2000 : Int) : Rat),
                             m_time := advanceTime 1 0 } }
    ∧ toFloat32 ((2000 : Int) : Rat) = 2000
    ∧ (advanceTime 1 0).num = 6233059 ∧ (advanceTime 1 0).den = 274877906944 :=
  ⟨(in_flight_tone_free_runs 3 1100 false
    { defaultGlobals with btBeepFrequency := 2000, current_bt_beep_is_active := true,
                          current_bt_beep_actual_end_time := 1150 }
    rfl (by decide) (by decide)).2.2.2.2.1 1 (by decide),
   by apply Rat.ext <;> with_unfolding_all decide,
   by with_unfolding_all decide, by with_unfolding_all decide⟩

/-- C25 (amended): on a pull at `now`, (a) a plan that is pending, not active and due
(`now ≥ scheduledStart`) is activated: pending cleared, end time `(now + duration) mod 2^32`,
accumulator restarted from 0 (the first frame of the pull is computed at 0); it is still
active at the end of the pull exactly when `now` is before that end time and the frequency is
positive; (b) a pending plan that is not due is unchanged and the output is the idle signal;
(c) an active plan with `now ≥ end` or `frequency ≤ 0` becomes idle (`active = false`,
frequency 0) with the idle output; (d) the accumulator is restarted on no pull other than
(a): it only advances by the frames of the pull; and every pull returns `frame_count` and
writes exactly `frame_count` frames (none when it is negative), each with the same sample on
`channel1` and `channel2`. -/
theorem synthesizer_plan_transitions (n : Int) (now : Nat) (c : Bool) (s : Globals) :
    (s.new_bt_beep_request = true → s.current_bt_beep_is_active = false →
      s.btBeepScheduledStartTime ≤ now →
        activatePending now s
            = { s with m_time := 0, current_bt_beep_is_active := true,
                       new_bt_beep_request := false,
                       current_bt_beep_actual_end_time := uadd now s.btBeepDurationVolatile }
        ∧ (get_data_frames n now c s).1.new_bt_beep_request = false
        ∧ (get_data_frames n now c s).1.current_bt_beep_actual_end_time
            = uadd now s.btBeepDurationVolatile
        ∧ (now + s.btBeepDurationVolatile < 4294967296 →
            (get_data_frames n now c s).1.current_bt_beep_actual_end_time
              = now + s.btBeepDurationVolatile)
        ∧ (get_data_frames n now c s).1.m_time = advanceTime n.toNat 0
        ∧ (∀ k : Nat, k < n.toNat →
            ((get_data_frames n now c s).2.frames[k]?).map (fun x => x.channel1.m_time)
              = some (advanceTime k 0))
        ∧ ((get_data_frames n now c s).1.current_bt_beep_is_active = true ↔
            (now < uadd now s.btBeepDurationVolatile ∧ 0 < s.btBeepFrequency)))
    ∧ (s.new_bt_beep_request = true → s.current_bt_beep_is_active = false →
      now < s.btBeepScheduledStartTime →
        tonePlan (get_data_frames n now c s).1 = tonePlan s
        ∧ (get_data_frames n now c s).1.current_bt_beep_actual_end_time
            = s.current_bt_beep_actual_end_time
        ∧ (get_data_frames n now c s).2.current_freq = 1
        ∧ (get_data_frames n now c s).2.m_amplitude = (if c = true then 1 else 0))
    ∧ (s.current_bt_beep_is_active = true →
      (s.current_bt_beep_actual_end_time ≤ now ∨ s.btBeepFrequency ≤ 0) →
        (get_data_frames n now c s).1.current_bt_beep_is_active = false
        ∧ (get_data_frames n now c s).1.btBeepFrequency = 0
        ∧ (get_data_frames n now c s).1.new_bt_beep_request = s.new_bt_beep_request
        ∧ (get_data_frames n now c s).2.current_freq = 1
        ∧ (get_data_frames n now c s).2.m_amplitude = (if c = true then 1 else 0))
    ∧ (¬ (s.new_bt_beep_request = true ∧ s.current_bt_beep_is_active = false
          ∧ s.btBeepScheduledStartTime ≤ now) →
        (get_data_frames n now c s).1.m_time = advanceTime n.toNat s.m_time
        ∧ ∀ k : Nat, k < n.toNat →
            ((get_data_frames n now c s).2.frames[k]?).map (fun x => x.channel1.m_time)
              = some (advanceTime k s.m_time))
    ∧ (get_data_frames n now c s).2.frame_count = n
    ∧ (get_data_frames n now c s).2.frames.length = n.toNat
    ∧ (0 ≤ n → ((get_data_frames n now c s).2.frames.length : Int) = n)
    ∧ (∀ x ∈ (get_data_frames n now c s).2.frames,
        x.channel1 = x.channel2
        ∧ x.channel1.current_freq = (get_data_frames n now c s).2.current_freq
        ∧ x.channel1.m_amplitude = (get_data_frames n now c s).2.m_amplitude) := by
  have hm : ∀ s1 : Globals, (continueTone now s1).1.m_time = s1.m_time :=
    continueTone_m_time now
  have hlen : (get_data_frames n now c s).2.frames.length = n.toNat := by
    rw [get_data_frames_frames]
    exact sampleLoop_length _ _ _ _
  have htime : ∀ k : Nat, k < n.toNat →
      ((get_data_frames n now c s).2.frames[k]?).map (fun x => x.channel1.m_time)
        = some (advanceTime k (activatePending now s).m_time) := by
    intro k hk
    rw [get_data_frames_frames, sampleLoop_getElem? _ _ _ _ k hk, hm]
    rfl
  refine ⟨fun hp ha hs => ?_, fun hp ha hs => ?_, fun ha hend => ?_, fun hno => ?_, rfl,
    hlen, fun hn => ?_, fun x hx => ?_⟩
  · have hact : activatePending now s
        = { s with m_time := 0, current_bt_beep_is_active := true,
                   new_bt_beep_request := false,
                   current_bt_beep_actual_end_time := uadd now s.btBeepDurationVolatile } := by
      unfold activatePending
      rw [if_pos ⟨hp, ha, hs⟩]
    obtain ⟨a1, a2⟩ := get_data_frames_activates n now c s hp ha hs
    refine ⟨hact, a1, a2, fun hfit => ?_, ?_, ?_, ?_⟩
    · rw [a2]
      unfold uadd
      exact Nat.mod_eq_of_lt hfit
    · show advanceTime n.toNat (continueTone now (activatePending now s)).1.m_time = _
      rw [hm, hact]
    · intro k hk
      rw [htime k hk, hact]
    · show (continueTone now (activatePending now s)).1.current_bt_beep_is_active = true ↔ _
      rw [hact]
      unfold continueTone
      simp only []
      rw [if_pos trivial]
      by_cases hc : now < uadd now s.btBeepDurationVolatile ∧ 0 < s.btBeepFrequency
      · rw [if_pos hc]
        exact ⟨fun _ => hc, fun _ => rfl⟩
      · rw [if_neg hc]
        exact ⟨fun h => (by cases h), fun h => absurd h hc⟩
  · have hact : activatePending now s = s := by
      unfold activatePending
      rw [if_neg (fun h => absurd h.2.2 (by omega))]
    have hcont : continueTone now s = (s, none) := by
      unfold continueTone
      rw [if_neg (by rw [ha]; simp)]
    have hidle : (get_data_frames n now c s).1.current_bt_beep_is_active = false := by
      show (continueTone now (activatePending now s)).1.current_bt_beep_is_active = false
      rw [hact, hcont]
      exact ha
    have ho := get_data_frames_idle n now c s hidle
    refine ⟨?_, ?_, ho.1, ho.2⟩
    · show tonePlan (continueTone now (activatePending now s)).1 = _
      rw [hact, hcont]
    · show (continueTone now (activatePending now s)).1.current_bt_beep_actual_end_time = _
      rw [hact, hcont]
  · have hact : activatePending now s = s := by
      unfold activatePending
      rw [if_neg (fun h => by rw [ha] at h; cases h.2.1)]
    have hcont : continueTone now s
        = ({ s with current_bt_beep_is_active := false, btBeepFrequency := 0 }, none) := by
      unfold continueTone
      rw [if_pos ha, if_neg (fun h => by rcases hend with h1 | h1 <;> omega)]
    have hidle : (get_data_frames n now c s).1.current_bt_beep_is_active = false := by
      show (continueTone now (activatePending now s)).1.current_bt_beep_is_active = false
      rw [hact, hcont]
    have ho := get_data_frames_idle n now c s hidle
    refine ⟨hidle, ?_, ?_, ho.1, ho.2⟩
    · show (continueTone now (activatePending now s)).1.btBeepFrequency = 0
      rw [hact, hcont]
    · show (continueTone now (activatePending now s)).1.new_bt_beep_request = _
      rw [hact, hcont]
  · have hact : activatePending now s = s := by
      unfold activatePending
      rw [if_neg hno]
    refine ⟨?_, fun k hk => ?_⟩
    · show advanceTime n.toNat (continueTone now (activatePending now s)).1.m_time = _
      rw [hm, hact]
    · rw [htime k hk, hact]
  · rw [hlen]
    exact Int.toNat_of_nonneg hn
  · rw [get_data_frames_frames] at hx
    obtain ⟨m1, m2, m3⟩ := sampleLoop_mem _ _ _ _ x hx
    exact ⟨m1, m3, m2⟩

/-- A plan due at 1000 ms (2000 Hz, 150 ms) pulled at 1010 ms: activated with end time
1160. -/
theorem synthesizer_plan_example :
    (get_data_frames 128 1010 true
        { defaultGlobals with btBeepFrequency := 2000, btBeepDurationVolatile := 150,
                              btBeepScheduledStartTime := 1000,
                              new_bt_beep_request := true }).1.current_bt_beep_actual_end_time
      = 1010 + 150 :=
  ((synthesizer_plan_transitions 128 1010 true
      { defaultGlobals with btBeepFrequency := 2000, btBeepDurationVolatile := 150,
                            btBeepScheduledStartTime := 1000,
                            new_bt_beep_request := true }).1 rfl rfl (by decide)).2.2.2.1
    (by decide)

/-- C25 (counterexample): the plan `pendingNearWrap` is pending, not active and due at the
pull at `2^32 - 96` ms; the end time is set to 54, not `now + duration`, and the plan is idle
again at the end of that pull, which puts out the carrier instead of the tone. -/
theorem synthesizer_end_time_wraps :
    pendingNearWrap.new_bt_beep_request = true
      ∧ pendingNearWrap.current_bt_beep_is_active = false
      ∧ pendingNearWrap.btBeepScheduledStartTime ≤ 4294967200
      ∧ (get_data_frames 128 4294967200 true pendingNearWrap).1.current_bt_beep_actual_end_time
          = 54
      ∧ (get_data_frames 128 4294967200 true pendingNearWrap).1.current_bt_beep_actual_end_time
          ≠ 4294967200 + pendingNearWrap.btBeepDurationVolatile
      ∧ (get_data_frames 128 4294967200 true pendingNearWrap).1.current_bt_beep_is_active
          = false
      ∧ (get_data_frames 128 4294967200 true pendingNearWrap).2.m_amplitude = 1 := by
  refine ⟨?_, ?_, ?_, ?_, ?_, ?_, rfl⟩ <;> with_unfolding_all decide

/-! ## Theorems: the barrier against `startTime` -/

theorem setState_currentState (n : TimerState) (s : Globals) :
    (setState n s).currentState = n := by
  unfold setState
  split
  · rfl
  · rename_i h
    exact not_not.mp h

/-- GetReady leaves the session in the Timing state of its mode. -/
theorem getReady_currentState (m : Mode) (now : Nat) (connected : Bool) (g : Globals) :
    (getReady m now connected g).currentState = m.timingState := by
  cases m with
  | liveFire => exact setState_currentState _ _
  | noisyRange => exact setState_currentState _ _

theorem refreshDisplay_fields (now : Nat) (s : Globals) :
    (refreshDisplay now s).is_listening_active = s.is_listening_active
    ∧ (refreshDisplay now s).currentState = s.currentState
    ∧ (refreshDisplay now s).startTime = s.startTime
    ∧ (refreshDisplay now s).beep_audio_end_time = s.beep_audio_end_time := by
  unfold refreshDisplay
  split
  · exact ⟨rfl, rfl, rfl, rfl⟩
  · exact ⟨rfl, rfl, rfl, rfl⟩

/-- Ticks before `startTime` leave a session that is not listening as it is, up to the
display: listening stays off and the state, `startTime` and the deadline are unchanged. -/
theorem runTiming_before_start (m : Mode) (ticks : List Tick) :
    ∀ s : Globals, s.is_listening_active = false → (∀ u ∈ ticks, u.now < s.startTime) →
      (runTiming m s ticks).is_listening_active = false
      ∧ (runTiming m s ticks).currentState = s.currentState
      ∧ (runTiming m s ticks).startTime = s.startTime
      ∧ (runTiming m s ticks).beep_audio_end_time = s.beep_audio_end_time := by
  induction ticks with
  | nil => intro s hl _; exact ⟨hl, rfl, rfl, rfl⟩
  | cons t ts ih =>
    intro s hl hb
    have ht := hb t (List.mem_cons_self _ _)
    have hrun : runTiming m s (t :: ts) = runTiming m (timingTick m t s) ts := rfl
    rw [hrun]
    have hstep : (timingTick m t s).is_listening_active = s.is_listening_active
        ∧ (timingTick m t s).currentState = s.currentState
        ∧ (timingTick m t s).startTime = s.startTime
        ∧ (timingTick m t s).beep_audio_end_time = s.beep_audio_end_time := by
      rcases timingTick_waiting m t s hl (fun h => by omega) with h | h
      · rw [h]
        exact ⟨rfl, rfl, rfl, rfl⟩
      · rw [h]
        exact refreshDisplay_fields t.now s
    obtain ⟨a1, a2, a3, a4⟩ := hstep
    obtain ⟨b1, b2, b3, b4⟩ := ih (timingTick m t s) (a1.trans hl)
      (fun u hu => by rw [a3]; exact hb u (List.mem_cons_of_mem _ hu))
    exact ⟨b1, b2.trans a2, b3.trans a3, b4.trans a4⟩

/-- A tick in the Timing state that finds listening off and the barrier passed sets
`is_listening_active`, resets the microphone peak and runs the listening part. -/
theorem timingTick_starts_listening (m : Mode) (t : Tick) (s : Globals)
    (hst : s.currentState = m.timingState) (hl : s.is_listening_active = false)
    (hb : s.beep_audio_end_time ≤ t.now ∧ s.startTime ≤ t.now) :
    timingTick m t s
      = listeningPart m t (micResetPeak { s with is_listening_active := true }) := by
  cases m with
  | liveFire =>
    have hst1 : s.currentState = TimerState.LIVE_FIRE_TIMING := hst
    show handleLiveFireTiming t s = liveFireListening t _
    unfold handleLiveFireTiming
    rw [if_neg (not_not.mpr hst1), if_pos hl, if_pos hb]
  | noisyRange =>
    have hst1 : s.currentState = TimerState.NOISY_RANGE_TIMING := hst
    show handleNoisyRangeTiming t s = noisyListening t _
    unfold handleNoisyRangeTiming
    rw [if_neg (not_not.mpr hst1), if_pos hl, if_pos hb]

/-- The listening part run with listening on leaves it on, unless it stops the session. -/
theorem listeningPart_keeps_listening (m : Mode) (t : Tick) (s : Globals)
    (hl : s.is_listening_active = true) :
    (listeningPart m t s).is_listening_active = true
    ∨ ((listeningPart m t s).currentState = TimerState.LIVE_FIRE_STOPPED
        ∧ (listeningPart m t s).is_listening_active = false) := by
  have hc : (core s).is_listening_active = true := hl
  have hstop : ∀ c3 : Core, c3.is_listening_active = true →
      Stopped c3 (core (listeningPart m t s)) →
      (listeningPart m t s).is_listening_active = true
      ∨ ((listeningPart m t s).currentState = TimerState.LIVE_FIRE_STOPPED
          ∧ (listeningPart m t s).is_listening_active = false) := by
    intro c3 h3 hs
    rcases hs with h | h
    · left
      have := congrArg Core.is_listening_active h
      exact this.trans h3
    · right
      exact ⟨congrArg Core.currentState h, congrArg Core.is_listening_active h⟩
  cases m with
  | liveFire =>
    obtain ⟨c2, hd, hs⟩ := liveFireListening_core t s
    refine hstop c2 ?_ hs
    rcases hd with h | ⟨_, h⟩
    · rw [h]; exact hc
    · rw [h]; exact hc
  | noisyRange =>
    obtain ⟨c2, c3, ho, hr, hs⟩ := noisyListening_core t s
    have h2 : c2.is_listening_active = true := by
      rcases ho with h | ⟨_, _, h⟩
      · rw [h]; exact hc
      · rw [h]; exact hc
    refine hstop c3 ?_ hs
    rcases hr with h | ⟨_, h⟩ | ⟨_, _, h⟩
    · rw [h]; exact h2
    · rw [h]; exact h2
    · rw [h]; exact h2

/-- C28 (amended): for `issueTime ≥ 1000`, an offset in [-1000, 500] and times that fit the
32-bit millisecond counter (`issueTime + 750` and the deadline below `2^32`), with
`startTime = issueTime + 750` set by GetReady, `beep_audio_end_time ≤ startTime` if and only
if `max(0, off) + beepDuration + 150 ≤ 750`, where `off` is the configured offset when
connected and 0 when disconnected; for the beep duration 150 this is `off ≤ 450`; and then
listening starts on the first tick with `now ≥ startTime`: after any ticks before `startTime`
listening is still off, and the timing handler called on a tick with `now ≥ startTime` sets
`is_listening_active`, resets the microphone peak and runs its listening part, after which
listening is on unless that tick has stopped the session. -/
theorem barrier_resolves_by_startTime (m : Mode) (issueTime : Nat) (connected : Bool)
    (g : Globals) (hnow : 1000 ≤ issueTime)
    (hlo : -1000 ≤ g.currentBluetoothAudioOffsetMs) (hhi : g.currentBluetoothAudioOffsetMs ≤ 500)
    (hstart : issueTime + 750 < 4294967296)
    (hfit : max (issueTime : Int)
              ((issueTime : Int) + (if connected = true then g.currentBluetoothAudioOffsetMs else 0))
              + (g.currentBeepDuration : Int) + 150 < 4294967296) :
    (getReady m issueTime connected g).startTime = issueTime + 750
    ∧ (((getReady m issueTime connected g).beep_audio_end_time : Nat) : Int)
        = (issueTime : Int)
            + max 0 (if connected = true then g.currentBluetoothAudioOffsetMs else 0)
            + (g.currentBeepDuration : Int) + 150
    ∧ ((getReady m issueTime connected g).beep_audio_end_time
          ≤ (getReady m issueTime connected g).startTime ↔
        max 0 (if connected = true then g.currentBluetoothAudioOffsetMs else 0)
          + (g.currentBeepDuration : Int) + 150 ≤ 750)
    ∧ (g.currentBeepDuration = 150 →
        ((getReady m issueTime connected g).beep_audio_end_time
            ≤ (getReady m issueTime connected g).startTime ↔
          (if connected = true then g.currentBluetoothAudioOffsetMs else 0) ≤ 450))
    ∧ ((getReady m issueTime connected g).beep_audio_end_time
          ≤ (getReady m issueTime connected g).startTime →
        ∀ (pre : List Tick) (t : Tick),
          (∀ u ∈ pre, u.now < issueTime + 750) → issueTime + 750 ≤ t.now →
            (session m issueTime connected g pre).is_listening_active = false
            ∧ timingTick m t (session m issueTime connected g pre)
                = listeningPart m t
                    (micResetPeak { session m issueTime connected g pre with
                                      is_listening_active := true })
            ∧ session m issueTime connected g (pre ++ [t])
                = timingTick m t (session m issueTime connected g pre)
            ∧ ((session m issueTime connected g (pre ++ [t])).is_listening_active = true
              ∨ ((session m issueTime connected g (pre ++ [t])).currentState
                    = TimerState.LIVE_FIRE_STOPPED
                  ∧ (session m issueTime connected g (pre ++ [t])).is_listening_active
                      = false))) := by
  have hst : (getReady m issueTime connected g).startTime = issueTime + 750 := by
    have h := congrArg Core.startTime (core_getReady m issueTime connected g)
    have h' : (getReady m issueTime connected g).startTime = uadd issueTime POST_BEEP_DELAY_MS := h
    rw [h']
    unfold uadd POST_BEEP_DELAY_MS
    exact Nat.mod_eq_of_lt hstart
  have hdl0 : (getReady m issueTime connected g).beep_audio_end_time
      = computeAudioEndTime issueTime connected g :=
    congrArg Core.beep_audio_end_time (core_getReady m issueTime connected g)
  have hdl : (((getReady m issueTime connected g).beep_audio_end_time : Nat) : Int)
      = (issueTime : Int)
          + max 0 (if connected = true then g.currentBluetoothAudioOffsetMs else 0)
          + (g.currentBeepDuration : Int) + 150 := by
    rw [hdl0]
    cases connected with
    | true =>
      simp only [if_true] at hfit ⊢
      rw [computeAudioEndTime_connected issueTime g hnow hlo hhi hfit]
      rcases le_total 0 g.currentBluetoothAudioOffsetMs with h | h
      · rw [max_eq_right (by omega), max_eq_right h]
        try omega
      · rw [max_eq_left (by omega), max_eq_left h]
        try omega
    | false =>
      simp only [Bool.false_eq_true, if_false, add_zero, max_self] at hfit ⊢
      rw [computeAudioEndTime_disconnected, Nat.mod_eq_of_lt (by omega)]
      push_cast
      omega
  have hiff : (getReady m issueTime connected g).beep_audio_end_time
        ≤ (getReady m issueTime connected g).startTime ↔
      max 0 (if connected = true then g.currentBluetoothAudioOffsetMs else 0)
        + (g.currentBeepDuration : Int) + 150 ≤ 750 := by
    rw [hst]
    constructor
    · intro h
      have : (((getReady m issueTime connected g).beep_audio_end_time : Nat) : Int)
          ≤ ((issueTime + 750 : Nat) : Int) := by exact_mod_cast h
      rw [hdl] at this
      push_cast at this
      omega
    · intro h
      have : (((getReady m issueTime connected g).beep_audio_end_time : Nat) : Int)
          ≤ ((issueTime + 750 : Nat) : Int) := by
        rw [hdl]
        push_cast
        omega
      exact_mod_cast this
  refine ⟨hst, hdl, hiff, fun hd => ?_, fun hle pre t hpre ht => ?_⟩
  · rw [hiff, hd]
    generalize (if connected = true then g.currentBluetoothAudioOffsetMs else 0) = off
    rcases le_total 0 off with h | h
    · rw [max_eq_right h]
      push_cast
      constructor <;> intro h1 <;> first | trivial | omega
    · rw [max_eq_left h]
      push_cast
      constructor <;> intro h1 <;> first | trivial | omega
  · have hoff := getReady_is_listening_active m issueTime connected g
    obtain ⟨r1, r2, r3, r4⟩ := runTiming_before_start m pre
      (getReady m issueTime connected g) hoff (fun u hu => by rw [hst]; exact hpre u hu)
    have hs1 : (session m issueTime connected g pre).is_listening_active = false := r1
    have hs2 : (session m issueTime connected g pre).currentState = m.timingState :=
      r2.trans (getReady_currentState m issueTime connected g)
    have hs3 : (session m issueTime connected g pre).startTime ≤ t.now := by
      have : (session m issueTime connected g pre).startTime
          = (getReady m issueTime connected g).startTime := r3
      rw [this, hst]
      exact ht
    have hs4 : (session m issueTime connected g pre).beep_audio_end_time ≤ t.now := by
      have : (session m issueTime connected g pre).beep_audio_end_time
          = (getReady m issueTime connected g).beep_audio_end_time := r4
      rw [this]
      exact le_trans hle (by rw [hst]; exact ht)
    have hstep := timingTick_starts_listening m t (session m issueTime connected g pre)
      hs2 hs1 ⟨hs4, hs3⟩
    have happ : session m issueTime connected g (pre ++ [t])
        = timingTick m t (session m issueTime connected g pre) := by
      unfold session runTiming
      rw [List.foldl_append]
      rfl
    refine ⟨hs1, hstep, happ, ?_⟩
    rw [happ, hstep]
    exact listeningPart_keeps_listening m t _ rfl

/-- The default start cue issued at 1000 ms on the buzzer: deadline 1300, `startTime`
1750; after ticks at 1200 and 1749 ms listening is off, and the tick at 1750 ms runs the
listening part with `is_listening_active` set. -/
theorem barrier_resolves_by_startTime_example :
    (getReady Mode.liveFire 1000 false defaultGlobals).startTime = 1000 + 750
      ∧ ((getReady Mode.liveFire 1000 false defaultGlobals).beep_audio_end_time
            ≤ (getReady Mode.liveFire 1000 false defaultGlobals).startTime ↔
          max 0 (if false = true then defaultGlobals.currentBluetoothAudioOffsetMs else 0)
            + (defaultGlobals.currentBeepDuration : Int) + 150 ≤ 750)
      ∧ ((session Mode.liveFire 1000 false defaultGlobals
            [quietTick 1200 0, quietTick 1749 0]).is_listening_active = false
        ∧ timingTick Mode.liveFire (quietTick 1750 0)
              (session Mode.liveFire 1000 false defaultGlobals
                [quietTick 1200 0, quietTick 1749 0])
            = listeningPart Mode.liveFire (quietTick 1750 0)
                (micResetPeak
                  { session Mode.liveFire 1000 false defaultGlobals
                      [quietTick 1200 0, quietTick 1749 0] with
                    is_listening_active := true }))
      ∧ (session Mode.liveFire 1000 false defaultGlobals
          ([quietTick 1200 0, quietTick 1749 0] ++ [quietTick 1750 0])).is_listening_active
          = true :=
  ⟨(barrier_resolves_by_startTime Mode.liveFire 1000 false defaultGlobals (by decide)
      (by decide) (by decide) (by decide) (by decide)).1,
   (barrier_resolves_by_startTime Mode.liveFire 1000 false defaultGlobals (by decide)
      (by decide) (by decide) (by decide) (by decide)).2.2.1,
   ⟨((barrier_resolves_by_startTime Mode.liveFire 1000 false defaultGlobals (by decide)
      (by decide) (by decide) (by decide) (by decide)).2.2.2.2
      (by with_unfolding_all decide) [quietTick 1200 0, quietTick 1749 0] (quietTick 1750 0)
      (by with_unfolding_all decide) (by with_unfolding_all decide)).1,
    ((barrier_resolves_by_startTime Mode.liveFire 1000 false defaultGlobals (by decide)
      (by decide) (by decide) (by decide) (by decide)).2.2.2.2
      (by with_unfolding_all decide) [quietTick 1200 0, quietTick 1749 0] (quietTick 1750 0)
      (by with_unfolding_all decide) (by with_unfolding_all decide)).2.1⟩,
   by with_unfolding_all decide⟩

/-- C28 (counterexample): for the default start cue issued at `2^32 - 500` ms on the buzzer,
`0 + 150 + 150 ≤ 750` holds, but `startTime` wraps to 250 while the deadline is
`2^32 - 200`, so `beep_audio_end_time ≤ startTime` fails. -/
theorem barrier_after_wrapped_startTime :
    1000 ≤ 4294966796
      ∧ (0 : Int) + (defaultGlobals.currentBeepDuration : Int) + 150 ≤ 750
      ∧ (getReady Mode.liveFire 4294966796 false defaultGlobals).startTime = 250
      ∧ (getReady Mode.liveFire 4294966796 false defaultGlobals).beep_audio_end_time
          = 4294967096
      ∧ ¬ (getReady Mode.liveFire 4294966796 false defaultGlobals).beep_audio_end_time
          ≤ (getReady Mode.liveFire 4294966796 false defaultGlobals).startTime := by
  refine ⟨?_, ?_, ?_, ?_, ?_⟩ <;> with_unfolding_all decide

/-! ## Theorems: the display before the barrier -/

/-- C26 (amended): on a Timing tick on which listening is not active and does not become
active, the handler only refreshes the display: it renders nothing, or once with the elapsed
value `(startTime > 0 && now > startTime) ? (now - startTime) / 1000.0f : 0.0f`. That value
is 0 when `now ≤ startTime`, and so on every such tick of a session whose deadline is not
after `startTime`; when `startTime < now < beep_audio_end_time` it is the `float` quotient
`(now - startTime) / 1000.0f`, which is positive and within `2^-22` of the exact quotient. -/
theorem elapsed_before_barrier (m : Mode) (t : Tick) (s : Globals)
    (hst : s.currentState = m.timingState) (hwait : ¬ listensOn t s) :
    timingTick m t s = refreshDisplay t.now s
    ∧ ((timingTick m t s).effects = s.effects
      ∨ (timingTick m t s).effects
          = s.effects ++ [Effect.displayTimingScreen (elapsedSeconds t.now s) s.shotCount
                            (lastSplit s)])
    ∧ (t.now ≤ s.startTime → elapsedSeconds t.now s = 0)
    ∧ (s.beep_audio_end_time ≤ s.startTime → elapsedSeconds t.now s = 0)
    ∧ (0 < s.startTime → s.startTime < t.now → t.now < 4294967296 →
        elapsedSeconds t.now s
          = toFloat32 (toFloat32 (((t.now - s.startTime : Nat) : Rat)) / 1000)
        ∧ 0 < elapsedSeconds t.now s
        ∧ |elapsedSeconds t.now s - (((t.now - s.startTime : Nat) : Rat)) / 1000|
            ≤ (((t.now - s.startTime : Nat) : Rat)) / 1000 / 4194304) := by
  have hoff : s.is_listening_active = false := by
    cases h : s.is_listening_active with
    | false => rfl
    | true => exact absurd (Or.inl h) hwait
  have hnb : ¬ (s.beep_audio_end_time ≤ t.now ∧ s.startTime ≤ t.now) :=
    fun h => hwait (Or.inr h)
  have hstep : timingTick m t s = refreshDisplay t.now s := by
    cases m with
    | liveFire =>
      have hst1 : s.currentState = TimerState.LIVE_FIRE_TIMING := hst
      show handleLiveFireTiming t s = _
      unfold handleLiveFireTiming
      rw [if_neg (not_not.mpr hst1), if_pos hoff, if_neg hnb]
    | noisyRange =>
      have hst1 : s.currentState = TimerState.NOISY_RANGE_TIMING := hst
      show handleNoisyRangeTiming t s = _
      unfold handleNoisyRangeTiming
      rw [if_neg (not_not.mpr hst1), if_pos hoff, if_neg hnb]
  have hzero : t.now ≤ s.startTime → elapsedSeconds t.now s = 0 := by
    intro h
    unfold elapsedSeconds
    rw [if_neg (fun hh => by omega)]
  refine ⟨hstep, ?_, hzero, fun hle => ?_, fun h0 hlt hfit => ?_⟩
  · rw [hstep]
    unfold refreshDisplay
    split
    · exact Or.inr rfl
    · exact Or.inl rfl
  · apply hzero
    by_contra hc
    exact hnb ⟨by omega, by omega⟩
  · have he : elapsedSeconds t.now s = secondsOfMillis (t.now - s.startTime) := by
      unfold elapsedSeconds
      rw [if_pos ⟨h0, hlt⟩, usub_of_le t.now s.startTime (le_of_lt hlt) hfit]
    refine ⟨he, ?_, ?_⟩
    · rw [he]
      exact secondsOfMillis_pos _ (by omega)
    · rw [he]
      exact secondsOfMillis_err _

/-- With the default start cue issued at 1000 ms (`startTime` 1750) the tick at 1500 ms
renders elapsed 0. -/
theorem elapsed_before_barrier_example :
    timingTick Mode.liveFire (tick 1500 0 0 false) (getReady Mode.liveFire 1000 false defaultGlobals)
        = refreshDisplay (tick 1500 0 0 false).now
            (getReady Mode.liveFire 1000 false defaultGlobals)
      ∧ elapsedSeconds (tick 1500 0 0 false).now
          (getReady Mode.liveFire 1000 false defaultGlobals) = 0 :=
  ⟨(elapsed_before_barrier Mode.liveFire (tick 1500 0 0 false)
      (getReady Mode.liveFire 1000 false defaultGlobals)
      (by with_unfolding_all decide) (by with_unfolding_all decide)).1,
   (elapsed_before_barrier Mode.liveFire (tick 1500 0 0 false)
      (getReady Mode.liveFire 1000 false defaultGlobals)
      (by with_unfolding_all decide) (by with_unfolding_all decide)).2.2.1
      (by with_unfolding_all decide)⟩

/-- C26 (counterexample): with a start tone of 1000 ms (within [50, 2000]) issued at 1000 ms
on the buzzer, the tick at 1800 ms is before the deadline 2150, listening stays off, and the
handler renders the elapsed value `50 / 1000.0f = 0.05f`, not 0. -/
theorem elapsed_positive_before_barrier :
    (longBeepStart Mode.liveFire).currentBeepDuration = 1000
      ∧ (longBeepStart Mode.liveFire).startTime = 1750
      ∧ (longBeepStart Mode.liveFire).beep_audio_end_time = 2150
      ∧ (handleLiveFireTiming (tick 1800 0 0 false)
          (longBeepStart Mode.liveFire)).is_listening_active = false
      ∧ (handleLiveFireTiming (tick 1800 0 0 false) (longBeepStart Mode.liveFire)).effects
          = (longBeepStart Mode.liveFire).effects
              ++ [Effect.displayTimingScreen (toFloat32 (toFloat32 50 / 1000)) 0 0]
      ∧ (handleNoisyRangeTiming (tick 1800 0 0 false) (longBeepStart Mode.noisyRange)).effects
          = (longBeepStart Mode.noisyRange).effects
              ++ [Effect.displayTimingScreen (toFloat32 (toFloat32 50 / 1000)) 0 0]
      ∧ (toFloat32 (toFloat32 50 / 1000)).num = 13421773
      ∧ (toFloat32 (toFloat32 50 / 1000)).den = 268435456 := by
  exact ⟨rfl, rfl, rfl, rfl, rfl, rfl, by with_unfolding_all decide,
    by with_unfolding_all decide⟩

/-! ## Theorems: the stop branches are taken at most once per tick -/

theorem stopCalls_emit (e : Effect) (s : Globals) (h : e ≠ Effect.displayStoppedScreen) :
    stopCalls (emit e s) = stopCalls s := by
  unfold stopCalls emit
  simp only [List.count_append, List.count_cons, List.count_nil]
  have : ¬ (e == Effect.displayStoppedScreen) = true := by simpa using h
  simp [this]

theorem stopCalls_xQueueSend (r : BuzzerRequest) (s : Globals) :
    stopCalls (xQueueSend r s) = stopCalls s := by
  unfold xQueueSend; split <;> rfl

theorem stopCalls_playFeedbackTone (f d : Int) (now : Nat) (c : Bool) (s : Globals) :
    stopCalls (playFeedbackTone f d now c s) = stopCalls s := by
  unfold playFeedbackTone
  split
  · rfl
  · exact stopCalls_xQueueSend _ s

theorem stopCalls_beepLoop (duration pause : Nat) (c : Bool) (fs : List Int) :
    ∀ (now : Nat) (s : Globals), stopCalls (beepLoop duration pause c fs now s) = stopCalls s := by
  induction fs with
  | nil => intro now s; rfl
  | cons f fs ih =>
    intro now s
    simp only [beepLoop]
    rw [ih, stopCalls_emit _ _ (by simp), stopCalls_playFeedbackTone]

theorem stopCalls_setState (st : TimerState) (s : Globals) :
    stopCalls (setState st s) = stopCalls s := by
  unfold setState; split <;> rfl

theorem stopCalls_stopSession (t : Tick) (s : Globals) :
    stopCalls (stopSession t s) = stopCalls s + 1 := by
  have h1 : ∀ s1 : Globals, stopCalls (emit Effect.displayStoppedScreen s1) = stopCalls s1 + 1 := by
    intro s1
    unfold stopCalls emit
    simp [List.count_append]
  unfold stopSession playSuccessBeeps playUnsuccessBeeps
  simp only []
  split <;> rw [stopCalls_beepLoop, h1, stopCalls_emit _ _ (by simp), stopCalls_setState] <;> rfl

theorem stopCalls_refreshDisplay (now : Nat) (s : Globals) :
    stopCalls (refreshDisplay now s) = stopCalls s := by
  unfold refreshDisplay
  split
  · exact stopCalls_emit _ s (by simp)
  · rfl

theorem stopCalls_readMic (t : Tick) (s : Globals) : stopCalls (readMic t s) = stopCalls s := by
  unfold readMic micUpdate
  simp only []
  rw [stopCalls_emit _ _ (by simp)]
  exact stopCalls_emit _ _ (by simp)

theorem stopCalls_micResetPeak (s : Globals) : stopCalls (micResetPeak s) = stopCalls s :=
  stopCalls_emit _ _ (by simp)

theorem stopCalls_recordShot (shot now : Nat) (s : Globals) :
    stopCalls (recordShot shot now s) = stopCalls s := by
  unfold recordShot
  simp only []
  exact stopCalls_emit _ _ (by simp)

/-- The listening part of a Live Fire tick takes a stop branch at most once, and exactly
when it leaves the state `LIVE_FIRE_STOPPED`. -/
theorem liveFireListening_stopCalls (t : Tick) (s : Globals)
    (hst : s.currentState = TimerState.LIVE_FIRE_TIMING) :
    (stopCalls (liveFireListening t s) = stopCalls s
      ∧ (liveFireListening t s).currentState = TimerState.LIVE_FIRE_TIMING)
    ∨ (stopCalls (liveFireListening t s) = stopCalls s + 1
      ∧ (liveFireListening t s).currentState = TimerState.LIVE_FIRE_STOPPED) := by
  have hst3 : (liveFireSample t s).currentState = TimerState.LIVE_FIRE_TIMING :=
    (congrArg Core.currentState (core_liveFireSample t s)).trans hst
  have hc3 : stopCalls (liveFireSample t s) = stopCalls s := by
    unfold liveFireSample
    simp only []
    rw [stopCalls_refreshDisplay]
    split
    · exact stopCalls_readMic t s
    · exact stopCalls_readMic t s
  have hdet : (stopCalls (liveFireDetect t (liveFireSample t s)) = stopCalls s
        ∧ (liveFireDetect t (liveFireSample t s)).currentState = TimerState.LIVE_FIRE_TIMING)
      ∨ (stopCalls (liveFireDetect t (liveFireSample t s)) = stopCalls s + 1
        ∧ (liveFireDetect t (liveFireSample t s)).currentState
            = TimerState.LIVE_FIRE_STOPPED) := by
    rw [← hc3]
    generalize liveFireSample t s = s3 at hst3
    unfold liveFireDetect
    split
    · simp only []
      split
      · right
        exact ⟨by rw [stopCalls_stopSession, stopCalls_recordShot],
          stopSession_currentState t _⟩
      · left
        exact ⟨stopCalls_recordShot _ _ _, hst3⟩
    · split
      · left
        exact ⟨stopCalls_micResetPeak _, hst3⟩
      · left
        exact ⟨rfl, hst3⟩
  unfold liveFireListening
  simp only []
  rcases hdet with ⟨h1, h2⟩ | ⟨h1, h2⟩
  · by_cases hb : t.btnA = true
    · right
      have hm : liveFireManualStop t (liveFireDetect t (liveFireSample t s))
          = stopSession t (resetActivityTimer t.now (liveFireDetect t (liveFireSample t s))) := by
        unfold liveFireManualStop
        rw [if_pos ⟨h2, hb⟩]
      have hms : (liveFireManualStop t (liveFireDetect t (liveFireSample t s))).currentState
          = TimerState.LIVE_FIRE_STOPPED := by
        rw [hm]
        exact stopSession_currentState t _
      rw [liveFireTimeoutStop_idle t _ (Or.inl (by rw [hms]; decide))]
      refine ⟨?_, hms⟩
      rw [hm, stopCalls_stopSession]
      exact congrArg (· + 1) h1
    · rw [liveFireManualStop_idle t _ (Or.inr (by simpa using hb))]
      unfold liveFireTimeoutStop
      rw [if_pos h2]
      split
      · right
        exact ⟨by rw [stopCalls_stopSession, h1], stopSession_currentState t _⟩
      · left
        exact ⟨h1, h2⟩
  · right
    rw [liveFireManualStop_idle t _ (Or.inl (by rw [h2]; decide)),
      liveFireTimeoutStop_idle t _ (Or.inl (by rw [h2]; decide))]
    exact ⟨h1, h2⟩

/-- The listening part of a Noisy Range tick takes a stop branch at most once, and exactly
when it leaves the state `LIVE_FIRE_STOPPED`. -/
theorem noisyListening_stopCalls (t : Tick) (s : Globals)
    (hst : s.currentState = TimerState.NOISY_RANGE_TIMING) :
    (stopCalls (noisyListening t s) = stopCalls s
      ∧ (noisyListening t s).currentState = TimerState.NOISY_RANGE_TIMING)
    ∨ (stopCalls (noisyListening t s) = stopCalls s + 1
      ∧ (noisyListening t s).currentState = TimerState.LIVE_FIRE_STOPPED) := by
  have hst3 : (noisySample t s).currentState = TimerState.NOISY_RANGE_TIMING := by
    rcases noisySample_core t s with h | ⟨_, _, h⟩
    · exact (congrArg Core.currentState h).trans hst
    · exact (congrArg Core.currentState h).trans hst
  have hc3 : stopCalls (noisySample t s) = stopCalls s := by
    unfold noisySample noisyOpenWindow
    simp only []
    split
    · exact (stopCalls_readMic t _).trans (stopCalls_refreshDisplay _ s)
    · exact (stopCalls_readMic t _).trans (stopCalls_refreshDisplay _ s)
  have hrc : ((noisyRecoilCheck t (noisySample t s)).2 = false
        ∧ stopCalls (noisyRecoilCheck t (noisySample t s)).1 = stopCalls s
        ∧ (noisyRecoilCheck t (noisySample t s)).1.currentState
            = TimerState.NOISY_RANGE_TIMING)
      ∨ ((noisyRecoilCheck t (noisySample t s)).2 = true
        ∧ stopCalls (noisyRecoilCheck t (noisySample t s)).1 = stopCalls s + 1
        ∧ (noisyRecoilCheck t (noisySample t s)).1.currentState
            = TimerState.LIVE_FIRE_STOPPED) := by
    rw [← hc3]
    generalize noisySample t s = s3 at hst3
    unfold noisyRecoilCheck
    split
    · simp only []
      split
      · split
        · right
          refine ⟨rfl, ?_, stopSession_currentState t _⟩
          rw [stopCalls_stopSession, stopCalls_micResetPeak]
          exact congrArg (· + 1)
            ((stopCalls_recordShot _ _ _).trans (stopCalls_emit _ _ (by simp)))
        · left
          refine ⟨rfl, ?_, hst3⟩
          rw [stopCalls_micResetPeak]
          exact (stopCalls_recordShot _ _ _).trans (stopCalls_emit _ _ (by simp))
      · split
        · left
          refine ⟨rfl, ?_, hst3⟩
          rw [stopCalls_micResetPeak]
          exact stopCalls_emit _ _ (by simp)
        · left
          exact ⟨rfl, stopCalls_emit _ _ (by simp), hst3⟩
    · split
      · left
        exact ⟨rfl, stopCalls_micResetPeak _, hst3⟩
      · left
        exact ⟨rfl, rfl, hst3⟩
  unfold noisyListening
  simp only []
  rcases hrc with ⟨h0, h1, h2⟩ | ⟨h0, h1, h2⟩
  · rw [if_neg (by rw [h0]; simp)]
    unfold noisyStops
    by_cases hb : (noisyRecoilCheck t (noisySample t s)).1.currentState
        = TimerState.NOISY_RANGE_TIMING ∧ t.btnA = true
    · rw [if_pos hb]
      right
      refine ⟨?_, stopSession_currentState t _⟩
      rw [stopCalls_stopSession]
      exact congrArg (· + 1) h1
    · rw [if_neg hb, if_pos h2]
      split
      · right
        exact ⟨by rw [stopCalls_stopSession, h1], stopSession_currentState t _⟩
      · left
        exact ⟨h1, h2⟩
  · rw [if_pos h0]
    exact Or.inr ⟨h1, h2⟩

/-- C27: a call of `handleLiveFireTiming` or `handleNoisyRangeTiming` in a state other than
the handler's own Timing state (in particular in `LIVE_FIRE_STOPPED`) returns the globals
unchanged: shot data, listening flag, state, tone plan and buzzer queue are all as before;
and in one tick a stop branch (max shots, manual, timeout) is executed at most once, exactly
when the tick moves the session from Timing to `LIVE_FIRE_STOPPED`, so the completion
feedback is played once. -/
theorem stopped_is_terminal (m : Mode) (t : Tick) (s : Globals) :
    (s.currentState ≠ m.timingState → timingTick m t s = s)
    ∧ (s.currentState = TimerState.LIVE_FIRE_STOPPED →
        handleLiveFireTiming t s = s ∧ handleNoisyRangeTiming t s = s)
    ∧ (stopCalls (timingTick m t s) = stopCalls s
      ∨ stopCalls (timingTick m t s) = stopCalls s + 1)
    ∧ (stopCalls (timingTick m t s) = stopCalls s + 1 ↔
        (s.currentState = m.timingState
          ∧ (timingTick m t s).currentState = TimerState.LIVE_FIRE_STOPPED)) := by
  have hidle : s.currentState ≠ m.timingState → timingTick m t s = s := by
    intro h
    cases m with
    | liveFire =>
      have h1 : s.currentState ≠ TimerState.LIVE_FIRE_TIMING := h
      show handleLiveFireTiming t s = s
      unfold handleLiveFireTiming
      rw [if_pos h1]
    | noisyRange =>
      have h1 : s.currentState ≠ TimerState.NOISY_RANGE_TIMING := h
      show handleNoisyRangeTiming t s = s
      unfold handleNoisyRangeTiming
      rw [if_pos h1]
  have hrun : s.currentState = m.timingState →
      (stopCalls (timingTick m t s) = stopCalls s
        ∧ (timingTick m t s).currentState = m.timingState)
      ∨ (stopCalls (timingTick m t s) = stopCalls s + 1
        ∧ (timingTick m t s).currentState = TimerState.LIVE_FIRE_STOPPED) := by
    intro hst
    cases m with
    | liveFire =>
      have hst1 : s.currentState = TimerState.LIVE_FIRE_TIMING := hst
      have e : timingTick Mode.liveFire t s = handleLiveFireTiming t s := rfl
      rw [e]
      show (stopCalls (handleLiveFireTiming t s) = stopCalls s
          ∧ (handleLiveFireTiming t s).currentState = TimerState.LIVE_FIRE_TIMING)
        ∨ (stopCalls (handleLiveFireTiming t s) = stopCalls s + 1
          ∧ (handleLiveFireTiming t s).currentState = TimerState.LIVE_FIRE_STOPPED)
      unfold handleLiveFireTiming
      rw [if_neg (not_not.mpr hst1)]
      split
      · split
        · have h := liveFireListening_stopCalls t
            (micResetPeak { s with is_listening_active := true }) hst1
          have e : stopCalls (micResetPeak { s with is_listening_active := true })
              = stopCalls s := stopCalls_micResetPeak _
          rw [e] at h
          exact h
        · exact Or.inl ⟨stopCalls_refreshDisplay _ s,
            (congrArg Core.currentState (core_refreshDisplay t.now s)).trans hst1⟩
      · exact liveFireListening_stopCalls t s hst1
    | noisyRange =>
      have hst1 : s.currentState = TimerState.NOISY_RANGE_TIMING := hst
      have e : timingTick Mode.noisyRange t s = handleNoisyRangeTiming t s := rfl
      rw [e]
      show (stopCalls (handleNoisyRangeTiming t s) = stopCalls s
          ∧ (handleNoisyRangeTiming t s).currentState = TimerState.NOISY_RANGE_TIMING)
        ∨ (stopCalls (handleNoisyRangeTiming t s) = stopCalls s + 1
          ∧ (handleNoisyRangeTiming t s).currentState = TimerState.LIVE_FIRE_STOPPED)
      unfold handleNoisyRangeTiming
      rw [if_neg (not_not.mpr hst1)]
      split
      · split
        · have h := noisyListening_stopCalls t
            (micResetPeak { s with is_listening_active := true }) hst1
          have e : stopCalls (micResetPeak { s with is_listening_active := true })
              = stopCalls s := stopCalls_micResetPeak _
          rw [e] at h
          exact h
        · exact Or.inl ⟨stopCalls_refreshDisplay _ s,
            (congrArg Core.currentState (core_refreshDisplay t.now s)).trans hst1⟩
      · exact noisyListening_stopCalls t s hst1
  have hne : m.timingState ≠ TimerState.LIVE_FIRE_STOPPED := by
    cases m <;> decide
  refine ⟨hidle, fun h => ?_, ?_, ?_⟩
  · constructor
    · unfold handleLiveFireTiming
      rw [if_pos (by rw [h]; decide)]
    · unfold handleNoisyRangeTiming
      rw [if_pos (by rw [h]; decide)]
  · by_cases hst : s.currentState = m.timingState
    · rcases hrun hst with h | h
      · exact Or.inl h.1
      · exact Or.inr h.1
    · rw [hidle hst]
      exact Or.inl rfl
  · constructor
    · intro h
      by_cases hst : s.currentState = m.timingState
      · rcases hrun hst with h1 | h1
        · rw [h1.1] at h
          omega
        · exact ⟨hst, h1.2⟩
      · rw [hidle hst] at h
        omega
    · rintro ⟨hst, hstop⟩
      rcases hrun hst with h1 | h1
      · rw [h1.2] at hstop
        exact absurd hstop hne
      · exact h1.1

/-! ## Theorems: `currentMaxShots` and the shot arrays -/

theorem currentMaxShots_playFeedbackTone (f d : Int) (now : Nat) (c : Bool) (s : Globals) :
    (playFeedbackTone f d now c s).currentMaxShots = s.currentMaxShots :=
  congrArg Core.currentMaxShots (core_playFeedbackTone f d now c s)

theorem currentMaxShots_beeps (t : Input) (s : Globals) :
    (playSuccessBeeps t.now t.connected s).currentMaxShots = s.currentMaxShots
    ∧ (playUnsuccessBeeps t.now t.connected s).currentMaxShots = s.currentMaxShots := by
  unfold playSuccessBeeps playUnsuccessBeeps
  constructor
  · exact congrArg Core.currentMaxShots
      (core_beepLoop BEEP_NOTE_DURATION_MS BEEP_NOTE_DELAY_MS t.connected
        [1047, 1175, 1319, 1397, 1568] t.now s)
  · exact congrArg Core.currentMaxShots
      (core_beepLoop 225 (BEEP_NOTE_DELAY_MS * 2) t.connected [262, 262] t.now s)

theorem currentMaxShots_setState (st : TimerState) (s : Globals) :
    (setState st s).currentMaxShots = s.currentMaxShots :=
  congrArg Core.currentMaxShots (core_setState st s)

theorem loadSettings_currentMaxShots (p : Stored) (d : Device) :
    1 ≤ (loadSettings p d).g.currentMaxShots
    ∧ (loadSettings p d).g.currentMaxShots ≤ (MAX_SHOTS_LIMIT : Int) := by
  show 1 ≤ (if (MAX_SHOTS_LIMIT : Int) < p.maxShots then (MAX_SHOTS_LIMIT : Int)
            else if p.maxShots ≤ 0 then 1 else p.maxShots)
      ∧ (if (MAX_SHOTS_LIMIT : Int) < p.maxShots then (MAX_SHOTS_LIMIT : Int)
          else if p.maxShots ≤ 0 then 1 else p.maxShots) ≤ (MAX_SHOTS_LIMIT : Int)
  unfold MAX_SHOTS_LIMIT
  split
  · exact ⟨by decide, le_refl _⟩
  · split
    · exact ⟨le_refl _, by decide⟩
    · constructor <;> push_cast at * <;> omega

theorem selectMaxShots_EditInv (d : Device)
    (h : 1 ≤ d.g.currentMaxShots ∧ d.g.currentMaxShots ≤ (MAX_SHOTS_LIMIT : Int)) :
    EditInv (selectMaxShots d) := by
  have hm : (selectMaxShots d).g.currentMaxShots = d.g.currentMaxShots := by
    show (emit Effect.fillScreen (setState TimerState.EDIT_SETTING d.g)).currentMaxShots = _
    exact currentMaxShots_setState _ _
  refine ⟨by rw [hm]; exact h.1, by rw [hm]; exact h.2, fun _ => h⟩

theorem editStep_EditInv (t : Input) (increment : Int) (d : Device) (h : EditInv d) :
    EditInv (editStep t increment d).1
    ∧ (editStep t increment d).1.settingBeingEdited = d.settingBeingEdited := by
  obtain ⟨h1, h2, h3⟩ := h
  unfold editStep
  cases hs : d.settingBeingEdited with
  | EDIT_MAX_SHOTS =>
    refine ⟨⟨h1, h2, fun _ => ⟨?_, ?_⟩⟩, rfl⟩
    · exact le_min (le_max_right _ _) (by unfold MAX_SHOTS_LIMIT; decide)
    · exact min_le_right _ _
  | EDIT_BT_AUDIO_OFFSET =>
    simp only []
    split
    · refine ⟨⟨?_, ?_, fun h => ?_⟩, rfl⟩
      · rw [show (playSyncCalibrationTone _ _ _ t.now t.connected _).currentMaxShots
          = d.g.currentMaxShots from
          congrArg Core.currentMaxShots (core_playSyncCalibrationTone _ _ _ _ _ _)]
        exact h1
      · rw [show (playSyncCalibrationTone _ _ _ t.now t.connected _).currentMaxShots
          = d.g.currentMaxShots from
          congrArg Core.currentMaxShots (core_playSyncCalibrationTone _ _ _ _ _ _)]
        exact h2
      · cases h
    · refine ⟨⟨?_, ?_, fun h => ?_⟩, rfl⟩
      · rw [show (playFeedbackTone 2500 20 t.now t.connected _).currentMaxShots
          = d.g.currentMaxShots from currentMaxShots_playFeedbackTone _ _ _ _ _]
        exact h1
      · rw [show (playFeedbackTone 2500 20 t.now t.connected _).currentMaxShots
          = d.g.currentMaxShots from currentMaxShots_playFeedbackTone _ _ _ _ _]
        exact h2
      · cases h
  | EDIT_NONE => exact ⟨⟨h1, h2, fun h => (by rw [hs] at h; cases h)⟩, hs⟩
  | EDIT_BEEP_DURATION => exact ⟨⟨h1, h2, fun h => (by cases h)⟩, rfl⟩
  | EDIT_BEEP_TONE => exact ⟨⟨h1, h2, fun h => (by cases h)⟩, rfl⟩
  | EDIT_SHOT_THRESHOLD => exact ⟨⟨h1, h2, fun h => (by cases h)⟩, rfl⟩
  | EDIT_PAR_BEEP_COUNT => exact ⟨⟨h1, h2, fun h => (by cases h)⟩, rfl⟩
  | EDIT_PAR_TIME_ARRAY => exact ⟨⟨h1, h2, fun h => (by cases h)⟩, rfl⟩
  | EDIT_RECOIL_THRESHOLD => exact ⟨⟨h1, h2, fun h => (by cases h)⟩, rfl⟩
  | EDIT_ROTATION => exact ⟨⟨h1, h2, fun h => (by cases h)⟩, rfl⟩
  | EDIT_BOOT_ANIM => exact ⟨⟨h1, h2, fun h => (by cases h)⟩, rfl⟩
  | EDIT_AUTO_SLEEP => exact ⟨⟨h1, h2, fun h => (by cases h)⟩, rfl⟩
  | EDIT_BT_AUTO_RECONNECT => exact ⟨⟨h1, h2, fun h => (by cases h)⟩, rfl⟩
  | EDIT_BT_VOLUME => exact ⟨⟨h1, h2, fun h => (by cases h)⟩, rfl⟩

theorem EditInv.of_eq {d d1 : Device} (h : EditInv d)
    (h1 : d1.g.currentMaxShots = d.g.currentMaxShots)
    (h2 : d1.settingBeingEdited = d.settingBeingEdited)
    (h3 : d1.editingIntValue = d.editingIntValue) : EditInv d1 := by
  unfold EditInv at h ⊢
  rw [h1, h2, h3]
  exact h

theorem EditInv.ite (c : Prop) [Decidable c] (a b : Device) (ha : EditInv a) (hb : EditInv b) :
    EditInv (if c then a else b) := by
  split
  · exact ha
  · exact hb

theorem editUpDown_EditInv (t : Input) (d : Device) (h : EditInv d) :
    EditInv (editUpDown t d).1 := by
  unfold editUpDown
  simp only []
  generalize (if t.rotation = 3 then t.btnPWRClicked else t.btnBClicked) = up
  generalize (if t.rotation = 3 then t.btnBClicked else t.btnPWRClicked) = down
  by_cases hp : up = true ∨ down = true
  · rw [if_pos hp]
    generalize (if up = true then (1 : Int) else -1) = incr
    obtain ⟨hr, _⟩ := editStep_EditInv t incr d h
    generalize editStep t incr d = r at hr ⊢
    have h0 : EditInv
        { Device.call (DeviceCall.setRotation r.1.editingIntValue) r.1 with
          g := { (Device.call (DeviceCall.setRotation r.1.editingIntValue) r.1).g with
                  redrawMenu := true } } := hr.of_eq rfl rfl rfl
    have h1 := EditInv.ite (r.1.settingBeingEdited = EditableSetting.EDIT_ROTATION) _ _ h0 hr
    exact EditInv.ite _ _ _
      (h1.of_eq (currentMaxShots_playFeedbackTone _ _ _ _ _) rfl rfl) h1
  · rw [if_neg hp]
    exact h

theorem editCommit_currentMaxShots (d : Device) (h : EditInv d) :
    1 ≤ (editCommit d).g.currentMaxShots
    ∧ (editCommit d).g.currentMaxShots ≤ (MAX_SHOTS_LIMIT : Int)
    ∧ (editCommit d).stateBeforeEdit = d.stateBeforeEdit := by
  obtain ⟨h1, h2, h3⟩ := h
  unfold editCommit
  cases hs : d.settingBeingEdited with
  | EDIT_MAX_SHOTS => exact ⟨(h3 hs).1, (h3 hs).2, rfl⟩
  | EDIT_PAR_TIME_ARRAY =>
    simp only []
    split
    · exact ⟨h1, h2, rfl⟩
    · exact ⟨h1, h2, rfl⟩
  | EDIT_NONE => exact ⟨h1, h2, rfl⟩
  | EDIT_BEEP_DURATION => exact ⟨h1, h2, rfl⟩
  | EDIT_BEEP_TONE => exact ⟨h1, h2, rfl⟩
  | EDIT_SHOT_THRESHOLD => exact ⟨h1, h2, rfl⟩
  | EDIT_PAR_BEEP_COUNT => exact ⟨h1, h2, rfl⟩
  | EDIT_RECOIL_THRESHOLD => exact ⟨h1, h2, rfl⟩
  | EDIT_ROTATION => exact ⟨h1, h2, rfl⟩
  | EDIT_BOOT_ANIM => exact ⟨h1, h2, rfl⟩
  | EDIT_AUTO_SLEEP => exact ⟨h1, h2, rfl⟩
  | EDIT_BT_AUTO_RECONNECT => exact ⟨h1, h2, rfl⟩
  | EDIT_BT_VOLUME => exact ⟨h1, h2, rfl⟩
  | EDIT_BT_AUDIO_OFFSET => exact ⟨h1, h2, rfl⟩

/-- Every call of `handleEditSettingInput` keeps `currentMaxShots` within
[1, `MAX_SHOTS_LIMIT`]. -/
theorem handleEditSettingInput_EditInv (t : Input) (d : Device) (h : EditInv d) :
    EditInv (handleEditSettingInput t d) := by
  have h0 : EditInv { d with g := resetActivityTimer t.now d.g } := h.of_eq rfl rfl rfl
  have h1 := editUpDown_EditInv t _ h0
  unfold handleEditSettingInput
  simp only []
  generalize editUpDown t { d with g := resetActivityTimer t.now d.g } = r at h1
  have hdone : ∀ d2 : Device, 1 ≤ d2.g.currentMaxShots →
      d2.g.currentMaxShots ≤ (MAX_SHOTS_LIMIT : Int) → ∀ beeps : Globals → Globals,
      (∀ s, (beeps s).currentMaxShots = s.currentMaxShots) →
      EditInv { ({ ({ d2 with g := emit Effect.fillScreen (setState d2.stateBeforeEdit d2.g) }
                      : Device) with
                    settingBeingEdited := EditableSetting.EDIT_NONE } : Device) with
                g := beeps (emit Effect.fillScreen (setState d2.stateBeforeEdit d2.g)) } := by
    intro d2 ha hb beeps hbe
    refine ⟨?_, ?_, fun hh => (by cases hh)⟩
    · show 1 ≤ (beeps _).currentMaxShots
      rw [hbe]
      show 1 ≤ (setState d2.stateBeforeEdit d2.g).currentMaxShots
      rw [currentMaxShots_setState]
      exact ha
    · show (beeps _).currentMaxShots ≤ _
      rw [hbe]
      show (setState d2.stateBeforeEdit d2.g).currentMaxShots ≤ _
      rw [currentMaxShots_setState]
      exact hb
  have hrot : ∀ (c : Prop) [Decidable c] (x : DeviceCall),
      EditInv (if c then Device.call x r.1 else r.1) :=
    fun c _ x => EditInv.ite c _ _ (h1.of_eq rfl rfl rfl) h1
  refine EditInv.ite _ _ _ ?_ (EditInv.ite _ _ _ ?_ (EditInv.ite _ _ _ (h1.of_eq rfl rfl rfl) h1))
  · exact hdone _ (hrot _ _).1 (hrot _ _).2.1 (playUnsuccessBeeps t.now t.connected)
      (fun s => (currentMaxShots_beeps t s).2)
  · have hc := editCommit_currentMaxShots r.1 h1
    exact hdone _ hc.1 hc.2.1 (playSuccessBeeps t.now t.connected)
      (fun s => (currentMaxShots_beeps t s).1)

theorem runEdit_EditInv (inputs : List Input) :
    ∀ d : Device, EditInv d → EditInv (runEdit d inputs) := by
  induction inputs with
  | nil => intro d h; exact h
  | cons t ts ih =>
    intro d h
    exact ih _ (handleEditSettingInput_EditInv t d h)

theorem timingTick_lengths (m : Mode) (t : Tick) (s : Globals) :
    (timingTick m t s).shotTimestamps.length = s.shotTimestamps.length
    ∧ (timingTick m t s).splitTimes.length = s.splitTimes.length := by
  show (core (timingTick m t s)).shotTimestamps.length = (core s).shotTimestamps.length
    ∧ (core (timingTick m t s)).splitTimes.length = (core s).splitTimes.length
  cases m with
  | liveFire =>
    have h : LiveFireStep t.now (core s) (core (timingTick Mode.liveFire t s)) :=
      handleLiveFireTiming_step t s
    generalize core (timingTick Mode.liveFire t s) = c4 at h ⊢
    generalize core s = c at h ⊢
    rcases h with rfl | ⟨_, c1, c2, ha, hd, hs⟩
    · exact ⟨rfl, rfl⟩
    · rcases ha with ⟨_, rfl⟩ | ⟨_, _, _, rfl⟩ <;> rcases hd with rfl | ⟨_, rfl⟩ <;>
        rcases hs with rfl | rfl <;> simp [Core.record]
  | noisyRange =>
    have h : NoisyRangeStep t.now (core s) (core (timingTick Mode.noisyRange t s)) :=
      handleNoisyRangeTiming_step t s
    generalize core (timingTick Mode.noisyRange t s) = c4 at h ⊢
    generalize core s = c at h ⊢
    rcases h with rfl | ⟨_, c1, c2, c3, ha, ho, hr, hs⟩
    · exact ⟨rfl, rfl⟩
    · rcases ha with ⟨_, rfl⟩ | ⟨_, _, _, rfl⟩ <;> rcases ho with rfl | ⟨_, _, rfl⟩ <;>
        rcases hr with rfl | ⟨_, rfl⟩ | ⟨_, _, rfl⟩ <;> rcases hs with rfl | rfl <;>
        simp [Core.record]

theorem runMixed_lengths (ticks : List (Mode × Tick)) :
    ∀ s : Globals, (runMixed s ticks).shotTimestamps.length = s.shotTimestamps.length
      ∧ (runMixed s ticks).splitTimes.length = s.splitTimes.length := by
  induction ticks with
  | nil => intro s; exact ⟨rfl, rfl⟩
  | cons mt ts ih =>
    intro s
    have h1 := ih (timingTick mt.1 mt.2 s)
    have h2 := timingTick_lengths mt.1 mt.2 s
    exact ⟨h1.1.trans h2.1, h1.2.trans h2.2⟩

/-- C30: `currentMaxShots` is within [1, `MAX_SHOTS_LIMIT`] after `loadSettings` for every
stored value, and still after the selection of Max Shots and any sequence of calls of
`handleEditSettingInput` (steps, commit or cancel). For every such value, in every state
reached from GetReady by timing ticks of either handler both arrays have 20 entries,
`shotCount ≤ 20`, the read `splitTimes[shotCount - 1]` is in range when `shotCount > 0`, and a
tick that records a shot writes at an index `shotCount ≤ 19`. -/
theorem shot_arrays_in_bounds (p : Stored) (d : Device) (inputs : List Input) :
    (1 ≤ (loadSettings p d).g.currentMaxShots
      ∧ (loadSettings p d).g.currentMaxShots ≤ (MAX_SHOTS_LIMIT : Int))
    ∧ (1 ≤ (editedGlobals p d inputs).currentMaxShots
      ∧ (editedGlobals p d inputs).currentMaxShots ≤ (MAX_SHOTS_LIMIT : Int))
    ∧ (∀ (g : Globals), 1 ≤ g.currentMaxShots → g.currentMaxShots ≤ (MAX_SHOTS_LIMIT : Int) →
        ∀ (m0 : Mode) (issueTime : Nat) (connected : Bool) (ticks : List (Mode × Tick)),
          (runMixed (getReady m0 issueTime connected g) ticks).shotTimestamps.length
              = MAX_SHOTS_LIMIT
          ∧ (runMixed (getReady m0 issueTime connected g) ticks).splitTimes.length
              = MAX_SHOTS_LIMIT
          ∧ (runMixed (getReady m0 issueTime connected g) ticks).shotCount ≤ MAX_SHOTS_LIMIT
          ∧ (0 < (runMixed (getReady m0 issueTime connected g) ticks).shotCount →
              (runMixed (getReady m0 issueTime connected g) ticks).shotCount - 1
                < (runMixed (getReady m0 issueTime connected g) ticks).splitTimes.length)
          ∧ (∀ (m : Mode) (t : Tick),
              (timingTick m t (runMixed (getReady m0 issueTime connected g) ticks)).shotCount
                = (runMixed (getReady m0 issueTime connected g) ticks).shotCount + 1 →
              (runMixed (getReady m0 issueTime connected g) ticks).shotCount
                < (runMixed (getReady m0 issueTime connected g) ticks).shotTimestamps.length
              ∧ (runMixed (getReady m0 issueTime connected g) ticks).shotCount
                < (runMixed (getReady m0 issueTime connected g) ticks).splitTimes.length
              ∧ (runMixed (getReady m0 issueTime connected g) ticks).shotCount ≤ 19)) := by
  have hload := loadSettings_currentMaxShots p d
  have hedit : EditInv (runEdit (selectMaxShots (loadSettings p d)) inputs) :=
    runEdit_EditInv inputs _ (selectMaxShots_EditInv _ hload)
  refine ⟨hload, ⟨hedit.1, hedit.2.1⟩, ?_⟩
  intro g h1 h20 m0 issueTime connected ticks
  have hb := runMixed_bound ticks _
    (getReady_BoundInv m0 issueTime connected g (by omega))
  have hm : (getReady m0 issueTime connected g).currentMaxShots = g.currentMaxShots :=
    congrArg Core.currentMaxShots (core_getReady m0 issueTime connected g)
  have hlen := runMixed_lengths ticks (getReady m0 issueTime connected g)
  have hl0 : (getReady m0 issueTime connected g).shotTimestamps.length = MAX_SHOTS_LIMIT
      ∧ (getReady m0 issueTime connected g).splitTimes.length = MAX_SHOTS_LIMIT := by
    have hc := core_getReady m0 issueTime connected g
    exact ⟨(congrArg (fun c => c.shotTimestamps.length) hc).trans (List.length_replicate _ _),
      (congrArg (fun c => c.splitTimes.length) hc).trans (List.length_replicate _ _)⟩
  have hcnt : ((runMixed (getReady m0 issueTime connected g) ticks).shotCount : Int)
      ≤ g.currentMaxShots := by
    have := hb.1.1
    rw [show (core (runMixed (getReady m0 issueTime connected g) ticks)).currentMaxShots
      = g.currentMaxShots from hb.2.trans hm] at this
    exact this
  generalize runMixed (getReady m0 issueTime connected g) ticks = s at hb hlen hcnt ⊢
  rw [hl0.1] at hlen
  rw [hl0.2] at hlen
  have h20' : g.currentMaxShots ≤ 20 := h20
  have hML : MAX_SHOTS_LIMIT = 20 := rfl
  refine ⟨hlen.1, hlen.2, ?_, fun hpos => ?_, fun m t hrec => ?_⟩
  · rw [hML]; omega
  · rw [hlen.2, hML]; omega
  · rcases (timingTick_bound m t s hb.1).2.2 with h | ⟨_, h⟩
    · omega
    · have h' : (s.shotCount : Int) < g.currentMaxShots := by
        rw [← hm, ← hb.2]
        exact h
      rw [hlen.1, hlen.2, hML]
      omega

/-! ## Theorems: unsigned subtractions in a session -/

/-- After any assignments, every field of the tone plan holds its old value or a value
assigned to that field. -/
theorem runWrites_fields (ws : List PlanWrite) :
    ∀ s : Globals,
      ((runWrites ws s).btBeepFrequency = s.btBeepFrequency
        ∨ PlanWrite.frequency (runWrites ws s).btBeepFrequency ∈ ws)
      ∧ ((runWrites ws s).btBeepDurationVolatile = s.btBeepDurationVolatile
        ∨ PlanWrite.duration (runWrites ws s).btBeepDurationVolatile ∈ ws)
      ∧ ((runWrites ws s).btBeepScheduledStartTime = s.btBeepScheduledStartTime
        ∨ PlanWrite.scheduledStart (runWrites ws s).btBeepScheduledStartTime ∈ ws)
      ∧ ((runWrites ws s).new_bt_beep_request = s.new_bt_beep_request
        ∨ PlanWrite.pending (runWrites ws s).new_bt_beep_request ∈ ws)
      ∧ ((runWrites ws s).current_bt_beep_is_active = s.current_bt_beep_is_active
        ∨ PlanWrite.active (runWrites ws s).current_bt_beep_is_active ∈ ws) := by
  induction ws with
  | nil => intro s; exact ⟨Or.inl rfl, Or.inl rfl, Or.inl rfl, Or.inl rfl, Or.inl rfl⟩
  | cons w ws ih =>
    intro s
    have e : runWrites (w :: ws) s = runWrites ws (w.store s) := rfl
    rw [e]
    obtain ⟨h1, h2, h3, h4, h5⟩ := ih (w.store s)
    refine ⟨?_, ?_, ?_, ?_, ?_⟩
    · rcases h1 with h | h
      · cases w <;> first
          | exact Or.inl h
          | exact Or.inr (by rw [h]; exact List.mem_cons_self _ _)
      · exact Or.inr (List.mem_cons_of_mem _ h)
    · rcases h2 with h | h
      · cases w <;> first
          | exact Or.inl h
          | exact Or.inr (by rw [h]; exact List.mem_cons_self _ _)
      · exact Or.inr (List.mem_cons_of_mem _ h)
    · rcases h3 with h | h
      · cases w <;> first
          | exact Or.inl h
          | exact Or.inr (by rw [h]; exact List.mem_cons_self _ _)
      · exact Or.inr (List.mem_cons_of_mem _ h)
    · rcases h4 with h | h
      · cases w <;> first
          | exact Or.inl h
          | exact Or.inr (by rw [h]; exact List.mem_cons_self _ _)
      · exact Or.inr (List.mem_cons_of_mem _ h)
    · rcases h5 with h | h
      · cases w <;> first
          | exact Or.inl h
          | exact Or.inr (by rw [h]; exact List.mem_cons_self _ _)
      · exact Or.inr (List.mem_cons_of_mem _ h)

/-- The assignments of a call, carried out to the end, give the tone plan of the call. -/
theorem runWrites_whole_call (c : SchedulerCall) (s : Globals) :
    planFields (runWrites (c.writes s) s) = planFields (c.run s) := by
  cases c <;> rfl

/-- A request flag that a tone call raised is read together with the frequency, duration and
scheduled start of that call. -/
theorem observedAfter_request (c : SchedulerCall) (s : Globals) (k : Nat)
    (r : Int × Nat × Nat) (hr : c.request s = some r)
    (h0 : s.new_bt_beep_request = false)
    (h1 : (observedAfter k c s).new_bt_beep_request = true) :
    ((observedAfter k c s).btBeepFrequency, (observedAfter k c s).btBeepDurationVolatile,
      (observedAfter k c s).btBeepScheduledStartTime) = r := by
  cases c with
  | playTone f d now =>
    simp only [SchedulerCall.request, Option.some.injEq] at hr
    subst hr
    rcases k with _ | _ | _ | _ | _ | k <;>
      simp_all [observedAfter, SchedulerCall.writes, toneWrites, runWrites, PlanWrite.store]
  | playFeedbackTone f d now =>
    simp only [SchedulerCall.request, Option.some.injEq] at hr
    subst hr
    rcases k with _ | _ | _ | _ | _ | k <;>
      simp_all [observedAfter, SchedulerCall.writes, toneWrites, runWrites, PlanWrite.store]
  | playSyncCalibrationTone f d o now =>
    simp only [SchedulerCall.request, Option.some.injEq] at hr
    subst hr
    rcases k with _ | _ | _ | _ | _ | _ | _ | _ | k <;>
      simp_all [observedAfter, SchedulerCall.writes, toneWrites, resetWrites, runWrites,
        PlanWrite.store]
  | reset_bt_beep_state =>
    simp [SchedulerCall.request] at hr

/-- C24 (amended): the tone plan crosses the boundary one volatile field at a time. With the
assignments of a `playTone` / `playFeedbackTone` / `playSyncCalibrationTone` /
`reset_bt_beep_state` call taken in program order and the synthesizer running after the
first `k` of them: before the first assignment it reads the old plan, after the last one the
plan of the whole call; in between every field holds its old value or a value the call
assigned to that field; and when no request was pending before a tone call, a request flag
read as set comes with the frequency, duration and scheduled start of that call, so a pull
that activates the request uses them. -/
theorem tone_plan_crosses_field_by_field (c : SchedulerCall) (s : Globals) (k : Nat) :
    planFields (observedAfter 0 c s) = planFields s
    ∧ ((c.writes s).length ≤ k → planFields (observedAfter k c s) = planFields (c.run s))
    ∧ ((observedAfter k c s).btBeepFrequency = s.btBeepFrequency
        ∨ PlanWrite.frequency (observedAfter k c s).btBeepFrequency ∈ c.writes s)
    ∧ ((observedAfter k c s).btBeepDurationVolatile = s.btBeepDurationVolatile
        ∨ PlanWrite.duration (observedAfter k c s).btBeepDurationVolatile ∈ c.writes s)
    ∧ ((observedAfter k c s).btBeepScheduledStartTime = s.btBeepScheduledStartTime
        ∨ PlanWrite.scheduledStart (observedAfter k c s).btBeepScheduledStartTime ∈ c.writes s)
    ∧ ((observedAfter k c s).new_bt_beep_request = s.new_bt_beep_request
        ∨ PlanWrite.pending (observedAfter k c s).new_bt_beep_request ∈ c.writes s)
    ∧ ((observedAfter k c s).current_bt_beep_is_active = s.current_bt_beep_is_active
        ∨ PlanWrite.active (observedAfter k c s).current_bt_beep_is_active ∈ c.writes s)
    ∧ (∀ r, c.request s = some r → s.new_bt_beep_request = false →
        (observedAfter k c s).new_bt_beep_request = true →
        ((observedAfter k c s).btBeepFrequency, (observedAfter k c s).btBeepDurationVolatile, (observedAfter k c s).btBeepScheduledStartTime) = r)
    ∧ (∀ r q, c.request s = some r → s.new_bt_beep_request = false →
        activatePending q (observedAfter k c s) ≠ (observedAfter k c s) →
        (activatePending q (observedAfter k c s)).btBeepFrequency = r.1
        ∧ (activatePending q (observedAfter k c s)).current_bt_beep_actual_end_time = uadd q r.2.1
        ∧ r.2.2 ≤ q) := by
  have hf := runWrites_fields ((c.writes s).take k) s
  have hsub : ∀ w, w ∈ (c.writes s).take k → w ∈ c.writes s :=
    fun w hw => List.mem_of_mem_take hw
  refine ⟨rfl, ?_, ?_, ?_, ?_, ?_, ?_, observedAfter_request c s k, ?_⟩
  · intro hk
    unfold observedAfter
    rw [List.take_of_length_le hk]
    exact runWrites_whole_call c s
  · exact hf.1.imp id (hsub _)
  · exact hf.2.1.imp id (hsub _)
  · exact hf.2.2.1.imp id (hsub _)
  · exact hf.2.2.2.1.imp id (hsub _)
  · exact hf.2.2.2.2.imp id (hsub _)
  · intro r q hr h0 hact
    have hreq := observedAfter_request c s k r hr h0
    generalize observedAfter k c s = o at hact hreq ⊢
    unfold activatePending at hact ⊢
    by_cases hc : o.new_bt_beep_request = true ∧ o.current_bt_beep_is_active = false
        ∧ o.btBeepScheduledStartTime ≤ q
    · rw [if_pos hc]
      have h3 := hreq hc.1
      have e1 : o.btBeepFrequency = r.1 := congrArg Prod.fst h3
      have e2 : o.btBeepDurationVolatile = r.2.1 := congrArg (fun x => x.2.1) h3
      have e3 : o.btBeepScheduledStartTime = r.2.2 := congrArg (fun x => x.2.2) h3
      refine ⟨e1, ?_, ?_⟩
      · show uadd q o.btBeepDurationVolatile = uadd q r.2.1
        rw [e2]
      · rw [← e3]
        exact hc.2.2
    · rw [if_neg hc] at hact
      exact absurd rfl hact

/-- A `playTone` call for 1000 Hz, 200 ms at 1100 ms on top of a tone in flight: after its
five assignments the synthesizer reads the plan of the whole call. -/
theorem tone_plan_crosses_example :
    (((SchedulerCall.playTone 1000 200 1100).writes toneInFlight).length ≤ 5 →
      planFields (observedAfter 5 (SchedulerCall.playTone 1000 200 1100) toneInFlight)
        = planFields ((SchedulerCall.playTone 1000 200 1100).run toneInFlight))
      ∧ planFields (observedAfter 5 (SchedulerCall.playTone 1000 200 1100) toneInFlight)
          = (1000, 200, 1100, true, false) :=
  ⟨(tone_plan_crosses_field_by_field (SchedulerCall.playTone 1000 200 1100) toneInFlight 5).2.1,
   by with_unfolding_all decide⟩

/-- C24 (counterexample): the plan is not exchanged as one unit. With a 2000 Hz tone in
flight, a pull that runs after the first assignment of `playTone(1000, 200)` reads the new
frequency with the old duration, start and flags, a plan equal to neither the one before nor
the one after the call, and already plays 1000 Hz. From an idle plan, a pull that runs after
the fourth assignment activates the request; the fifth assignment then clears `active`, and
the next pull is idle with no request left, while after the whole call it plays the tone. -/
theorem torn_plan_between_stores :
    planFields toneInFlight = (2000, 150, 1000, false, true)
      ∧ planFields ((SchedulerCall.playTone 1000 200 1100).run toneInFlight)
          = (1000, 200, 1100, true, false)
      ∧ planFields (observedAfter 1 (SchedulerCall.playTone 1000 200 1100) toneInFlight)
          = (1000, 150, 1000, false, true)
      ∧ (get_data_frames 128 1100 true toneInFlight).2.current_freq = 2000
      ∧ (get_data_frames 128 1100 true
            (observedAfter 1 (SchedulerCall.playTone 1000 200 1100) toneInFlight)).2.current_freq
          = 1000
      ∧ planFields (get_data_frames 128 1100 true
            (observedAfter 4 (SchedulerCall.playTone 1000 200 1100) defaultGlobals)).1
          = (1000, 200, 1100, false, true)
      ∧ planFields ((PlanWrite.active false).store (get_data_frames 128 1100 true
            (observedAfter 4 (SchedulerCall.playTone 1000 200 1100) defaultGlobals)).1)
          = (1000, 200, 1100, false, false)
      ∧ (get_data_frames 128 1101 true ((PlanWrite.active false).store
            (get_data_frames 128 1100 true
              (observedAfter 4 (SchedulerCall.playTone 1000 200 1100) defaultGlobals)).1)).2.m_amplitude
          = 1
      ∧ (get_data_frames 128 1101 true
            ((SchedulerCall.playTone 1000 200 1100).run defaultGlobals)).2.m_amplitude
          = 10000 := by
  refine ⟨rfl, rfl, rfl, ?_, ?_, rfl, rfl, rfl, rfl⟩
  · apply Rat.ext <;> with_unfolding_all decide
  · apply Rat.ext <;> with_unfolding_all decide

/-! ## Theorems: the dry-fire par timer -/

theorem cueOffset_mono (gap : Nat → Nat) (j k : Nat) (h : j ≤ k) :
    cueOffset gap j ≤ cueOffset gap k := by
  induction k with
  | zero =>
    have : j = 0 := by omega
    rw [this]
  | succ k ih =>
    by_cases he : j = k + 1
    · rw [he]
    · have := ih (by omega)
      show cueOffset gap j ≤ cueOffset gap k + gap k
      omega

/-- Without wrap-around the loop of the handler adds up the first `k` gaps. -/
theorem cumulativeParTimeMs_eq (times : List Rat) (k : Nat) (hk : k ≤ MAX_PAR_BEEPS)
    (hlt : cueOffset (parGap times) k < 4294967296) :
    cumulativeParTimeMs times k = cueOffset (parGap times) k := by
  induction k with
  | zero => rfl
  | succ k ih =>
    have h1 : k < MAX_PAR_BEEPS := hk
    have h2 : cueOffset (parGap times) (k + 1)
        = cueOffset (parGap times) k + parTimeMs (times.getD k 0) := rfl
    have h3 := ih (by omega) (by omega)
    show (if k < MAX_PAR_BEEPS then
        uadd (cumulativeParTimeMs times k) (parTimeMs (times.getD k 0))
      else cumulativeParTimeMs times k) = _
    rw [if_pos h1, h3, h2]
    unfold uadd
    omega

theorem toneTimes_call_playTone (f : Int) (dur now : Nat) (d : Device) :
    toneTimes (Device.call (DeviceCall.playTone f dur now) d) = toneTimes d ++ [now] := by
  simp [toneTimes, Device.call, List.filterMap_append, DeviceCall.toneTime]

theorem toneTimes_call_display (w : Bool) (a b : Int) (d : Device) :
    toneTimes (Device.call (DeviceCall.displayDryFireRunningScreen w a b) d) = toneTimes d := by
  simp [toneTimes, Device.call, List.filterMap_append, DeviceCall.toneTime]

theorem dryFireShow_fields (w : Bool) (b : Int) (d : Device) :
    (dryFireShow w b d).dryFireParBeepCount = d.dryFireParBeepCount
    ∧ (dryFireShow w b d).dryFireParTimesSec = d.dryFireParTimesSec
    ∧ (dryFireShow w b d).parTimerStartTime = d.parTimerStartTime
    ∧ (dryFireShow w b d).beepSequenceStartTime = d.beepSequenceStartTime
    ∧ (dryFireShow w b d).beepsPlayed = d.beepsPlayed
    ∧ (dryFireShow w b d).nextBeepTime = d.nextBeepTime
    ∧ toneTimes (dryFireShow w b d) = toneTimes d := by
  unfold dryFireShow
  split
  · exact ⟨rfl, rfl, rfl, rfl, rfl, rfl, toneTimes_call_display _ _ _ _⟩
  · exact ⟨rfl, rfl, rfl, rfl, rfl, rfl, rfl⟩

theorem dryFireFinish_fields (d : Device) :
    (dryFireFinish d).dryFireParBeepCount = d.dryFireParBeepCount
    ∧ (dryFireFinish d).dryFireParTimesSec = d.dryFireParTimesSec
    ∧ (dryFireFinish d).parTimerStartTime = d.parTimerStartTime
    ∧ (dryFireFinish d).beepSequenceStartTime = d.beepSequenceStartTime
    ∧ (dryFireFinish d).beepsPlayed = d.beepsPlayed
    ∧ (dryFireFinish d).nextBeepTime = d.nextBeepTime
    ∧ toneTimes (dryFireFinish d) = toneTimes d
    ∧ (dryFireFinish d).g.currentState = TimerState.DRY_FIRE_READY
    ∧ planIdle (dryFireFinish d).g := by
  refine ⟨rfl, rfl, rfl, rfl, rfl, rfl, rfl, ?_, ?_⟩
  · show (setState TimerState.DRY_FIRE_READY (reset_bt_beep_state d.g)).currentState = _
    unfold setState
    split
    · rfl
    · rename_i h
      exact not_not.mp h
  · show planIdle (setState TimerState.DRY_FIRE_READY (reset_bt_beep_state d.g))
    unfold setState
    split <;> exact ⟨rfl, rfl, rfl⟩

theorem dryFireStartSequence_fields (t : Input) (d : Device) :
    (dryFireStartSequence t d).dryFireParBeepCount = d.dryFireParBeepCount
    ∧ (dryFireStartSequence t d).dryFireParTimesSec = d.dryFireParTimesSec
    ∧ (dryFireStartSequence t d).parTimerStartTime = d.parTimerStartTime
    ∧ (dryFireStartSequence t d).beepSequenceStartTime = t.now
    ∧ toneTimes (dryFireStartSequence t d) = toneTimes d ++ [t.now]
    ∧ (1 < d.dryFireParBeepCount →
        (dryFireStartSequence t d).beepsPlayed = 1
        ∧ (dryFireStartSequence t d).nextBeepTime
            = uadd t.now (parTimeMs (d.dryFireParTimesSec.getD 0 0)))
    ∧ (d.dryFireParBeepCount ≤ 1 →
        (dryFireStartSequence t d).beepsPlayed = d.dryFireParBeepCount) := by
  have hcnt : (dryFirePlayTone t d).dryFireParBeepCount = d.dryFireParBeepCount := rfl
  have htone : toneTimes (dryFirePlayTone t d) = toneTimes d ++ [t.now] :=
    toneTimes_call_playTone _ _ _ _
  unfold dryFireStartSequence
  simp only []
  by_cases hc : 1 < d.dryFireParBeepCount
  · have h1 : (1 : Int) < (dryFirePlayTone t d).dryFireParBeepCount
        ∧ 0 < (dryFirePlayTone t d).dryFireParBeepCount := ⟨hc, by omega⟩
    have h2 : (0 : Int) < (MAX_PAR_BEEPS : Int)
        ∧ (0 : Int) < (dryFirePlayTone t d).dryFireParBeepCount - 1 :=
      ⟨by decide, by rw [hcnt]; omega⟩
    rw [if_pos h1, if_pos h2]
    exact ⟨rfl, rfl, rfl, rfl, htone, fun _ => ⟨rfl, rfl⟩, fun h => by omega⟩
  · have h1 : ¬ ((1 : Int) < (dryFirePlayTone t d).dryFireParBeepCount
        ∧ 0 < (dryFirePlayTone t d).dryFireParBeepCount) := fun h => hc h.1
    rw [if_neg h1]
    exact ⟨rfl, rfl, rfl, rfl, htone, fun h => absurd h hc, fun _ => rfl⟩

theorem dryFireAdvance_fields (t : Input) (d : Device) :
    (dryFireAdvance t d).dryFireParBeepCount = d.dryFireParBeepCount
    ∧ (dryFireAdvance t d).dryFireParTimesSec = d.dryFireParTimesSec
    ∧ (dryFireAdvance t d).parTimerStartTime = d.parTimerStartTime
    ∧ (dryFireAdvance t d).beepSequenceStartTime = d.beepSequenceStartTime
    ∧ toneTimes (dryFireAdvance t d) = toneTimes d ++ [t.now]
    ∧ (d.beepsPlayed + 1 < d.dryFireParBeepCount → 0 ≤ d.beepsPlayed →
        d.beepsPlayed < (MAX_PAR_BEEPS : Int) →
        (dryFireAdvance t d).beepsPlayed = d.beepsPlayed + 1
        ∧ (dryFireAdvance t d).nextBeepTime
            = uadd (uadd d.beepSequenceStartTime
                (cumulativeParTimeMs d.dryFireParTimesSec d.beepsPlayed.toNat))
                (parTimeMs (d.dryFireParTimesSec.getD d.beepsPlayed.toNat 0)))
    ∧ (d.dryFireParBeepCount ≤ d.beepsPlayed + 1 →
        (dryFireAdvance t d).beepsPlayed = d.beepsPlayed + 1
        ∧ (dryFireAdvance t d).nextBeepTime = 0) := by
  have hcnt : (dryFirePlayTone t d).dryFireParBeepCount = d.dryFireParBeepCount := rfl
  have hbp : (dryFirePlayTone t d).beepsPlayed = d.beepsPlayed := rfl
  have htone : toneTimes (dryFirePlayTone t d) = toneTimes d ++ [t.now] :=
    toneTimes_call_playTone _ _ _ _
  unfold dryFireAdvance
  simp only []
  by_cases hc : d.beepsPlayed + 1 < d.dryFireParBeepCount
  · have h1 : (dryFirePlayTone t d).beepsPlayed + 1
        < (dryFirePlayTone t d).dryFireParBeepCount := hc
    rw [if_pos h1]
    by_cases hi : 0 ≤ (dryFirePlayTone t d).beepsPlayed + 1 - 1
        ∧ (dryFirePlayTone t d).beepsPlayed + 1 - 1 < (MAX_PAR_BEEPS : Int)
        ∧ (dryFirePlayTone t d).beepsPlayed + 1 - 1
            < (dryFirePlayTone t d).dryFireParBeepCount - 1
    · rw [if_pos hi]
      refine ⟨rfl, rfl, rfl, rfl, htone, fun _ _ _ => ⟨rfl, ?_⟩, fun h => by omega⟩
      show uadd (uadd d.beepSequenceStartTime
          (cumulativeParTimeMs d.dryFireParTimesSec (d.beepsPlayed + 1 - 1).toNat))
          (parTimeMs (d.dryFireParTimesSec.getD (d.beepsPlayed + 1 - 1).toNat 0)) = _
      rw [add_sub_cancel_right]
    · rw [if_neg hi]
      refine ⟨rfl, rfl, rfl, rfl, htone, fun _ a b => ?_, fun h => by omega⟩
      exfalso
      apply hi
      rw [hbp, hcnt]
      refine ⟨by omega, ?_, by omega⟩
      rw [add_sub_cancel_right]
      exact b
  · have h1 : ¬ (dryFirePlayTone t d).beepsPlayed + 1
        < (dryFirePlayTone t d).dryFireParBeepCount := hc
    rw [if_neg h1]
    exact ⟨rfl, rfl, rfl, rfl, htone, fun h => absurd h hc, fun _ => ⟨rfl, rfl⟩⟩

theorem dryFireSequence_step (n : Nat) (times : List Rat) (anchor k : Nat) (t : Input)
    (d : Device) (h : DryInv n times anchor k d) (hn1 : 1 ≤ n) (hn2 : n ≤ MAX_PAR_BEEPS)
    (hfirst : k = 0 → d.parTimerStartTime ≤ t.now →
      0 < t.now ∧ t.now + cueOffset (parGap times) (n - 1) < 4294967296) :
    (dryFireSequence t d).parTimerStartTime = d.parTimerStartTime
    ∧ ((k = 0 ∧ t.now < d.parTimerStartTime
          ∧ DryInv n times anchor 0 (dryFireSequence t d)
          ∧ toneTimes (dryFireSequence t d) = toneTimes d)
      ∨ (k = 0 ∧ d.parTimerStartTime ≤ t.now
          ∧ DryInv n times t.now 1 (dryFireSequence t d)
          ∧ toneTimes (dryFireSequence t d) = toneTimes d ++ [t.now])
      ∨ (0 < k ∧ k < n ∧ t.now < cueTime anchor (parGap times) k
          ∧ DryInv n times anchor k (dryFireSequence t d)
          ∧ toneTimes (dryFireSequence t d) = toneTimes d)
      ∨ (0 < k ∧ k < n ∧ cueTime anchor (parGap times) k ≤ t.now
          ∧ DryInv n times anchor (k + 1) (dryFireSequence t d)
          ∧ toneTimes (dryFireSequence t d) = toneTimes d ++ [t.now])
      ∨ (k = n ∧ DryInv n times anchor n (dryFireSequence t d)
          ∧ toneTimes (dryFireSequence t d) = toneTimes d
          ∧ (dryFireSequence t d).g.currentState = TimerState.DRY_FIRE_READY
          ∧ planIdle (dryFireSequence t d).g)) := by
  have hmaxv : MAX_PAR_BEEPS = 10 := rfl
  unfold dryFireSequence
  by_cases hk : k = 0
  · subst hk
    rw [if_pos (h.unset rfl)]
    unfold dryFireFirstBeep
    simp only []
    obtain ⟨s1, s2, s3, s4, s5, s6, s7⟩ := dryFireShow_fields true 0 d
    generalize dryFireShow true 0 d = d1 at s1 s2 s3 s4 s5 s6 s7 ⊢
    by_cases hp : d1.parTimerStartTime ≤ t.now
    · rw [if_pos hp]
      obtain ⟨f1, f2, f3, f4, f5, f6, f7⟩ := dryFireStartSequence_fields t d1
      rw [s3] at hp
      obtain ⟨hpos, hwrap⟩ := hfirst rfl hp
      refine ⟨f3.trans s3, Or.inr (Or.inl ⟨trivial, hp, ?_, by rw [f5, s7]⟩)⟩
      have hcnt : d1.dryFireParBeepCount = (n : Int) := s1.trans h.cnt
      exact
        { cnt := f1.trans hcnt
          tms := f2.trans (s2.trans h.tms)
          played := by
            by_cases h1 : 1 < d1.dryFireParBeepCount
            · rw [(f6 h1).1]; rfl
            · rw [f7 (by omega), hcnt]
              have : n = 1 := by omega
              rw [this]
          k_le := hn1
          unset := fun h0 => absurd h0 (by decide)
          start := fun _ => ⟨f4, hpos, hwrap⟩
          due := fun _ h1 => by
            rw [(f6 (by rw [hcnt]; omega)).2, s2, h.tms]
            have hm := cueOffset_mono (parGap times) 1 (n - 1) (by omega)
            have e : cueOffset (parGap times) 1 = 0 + parTimeMs (times.getD 0 0) := rfl
            show uadd t.now (parTimeMs (times.getD 0 0)) = t.now + cueOffset (parGap times) 1
            rw [e] at hm ⊢
            unfold uadd
            omega }
    · rw [if_neg hp]
      rw [s3] at hp
      refine ⟨s3, Or.inl ⟨trivial, not_le.mp hp, ?_, s7⟩⟩
      exact
        { cnt := s1.trans h.cnt
          tms := s2.trans h.tms
          played := s5.trans h.played
          k_le := h.k_le
          unset := fun _ => s4.trans (h.unset rfl)
          start := fun h0 => absurd h0 (lt_irrefl 0)
          due := fun h0 => absurd h0 (lt_irrefl 0) }
  · have hk0 : 0 < k := Nat.pos_of_ne_zero hk
    obtain ⟨hs, hpos, hwrap⟩ := h.start hk0
    rw [if_neg (by rw [hs]; omega)]
    unfold dryFireNextBeep
    simp only []
    obtain ⟨s1, s2, s3, s4, s5, s6, s7⟩ := dryFireShow_fields false d.beepsPlayed d
    generalize dryFireShow false d.beepsPlayed d = d1 at s1 s2 s3 s4 s5 s6 s7 ⊢
    have hcnt : d1.dryFireParBeepCount = (n : Int) := s1.trans h.cnt
    have hbp : d1.beepsPlayed = (k : Int) := s5.trans h.played
    have hkle := h.k_le
    by_cases hfin : d1.dryFireParBeepCount ≤ d1.beepsPlayed
    · rw [if_pos hfin]
      have hkn : k = n := by rw [hcnt, hbp] at hfin; omega
      obtain ⟨f1, f2, f3, f4, f5, f6, f7, f8, f9⟩ := dryFireFinish_fields d1
      refine ⟨f3.trans s3, Or.inr (Or.inr (Or.inr (Or.inr ⟨hkn, ?_, f7.trans s7, f8, f9⟩)))⟩
      exact
        { cnt := f1.trans hcnt
          tms := f2.trans (s2.trans h.tms)
          played := by rw [f5, hbp, hkn]
          k_le := le_rfl
          unset := fun h0 => by omega
          start := fun _ => ⟨f4.trans (s4.trans hs), hpos, hwrap⟩
          due := fun _ h1 => absurd h1 (lt_irrefl n) }
    · rw [if_neg hfin]
      have hkn : k < n := by rw [hcnt, hbp] at hfin; omega
      have hnext : d1.nextBeepTime = cueTime anchor (parGap times) k :=
        s6.trans (h.due hk0 hkn)
      have hnpos : 0 < cueTime anchor (parGap times) k := by
        unfold cueTime
        omega
      by_cases hdue : d1.nextBeepTime ≤ t.now ∧ 0 < d1.nextBeepTime
      · rw [if_pos hdue]
        obtain ⟨f1, f2, f3, f4, f5, f6, f7⟩ := dryFireAdvance_fields t d1
        rw [hnext] at hdue
        refine ⟨f3.trans s3,
          Or.inr (Or.inr (Or.inr (Or.inl ⟨hk0, hkn, hdue.1, ?_, by rw [f5, s7]⟩)))⟩
        exact
          { cnt := f1.trans hcnt
            tms := f2.trans (s2.trans h.tms)
            played := by
              by_cases h1 : d1.beepsPlayed + 1 < d1.dryFireParBeepCount
              · rw [(f6 h1 (by omega) (by omega)).1, hbp]
                push_cast
                rfl
              · rw [(f7 (by omega)).1, hbp]
                push_cast
                rfl
            k_le := hkn
            unset := fun h0 => by omega
            start := fun _ => ⟨f4.trans (s4.trans hs), hpos, hwrap⟩
            due := fun _ h1 => by
              have h2 : d1.beepsPlayed + 1 < d1.dryFireParBeepCount := by
                rw [hbp, hcnt]; omega
              rw [(f6 h2 (by omega) (by omega)).2, s4, hs, s2, h.tms, hbp, Int.toNat_natCast]
              have hm := cueOffset_mono (parGap times) (k + 1) (n - 1) (by omega)
              have hm0 := cueOffset_mono (parGap times) k (k + 1) (by omega)
              have e : cueOffset (parGap times) (k + 1)
                  = cueOffset (parGap times) k + parTimeMs (times.getD k 0) := rfl
              rw [cumulativeParTimeMs_eq times k (by omega) (by omega)]
              show _ = anchor + cueOffset (parGap times) (k + 1)
              rw [e] at hm ⊢
              unfold uadd
              omega }
      · rw [if_neg hdue]
        rw [hnext] at hdue
        have hlt : t.now < cueTime anchor (parGap times) k := by
          by_contra hc
          exact hdue ⟨not_lt.mp hc, hnpos⟩
        refine ⟨s3, Or.inr (Or.inr (Or.inl ⟨hk0, hkn, hlt, ?_, s7⟩))⟩
        exact
          { cnt := hcnt
            tms := s2.trans h.tms
            played := hbp
            k_le := hkle
            unset := fun h0 => by omega
            start := fun _ => ⟨s4.trans hs, hpos, hwrap⟩
            due := fun _ _ => hnext }

theorem DryInv.of_fields {n : Nat} {times : List Rat} {anchor k : Nat} {d d0 : Device}
    (h : DryInv n times anchor k d)
    (e1 : d0.dryFireParBeepCount = d.dryFireParBeepCount)
    (e2 : d0.dryFireParTimesSec = d.dryFireParTimesSec)
    (e3 : d0.beepSequenceStartTime = d.beepSequenceStartTime)
    (e4 : d0.beepsPlayed = d.beepsPlayed)
    (e5 : d0.nextBeepTime = d.nextBeepTime) : DryInv n times anchor k d0 :=
  { cnt := e1.trans h.cnt
    tms := e2.trans h.tms
    played := e4.trans h.played
    k_le := h.k_le
    unset := fun h0 => e3.trans (h.unset h0)
    start := fun h0 => ⟨e3.trans (h.start h0).1, (h.start h0).2⟩
    due := fun h0 h1 => e5.trans (h.due h0 h1) }

/-- One call of `handleDryFireRunning` without the cancel input: wait for the first cue,
issue it, wait for cue `k`, issue it, or end the sequence. -/
theorem handleDryFireRunning_step (n : Nat) (times : List Rat) (anchor k : Nat) (t : Input)
    (d : Device) (h : DryInv n times anchor k d) (hn1 : 1 ≤ n) (hn2 : n ≤ MAX_PAR_BEEPS)
    (hnc : t.btnAPressedFor = false)
    (hfirst : k = 0 → d.parTimerStartTime ≤ t.now →
      0 < t.now ∧ t.now + cueOffset (parGap times) (n - 1) < 4294967296) :
    (handleDryFireRunning t d).parTimerStartTime = d.parTimerStartTime
    ∧ ((k = 0 ∧ t.now < d.parTimerStartTime
          ∧ DryInv n times anchor 0 (handleDryFireRunning t d)
          ∧ toneTimes (handleDryFireRunning t d) = toneTimes d)
      ∨ (k = 0 ∧ d.parTimerStartTime ≤ t.now
          ∧ DryInv n times t.now 1 (handleDryFireRunning t d)
          ∧ toneTimes (handleDryFireRunning t d) = toneTimes d ++ [t.now])
      ∨ (0 < k ∧ k < n ∧ t.now < cueTime anchor (parGap times) k
          ∧ DryInv n times anchor k (handleDryFireRunning t d)
          ∧ toneTimes (handleDryFireRunning t d) = toneTimes d)
      ∨ (0 < k ∧ k < n ∧ cueTime anchor (parGap times) k ≤ t.now
          ∧ DryInv n times anchor (k + 1) (handleDryFireRunning t d)
          ∧ toneTimes (handleDryFireRunning t d) = toneTimes d ++ [t.now])
      ∨ (k = n ∧ DryInv n times anchor n (handleDryFireRunning t d)
          ∧ toneTimes (handleDryFireRunning t d) = toneTimes d
          ∧ (handleDryFireRunning t d).g.currentState = TimerState.DRY_FIRE_READY
          ∧ planIdle (handleDryFireRunning t d).g)) := by
  have e : handleDryFireRunning t d
      = dryFireSequence t { d with g := resetActivityTimer t.now d.g } := by
    unfold handleDryFireRunning
    simp only []
    rw [if_neg (by rw [hnc]; decide)]
  rw [e]
  exact dryFireSequence_step n times anchor k t _ (h.of_fields rfl rfl rfl rfl rfl) hn1 hn2
    hfirst

/-- The click in `DRY_FIRE_READY`: the first cue is due at `now + random`, and the sequencer
is reset. -/
theorem handleDryFireReadyInput_click (c : Input) (d : Device)
    (hclick : c.btnAClicked = true) (hlong : c.btnAPressedFor = false) :
    (handleDryFireReadyInput c d).dryFireParBeepCount = d.dryFireParBeepCount
    ∧ (handleDryFireReadyInput c d).dryFireParTimesSec = d.dryFireParTimesSec
    ∧ (handleDryFireReadyInput c d).parTimerStartTime = uadd c.now c.random
    ∧ (handleDryFireReadyInput c d).beepSequenceStartTime = 0
    ∧ (handleDryFireReadyInput c d).beepsPlayed = 0
    ∧ (handleDryFireReadyInput c d).nextBeepTime = 0
    ∧ toneTimes (handleDryFireReadyInput c d) = toneTimes d
    ∧ (handleDryFireReadyInput c d).g.currentState = TimerState.DRY_FIRE_RUNNING := by
  have hshow : ∀ x : Device, (dryFireReadyShow x).dryFireParBeepCount = x.dryFireParBeepCount
      ∧ (dryFireReadyShow x).dryFireParTimesSec = x.dryFireParTimesSec
      ∧ toneTimes (dryFireReadyShow x) = toneTimes x := by
    intro x
    unfold dryFireReadyShow
    split
    · refine ⟨rfl, rfl, ?_⟩
      simp [toneTimes, Device.call, List.filterMap_append, DeviceCall.toneTime]
    · exact ⟨rfl, rfl, rfl⟩
  unfold handleDryFireReadyInput
  simp only []
  rw [if_neg (by rw [hlong]; decide), if_pos hclick]
  obtain ⟨s1, s2, s3⟩ := hshow { d with g := resetActivityTimer c.now d.g }
  generalize dryFireReadyShow { d with g := resetActivityTimer c.now d.g } = d1 at s1 s2 s3 ⊢
  refine ⟨s1, s2, rfl, rfl, rfl, rfl, ?_, ?_⟩
  · have s3' : toneTimes d1 = toneTimes d := s3
    rw [← s3']
    simp [dryFireStartClick, toneTimes, Device.call, List.filterMap_append,
      DeviceCall.toneTime]
  · show (setState TimerState.DRY_FIRE_RUNNING _).currentState = _
    unfold setState
    split
    · rfl
    · rename_i h
      exact not_not.mp h

theorem dryFireRun_cons (d : Device) (t : Input) (ts : List Input) :
    dryFireRun d (t :: ts) = dryFireRun (handleDryFireRunning t d) ts := rfl

theorem dryFireRun_append (d : Device) (u v : List Input) :
    dryFireRun d (u ++ v) = dryFireRun (dryFireRun d u) v :=
  List.foldl_append _ _ _ _

/-- After the first cue the tones follow the drift-free plan anchored at that cue. -/
theorem dryFireRun_laterCues (n : Nat) (times : List Rat) (anchor : Nat) (hn1 : 1 ≤ n)
    (hn2 : n ≤ MAX_PAR_BEEPS) (ts : List Input) :
    ∀ (d : Device) (k : Nat), DryInv n times anchor k d → 0 < k →
      (∀ t ∈ ts, t.btnAPressedFor = false) →
      toneTimes (dryFireRun d ts)
        = toneTimes d ++ laterCues anchor (parGap times) n k ts := by
  induction ts with
  | nil => intro d k _ _ _; simp [dryFireRun, laterCues]
  | cons t ts ih =>
    intro d k h hk hnc
    have hnc1 := hnc t (List.mem_cons_self _ _)
    have hnc2 : ∀ x ∈ ts, x.btnAPressedFor = false :=
      fun x hx => hnc x (List.mem_cons_of_mem _ hx)
    rw [dryFireRun_cons]
    obtain ⟨_, hc⟩ := handleDryFireRunning_step n times anchor k t d h hn1 hn2 hnc1
      (fun h0 => by omega)
    rcases hc with ⟨h0, _⟩ | ⟨h0, _⟩ | ⟨_, hkn, hlt, hi, ht⟩ | ⟨_, hkn, hle, hi, ht⟩
      | ⟨hkn, hi, ht, _, _⟩
    · omega
    · omega
    · rw [ih _ k hi hk hnc2, ht]
      show _ = _ ++ (if k < n ∧ cueTime anchor (parGap times) k ≤ t.now then _ else _)
      rw [if_neg (fun hh => absurd hh.2 (not_le.mpr hlt))]
    · rw [ih _ (k + 1) hi (by omega) hnc2, ht]
      show _ = _ ++ (if k < n ∧ cueTime anchor (parGap times) k ≤ t.now then _ else _)
      rw [if_pos ⟨hkn, hle⟩, List.append_assoc]
      rfl
    · subst hkn
      rw [ih _ k hi hk hnc2, ht]
      show _ = _ ++ (if k < k ∧ cueTime anchor (parGap times) k ≤ t.now then _ else _)
      rw [if_neg (fun hh => absurd hh.1 (lt_irrefl k))]

/-- From the reset sequencer the tones follow the plan whose first cue is due at
`parTimerStartTime` and whose later cues are anchored at the first cue. -/
theorem dryFireRun_plannedCues (n : Nat) (times : List Rat) (hn1 : 1 ≤ n)
    (hn2 : n ≤ MAX_PAR_BEEPS) (ts : List Input) :
    ∀ (d : Device) (anchor : Nat), DryInv n times anchor 0 d →
      (∀ t ∈ ts, t.btnAPressedFor = false) →
      (∀ t ∈ ts, d.parTimerStartTime ≤ t.now →
        0 < t.now ∧ t.now + cueOffset (parGap times) (n - 1) < 4294967296) →
      toneTimes (dryFireRun d ts)
        = toneTimes d ++ plannedCues d.parTimerStartTime (parGap times) n ts := by
  induction ts with
  | nil => intro d a _ _ _; simp [dryFireRun, plannedCues]
  | cons t ts ih =>
    intro d a h hnc hw
    have hnc1 := hnc t (List.mem_cons_self _ _)
    have hnc2 : ∀ x ∈ ts, x.btnAPressedFor = false :=
      fun x hx => hnc x (List.mem_cons_of_mem _ hx)
    rw [dryFireRun_cons]
    obtain ⟨hp, hc⟩ := handleDryFireRunning_step n times a 0 t d h hn1 hn2 hnc1
      (fun _ => hw t (List.mem_cons_self _ _))
    rcases hc with ⟨_, hlt, hi, ht⟩ | ⟨_, hle, hi, ht⟩ | ⟨h0, _⟩ | ⟨h0, _⟩ | ⟨hkn, _⟩
    · rw [ih _ a hi hnc2 (fun x hx => by
        rw [hp]; exact hw x (List.mem_cons_of_mem _ hx)), ht, hp]
      show _ = _ ++ (if d.parTimerStartTime ≤ t.now then _ else _)
      rw [if_neg (not_le.mpr hlt)]
    · rw [dryFireRun_laterCues n times t.now hn1 hn2 ts _ 1 hi (by omega) hnc2, ht]
      show _ = _ ++ (if d.parTimerStartTime ≤ t.now then _ else _)
      rw [if_pos hle, List.append_assoc]
      rfl
    · omega
    · omega
    · omega

/-- The sequencer after the click, as an invariant with the cursor at 0. -/
theorem handleDryFireReadyInput_DryInv (c : Input) (d : Device) (n : Nat)
    (hcnt : d.dryFireParBeepCount = (n : Int))
    (hclick : c.btnAClicked = true) (hlong : c.btnAPressedFor = false) :
    DryInv n d.dryFireParTimesSec 0 0 (handleDryFireReadyInput c d) := by
  obtain ⟨c1, c2, _, c4, c5, _, _, _⟩ := handleDryFireReadyInput_click c d hclick hlong
  exact
    { cnt := c1.trans hcnt
      tms := c2
      played := c5
      k_le := Nat.zero_le _
      unset := fun _ => c4
      start := fun h0 => absurd h0 (lt_irrefl 0)
      due := fun h0 => absurd h0 (lt_irrefl 0) }

theorem msTicks_mem (a m : Nat) (t : Input) (h : t ∈ msTicks a m) :
    t.btnAPressedFor = false ∧ a ≤ t.now ∧ t.now < a + m := by
  induction m generalizing a with
  | zero => cases h
  | succ m ih =>
    rcases List.mem_cons.mp h with h1 | h1
    · subst h1
      exact ⟨rfl, le_rfl, by show a < a + (m + 1); omega⟩
    · have := ih (a + 1) h1
      exact ⟨this.1, by omega, by omega⟩

theorem msTicks_add (a m k : Nat) : msTicks a (m + k) = msTicks a m ++ msTicks (a + m) k := by
  induction m generalizing a with
  | zero => simp [msTicks]
  | succ m ih =>
    have e : m + 1 + k = (m + k) + 1 := by omega
    rw [e]
    show dryTick a :: msTicks (a + 1) (m + k) = dryTick a :: msTicks (a + 1) m ++ _
    rw [ih (a + 1)]
    have e2 : a + 1 + m = a + (m + 1) := by omega
    rw [e2]
    rfl

/-- Ticks before the due time of the cue at the cursor issue nothing. -/
theorem laterCues_skip (anchor : Nat) (gap : Nat → Nat) (n k : Nat) (pre rest : List Input)
    (h : ∀ t ∈ pre, t.now < cueTime anchor gap k) :
    laterCues anchor gap n k (pre ++ rest) = laterCues anchor gap n k rest := by
  induction pre with
  | nil => rfl
  | cons t ts ih =>
    have h1 := h t (List.mem_cons_self _ _)
    show (if k < n ∧ cueTime anchor gap k ≤ t.now then _ else _) = _
    rw [if_neg (fun hh => absurd hh.2 (not_le.mpr h1))]
    exact ih (fun x hx => h x (List.mem_cons_of_mem _ hx))

/-- The plan of Scenario D on a tick every millisecond. -/
theorem everyMs_plannedCues :
    toneTimes (dryFireDevice 3 [1, 3 / 2, 1, 1, 1, 1, 1, 1, 1, 1])
        ++ plannedCues (2000 + 3000)
            (parGap (dryFireDevice 3 [1, 3 / 2, 1, 1, 1, 1, 1, 1, 1, 1]).dryFireParTimesSec) 3
            everyMs
      = [5000, 6000, 7500] := by
  have g1 : cueTime 5000 (parGap [1, 3 / 2, 1, 1, 1, 1, 1, 1, 1, 1]) 1 = 6000 := by
    with_unfolding_all decide
  have g2 : cueTime 5000 (parGap [1, 3 / 2, 1, 1, 1, 1, 1, 1, 1, 1]) 2 = 7500 := by
    with_unfolding_all decide
  have e0 : everyMs = dryTick 5000 :: msTicks 5001 (999 + 1502) := rfl
  have e1 : msTicks 6000 1502 = dryTick 6000 :: msTicks 6001 (1499 + 2) := rfl
  have e2 : msTicks 7500 2 = [dryTick 7500, dryTick 7501] := rfl
  show [] ++ plannedCues 5000 (parGap [1, 3 / 2, 1, 1, 1, 1, 1, 1, 1, 1]) 3 everyMs = _
  rw [e0, List.nil_append]
  show (if 5000 ≤ (dryTick 5000).now then
      (dryTick 5000).now :: laterCues (dryTick 5000).now
        (parGap [1, 3 / 2, 1, 1, 1, 1, 1, 1, 1, 1]) 3 1 (msTicks 5001 (999 + 1502))
    else _) = _
  rw [if_pos (by decide)]
  show 5000 :: laterCues 5000 (parGap [1, 3 / 2, 1, 1, 1, 1, 1, 1, 1, 1]) 3 1
      (msTicks 5001 (999 + 1502)) = _
  rw [msTicks_add, laterCues_skip _ _ _ _ _ _ (fun t ht => by
    have := (msTicks_mem 5001 999 t ht).2.2
    rw [g1]
    omega)]
  show 5000 :: laterCues 5000 (parGap [1, 3 / 2, 1, 1, 1, 1, 1, 1, 1, 1]) 3 1
      (msTicks 6000 1502) = _
  rw [e1]
  show 5000 :: (if 1 < 3 ∧ cueTime 5000 (parGap [1, 3 / 2, 1, 1, 1, 1, 1, 1, 1, 1]) 1
        ≤ (dryTick 6000).now then
      (dryTick 6000).now :: laterCues 5000 (parGap [1, 3 / 2, 1, 1, 1, 1, 1, 1, 1, 1]) 3 (1 + 1)
        (msTicks 6001 (1499 + 2))
    else _) = _
  rw [if_pos ⟨by decide, by rw [g1]; decide⟩]
  rw [msTicks_add, laterCues_skip _ _ _ _ _ _ (fun t ht => by
    have := (msTicks_mem 6001 1499 t ht).2.2
    rw [g2]
    omega)]
  show 5000 :: 6000 :: laterCues 5000 (parGap [1, 3 / 2, 1, 1, 1, 1, 1, 1, 1, 1]) 3 2
      (msTicks 7500 2) = _
  rw [e2]
  show 5000 :: 6000 :: (if 2 < 3 ∧ cueTime 5000 (parGap [1, 3 / 2, 1, 1, 1, 1, 1, 1, 1, 1]) 2
        ≤ (dryTick 7500).now then
      (dryTick 7500).now :: laterCues 5000 (parGap [1, 3 / 2, 1, 1, 1, 1, 1, 1, 1, 1]) 3 (2 + 1)
        [dryTick 7501]
    else _) = _
  rw [if_pos ⟨by decide, by rw [g2]; decide⟩]
  rfl

/-- The conversion of a par time to milliseconds rounds the product to `float` before it
truncates: `2.29999995f` gives 2300 ms where the exact product truncates to 2299, and the par
time that two down steps of the editor make of 1.0 s, `0.79999995f`, gives 799 ms. -/
theorem parTimeMs_single_precision :
    parTimeMs (9646899 / 4194304) = 2300
      ∧ Rat.floor ((9646899 / 4194304 : Rat) * 1000) = 2299
      ∧ (editStep (dryTick 0) (-1) (editStep (dryTick 0) (-1) parEdit).1).1.editingFloatValue.num
          = 3355443
      ∧ (editStep (dryTick 0) (-1) (editStep (dryTick 0) (-1) parEdit).1).1.editingFloatValue.den
          = 4194304
      ∧ parTimeMs
            (editStep (dryTick 0) (-1) (editStep (dryTick 0) (-1) parEdit).1).1.editingFloatValue
          = 799
      ∧ parTimeMs 1 = 1000 ∧ parTimeMs (3 / 2) = 1500 := by
  set_option maxRecDepth 100000 in
  refine ⟨?_, ?_, ?_, ?_, ?_, ?_, ?_⟩ <;> with_unfolding_all decide

/-- C21 (amended): dry-fire cue times are drift-free from the first tone on. For every cue
count `n` in [1, `MAX_PAR_BEEPS`], par times and tick sequence without the cancel input and
without 32-bit wrap-around, the `playTone` calls of the sequence started by a click are made
on these ticks: cue 0 on the first tick with `now ≥ click time + random delay`, and cue `k ≥ 1`
on the first tick after the one of cue `k - 1` with `now ≥ anchor + gap 0 + … + gap (k-1)` in
ms, where `anchor` is the clock of the tick that issued cue 0 (not the drawn instant), however
late the cues in between were issued; at most `n` cues. Gap `j` in ms is the conversion
`(unsigned long)(dryFireParTimesSec[j] * 1000.0f)`: the product rounded to `float`, then
truncated. -/
theorem dry_fire_cues_anchored_at_first_tone (c : Input) (d : Device) (ticks : List Input)
    (n : Nat) (hn1 : 1 ≤ n) (hn2 : n ≤ MAX_PAR_BEEPS)
    (hcnt : d.dryFireParBeepCount = (n : Int))
    (hclick : c.btnAClicked = true) (hlong : c.btnAPressedFor = false)
    (hdelay : 0 < c.random) (hdraw : c.now + c.random < 4294967296)
    (hnc : ∀ t ∈ ticks, t.btnAPressedFor = false)
    (hwrap : ∀ t ∈ ticks,
      t.now + cueOffset (parGap d.dryFireParTimesSec) (n - 1) < 4294967296) :
    (handleDryFireReadyInput c d).parTimerStartTime = c.now + c.random
    ∧ toneTimes (dryFireSession c d ticks)
        = toneTimes d
            ++ plannedCues (c.now + c.random) (parGap d.dryFireParTimesSec) n ticks
    ∧ (∀ j : Nat, parGap d.dryFireParTimesSec j
        = uintOfInt (Rat.floor (toFloat32 (d.dryFireParTimesSec.getD j 0 * 1000)))) := by
  obtain ⟨_, _, c3, _, _, _, c7, _⟩ := handleDryFireReadyInput_click c d hclick hlong
  have hp : (handleDryFireReadyInput c d).parTimerStartTime = c.now + c.random := by
    rw [c3]
    unfold uadd
    omega
  refine ⟨hp, ?_, fun j => rfl⟩
  unfold dryFireSession
  rw [dryFireRun_plannedCues n d.dryFireParTimesSec hn1 hn2 ticks _ 0
    (handleDryFireReadyInput_DryInv c d n hcnt hclick hlong) hnc
    (fun t ht hle => ⟨by rw [hp] at hle; omega, hwrap t ht⟩), c7, hp]

/-- Scenario D, a tick on every millisecond from 5000 ms to 7501 ms: the first cue is due at
5000 ms, the gaps are 1000 ms and 1500 ms, and the tones are issued at exactly 5000, 6000 and
7500 ms; the tick at 7501 ms issues none. -/
theorem dry_fire_cues_example :
    toneTimes (dryFireSession (startClick 2000 3000)
        (dryFireDevice 3 [1, 3 / 2, 1, 1, 1, 1, 1, 1, 1, 1]) everyMs)
      = [5000, 6000, 7500] := by
  have h := (dry_fire_cues_anchored_at_first_tone (startClick 2000 3000)
    (dryFireDevice 3 [1, 3 / 2, 1, 1, 1, 1, 1, 1, 1, 1]) everyMs 3 (by decide)
    (by decide) rfl rfl rfl (by decide) (by decide)
    (fun t ht => (msTicks_mem 5000 2502 t ht).1)
    (fun t ht => by
      have h1 := (msTicks_mem 5000 2502 t ht).2.2
      have h2 : cueOffset (parGap (dryFireDevice 3
          [1, 3 / 2, 1, 1, 1, 1, 1, 1, 1, 1]).dryFireParTimesSec) (3 - 1) = 2500 := by
        with_unfolding_all decide
      rw [h2]
      omega)).2.1
  rw [h]
  exact everyMs_plannedCues

/-- C21 (counterexample): in Scenario D (first cue due at the drawn instant 5000 ms, gap
1000 ms) with ticks at 5003, 6001 and 6003 ms, the first tick with `now ≥ 5000 + 1000` is the
one at 6001 ms, but the second tone is issued at 6003 ms: the later cues are counted from
5003 ms, the tick that issued the first tone. -/
theorem dry_fire_cues_drift_with_first_tone :
    scenarioD.parTimerStartTime = 5000
      ∧ parGap scenarioD.dryFireParTimesSec 0 = 1000
      ∧ lateTicks.find? (fun t => decide (5000 + 1000 ≤ t.now)) = some (dryTick 6001)
      ∧ drawnCues 5000 (parGap scenarioD.dryFireParTimesSec) 3 lateTicks = [5003, 6001]
      ∧ toneTimes (dryFireRun scenarioD lateTicks) = [5003, 6003]
      ∧ toneTimes (dryFireRun scenarioD (lateTicks.take 2)) = [5003]
      ∧ (dryFireRun scenarioD (lateTicks.take 1)).beepSequenceStartTime = 5003
      ∧ (dryFireRun scenarioD (lateTicks.take 1)).nextBeepTime = 6003 := by
  exact ⟨rfl, by with_unfolding_all decide, rfl, by with_unfolding_all decide,
    by with_unfolding_all decide, by with_unfolding_all decide, rfl,
    by with_unfolding_all decide⟩

/-- Over any ticks without the cancel input the cursor only moves forward, stays within the
cue count, and counts the tones issued. -/
theorem dryFireRun_DryInv (n : Nat) (times : List Rat) (hn1 : 1 ≤ n)
    (hn2 : n ≤ MAX_PAR_BEEPS) (ts : List Input) :
    ∀ (d : Device) (a k : Nat), DryInv n times a k d → 0 < d.parTimerStartTime →
      (∀ t ∈ ts, t.btnAPressedFor = false) →
      (∀ t ∈ ts, t.now + cueOffset (parGap times) (n - 1) < 4294967296) →
      ∃ a' k', k ≤ k' ∧ DryInv n times a' k' (dryFireRun d ts)
        ∧ (toneTimes (dryFireRun d ts)).length = (toneTimes d).length + (k' - k)
        ∧ (dryFireRun d ts).parTimerStartTime = d.parTimerStartTime
        ∧ (0 < k → a' = a)
        ∧ (k = 0 → 0 < k' → ∃ t ∈ ts, a' = t.now) := by
  induction ts with
  | nil =>
    intro d a k h _ _ _
    exact ⟨a, k, le_rfl, h, by simp [dryFireRun], rfl, fun _ => rfl, fun h0 h1 => by omega⟩
  | cons t ts ih =>
    intro d a k h hP hnc hw
    have hnc1 := hnc t (List.mem_cons_self _ _)
    have hnc2 : ∀ x ∈ ts, x.btnAPressedFor = false :=
      fun x hx => hnc x (List.mem_cons_of_mem _ hx)
    have hw2 : ∀ x ∈ ts, x.now + cueOffset (parGap times) (n - 1) < 4294967296 :=
      fun x hx => hw x (List.mem_cons_of_mem _ hx)
    rw [dryFireRun_cons]
    obtain ⟨hp, hc⟩ := handleDryFireRunning_step n times a k t d h hn1 hn2 hnc1
      (fun _ hle => ⟨by omega, hw t (List.mem_cons_self _ _)⟩)
    have hP' : 0 < (handleDryFireRunning t d).parTimerStartTime := by rw [hp]; exact hP
    rcases hc with ⟨h0, _, hi, ht⟩ | ⟨h0, _, hi, ht⟩ | ⟨hk0, _, _, hi, ht⟩
      | ⟨hk0, _, _, hi, ht⟩ | ⟨hkn, hi, ht, _, _⟩
    · subst h0
      obtain ⟨a', k', r1, r2, r3, r4, r5, r6⟩ := ih _ a 0 hi hP' hnc2 hw2
      refine ⟨a', k', r1, r2, by rw [r3, ht], r4.trans hp, fun h0 => absurd h0 (lt_irrefl 0),
        fun _ h1 => ?_⟩
      obtain ⟨x, hx, e⟩ := r6 rfl h1
      exact ⟨x, List.mem_cons_of_mem _ hx, e⟩
    · subst h0
      obtain ⟨a', k', r1, r2, r3, r4, r5, -⟩ := ih _ t.now 1 hi hP' hnc2 hw2
      have hlen : (toneTimes (dryFireRun (handleDryFireRunning t d) ts)).length
          = (toneTimes d).length + (k' - 0) := by
        rw [r3, ht, List.length_append]
        simp only [List.length_singleton]
        omega
      have ha : a' = t.now := r5 Nat.one_pos
      exact ⟨a', k', Nat.zero_le _, r2, hlen, r4.trans hp, fun h0 => absurd h0 (lt_irrefl 0),
        fun _ _ => ⟨t, List.mem_cons_self _ _, ha⟩⟩
    · obtain ⟨a', k', r1, r2, r3, r4, r5, -⟩ := ih _ a k hi hP' hnc2 hw2
      exact ⟨a', k', r1, r2, by rw [r3, ht], r4.trans hp, r5, fun h0 => by omega⟩
    · obtain ⟨a', k', r1, r2, r3, r4, r5, -⟩ := ih _ a (k + 1) hi hP' hnc2 hw2
      have hlen : (toneTimes (dryFireRun (handleDryFireRunning t d) ts)).length
          = (toneTimes d).length + (k' - k) := by
        rw [r3, ht, List.length_append]
        simp only [List.length_singleton]
        omega
      have ha : a' = a := r5 (Nat.succ_pos k)
      have hkk : k ≤ k' := by omega
      exact ⟨a', k', hkk, r2, hlen, r4.trans hp, fun _ => ha, fun h0 => by omega⟩
    · subst hkn
      obtain ⟨a', k', r1, r2, r3, r4, r5, -⟩ := ih _ a k hi hP' hnc2 hw2
      exact ⟨a', k', r1, r2, by rw [r3, ht], r4.trans hp, r5, fun h0 => by omega⟩

/-- With the sequence anchored, enough ticks at or after `late`, a time not before the last
due time, bring the cursor to `n` and then end the sequence. -/
theorem dryFireRun_finishes (n : Nat) (times : List Rat) (a late : Nat) (hn1 : 1 ≤ n)
    (hn2 : n ≤ MAX_PAR_BEEPS) (hlate : a + cueOffset (parGap times) (n - 1) ≤ late)
    (ts : List Input) :
    ∀ (d : Device) (k : Nat), DryInv n times a k d → 0 < k →
      (∀ t ∈ ts, t.btnAPressedFor = false) →
      (n + 1 ≤ k + ts.countP (fun t => decide (late ≤ t.now))
        ∨ (k = n ∧ d.g.currentState = TimerState.DRY_FIRE_READY ∧ planIdle d.g)) →
      (dryFireRun d ts).beepsPlayed = (n : Int)
      ∧ (dryFireRun d ts).g.currentState = TimerState.DRY_FIRE_READY
      ∧ planIdle (dryFireRun d ts).g := by
  induction ts with
  | nil =>
    intro d k h hk _ hc
    rcases hc with hc | ⟨hkn, hs, hp⟩
    · have := h.k_le
      simp only [List.countP_nil] at hc
      omega
    · exact ⟨by rw [← hkn]; exact h.played, hs, hp⟩
  | cons t ts ih =>
    intro d k h hk hnc hc
    have hnc1 := hnc t (List.mem_cons_self _ _)
    have hnc2 : ∀ x ∈ ts, x.btnAPressedFor = false :=
      fun x hx => hnc x (List.mem_cons_of_mem _ hx)
    rw [dryFireRun_cons]
    obtain ⟨_, hstep⟩ := handleDryFireRunning_step n times a k t d h hn1 hn2 hnc1
      (fun h0 => by omega)
    have hcount : (t :: ts).countP (fun t => decide (late ≤ t.now))
        = ts.countP (fun t => decide (late ≤ t.now)) + (if late ≤ t.now then 1 else 0) := by
      rw [List.countP_cons]
      simp only [decide_eq_true_eq]
    rcases hstep with ⟨h0, _⟩ | ⟨h0, _⟩ | ⟨_, hkn, hlt, hi, _⟩ | ⟨_, hkn, _, hi, _⟩
      | ⟨hkn, hi, _, hs, hp⟩
    · omega
    · omega
    · apply ih _ k hi hk hnc2
      left
      rcases hc with hc | ⟨hkn', _⟩
      · rw [hcount] at hc
        have hm := cueOffset_mono (parGap times) k (n - 1) (by omega)
        have hnl : ¬ late ≤ t.now := by
          unfold cueTime at hlt
          omega
        rw [if_neg hnl] at hc
        exact hc
      · omega
    · apply ih _ (k + 1) hi (by omega) hnc2
      left
      rcases hc with hc | ⟨hkn', _⟩
      · rw [hcount] at hc
        split at hc <;> omega
      · omega
    · subst hkn
      exact ih _ k hi hk hnc2 (Or.inr ⟨rfl, hs, hp⟩)

/-- C22: the dry-fire sequence terminates after the configured cue count. For every cue count
`n` in [1, `MAX_PAR_BEEPS`], par times, and tick sequence with a non-decreasing clock and no
cancel input, started by a click, in which a tick `x` reaches the drawn start instant and at
least `n` later ticks reach `x.now` plus the sum of the gaps (the clock keeps growing, without
32-bit wrap-around): `playTone` is called exactly `n` times, the cursor `beepsPlayed` ends at
`n`, the state is `DRY_FIRE_READY` and the Bluetooth tone plan is reset; and along the way
`beepsPlayed` never decreases, never exceeds `n`, and equals the number of tones issued. -/
theorem dry_fire_sequence_terminates (c : Input) (d : Device) (pre post : List Input)
    (x : Input) (n : Nat) (hn1 : 1 ≤ n) (hn2 : n ≤ MAX_PAR_BEEPS)
    (hcnt : d.dryFireParBeepCount = (n : Int))
    (hclick : c.btnAClicked = true) (hlong : c.btnAPressedFor = false)
    (hdelay : 0 < c.random) (hdraw : c.now + c.random < 4294967296)
    (hnc : ∀ t ∈ pre ++ x :: post, t.btnAPressedFor = false)
    (hclock : List.Pairwise (fun a b : Input => a.now ≤ b.now) (pre ++ x :: post))
    (hwrap : ∀ t ∈ pre ++ x :: post,
      t.now + cueOffset (parGap d.dryFireParTimesSec) (n - 1) < 4294967296)
    (hx : c.now + c.random ≤ x.now)
    (hlate : n ≤ post.countP (fun t =>
      decide (x.now + cueOffset (parGap d.dryFireParTimesSec) (n - 1) ≤ t.now))) :
    (toneTimes (dryFireSession c d (pre ++ x :: post))).length = (toneTimes d).length + n
    ∧ (dryFireSession c d (pre ++ x :: post)).beepsPlayed = (n : Int)
    ∧ (dryFireSession c d (pre ++ x :: post)).g.currentState = TimerState.DRY_FIRE_READY
    ∧ planIdle (dryFireSession c d (pre ++ x :: post)).g
    ∧ (∀ u v w, pre ++ x :: post = u ++ (v ++ w) →
        0 ≤ (dryFireSession c d u).beepsPlayed
        ∧ (dryFireSession c d u).beepsPlayed ≤ (dryFireSession c d (u ++ v)).beepsPlayed
        ∧ (dryFireSession c d (u ++ v)).beepsPlayed ≤ (n : Int)
        ∧ (toneTimes (dryFireSession c d (u ++ v))).length
            = (toneTimes d).length + (dryFireSession c d (u ++ v)).beepsPlayed.toNat) := by
  obtain ⟨_, _, c3, _, _, _, c7, _⟩ := handleDryFireReadyInput_click c d hclick hlong
  have h0 := handleDryFireReadyInput_DryInv c d n hcnt hclick hlong
  have hp : (handleDryFireReadyInput c d).parTimerStartTime = c.now + c.random := by
    rw [c3]
    unfold uadd
    omega
  have hP : 0 < (handleDryFireReadyInput c d).parTimerStartTime := by rw [hp]; omega
  unfold dryFireSession
  generalize handleDryFireReadyInput c d = d0 at c7 h0 hp hP ⊢
  generalize d.dryFireParTimesSec = times at h0 hwrap hlate ⊢
  have hprefix : ∀ u v w, pre ++ x :: post = u ++ (v ++ w) →
      ∃ (k1 k2 a2 : Nat), k1 ≤ k2 ∧ (dryFireRun d0 u).beepsPlayed = (k1 : Int)
        ∧ DryInv n times a2 k2 (dryFireRun d0 (u ++ v))
        ∧ (toneTimes (dryFireRun d0 (u ++ v))).length = (toneTimes d).length + k2 := by
    intro u v w e
    have hmem : ∀ t, t ∈ u ∨ t ∈ v → t ∈ pre ++ x :: post := by
      intro t ht
      rw [e]
      rcases ht with ht | ht
      · exact List.mem_append_left _ ht
      · exact List.mem_append_right _ (List.mem_append_left _ ht)
    obtain ⟨a1, k1, _, i1, l1, p1, -, -⟩ := dryFireRun_DryInv n times hn1 hn2 u d0 0 0 h0 hP
      (fun t ht => hnc t (hmem t (Or.inl ht))) (fun t ht => hwrap t (hmem t (Or.inl ht)))
    obtain ⟨a2, k2, hk, i2, l2, -, -, -⟩ := dryFireRun_DryInv n times hn1 hn2 v _ a1 k1 i1
      (by rw [p1]; exact hP)
      (fun t ht => hnc t (hmem t (Or.inr ht))) (fun t ht => hwrap t (hmem t (Or.inr ht)))
    rw [dryFireRun_append]
    refine ⟨k1, k2, a2, hk, i1.played, i2, ?_⟩
    rw [l2, l1, c7]
    omega
  have hall := hprefix (pre ++ x :: post) [] [] (by simp)
  rw [List.append_nil] at hall
  obtain ⟨_, kf, af, _, _, ifin, lfin⟩ := hall
  have hfin : (dryFireRun d0 (pre ++ x :: post)).beepsPlayed = (n : Int)
      ∧ (dryFireRun d0 (pre ++ x :: post)).g.currentState = TimerState.DRY_FIRE_READY
      ∧ planIdle (dryFireRun d0 (pre ++ x :: post)).g := by
    rw [List.pairwise_append] at hclock
    obtain ⟨a1, k1, _, i1, _, p1, -, hanchor⟩ := dryFireRun_DryInv n times hn1 hn2 pre d0 0 0
      h0 hP (fun t ht => hnc t (List.mem_append_left _ ht))
      (fun t ht => hwrap t (List.mem_append_left _ ht))
    have hxm : x ∈ pre ++ x :: post := List.mem_append_right _ (List.mem_cons_self _ _)
    obtain ⟨_, hstep⟩ := handleDryFireRunning_step n times a1 k1 x _ i1 hn1 hn2 (hnc x hxm)
      (fun _ hle => ⟨by rw [p1] at hle; omega, hwrap x hxm⟩)
    have hafter : ∃ a k, 0 < k ∧ a ≤ x.now
        ∧ DryInv n times a k (handleDryFireRunning x (dryFireRun d0 pre)) := by
      have ha1 : 0 < k1 → a1 ≤ x.now := by
        intro hk
        obtain ⟨t, ht, e⟩ := hanchor rfl hk
        rw [e]
        exact hclock.2.2 t ht x (List.mem_cons_self _ _)
      rcases hstep with ⟨_, hlt, _, _⟩ | ⟨_, _, hi, _⟩ | ⟨hk, _, _, hi, _⟩
        | ⟨hk, _, _, hi, _⟩ | ⟨hkn, hi, _, _, _⟩
      · rw [p1, hp] at hlt
        omega
      · exact ⟨x.now, 1, Nat.one_pos, le_rfl, hi⟩
      · exact ⟨a1, k1, hk, ha1 hk, hi⟩
      · exact ⟨a1, k1 + 1, Nat.succ_pos _, ha1 hk, hi⟩
      · exact ⟨a1, n, by omega, ha1 (by omega), hi⟩
    obtain ⟨a, k, hk, hax, hi⟩ := hafter
    rw [dryFireRun_append, dryFireRun_cons]
    exact dryFireRun_finishes n times a (x.now + cueOffset (parGap times) (n - 1)) hn1 hn2
      (by omega) post _ k hi hk
      (fun t ht => hnc t (List.mem_append_right _ (List.mem_cons_of_mem _ ht)))
      (Or.inl (by omega))
  have hkf : kf = n := by
    have h1 := ifin.played
    rw [hfin.1] at h1
    exact_mod_cast h1.symm
  refine ⟨by rw [lfin, hkf], hfin.1, hfin.2.1, hfin.2.2, ?_⟩
  intro u v w e
  obtain ⟨k1, k2, a2, hk, b1, i2, l2⟩ := hprefix u v w e
  have b2 := i2.played
  have b3 := i2.k_le
  rw [b1, b2, l2]
  refine ⟨by omega, by omega, by omega, ?_⟩
  rw [Int.toNat_natCast]

/-- A sequencer that is anchored, has cues left and holds `nextBeepTime = 0` issues no tone and
stays as it is on every call without the cancel input: the test `nextBeepTime > 0` fails. -/
theorem dryFireRun_stuck (ts : List Input) :
    ∀ d : Device, d.beepSequenceStartTime ≠ 0 → d.beepsPlayed < d.dryFireParBeepCount →
      d.nextBeepTime = 0 → (∀ t ∈ ts, t.btnAPressedFor = false) →
      toneTimes (dryFireRun d ts) = toneTimes d
      ∧ (dryFireRun d ts).beepsPlayed = d.beepsPlayed
      ∧ (dryFireRun d ts).g.currentState = d.g.currentState := by
  induction ts with
  | nil => intro d _ _ _ _; exact ⟨rfl, rfl, rfl⟩
  | cons t ts ih =>
    intro d hs hb hz hnc
    have hnc1 : t.btnAPressedFor = false := hnc t (List.mem_cons_self _ _)
    obtain ⟨f1, -, -, f4, f5, f6, f7⟩ :=
      dryFireShow_fields false d.beepsPlayed { d with g := resetActivityTimer t.now d.g }
    have fst : (dryFireShow false d.beepsPlayed
        { d with g := resetActivityTimer t.now d.g }).g.currentState = d.g.currentState := by
      unfold dryFireShow
      split
      · rfl
      · rfl
    have e : handleDryFireRunning t d
        = dryFireShow false d.beepsPlayed { d with g := resetActivityTimer t.now d.g } := by
      unfold handleDryFireRunning
      simp only []
      rw [if_neg (by rw [hnc1]; decide)]
      unfold dryFireSequence
      rw [if_neg hs]
      unfold dryFireNextBeep
      simp only []
      rw [if_neg (by rw [f1, f5]; exact not_le.mpr hb),
        if_neg (by rw [f6]; intro h; rw [hz] at h; exact absurd h.2 (lt_irrefl 0))]
    have hrun : dryFireRun d (t :: ts) = dryFireRun (handleDryFireRunning t d) ts := rfl
    rw [hrun, e]
    obtain ⟨r1, r2, r3⟩ := ih _ (by rw [f4]; exact hs) (by rw [f5, f1]; exact hb)
      (by rw [f6]; exact hz) (fun u hu => hnc u (List.mem_cons_of_mem _ hu))
    exact ⟨r1.trans f7, r2.trans f5, r3.trans fst⟩

/-- C22 (counterexample): two cues with a gap of 1.0 s, click at `2^32 - 4000` ms, drawn delay
3000 ms. The tick at `2^32 - 1000` ms issues the first tone and sets the due time of the
second one to `(2^32 - 1000 + 1000) mod 2^32 = 0`, the value that the handler reads as "no
cue due". On the ticks that follow, before and after the wrap of the counter, no tone is
issued, and on every further tick sequence without the cancel input the sequencer stays in
`DRY_FIRE_RUNNING` with one tone of two played. -/
theorem dry_fire_sequence_stuck_at_wrap :
    wrapDryFire.dryFireParBeepCount = 2
      ∧ wrapDryFire.parTimerStartTime = 4294966296
      ∧ parGap wrapDryFire.dryFireParTimesSec 0 = 1000
      ∧ (dryFireRun wrapDryFire (wrapDryFireTicks.take 1)).beepSequenceStartTime = 4294966296
      ∧ (dryFireRun wrapDryFire (wrapDryFireTicks.take 1)).nextBeepTime = 0
      ∧ toneTimes (dryFireRun wrapDryFire wrapDryFireTicks) = [4294966296]
      ∧ (dryFireRun wrapDryFire wrapDryFireTicks).beepsPlayed = 1
      ∧ (dryFireRun wrapDryFire wrapDryFireTicks).g.currentState = TimerState.DRY_FIRE_RUNNING
      ∧ (∀ ts : List Input, (∀ t ∈ ts, t.btnAPressedFor = false) →
          toneTimes (dryFireRun wrapDryFire (wrapDryFireTicks ++ ts)) = [4294966296]
          ∧ (dryFireRun wrapDryFire (wrapDryFireTicks ++ ts)).beepsPlayed = 1
          ∧ (dryFireRun wrapDryFire (wrapDryFireTicks ++ ts)).g.currentState
              = TimerState.DRY_FIRE_RUNNING) := by
  have h6 : toneTimes (dryFireRun wrapDryFire wrapDryFireTicks) = [4294966296] := by
    with_unfolding_all decide
  have h7 : (dryFireRun wrapDryFire wrapDryFireTicks).beepsPlayed = 1 := by
    with_unfolding_all decide
  have h8 : (dryFireRun wrapDryFire wrapDryFireTicks).g.currentState
      = TimerState.DRY_FIRE_RUNNING := by
    with_unfolding_all decide
  refine ⟨rfl, rfl, by with_unfolding_all decide, rfl, by with_unfolding_all decide,
    h6, h7, h8, fun ts hts => ?_⟩
  rw [dryFireRun_append]
  obtain ⟨r1, r2, r3⟩ := dryFireRun_stuck ts (dryFireRun wrapDryFire wrapDryFireTicks)
    (by with_unfolding_all decide) (by with_unfolding_all decide)
    (by with_unfolding_all decide) hts
  exact ⟨r1.trans h6, r2.trans h7, r3.trans h8⟩

/-- Scenario D on ticks around the due times: the tick at 5000 ms reaches the drawn start,
three later ticks reach 7500 ms, and the sequence of three cues ends in `DRY_FIRE_READY`
with three tones issued. -/
theorem dry_fire_sequence_example :
    (toneTimes (dryFireSession (startClick 2000 3000)
        (dryFireDevice 3 [1, 3 / 2, 1, 1, 1, 1, 1, 1, 1, 1])
        ([dryTick 4999] ++ dryTick 5000 :: scenarioDTicks.drop 2))).length
      = (toneTimes (dryFireDevice 3 [1, 3 / 2, 1, 1, 1, 1, 1, 1, 1, 1])).length + 3
    ∧ (dryFireSession (startClick 2000 3000)
        (dryFireDevice 3 [1, 3 / 2, 1, 1, 1, 1, 1, 1, 1, 1])
        ([dryTick 4999] ++ dryTick 5000 :: scenarioDTicks.drop 2)).g.currentState
      = TimerState.DRY_FIRE_READY :=
  ⟨(dry_fire_sequence_terminates (startClick 2000 3000)
      (dryFireDevice 3 [1, 3 / 2, 1, 1, 1, 1, 1, 1, 1, 1]) [dryTick 4999]
      (scenarioDTicks.drop 2) (dryTick 5000) 3 (by decide) (by decide) rfl rfl rfl
      (by decide) (by decide) (by decide) (by decide) (by with_unfolding_all decide)
      (by decide) (by with_unfolding_all decide)).1,
   (dry_fire_sequence_terminates (startClick 2000 3000)
      (dryFireDevice 3 [1, 3 / 2, 1, 1, 1, 1, 1, 1, 1, 1]) [dryTick 4999]
      (scenarioDTicks.drop 2) (dryTick 5000) 3 (by decide) (by decide) rfl rfl rfl
      (by decide) (by decide) (by decide) (by decide) (by with_unfolding_all decide)
      (by decide) (by with_unfolding_all decide)).2.2.1⟩

end HeyManNiceShot
